import Mathlib

/-! # The DKG actor of `backend/dela/dkg/pedersen/pedersen.go`

A shallow embedding of the client side ("Actor") of the Pedersen DKG service:
`Setup`, `IssueMasterCredential`, `IssueEventCredential`, `VerifyEventCredential`,
`Encrypt`, `Decrypt`, `VerifiableDecrypt` and `Reshare`.

* `kyber.Scalar` is a type `S` (a field where algebra is needed), `kyber.Point` a type `P`
  (an `S`-module, written additively as in kyber), `mino.Address` a type `A`.
* The transport (`mino.RPC`, `Sender`, `Receiver`) is an explicit environment `Rpc`; what a call
  does to it (streams it opens, messages it sends) is returned as a list of `Event`s.
* A Go call returns its values together with an `error`, or panics: `Go`.
* Go `string` and `[]byte` are `Bytes`; a nil slice is the empty list.
-/

namespace Pedersen

set_option autoImplicit false

/-- Byte strings: Go `[]byte` and Go `string`. -/
abbrev Bytes := List (Fin 256)

/-- The states of the DKG of a node: `initial`, `sharing`, `certified`, `resharing`. -/
inductive DkgState where
  | initial
  | sharing
  | certified
  | resharing
  deriving DecidableEq, Repr

/-- The outcome of a Go call: the returned values with the returned `error`
(`none` is the nil error), or a run-time panic. -/
inductive Go (α : Type) where
  | ret (v : α) (err : Option String)
  | panic
  deriving DecidableEq, Repr

/-- The struct `types.Ciphertext`. -/
structure Ciphertext (S P : Type) where
  K : P
  C : P
  UBar : P
  E : S
  F : S
  GBar : P
  deriving DecidableEq, Repr

/-- The struct `types.ShareAndProof`. -/
structure ShareAndProof (S P : Type) where
  V : P
  I : Int
  Ui : P
  Ei : S
  Fi : S
  Hi : P
  deriving DecidableEq, Repr

/-- The messages of package `types` that the actor sends or receives; `other` is any other
value a receiver may hand over (nil included). -/
inductive Message (S P A : Type) where
  | start (threshold : Int) (addrs : List A) (pubkeys : List P) (bdnPubkeys : List P)
  | startResharing (tNew tOld : Int) (addrsNew addrsOld : List A)
      (pubkeysNew pubkeysOld : List P)
  | startDone (pubkey : P)
  | decryptRequest (K C : P)
  | decryptReply (I : Int) (V : P)
  | verifiableDecryptRequest (ciphertexts : List (Ciphertext S P))
  | verifiableDecryptReply (sp : List (ShareAndProof S P))
  | signRequest (message : Bytes) (index : Int)
  | signResponse (signature : Bytes) (index : Int) (pubkey : P)
  | other
  deriving DecidableEq, Repr

/-- The transport seen from one call of the actor: the error of `rpc.Stream` (`none`: the
stream is created), the error delivered by the `k`-th `Send` of the call, and what the `k`-th
`Recv` of the call returns. -/
structure Rpc (S P A : Type) where
  stream : Option String
  send : Nat → Option String
  recv : Nat → Except String (Message S P A)

/-- What a call does to the transport: a call of `rpc.Stream` for some players, a call of
`sender.Send` of a message to some addresses. -/
inductive Event (S P A : Type) where
  | stream (players : List A)
  | send (msg : Message S P A) (dest : List A)
  deriving DecidableEq, Repr

/-- The fields of the node state `state` that the actor reads through `startRes`. -/
structure State (P A : Type) where
  dkgState : DkgState
  participants : List A
  pubkeys : List P
  bdnPubkeys : List P
  threshold : Int
  distrKey : P

/-- Modelled from the spec: `state.Done` (handler.go is not among the sources). The DKG of a
node is done exactly in the state `certified`; the tests of pedersen.go agree (`&state{}` and
`dkgState: initial` are not done, `dkgState: certified` is). -/
def State.Done {P A : Type} (s : State P A) : Bool :=
  decide (s.dkgState = DkgState.certified)

/-- The struct `Actor`: the node state it points to and its table of issued ids. -/
structure Actor (P A : Type) where
  startRes : State P A
  idTable : List Bytes

/-- A `crypto.PublicKey`: an ed25519 key, a BLS key, or a key of another scheme. -/
inductive PublicKey (P : Type) where
  | ed25519 (point : P)
  | bls (point : P)
  | other
  deriving DecidableEq, Repr

/-- A `crypto.CollectiveAuthority`: what its address iterator and its public key iterator
enumerate. -/
structure CollectiveAuthority (P A : Type) where
  addrs : List A
  pubkeys : List (PublicKey P)

/-- The first loop of `Setup` (and the loop of `Reshare`): walk both iterators while both have
a next element, keep the address and the point of the ed25519 key. -/
def collectEd {P A : Type} : List A → List (PublicKey P) → Except String (List A × List P)
  | a :: as, k :: ks =>
    match k with
    | PublicKey.ed25519 p =>
      match collectEd as ks with
      | Except.ok (addrs, pubkeys) => Except.ok (a :: addrs, p :: pubkeys)
      | Except.error e => Except.error e
    | _ => Except.error "expected ed25519.PublicKey, got ''"
  | _, _ => Except.ok ([], [])

/-- The second loop of `Setup`: walk both iterators of the BDN authority, keep the point of
each BLS key. -/
def collectBls {P A : Type} : List A → List (PublicKey P) → Except String (List P)
  | _ :: as, k :: ks =>
    match k with
    | PublicKey.bls p =>
      match collectBls as ks with
      | Except.ok pubkeys => Except.ok (p :: pubkeys)
      | Except.error e => Except.error e
    | _ => Except.error "expected bls.PublicKey, got ''"
  | _, _ => Except.ok []

/-- The receiving loop of `Setup`, from iteration `i` with `n` iterations left; `keys` is
`dkgPubKeys[0..i)`. Each reply is compared with the one received just before it. -/
def setupRecv {S P A : Type} [DecidableEq P] (rpc : Rpc S P A) :
    Nat → Nat → List P → Except String (List P)
  | 0, _, keys => Except.ok keys
  | n + 1, i, keys =>
    match rpc.recv i with
    | Except.error e => Except.error ("got an error from '' while receiving: " ++ e)
    | Except.ok (Message.startDone pk) =>
      if i ≠ 0 ∧ keys.getLast? ≠ some pk then
        Except.error "the public keys does not match: "
      else setupRecv rpc n (i + 1) (keys ++ [pk])
    | Except.ok _ =>
      Except.error "expected to receive a Done message, but go the following: "

/-- `Actor.Setup`. -/
def Setup {S P A : Type} [DecidableEq P] (a : Actor P A) (rpc : Rpc S P A)
    (co coBdn : CollectiveAuthority P A) (threshold : Int) :
    Go (Option P) × List (Event S P A) :=
  if a.startRes.Done then
    (Go.ret none (some "startRes is already done, only one setup call is allowed"), [])
  else
    match rpc.stream with
    | some e => (Go.ret none (some ("failed to stream: " ++ e)), [Event.stream co.addrs])
    | none =>
      match collectEd co.addrs co.pubkeys with
      | Except.error e => (Go.ret none (some e), [Event.stream co.addrs])
      | Except.ok (addrs, pubkeys) =>
        match collectBls coBdn.addrs coBdn.pubkeys with
        | Except.error e => (Go.ret none (some e), [Event.stream co.addrs])
        | Except.ok blsPubkeys =>
          let message := Message.start threshold addrs pubkeys blsPubkeys
          let trace := [Event.stream co.addrs, Event.send message addrs]
          match rpc.send 0 with
          | some e => (Go.ret none (some ("failed to send start: " ++ e)), trace)
          | none =>
            match setupRecv rpc addrs.length 0 [] with
            | Except.error e => (Go.ret none (some e), trace)
            | Except.ok dkgPubKeys =>
              match dkgPubKeys.head? with
              | some key => (Go.ret (some key) none, trace)
              | none => (Go.panic, trace)

/-- `Actor.GetPublicKey`. -/
def GetPublicKey {P A : Type} (a : Actor P A) : Go (Option P) :=
  if a.startRes.Done then Go.ret (some a.startRes.distrKey) none
  else Go.ret none (some "DKG has not been initialized")

/-- The constant `initDkgFirst`. -/
def initDkgFirst : String := "you must first initialize DKG. Did you call setup() first?"

/-- The two functions of the kyber library that the credential calls use, taken as given:
`bdn.Verify(suite, pk, msg, sig)` (`none` is the nil error) and
`bls.AggregateSignatures(suite, sigs...)`. -/
structure Bdn (P : Type) where
  verify : P → Bytes → Bytes → Option String
  aggregate : List Bytes → Except String Bytes

/-- `Actor.isDuplicate`. -/
def isDuplicate {P A : Type} (a : Actor P A) (id : Bytes) : Bool :=
  a.idTable.any (fun v => decide (v = id))

/-- `Actor.addToIDTable`. -/
def addToIDTable {P A : Type} (a : Actor P A) (id : Bytes) : Actor P A :=
  { a with idTable := a.idTable ++ [id] }

/-- The sending loop of `IssueMasterCredential` and `IssueEventCredential`, from iteration `i`:
one `Send` of `SignRequest(message, i)` to `addrs[i]` per address, stopping at the first error.
Returns the sends made and the error, if any. -/
def sendSignRequests {S P A : Type} (rpc : Rpc S P A) (message : Bytes) :
    List A → Nat → List (Event S P A) × Option String
  | [], _ => ([], none)
  | addr :: rest, i =>
    let ev := Event.send (Message.signRequest message (i : Int)) [addr]
    match rpc.send i with
    | some e => ([ev], some e)
    | none =>
      let r := sendSignRequests rpc message rest (i + 1)
      (ev :: r.1, r.2)

/-- The receiving loop of `IssueMasterCredential` and `IssueEventCredential`, from iteration
`i` with `n` iterations left: the signature, index and public key of each response, in the
order of arrival. -/
def recvSignResponses {S P A : Type} (rpc : Rpc S P A) :
    Nat → Nat → Except String (List (Bytes × Int × P))
  | 0, _ => Except.ok []
  | n + 1, i =>
    match rpc.recv i with
    | Except.error e => Except.error ("stream stopped unexpectedly: " ++ e)
    | Except.ok (Message.signResponse sig idx pk) =>
      match recvSignResponses rpc n (i + 1) with
      | Except.ok rest => Except.ok ((sig, idx, pk) :: rest)
      | Except.error e => Except.error e
    | Except.ok _ => Except.error "got unexpected reply, expected types.SignResponse but got: "

/-- The loop `signatures[signIndexes[i]] = unsortedSignatures[i]`; `none` is the panic of an
index out of range. -/
def sortSignatures {P : Type} : List (Bytes × Int × P) → List Bytes → Option (List Bytes)
  | [], signatures => some signatures
  | (sig, idx, _) :: rest, signatures =>
    if 0 ≤ idx ∧ idx.toNat < signatures.length then
      sortSignatures rest (signatures.set idx.toNat sig)
    else none

/-- `Actor.IssueMasterCredential`: the result, the trace and the actor after the call. -/
def IssueMasterCredential {S P A : Type} (bdn : Bdn P) (a : Actor P A) (rpc : Rpc S P A)
    (idHash : Bytes) : Go (Bytes × List Bytes) × List (Event S P A) × Actor P A :=
  if !a.startRes.Done then (Go.ret ([], []) (some initDkgFirst), [], a)
  else if isDuplicate a idHash then
    (Go.ret ([], []) (some "ID has already been issued a master credential"), [], a)
  else
    let addrs := a.startRes.participants
    match rpc.stream with
    | some e =>
      (Go.ret ([], []) (some ("failed to create stream: " ++ e)), [Event.stream addrs], a)
    | none =>
      let sent := sendSignRequests rpc idHash addrs 0
      let trace := Event.stream addrs :: sent.1
      match sent.2 with
      | some e => (Go.ret ([], []) (some ("failed to send sign request: " ++ e)), trace, a)
      | none =>
        match recvSignResponses rpc addrs.length 0 with
        | Except.error e => (Go.ret ([], []) (some e), trace, a)
        | Except.ok responses =>
          match sortSignatures responses (List.replicate addrs.length []) with
          | none => (Go.panic, trace, a)
          | some signatures =>
            match bdn.aggregate signatures with
            | Except.error e =>
              (Go.ret ([], []) (some ("failed to aggregate signatures: " ++ e)), trace, a)
            | Except.ok aggSigs =>
              (Go.ret (aggSigs, signatures) none, trace, addToIDTable a idHash)

/-- The verification loop of `IssueEventCredential` and of `VerifyEventCredential`:
`bdn.Verify(bdnPubkeys[i], message, signatures[i])` for every `i < len(bdnPubkeys)`, returning
the first error; reading `signatures[i]` out of range panics. -/
def verifySignatures {P : Type} (bdn : Bdn P) (message : Bytes) :
    List P → List Bytes → Go Unit
  | [], _ => Go.ret () none
  | _ :: _, [] => Go.panic
  | pk :: pks, sig :: sigs =>
    match bdn.verify pk message sig with
    | some e => Go.ret () (some e)
    | none => verifySignatures bdn message pks sigs

/-- The byte string `idHash+":"+eventName`. -/
def eventMessage (idHash eventName : Bytes) : Bytes :=
  idHash ++ [58] ++ eventName

/-- `Actor.IssueEventCredential`: the result and the trace. -/
def IssueEventCredential {S P A : Type} (bdn : Bdn P) (a : Actor P A) (rpc : Rpc S P A)
    (idHash eventName : Bytes) (masterCredential : Bytes) (masterSignatures : List Bytes) :
    Go (Bytes × List Bytes) × List (Event S P A) :=
  let _ := masterCredential
  if !a.startRes.Done then (Go.ret ([], []) (some initDkgFirst), [])
  else
    match verifySignatures bdn idHash a.startRes.bdnPubkeys masterSignatures with
    | Go.panic => (Go.panic, [])
    | Go.ret _ (some e) =>
      (Go.ret ([], []) (some ("failed to verify master signatures: " ++ e)), [])
    | Go.ret _ none =>
      let addrs := a.startRes.participants
      match rpc.stream with
      | some e =>
        (Go.ret ([], []) (some ("failed to create stream: " ++ e)), [Event.stream addrs])
      | none =>
        let sent := sendSignRequests rpc (eventMessage idHash eventName) addrs 0
        let trace := Event.stream addrs :: sent.1
        match sent.2 with
        | some e => (Go.ret ([], []) (some ("failed to send sign request: " ++ e)), trace)
        | none =>
          match recvSignResponses rpc addrs.length 0 with
          | Except.error e => (Go.ret ([], []) (some e), trace)
          | Except.ok responses =>
            match sortSignatures responses (List.replicate addrs.length []) with
            | none => (Go.panic, trace)
            | some signatures =>
              match bdn.aggregate signatures with
              | Except.error e =>
                (Go.ret ([], []) (some ("failed to aggregate signatures: " ++ e)), trace)
              | Except.ok aggSigs => (Go.ret (aggSigs, signatures) none, trace)

/-- `Actor.VerifyEventCredential`. -/
def VerifyEventCredential {P A : Type} (bdn : Bdn P) (a : Actor P A)
    (idHash eventName : Bytes) (eventCredential : Bytes) (eventSignatures : List Bytes) :
    Go Bool :=
  let _ := eventCredential
  if !a.startRes.Done then Go.ret false (some initDkgFirst)
  else
    match verifySignatures bdn (eventMessage idHash eventName) a.startRes.bdnPubkeys
        eventSignatures with
    | Go.panic => Go.panic
    | Go.ret _ (some e) => Go.ret false (some ("failed to verify event credential: " ++ e))
    | Go.ret _ none => Go.ret true none

/-- The functions of the kyber suite `suite` (Ed25519) that are not group operations, taken as
given: the base point (`Mul(k, nil)` is `k • base`), `Point().EmbedLen()`,
`Point().Embed(data, rand)` with the random stream given by a seed, and `Point.Data()`. -/
structure Suite (P : Type) where
  base : P
  embedLen : Nat
  embed : Bytes → Nat → P
  data : P → Except String Bytes

/-- `Actor.Encrypt`, for the seed of the embedding and the ephemeral private key `k` that
`random.New()` yields. -/
def Encrypt {S P A : Type} [Field S] [AddCommGroup P] [Module S P] (suite : Suite P)
    (a : Actor P A) (message : Bytes) (seed : Nat) (k : S) :
    Go (Option P × Option P × Bytes) :=
  if !a.startRes.Done then Go.ret (none, none, []) (some initDkgFirst)
  else
    let M := suite.embed message seed
    let max := if suite.embedLen > message.length then message.length else suite.embedLen
    let remainder := message.drop max
    let K := k • suite.base
    let S' := k • a.startRes.distrKey
    let C := S' + M
    Go.ret (some K, some C, remainder) none

/-- The struct `share.PubShare` of kyber. -/
structure PubShare (P : Type) where
  I : Int
  V : P
  deriving DecidableEq, Repr

/-- The scalar `SetInt64(idx + 1)`: the abscissa of the share of index `idx`. -/
def xScalar {S : Type} [Field S] (idx : Int) : S := ((idx + 1 : Int) : S)

/-- Modelled from the spec: the loop of `xyCommit` of the kyber library (package `share`, not
among the sources) over the shares sorted by index: a share of negative index is skipped, the
others are entered in the maps `x`, `y` under their index (a later share of the same index
replaces the earlier one), and the loop stops once `t` indexes are present. -/
def xyCommitLoop {P : Type} (t : Nat) : List (PubShare P) → List (Int × P) → List (Int × P)
  | [], xy => xy
  | s :: rest, xy =>
    if s.I < 0 then xyCommitLoop t rest xy
    else
      let xy' := xy.filter (fun e => decide (e.1 ≠ s.I)) ++ [(s.I, s.V)]
      if xy'.length = t then xy' else xyCommitLoop t rest xy'

/-- Modelled from the spec: `xyCommit` of the kyber library (not among the sources): the nil
shares are dropped, the others sorted by index and entered by `xyCommitLoop`. -/
def xyCommit {P : Type} (shares : List (Option (PubShare P))) (t : Nat) : List (Int × P) :=
  xyCommitLoop t ((shares.filterMap id).insertionSort (fun s s' => s.I ≤ s'.I)) []

/-- Modelled from the spec: `share.RecoverCommit(suite, shares, t, n)` of the kyber library
(not among the sources), which the spec describes as "recover the point V = Σ λᵢ Vᵢ using
Lagrange coefficients λᵢ at x=0 over the indices that replied": with the abscissa `I + 1` for
the share of index `I`, the coefficient of a share is the product of the other abscissas
divided by the product of their differences with its own. Fewer than `t` usable shares are an
error (the test TestPedersen_Decrypt: index -1 is refused, index 1 of one participant is
accepted). -/
def RecoverCommit {S P : Type} [Field S] [AddCommGroup P] [Module S P]
    (shares : List (Option (PubShare P))) (t n : Nat) : Except String P :=
  let _ := n
  let xy := xyCommit shares t
  if xy.length < t then
    Except.error "share: not enough good public shares to reconstruct secret commitment"
  else
    Except.ok ((xy.map (fun e =>
      let others := xy.filter (fun e' => decide (e'.1 ≠ e.1))
      let num : S := (others.map (fun e' => xScalar e'.1)).prod
      let den : S := (others.map (fun e' => xScalar e'.1 - xScalar e.1)).prod
      (num / den) • e.2)).sum)

/-- The receiving loop of `Decrypt`, from iteration `i` with `n` iterations left: the public
share made of each reply, in the order of arrival. -/
def recvDecryptReplies {S P A : Type} (rpc : Rpc S P A) :
    Nat → Nat → Except String (List (Option (PubShare P)))
  | 0, _ => Except.ok []
  | n + 1, i =>
    match rpc.recv i with
    | Except.error e => Except.error ("stream stopped unexpectedly: " ++ e)
    | Except.ok (Message.decryptReply I V) =>
      match recvDecryptReplies rpc n (i + 1) with
      | Except.ok rest => Except.ok (some ⟨I, V⟩ :: rest)
      | Except.error e => Except.error e
    | Except.ok _ => Except.error "got unexpected reply, expected types.DecryptReply but got: "

/-- `Actor.Decrypt`: the result and the trace. -/
def Decrypt {S P A : Type} [Field S] [AddCommGroup P] [Module S P] (suite : Suite P)
    (a : Actor P A) (rpc : Rpc S P A) (K C : P) : Go Bytes × List (Event S P A) :=
  if !a.startRes.Done then (Go.ret [] (some initDkgFirst), [])
  else
    let addrs := a.startRes.participants
    match rpc.stream with
    | some e => (Go.ret [] (some ("failed to create stream: " ++ e)), [Event.stream addrs])
    | none =>
      let trace := [Event.stream addrs, Event.send (Message.decryptRequest K C) addrs]
      match rpc.send 0 with
      | some e => (Go.ret [] (some ("failed to send decrypt request: " ++ e)), trace)
      | none =>
        match recvDecryptReplies rpc addrs.length 0 with
        | Except.error e => (Go.ret [] (some e), trace)
        | Except.ok pubShares =>
          match RecoverCommit (S := S) pubShares addrs.length addrs.length with
          | Except.error e => (Go.ret [] (some ("failed to recover commit: " ++ e)), trace)
          | Except.ok res =>
            match suite.data res with
            | Except.error e =>
              (Go.ret [] (some ("failed to get embedded data: " ++ e)), trace)
            | Except.ok decryptedMessage => (Go.ret decryptedMessage none, trace)

/-- The struct `worker`; a response is the list `GetShareAndProof()` of a reply, a slot of
`decryptedMessage` that holds nil is `none`. -/
structure Worker (S P : Type) where
  numParticipants : Nat
  decryptedMessage : List (Option Bytes)
  ciphertexts : List (Ciphertext S P)
  responses : List (List (ShareAndProof S P))

/-- The loop of `worker.work` over the responses, from response `k`, with `pubShares` as
filled so far; `checkDecryptionProof` (handler.go, not among the sources) is the parameter
`check`, `none` being its nil error. -/
def workLoop {S P : Type} (check : ShareAndProof S P → P → Option String)
    (ciphertexts : List (Ciphertext S P)) (jobIndex : Nat) :
    List (List (ShareAndProof S P)) → Nat → List (Option (PubShare P)) →
      Go (List (Option (PubShare P)))
  | [], _, pubShares => Go.ret pubShares none
  | response :: rest, k, pubShares =>
    match response.get? jobIndex with
    | none => Go.panic
    | some resp =>
      match ciphertexts.get? jobIndex with
      | none => Go.panic
      | some ct =>
        match check resp ct.K with
        | some e => Go.ret pubShares (some ("failed to check the decryption proof: " ++ e))
        | none =>
          if k < pubShares.length then
            workLoop check ciphertexts jobIndex rest (k + 1)
              (pubShares.set k (some ⟨resp.I, resp.V⟩))
          else Go.panic

/-- `worker.work`: the returned error together with `decryptedMessage` after the call. -/
def work {S P : Type} [Field S] [AddCommGroup P] [Module S P] (suite : Suite P)
    (check : ShareAndProof S P → P → Option String) (w : Worker S P) (jobIndex : Nat) :
    Go (List (Option Bytes)) :=
  match workLoop check w.ciphertexts jobIndex w.responses 0
      (List.replicate w.numParticipants none) with
  | Go.panic => Go.panic
  | Go.ret _ (some e) => Go.ret w.decryptedMessage (some e)
  | Go.ret pubShares none =>
    match RecoverCommit (S := S) pubShares w.numParticipants w.numParticipants with
    | Except.error e =>
      Go.ret w.decryptedMessage (some ("failed to recover the commit: " ++ e))
    | Except.ok res =>
      if jobIndex < w.decryptedMessage.length then
        match suite.data res with
        | Except.error e =>
          Go.ret (w.decryptedMessage.set jobIndex none)
            (some ("failed to get embedded data : " ++ e))
        | Except.ok d => Go.ret (w.decryptedMessage.set jobIndex (some d)) none
      else Go.panic

/-- The receiving loop of `VerifiableDecrypt`, from iteration `i` with `n` iterations left. -/
def recvVerifiableReplies {S P A : Type} (rpc : Rpc S P A) :
    Nat → Nat → Except String (List (List (ShareAndProof S P)))
  | 0, _ => Except.ok []
  | n + 1, i =>
    match rpc.recv i with
    | Except.error e => Except.error ("stream stopped unexpectedly: " ++ e)
    | Except.ok (Message.verifiableDecryptReply sp) =>
      match recvVerifiableReplies rpc n (i + 1) with
      | Except.ok rest => Except.ok (sp :: rest)
      | Except.error e => Except.error e
    | Except.ok _ =>
      Except.error "got unexpected reply, expected types.VerifiableDecryptReply but got: "

/-- The jobs of `VerifiableDecrypt` run by its workers. Every job index is taken from the
channel by one worker, which calls `worker.work` on it and only logs the error it returns; a
job reads the responses and ciphertexts and writes its own slot of `decryptedMessage` only, so
the slots after all jobs do not depend on which worker ran which job, nor in what order. -/
def runJobs {S P : Type} [Field S] [AddCommGroup P] [Module S P] (suite : Suite P)
    (check : ShareAndProof S P → P → Option String) (numParticipants : Nat)
    (responses : List (List (ShareAndProof S P))) (ciphertexts : List (Ciphertext S P)) :
    List Nat → List (Option Bytes) → Go (List (Option Bytes))
  | [], decryptedMessage => Go.ret decryptedMessage none
  | j :: rest, decryptedMessage =>
    match work suite check ⟨numParticipants, decryptedMessage, ciphertexts, responses⟩ j with
    | Go.panic => Go.panic
    | Go.ret decryptedMessage' _ =>
      runJobs suite check numParticipants responses ciphertexts rest decryptedMessage'

/-- `Actor.VerifiableDecrypt`: the result, the trace and the package variable `workerNum`
after the call. With no worker (`workerNum` 0 after the adjustment) no job is run. -/
def VerifiableDecrypt {S P A : Type} [Field S] [AddCommGroup P] [Module S P]
    (suite : Suite P) (check : ShareAndProof S P → P → Option String) (a : Actor P A)
    (rpc : Rpc S P A) (workerNum : Nat) (ciphertexts : List (Ciphertext S P)) :
    Go (List (Option Bytes)) × List (Event S P A) × Nat :=
  if !a.startRes.Done then (Go.ret [] (some initDkgFirst), [], workerNum)
  else
    let addrs := a.startRes.participants
    match rpc.stream with
    | some e =>
      (Go.ret [] (some ("failed to create stream: " ++ e)), [Event.stream addrs], workerNum)
    | none =>
      let batchsize := ciphertexts.length
      let trace :=
        [Event.stream addrs, Event.send (Message.verifiableDecryptRequest ciphertexts) addrs]
      match rpc.send 0 with
      | some e =>
        (Go.ret [] (some ("failed to send verifiable decrypt request: " ++ e)), trace,
          workerNum)
      | none =>
        match recvVerifiableReplies rpc addrs.length 0 with
        | Except.error e => (Go.ret [] (some e), trace, workerNum)
        | Except.ok responses =>
          let workerNum' := if batchsize < workerNum then batchsize else workerNum
          let jobs := if workerNum' = 0 then [] else List.range batchsize
          match runJobs suite check addrs.length responses ciphertexts jobs
              (List.replicate batchsize none) with
          | Go.panic => (Go.panic, trace, workerNum')
          | Go.ret decryptedMessage _ => (Go.ret decryptedMessage none, trace, workerNum')

/-- The function `difference`: the members of `el1` that are not present in `el2`. -/
def difference {A : Type} [DecidableEq A] (el1 el2 : List A) : List A :=
  el1.foldl (fun result addr1 =>
    if el2.any (fun addr2 => decide (addr1 = addr2)) then result else result ++ [addr1]) []

/-- The function `union`: `el1`, then the members of `el2` that are not present in `el1`. -/
def union {A : Type} [DecidableEq A] (el1 el2 : List A) : List A :=
  el2.foldl (fun addrsAll other =>
    if el1.any (fun addr => decide (addr = other)) then addrsAll else addrsAll ++ [other]) el1

/-- The receiving loop of `Reshare`, from iteration `i` with `n` iterations left; `keys` is
`dkgPubKeys[0..i)`. Each reply is compared with the one received just before it. -/
def reshareRecv {S P A : Type} [DecidableEq P] (rpc : Rpc S P A) :
    Nat → Nat → List P → Except String (List P)
  | 0, _, keys => Except.ok keys
  | n + 1, i, keys =>
    match rpc.recv i with
    | Except.error e => Except.error ("stream stopped unexpectedly: " ++ e)
    | Except.ok (Message.startDone pk) =>
      if i ≠ 0 ∧ keys.getLast? ≠ some pk then
        Except.error "the public keys does not match: "
      else reshareRecv rpc n (i + 1) (keys ++ [pk])
    | Except.ok _ =>
      Except.error "expected to receive a Done message, but got the following: , from "

/-- `Actor.Reshare`: the result and the trace. -/
def Reshare {S P A : Type} [DecidableEq P] [DecidableEq A] (a : Actor P A) (rpc : Rpc S P A)
    (co : CollectiveAuthority P A) (thresholdNew : Int) : Go Unit × List (Event S P A) :=
  if !a.startRes.Done then (Go.ret () (some initDkgFirst), [])
  else
    match collectEd co.addrs co.pubkeys with
    | Except.error e => (Go.ret () (some e), [])
    | Except.ok (addrsNew, pubkeysNew) =>
      let addrsAll := union a.startRes.participants addrsNew
      match rpc.stream with
      | some e => (Go.ret () (some ("failed to create stream: " ++ e)), [Event.stream addrsAll])
      | none =>
        let thresholdOld := a.startRes.threshold
        let pubkeysOld := a.startRes.pubkeys
        let reshare := Message.startResharing thresholdNew 0 addrsNew [] pubkeysNew []
        let trace1 := [Event.stream addrsAll, Event.send reshare a.startRes.participants]
        match rpc.send 0 with
        | some e => (Go.ret () (some ("failed to send resharing request: " ++ e)), trace1)
        | none =>
          let newParticipants := difference addrsNew a.startRes.participants
          let reshare' := Message.startResharing thresholdNew thresholdOld addrsNew
            a.startRes.participants pubkeysNew pubkeysOld
          let trace := trace1 ++ [Event.send reshare' newParticipants]
          match rpc.send 1 with
          | some e => (Go.ret () (some ("failed to send resharing request: " ++ e)), trace)
          | none =>
            match reshareRecv rpc addrsAll.length 0 [] with
            | Except.error e => (Go.ret () (some e), trace)
            | Except.ok _ => (Go.ret () none, trace)

/-- The Lagrange coefficient at 0 of the node `x i` among the nodes `x 0, …, x (n - 1)`:
the product over the other nodes `x j` of `x j / (x j - x i)`. -/
def lagrangeCoeff {S : Type} [Field S] (x : Nat → S) (n i : Nat) : S :=
  ∏ j ∈ (Finset.range n).erase i, x j / (x j - x i)

/-- The Lagrange interpolation at 0 of the points `V 0, …, V (n - 1)` over the nodes
`x 0, …, x (n - 1)`: the sum of the points weighted by their Lagrange coefficients. -/
def lagrangeRecover {S P : Type} [Field S] [AddCommGroup P] [Module S P] (x : Nat → S)
    (V : Nat → P) (n : Nat) : P :=
  ∑ i ∈ Finset.range n, lagrangeCoeff x n i • V i

/-- A sequence of calls of `IssueMasterCredential` on one actor, each with the node state at
the time of the call, its transport and its idHash, from the table `idTable`: the table after
the calls, and the idHashes of the calls that returned a nil error, in order. -/
def issueMasterRun {S P A : Type} (bdn : Bdn P) :
    List Bytes → List (State P A × Rpc S P A × Bytes) → List Bytes × List Bytes
  | idTable, [] => (idTable, [])
  | idTable, (st, rpc, idHash) :: rest =>
    let r := IssueMasterCredential bdn ⟨st, idTable⟩ rpc idHash
    let next := issueMasterRun bdn r.2.2.idTable rest
    match r.1 with
    | Go.ret _ none => (next.1, idHash :: next.2)
    | _ => next

/-- `Actor.VerifiableEncrypt`, for the seed of the embedding, the ephemeral private key `k`
and the scalar `s` that `random.New()` yields. The parameter `hash` is the scalar
`Scalar().SetBytes` makes of the SHA-256 digest of the points marshalled to it, in order. A
zero `types.Ciphertext` is `none`. -/
def VerifiableEncrypt {S P A : Type} [Field S] [AddCommGroup P] [Module S P]
    (suite : Suite P) (hash : List P → S) (a : Actor P A) (message : Bytes) (GBar : P)
    (seed : Nat) (k s : S) : Go (Option (Ciphertext S P) × Bytes) :=
  if !a.startRes.Done then
    Go.ret (none, []) (some "you must first initialize DKG. Did you call setup() first?")
  else
    let M := suite.embed message seed
    let max := if suite.embedLen > message.length then message.length else suite.embedLen
    let remainder := message.drop max
    let K := k • suite.base
    let S' := k • a.startRes.distrKey
    let C := S' + M
    let UBar := k • GBar
    let W := s • suite.base
    let WBar := s • GBar
    let E := hash [C, K, UBar, W, WBar]
    let F := s + E * k
    Go.ret (some { K := K, C := C, UBar := UBar, E := E, F := F, GBar := GBar }, remainder) none

/-- The character of the standard base64 alphabet for a 6-bit value: `A`-`Z`, `a`-`z`,
`0`-`9`, `+`, `/`. -/
def b64Char (n : Nat) : Fin 256 :=
  if n < 26 then Fin.ofNat (65 + n)
  else if n < 52 then Fin.ofNat (97 + (n - 26))
  else if n < 62 then Fin.ofNat (48 + (n - 52))
  else if n = 62 then 43
  else 47

/-- The 6-bit value of a character of the standard base64 alphabet. -/
def b64Value (c : Fin 256) : Option Nat :=
  if 65 ≤ c.val ∧ c.val ≤ 90 then some (c.val - 65)
  else if 97 ≤ c.val ∧ c.val ≤ 122 then some (c.val - 97 + 26)
  else if 48 ≤ c.val ∧ c.val ≤ 57 then some (c.val - 48 + 52)
  else if c.val = 43 then some 62
  else if c.val = 47 then some 63
  else none

/-- Modelled from the spec: `base64.StdEncoding.EncodeToString` of the Go standard library
(not among the sources), the `BASE64` of the authority line: three bytes give four characters
of the standard alphabet, a last group of one or two bytes is padded with `=`. -/
def base64Encode : Bytes → Bytes
  | [] => []
  | [a] => [b64Char (a.val / 4), b64Char (a.val % 4 * 16), 61, 61]
  | [a, b] =>
    [b64Char (a.val / 4), b64Char (a.val % 4 * 16 + b.val / 16), b64Char (b.val % 16 * 4), 61]
  | a :: b :: c :: rest =>
    b64Char (a.val / 4) :: b64Char (a.val % 4 * 16 + b.val / 16) ::
      b64Char (b.val % 16 * 4 + c.val / 64) :: b64Char (c.val % 64) :: base64Encode rest

/-- Modelled from the spec: `base64.StdEncoding.DecodeString` of the Go standard library (not
among the sources): four characters of the standard alphabet give three bytes, a last group
may end in one or two `=`; anything else is an error. -/
def base64Decode : Bytes → Except String Bytes
  | [] => Except.ok []
  | c0 :: c1 :: c2 :: c3 :: rest =>
    if rest = [] ∧ c3 = 61 then
      if c2 = 61 then
        match b64Value c0, b64Value c1 with
        | some v0, some v1 => Except.ok [Fin.ofNat (v0 * 4 + v1 / 16)]
        | _, _ => Except.error "illegal base64 data"
      else
        match b64Value c0, b64Value c1, b64Value c2 with
        | some v0, some v1, some v2 =>
          Except.ok [Fin.ofNat (v0 * 4 + v1 / 16), Fin.ofNat (v1 % 16 * 16 + v2 / 4)]
        | _, _, _ => Except.error "illegal base64 data"
    else
      match b64Value c0, b64Value c1, b64Value c2, b64Value c3 with
      | some v0, some v1, some v2, some v3 =>
        match base64Decode rest with
        | Except.ok bytes =>
          Except.ok (Fin.ofNat (v0 * 4 + v1 / 16) :: Fin.ofNat (v1 % 16 * 16 + v2 / 4) ::
            Fin.ofNat (v2 % 4 * 64 + v3) :: bytes)
        | Except.error e => Except.error e
      | _, _, _, _ => Except.error "illegal base64 data"
  | _ => Except.error "illegal base64 data"

/-- `strings.Split(str, sep)` for a separator of one byte: the pieces of `str` between the
occurrences of `sep`; a string without `sep` is its only piece. -/
def split (sep : Fin 256) : Bytes → List Bytes
  | [] => [[]]
  | c :: cs =>
    if c = sep then [] :: split sep cs
    else
      match split sep cs with
      | piece :: pieces => (c :: piece) :: pieces
      | [] => [[c]]

/-- The constant `separator`, the byte `:`. -/
def separator : Fin 256 := 58

/-- The library functions that `encodeAuthority` and `decodeAuthority` call, taken as given:
`Address.MarshalText`, `AddressFactory.FromText`, `Point.MarshalBinary`, and
`UnmarshalBinary` on a point of `suite` and on a point of `bdnSuite`. -/
structure AuthorityCodec (P A : Type) where
  marshalText : A → Except String Bytes
  fromText : Bytes → A
  marshalBinary : P → Except String Bytes
  unmarshalBinary : Bytes → Except String P
  unmarshalBinaryBdn : Bytes → Except String P

/-- The function `encodeAuthority`; `mino` is what `ctx.Injector.Resolve(&m)` yields: the
address of the resolved node, or an error. -/
def encodeAuthority {P A : Type} (codec : AuthorityCodec P A) (mino : Except String A)
    (pk bdnPk : P) : Go Bytes :=
  match mino with
  | Except.error e => Go.ret [] (some ("failed to resolve mino: " ++ e))
  | Except.ok address =>
    match codec.marshalText address with
    | Except.error e => Go.ret [] (some ("failed to marshal address: " ++ e))
    | Except.ok addr =>
      match codec.marshalBinary pk with
      | Except.error e => Go.ret [] (some ("failed to marshall pubkey: " ++ e))
      | Except.ok pkbuf =>
        match codec.marshalBinary bdnPk with
        | Except.error e => Go.ret [] (some ("failed to marshall bdn pubkey: " ++ e))
        | Except.ok bdnPkbuf =>
          Go.ret (base64Encode addr ++ [separator] ++ base64Encode pkbuf ++ [separator] ++
            base64Encode bdnPkbuf) none

/-- The function `decodeAuthority`; `mino` is what `ctx.Injector.Resolve(&m)` yields. -/
def decodeAuthority {P A : Type} (codec : AuthorityCodec P A) (mino : Except String A)
    (str : Bytes) : Go (Option A × Option P × Option P) :=
  match split separator str with
  | [part0, part1, part2] =>
    match mino with
    | Except.error e => Go.ret (none, none, none) (some ("injector: " ++ e))
    | Except.ok _ =>
      match base64Decode part0 with
      | Except.error e => Go.ret (none, none, none) (some ("base64 address: " ++ e))
      | Except.ok addrBuf =>
        let addr := codec.fromText addrBuf
        match base64Decode part1 with
        | Except.error e => Go.ret (none, none, none) (some ("base64 public key: " ++ e))
        | Except.ok pubkeyBuf =>
          match codec.unmarshalBinary pubkeyBuf with
          | Except.error e => Go.ret (none, none, none) (some ("failed to decode pubkey: " ++ e))
          | Except.ok pubkey =>
            match base64Decode part2 with
            | Except.error e =>
              Go.ret (none, none, none) (some ("base64 bdn public key: " ++ e))
            | Except.ok bdnPubkeyBuf =>
              match codec.unmarshalBinaryBdn bdnPubkeyBuf with
              | Except.error e =>
                Go.ret (none, none, none) (some ("failed to decode bdn pubkey: " ++ e))
              | Except.ok bdnPubkey => Go.ret (some addr, some pubkey, some bdnPubkey) none
  | _ => Go.ret (none, none, none) (some "invalid identity base64 string")

/-! ## Example values -/

/-- A toy signature scheme: the signature of `msg` under the key `pk` is `msg` preceded by the
byte `pk`; aggregation concatenates the signatures and refuses an empty one. -/
def exBdn : Bdn Nat where
  verify := fun pk msg sig =>
    if sig = (Fin.ofNat pk : Fin 256) :: msg then none else some "bls: invalid signature"
  aggregate := fun sigs =>
    if sigs.all (fun s => !s.isEmpty) then Except.ok sigs.flatten
    else Except.error "bn256.G1: not enough data"

/-- A certified node state with two participants, of BDN keys 7 and 8. -/
def exState : State Nat Nat :=
  { dkgState := DkgState.certified, participants := [100, 101], pubkeys := [1, 2],
    bdnPubkeys := [7, 8], threshold := 2, distrKey := 3 }

/-- An actor on `exState` that has issued no credential yet. -/
def exActor : Actor Nat Nat := ⟨exState, []⟩

/-- A transport for the examples: the stream is created, every send succeeds, and the receiver
delivers the messages of the list in order, then fails. -/
def exRpc {S P A : Type} (msgs : List (Message S P A)) : Rpc S P A :=
  { stream := none
    send := fun _ => none
    recv := fun k =>
      match msgs.get? k with
      | some m => Except.ok m
      | none => Except.error "context deadline exceeded" }

/-- A toy suite on the rationals (scalars and points are rational numbers, the base point
is 1) that embeds up to two bytes: the empty message is the point 0, one byte `b` the point
`b + 1`, two bytes `b`, `c` the point `257 + b + 256 c`. -/
def exSuite : Suite ℚ :=
  { base := 1
    embedLen := 2
    embed := fun m _ =>
      match m with
      | [] => 0
      | [b] => (b.val : ℚ) + 1
      | b :: c :: _ => 257 + (b.val : ℚ) + 256 * (c.val : ℚ)
    data := fun p =>
      if p = 0 then Except.ok []
      else if p.den = 1 ∧ 1 ≤ p.num ∧ p.num ≤ 256 then
        Except.ok [Fin.ofNat (p.num.toNat - 1)]
      else if p.den = 1 ∧ 257 ≤ p.num ∧ p.num ≤ 65792 then
        Except.ok [Fin.ofNat ((p.num.toNat - 257) % 256), Fin.ofNat ((p.num.toNat - 257) / 256)]
      else Except.error "invalid embedded data length" }

/-- A certified node state over the rationals with two participants; the distributed key 2 is
the constant term of the polynomial `2 + X`, whose values at 1 and 2 are the two shares. -/
def exStateQ : State ℚ Nat :=
  { dkgState := DkgState.certified, participants := [100, 101], pubkeys := [1, 2],
    bdnPubkeys := [7, 8], threshold := 2, distrKey := 2 }

/-- An actor on `exStateQ`. -/
def exActorQ : Actor ℚ Nat := ⟨exStateQ, []⟩

/-- A toy proof check for the examples: a share is accepted when its field `Ei` is 0. -/
def exCheck : ShareAndProof ℚ ℚ → ℚ → Option String :=
  fun sp _ => if sp.Ei = 0 then none else some "hash is not valid"

/-- A toy suite on the rationals whose embedding pads the point with the random seed, as the
embedding of kyber fills the bytes around the data with random ones: the point of a message
is that of `exSuite` plus `65793 (seed + 1)`, and the data of a point is read from its
remainder modulo 65793. -/
def exSuitePad : Suite ℚ :=
  { base := 1
    embedLen := 2
    embed := fun m seed => exSuite.embed m seed + 65793 * ((seed : ℚ) + 1)
    data := fun p =>
      if p.den = 1 ∧ 0 ≤ p.num then exSuite.data (((p.num % 65793 : Int)) : ℚ)
      else Except.error "invalid embedded data length" }

/-- An actor whose node has not run the DKG yet. -/
def exActorNew : Actor ℚ Nat :=
  ⟨{ dkgState := DkgState.initial, participants := [], pubkeys := [], bdnPubkeys := [],
     threshold := 0, distrKey := 0 }, []⟩

/-- A toy hash for the examples: the sum of the points. -/
def exHash : List ℚ → ℚ := fun ps => ps.sum

/-- A toy codec for the examples: an address is marshalled to one byte, a point to its byte
followed by a zero byte. -/
def exCodec : AuthorityCodec Nat Nat :=
  { marshalText := fun a => Except.ok [Fin.ofNat a]
    fromText := fun b =>
      match b with
      | [x] => x.val
      | _ => 0
    marshalBinary := fun p => Except.ok [Fin.ofNat p, 0]
    unmarshalBinary := fun b =>
      match b with
      | [x, _] => Except.ok x.val
      | _ => Except.error "invalid Ed25519 curve point"
    unmarshalBinaryBdn := fun b =>
      match b with
      | [x, _] => Except.ok x.val
      | _ => Except.error "bn256.G2: not enough data" }

end Pedersen

/-! # The contracts of `backend/dela/contracts`

A shallow embedding of the bank, auction, F3B auction and event contracts.

* `store.Snapshot` is the in-memory snapshot the tests of the contracts run on: a map from keys
  to values in which an absent key reads as the empty slice, `Get` and `Set` never fail.
  The branches of the source that handle an error of `Get` or `Set` are therefore not taken.
* A command mutates the snapshot it is given, also when it returns an error, so the embedding
  of a function that writes returns its result together with the snapshot it leaves.
* Go's `int` is 64 bits wide: `wrapInt` reduces the result of an operation to that range.
* `float64` is a linearly ordered field `F`: its arithmetic is exact. `strconv.ParseFloat` and
  the verb `%f` of `fmt.Sprintf` are the two fields of `FloatText`.
* An `error` is its message; the text a wrapped library error adds to a message and the
  run-time values a message formats are left out, and what a command writes to its printer
  and to the log is not part of the embedding.
-/

namespace Contracts

open Pedersen (Bytes split)

set_option autoImplicit false

/-! ## Go primitives -/

/-- The bytes of a string constant of the source. -/
def str (s : String) : Bytes := s.toList.map (fun c => Fin.ofNat c.toNat)

/-- The value of Go's 64-bit `int` that an integer result is reduced to. -/
def wrapInt (z : Int) : Int := (z + 2 ^ 63) % 2 ^ 64 - 2 ^ 63

/-- The byte of the decimal digit `d`. -/
def digitByte (d : Nat) : Fin 256 := Fin.ofNat (48 + d)

/-- The decimal digits of `n`, most significant first; `fuel` bounds the number of digits. -/
def natDecFuel : Nat → Nat → Bytes
  | 0, _ => []
  | fuel + 1, n => if n < 10 then [digitByte n] else natDecFuel fuel (n / 10) ++ [digitByte (n % 10)]

/-- The decimal numeral of a natural number. -/
def natDec (n : Nat) : Bytes := natDecFuel (n + 1) n

/-- The functions `strconv.Itoa` and `fmt.Sprint` on an `int`. -/
def Itoa (z : Int) : Bytes := if z < 0 then 45 :: natDec z.natAbs else natDec z.natAbs

/-- The value of a decimal digit byte. -/
def digitVal (c : Fin 256) : Option Nat :=
  if 48 ≤ c.val ∧ c.val ≤ 57 then some (c.val - 48) else none

/-- The value of a run of decimal digits; `none` when a byte is not a digit. -/
def parseDigits (ds : Bytes) : Option Nat :=
  ds.foldl (fun acc c =>
    match acc, digitVal c with
    | some a, some d => some (a * 10 + d)
    | _, _ => none) (some 0)

/-- The function `strconv.Atoi`: an optional sign and at least one decimal digit, the value
within the range of `int`; `none` is the error. -/
def Atoi (s : Bytes) : Option Int :=
  let neg : Bool := decide (s.head? = some 45)
  let ds : Bytes := if s.head? = some 45 ∨ s.head? = some 43 then s.tail else s
  if ds = [] then none
  else
    match parseDigits ds with
    | none => none
    | some n =>
      if neg then (if n ≤ 2 ^ 63 then some (-(n : Int)) else none)
      else (if n < 2 ^ 63 then some (n : Int) else none)

/-- The function `bytes.Contains`: `sub` occurs in `b` as a run of consecutive bytes. -/
def Contains (b sub : Bytes) : Bool := b.tails.any (fun t => sub.isPrefixOf t)

/-- The call `strings.Split(s, ListDelimiter)` followed by `list[:len(list)-1]`, as every list
getter of the contracts does: the pieces of `s` between semicolons, the last one dropped. -/
def splitList (s : Bytes) : List Bytes := (split 59 s).dropLast

/-- The in-memory `store.Snapshot`. -/
abbrev Snapshot := Bytes → Bytes

/-- The method `Get`: an absent key reads as the empty slice. -/
def Snapshot.Get (snap : Snapshot) (key : Bytes) : Bytes := snap key

/-- The method `Set`. -/
def Snapshot.Set (snap : Snapshot) (key value : Bytes) : Snapshot :=
  fun k => if k = key then value else snap k

/-- What a command reads of `execution.Step`: the text of the identity of the transaction
(`GetIdentity().MarshalText()`, `none` when it fails) and the arguments (`GetArg`, which is
nil for an absent argument). -/
structure Step where
  identity : Option Bytes
  args : Bytes → Bytes

/-- The method `GetArg` of the transaction of a step. -/
def Step.GetArg (step : Step) (name : Bytes) : Bytes := step.args name

/-- The functions `strconv.ParseFloat(s, 64)` (`none` is the error) and
`fmt.Sprintf("%f", x)` over the number type `F`. -/
structure FloatText (F : Type) where
  ParseFloat : Bytes → Option F
  Sprintf : F → Bytes

/-- The highest bid and its bidder among bids `(pk, bid)` made in this order, as the words of
the specification have it: the maximum bid, and the earliest bidder who made it; `none` when
there is no bid. -/
def highest : List (Bytes × Int) → Option (Bytes × Int)
  | [] => none
  | (pk, b) :: rest =>
    match highest rest with
    | none => some (pk, b)
    | some (pk1, b1) => if b1 > b then some (pk1, b1) else some (pk, b)

/-! ## The bank contract (`contracts/bank/mod.go`) -/

namespace Bank

/-- The constant `BalanceKey`. -/
def BalanceKey : Bytes := str "bank:"

/-- The function `byteToInt`. -/
def byteToInt (b : Bytes) : Except String Int :=
  match Atoi b with
  | none => Except.error "Failed to convert Byte Array to int"
  | some deposit => Except.ok deposit

/-- The function `getBalanceInt`: an empty balance is first set to `0`. -/
def getBalanceInt (snap : Snapshot) (pk : Bytes) : Except String Int × Snapshot :=
  let key := BalanceKey ++ pk
  let balanceByte := snap.Get key
  let (snap, balanceByte) :=
    if balanceByte.length = 0 then (snap.Set key (str "0"), str "0") else (snap, balanceByte)
  match byteToInt balanceByte with
  | Except.error err => (Except.error ("failed to convert balance to int: " ++ err), snap)
  | Except.ok balance => (Except.ok balance, snap)

/-- The function `addDeposit`. -/
def addDeposit (snap : Snapshot) (pk : Bytes) (deposit : Int) : Option String × Snapshot :=
  let key := BalanceKey ++ pk
  match getBalanceInt snap pk with
  | (Except.error err, snap) => (some ("failed to get balance: " ++ err), snap)
  | (Except.ok balance, snap) =>
    let newBalance := wrapInt (balance + deposit)
    (none, snap.Set key (Itoa newBalance))

/-- The function `removeWithdraw`. -/
def removeWithdraw (snap : Snapshot) (pk : Bytes) (withdraw : Int) : Option String × Snapshot :=
  let key := BalanceKey ++ pk
  match getBalanceInt snap pk with
  | (Except.error err, snap) => (some ("failed to get balance: " ++ err), snap)
  | (Except.ok balance, snap) =>
    if withdraw > balance then (some "Withdraw is greater than balance", snap)
    else
      let balance := wrapInt (balance - withdraw)
      (none, snap.Set key (Itoa balance))

/-- The function `transferFunds`. -/
def transferFunds (snap : Snapshot) (sender dest : Bytes) (amount : Int) :
    Option String × Snapshot :=
  match getBalanceInt snap sender with
  | (Except.error err, snap) => (some ("failed to get balance: " ++ err), snap)
  | (Except.ok balance, snap) =>
    let newAmount := if amount > balance then balance else amount
    match removeWithdraw snap sender newAmount with
    | (some err, snap) => (some ("failed to remove transfer: " ++ err), snap)
    | (none, snap) =>
      match addDeposit snap dest newAmount with
      | (some err, snap) => (some ("failed to add transfer: " ++ err), snap)
      | (none, snap) => (none, snap)

/-- The balance stored for `pk` as an integer, an absent balance counting as 0; `none` when
the stored bytes are not an `int`. -/
def storedBalance (snap : Snapshot) (pk : Bytes) : Option Int :=
  if (snap.Get (BalanceKey ++ pk)).length = 0 then some 0 else Atoi (snap.Get (BalanceKey ++ pk))

end Bank

/-! ## The F3B auction contract (`contracts/auctionF3B/mod.go`) -/

namespace AuctionF3B

/-- The constant `BidLengthKey`. -/
def BidLengthKey : Bytes := str "auction:bid_length"

/-- The constant `OwnerKey`. -/
def OwnerKey : Bytes := str "auction:owner"

/-- The constant `HighestBidderKey`. -/
def HighestBidderKey : Bytes := str "auction:highest_bidder"

/-- The constant `HighestBidKey`. -/
def HighestBidKey : Bytes := str "auction:highest_bid"

/-- The constant `BlockNumberKey`. -/
def BlockNumberKey : Bytes := str "auction:block_number"

/-- The constant `InitBidLengthArg`. -/
def InitBidLengthArg : Bytes := str "value:initBidLength"

/-- The constant `BidArg`. -/
def BidArg : Bytes := str "value:bid"

/-- The function `byteToInt`: the value is `-1` next to an error. -/
def byteToInt (b : Bytes) : Int × Option String :=
  match Atoi b with
  | none => (-1, some "Failed to convert Byte Array to int")
  | some deposit => (deposit, none)

/-- The command `init`. -/
def init (snap : Snapshot) (step : Step) : Option String × Snapshot :=
  match step.identity with
  | none => (some "public key not found in tx arg", snap)
  | some pub_key =>
    let initBidLength := step.GetArg InitBidLengthArg
    if initBidLength.length = 0 then (some "'value:initBidLength' not found in tx arg", snap)
    else
      let snap := snap.Set OwnerKey pub_key
      let snap := snap.Set BidLengthKey initBidLength
      let snap := snap.Set HighestBidderKey (str "-1")
      let snap := snap.Set HighestBidKey (str "-1")
      let snap := snap.Set BlockNumberKey (str "0")
      (none, snap)

/-- The function `getBidLength`. -/
def getBidLength (snap : Snapshot) : Except String Int :=
  match Atoi (snap.Get BidLengthKey) with
  | none => Except.error "failed to convert bid_length to int"
  | some bidLength => Except.ok bidLength

/-- The function `getBlockNumber`. -/
def getBlockNumber (snap : Snapshot) : Except String Int :=
  match Atoi (snap.Get BlockNumberKey) with
  | none => Except.error "failed to convert block_number to int"
  | some blockNumber => Except.ok blockNumber

/-- The function `incBlockNumber`. -/
def incBlockNumber (snap : Snapshot) : Option String × Snapshot :=
  match getBlockNumber snap with
  | Except.error _ => (some "failed to get block number", snap)
  | Except.ok blockNumber =>
    let blockNumber := wrapInt (blockNumber + 1)
    (none, snap.Set BlockNumberKey (Itoa blockNumber))

/-- The function `isValidBidPeriod`. -/
def isValidBidPeriod (snap : Snapshot) : Except String Bool :=
  match getBlockNumber snap with
  | Except.error err => Except.error err
  | Except.ok blockNumber =>
    match getBidLength snap with
    | Except.error err => Except.error err
    | Except.ok bidPeriod => if blockNumber < bidPeriod then Except.ok true else Except.ok false

/-- The function `getHighestBid`. -/
def getHighestBid (snap : Snapshot) : Bytes := snap.Get HighestBidKey

/-- The function `setHighestBid`. -/
def setHighestBid (snap : Snapshot) (bid : Bytes) : Snapshot := snap.Set HighestBidKey bid

/-- The function `getHighestBidder`. -/
def getHighestBidder (snap : Snapshot) : Bytes := snap.Get HighestBidderKey

/-- The function `setHighestBidder`. -/
def setHighestBidder (snap : Snapshot) (pk : Bytes) : Snapshot := snap.Set HighestBidderKey pk

/-- The function `isHighestBidder`: the errors of the two conversions are dropped, so a bid or
a highest bid that is not an `int` counts as `-1`; the error returned is always nil. -/
def isHighestBidder (snap : Snapshot) (bid : Bytes) : Bool :=
  let highestBidBytes := getHighestBid snap
  let highestBid := (byteToInt highestBidBytes).1
  let thisBid := (byteToInt bid).1
  if thisBid > highestBid then true else false

/-- The function `refundDeposit`. -/
def refundDeposit (snap : Snapshot) (bidder : Bytes) (deposit : Int) :
    Option String × Snapshot :=
  let bankKey := str "bank:" ++ bidder
  let balanceByte := snap.Get bankKey
  let balanceByte := if balanceByte.length = 0 then str "0" else balanceByte
  match byteToInt balanceByte with
  | (_, some err) => (some ("failed to convert user deposit to int: " ++ err), snap)
  | (balance, none) =>
    let newBalance := wrapInt (balance + deposit)
    (none, snap.Set bankKey (Itoa newBalance))

/-- The function `handleNewBid`; the error of `refundDeposit` is dropped. -/
def handleNewBid (snap : Snapshot) (bid pk : Bytes) : Option String × Snapshot :=
  let isHighest := isHighestBidder snap bid
  if isHighest then
    let oldHighestBidder := getHighestBidder snap
    let oldHighestBid := getHighestBid snap
    let snap := setHighestBid snap bid
    let snap := setHighestBidder snap pk
    match byteToInt oldHighestBid with
    | (_, some err) => (some ("Failed to convert old highest bid to integer: " ++ err), snap)
    | (oldHighestBidInt, none) =>
      let snap := (refundDeposit snap oldHighestBidder oldHighestBidInt).2
      (none, snap)
  else (none, snap)

/-- The command `bid`. -/
def bid (snap : Snapshot) (step : Step) : Option String × Snapshot :=
  match isValidBidPeriod snap with
  | Except.error err => (some err, snap)
  | Except.ok isBidPeriod =>
    if !isBidPeriod then (some "Not valid bid period", snap)
    else
      match step.identity with
      | none => (some "public key not found in tx argument", snap)
      | some pub_key =>
        let bid := step.GetArg BidArg
        if bid.length = 0 then (some "'value:bid' not found in tx arg", snap)
        else
          match handleNewBid snap bid pub_key with
          | (some err, snap) => (some ("Failed to handle new bid: " ++ err), snap)
          | (none, snap) =>
            match incBlockNumber snap with
            | (some err, snap) => (some err, snap)
            | (none, snap) => (none, snap)

/-- A sequence of `BID` commands, each of which succeeds; `none` when one of them fails. -/
def bids : Snapshot → List Step → Option Snapshot
  | snap, [] => some snap
  | snap, step :: steps =>
    match bid snap step with
    | (some _, _) => none
    | (none, snap) => bids snap steps

end AuctionF3B

/-! ## The commit-reveal auction contract (`contracts/auction/mod.go`) -/

namespace Auction

/-- The constant `BidLengthKey`. -/
def BidLengthKey : Bytes := str "auction:bid_length"

/-- The constant `RevealLengthKey`. -/
def RevealLengthKey : Bytes := str "auction:reveal_length"

/-- The constant `OwnerKey`. -/
def OwnerKey : Bytes := str "auction:owner"

/-- The constant `BiddersKey`. -/
def BiddersKey : Bytes := str "auction:bidders"

/-- The constant `RevealersKey`. -/
def RevealersKey : Bytes := str "auction:revealers"

/-- The constant `HighestBidderKey`. -/
def HighestBidderKey : Bytes := str "auction:highest_bidder"

/-- The constant `HighestBidKey`. -/
def HighestBidKey : Bytes := str "auction:highest_bid"

/-- The constant `BlockNumberKey`. -/
def BlockNumberKey : Bytes := str "auction:block_number"

/-- The constant `InitBidLengthArg`. -/
def InitBidLengthArg : Bytes := str "value:initBidLength"

/-- The constant `InitRevealLengthArg`. -/
def InitRevealLengthArg : Bytes := str "value:initRevealLength"

/-- The constant `BidArg`. -/
def BidArg : Bytes := str "value:bid"

/-- The constant `BidDepositArg`. -/
def BidDepositArg : Bytes := str "value:bidDeposit"

/-- The constant `RevealBidArg`. -/
def RevealBidArg : Bytes := str "value:revealBid"

/-- The constant `RevealNonceArg`. -/
def RevealNonceArg : Bytes := str "value:revealNonce"

/-- The function `byteToInt`. -/
def byteToInt (b : Bytes) : Except String Int :=
  match Atoi b with
  | none => Except.error "Failed to convert Byte Array to int"
  | some byteInt => Except.ok byteInt

/-- The command `init`. -/
def init (snap : Snapshot) (step : Step) : Option String × Snapshot :=
  match step.identity with
  | none => (some "public key not found in tx arg", snap)
  | some pub_key =>
    let initBidLength := step.GetArg InitBidLengthArg
    if initBidLength.length = 0 then (some "'value:initBidLength' not found in tx arg", snap)
    else
      let initRevealLength := step.GetArg InitRevealLengthArg
      if initRevealLength.length = 0 then
        (some "'value:initRevealLength' not found in tx arg", snap)
      else
        let snap := snap.Set OwnerKey pub_key
        let snap := snap.Set BidLengthKey initBidLength
        let snap := snap.Set RevealLengthKey initRevealLength
        let snap := snap.Set BiddersKey []
        let snap := snap.Set RevealersKey []
        let snap := snap.Set HighestBidderKey (str "-1")
        let snap := snap.Set HighestBidKey (str "-1")
        let snap := snap.Set BlockNumberKey (str "0")
        (none, snap)

/-- The function `getBidLength`. -/
def getBidLength (snap : Snapshot) : Except String Int :=
  match Atoi (snap.Get BidLengthKey) with
  | none => Except.error "failed to convert bid_length to int"
  | some bidLength => Except.ok bidLength

/-- The function `getRevealLength`. -/
def getRevealLength (snap : Snapshot) : Except String Int :=
  match Atoi (snap.Get RevealLengthKey) with
  | none => Except.error "failed to convert reveal_length to int"
  | some revealLength => Except.ok revealLength

/-- The function `getBlockNumber`. -/
def getBlockNumber (snap : Snapshot) : Except String Int :=
  match Atoi (snap.Get BlockNumberKey) with
  | none => Except.error "failed to convert block_number to int"
  | some blockNumber => Except.ok blockNumber

/-- The function `incBlockNumber`. -/
def incBlockNumber (snap : Snapshot) : Option String × Snapshot :=
  match getBlockNumber snap with
  | Except.error _ => (some "failed to get block number", snap)
  | Except.ok blockNumber =>
    let blockNumber := wrapInt (blockNumber + 1)
    (none, snap.Set BlockNumberKey (Itoa blockNumber))

/-- The function `isValidBidPeriod`. -/
def isValidBidPeriod (snap : Snapshot) : Except String Bool :=
  match getBlockNumber snap with
  | Except.error err => Except.error err
  | Except.ok blockNumber =>
    match getBidLength snap with
    | Except.error err => Except.error err
    | Except.ok bidPeriod => if blockNumber < bidPeriod then Except.ok true else Except.ok false

/-- The function `isValidRevealPeriod`. -/
def isValidRevealPeriod (snap : Snapshot) : Except String Bool :=
  match getBlockNumber snap with
  | Except.error err => Except.error err
  | Except.ok blockNumber =>
    match getBidLength snap with
    | Except.error err => Except.error err
    | Except.ok bidPeriod =>
      match getRevealLength snap with
      | Except.error err => Except.error err
      | Except.ok revealPeriod =>
        if blockNumber ≥ bidPeriod ∧ blockNumber < wrapInt (bidPeriod + revealPeriod) then
          Except.ok true
        else Except.ok false

/-- The function `isAuctionOver`. -/
def isAuctionOver (snap : Snapshot) : Except String Bool :=
  match getBlockNumber snap with
  | Except.error err => Except.error err
  | Except.ok blockNumber =>
    match getBidLength snap with
    | Except.error err => Except.error err
    | Except.ok bidPeriod =>
      match getRevealLength snap with
      | Except.error err => Except.error err
      | Except.ok revealPeriod =>
        if blockNumber ≥ wrapInt (bidPeriod + revealPeriod) then Except.ok true
        else Except.ok false

/-- The function `isAuctionOwner`. -/
def isAuctionOwner (snap : Snapshot) (pk : Bytes) : Bool := decide (snap.Get OwnerKey = pk)

/-- The function `getBiddersList`. -/
def getBiddersList (snap : Snapshot) : List Bytes := splitList (snap.Get BiddersKey)

/-- The function `storeBidder`. -/
def storeBidder (snap : Snapshot) (bidder : Bytes) : Snapshot :=
  snap.Set BiddersKey (snap.Get BiddersKey ++ bidder ++ str ";")

/-- The function `findRevealerNumber`: the first position of `revealer` in the bidders list. -/
def findRevealerNumber (snap : Snapshot) (revealer : Bytes) : Except String Nat :=
  let bidders := getBiddersList snap
  if revealer ∈ bidders then Except.ok (bidders.indexOf revealer)
  else Except.error "Revealer did not make a bid"

/-- The function `storeBid`. -/
def storeBid (snap : Snapshot) (bidder bid : Bytes) : Option String × Snapshot :=
  match getBlockNumber snap with
  | Except.error _ => (some "failed to get block number", snap)
  | Except.ok blockNumber =>
    let snap := snap.Set (str "bid:pk:" ++ Itoa blockNumber) bidder
    let snap := snap.Set (str "bid:bid:" ++ Itoa blockNumber) bid
    (none, snap)

/-- The function `getBid`. -/
def getBid (snap : Snapshot) (bidder : Bytes) : Except String Bytes :=
  match findRevealerNumber snap bidder with
  | Except.error _ => Except.error "failed to get bidder number"
  | Except.ok bidderNumber => Except.ok (snap.Get (str "bid:bid:" ++ Itoa bidderNumber))

/-- The function `storeDeposit`. -/
def storeDeposit (snap : Snapshot) (_bidder deposit : Bytes) : Option String × Snapshot :=
  match getBlockNumber snap with
  | Except.error _ => (some "failed to get block number", snap)
  | Except.ok blockNumber =>
    (none, snap.Set (str "bid:deposit:" ++ Itoa blockNumber) deposit)

/-- The function `getDeposit`. -/
def getDeposit (snap : Snapshot) (pk : Bytes) : Except String Bytes :=
  match findRevealerNumber snap pk with
  | Except.error _ => Except.error "failed to get bidder number"
  | Except.ok bidderNumber => Except.ok (snap.Get (str "bid:deposit:" ++ Itoa bidderNumber))

/-- The command `bid`; the result of `storeBidder` is not looked at. -/
def bid (snap : Snapshot) (step : Step) : Option String × Snapshot :=
  match isValidBidPeriod snap with
  | Except.error err => (some err, snap)
  | Except.ok isBidPeriod =>
    if !isBidPeriod then (some "Not valid bid period", snap)
    else
      match step.identity with
      | none => (some "public key not found in tx argument", snap)
      | some pub_key =>
        let bid := step.GetArg BidArg
        if bid.length = 0 then (some "'value:bid' not found in tx arg", snap)
        else
          let deposit := step.GetArg BidDepositArg
          if deposit.length = 0 then (some "'value:bidDeposit' not found in tx arg", snap)
          else
            match byteToInt deposit with
            | Except.error _ => (some "Deposit is not a positive integer value", snap)
            | Except.ok _ =>
              match storeBid snap pub_key bid with
              | (some err, snap) => (some err, snap)
              | (none, snap) =>
                match storeDeposit snap pub_key deposit with
                | (some err, snap) => (some err, snap)
                | (none, snap) =>
                  let snap := storeBidder snap pub_key
                  match incBlockNumber snap with
                  | (some err, snap) => (some err, snap)
                  | (none, snap) => (none, snap)

/-- The method `HashReveal`; `hash` is the digest of `hashFactory` (SHA-256 in `NewContract`),
whose `Write` does not fail. -/
def HashReveal (hash : Bytes → Bytes) (revealBid revealNonce : Bytes) : Bytes :=
  hash (revealBid ++ str ";" ++ revealNonce)

/-- The function `getReveal`: the revealed bid and nonce. -/
def getReveal (snap : Snapshot) (revealer : Bytes) : Except String (Bytes × Bytes) :=
  match findRevealerNumber snap revealer with
  | Except.error _ => Except.error "failed to get revealer number"
  | Except.ok revealerNumber =>
    Except.ok (snap.Get (str "reveal:bid:" ++ Itoa revealerNumber),
      snap.Get (str "reveal:nonce:" ++ Itoa revealerNumber))

/-- The function `storeReveal`. -/
def storeReveal (snap : Snapshot) (revealer bid nonce : Bytes) : Option String × Snapshot :=
  match findRevealerNumber snap revealer with
  | Except.error _ => (some "Could not find revealer number", snap)
  | Except.ok revealerNumber =>
    let snap := snap.Set (str "reveal:bid:" ++ Itoa revealerNumber) bid
    let snap := snap.Set (str "reveal:nonce:" ++ Itoa revealerNumber) nonce
    (none, snap)

/-- The function `getRevealersList`. -/
def getRevealersList (snap : Snapshot) : List Bytes := splitList (snap.Get RevealersKey)

/-- The function `storeRevealer`. -/
def storeRevealer (snap : Snapshot) (revealer : Bytes) : Snapshot :=
  snap.Set RevealersKey (snap.Get RevealersKey ++ revealer ++ str ";")

/-- The method `isValidReveal`: the validity of the reveal and the error. -/
def isValidReveal (hash : Bytes → Bytes) (snap : Snapshot) (pk revealBid revealNonce : Bytes) :
    Bool × Option String :=
  match findRevealerNumber snap pk with
  | Except.error err => (false, some ("Revealer did not make a bid: " ++ err))
  | Except.ok _ =>
    let revealHash := HashReveal hash revealBid revealNonce
    match getBid snap pk with
    | Except.error _ => (false, some "No bid from user")
    | Except.ok bid =>
      if bid ≠ revealHash then (false, some "Bid does not match reveal hash")
      else
        match getDeposit snap pk with
        | Except.error _ => (false, some "No deposit from user")
        | Except.ok deposit =>
          match byteToInt deposit with
          | Except.error _ => (false, some "Failed to convert deposit to int")
          | Except.ok depositInt =>
            match byteToInt revealBid with
            | Except.error _ => (false, some "Failed to convert bid to int")
            | Except.ok revealBidInt =>
              if depositInt < revealBidInt then (false, none) else (true, none)

/-- The command `reveal`. -/
def reveal (hash : Bytes → Bytes) (snap : Snapshot) (step : Step) : Option String × Snapshot :=
  match isValidRevealPeriod snap with
  | Except.error err => (some err, snap)
  | Except.ok isRevealPeriod =>
    if !isRevealPeriod then (some "Not valid reveal period", snap)
    else
      match step.identity with
      | none => (some "public key not found in tx argument", snap)
      | some pub_key =>
        let revealBid := step.GetArg RevealBidArg
        if revealBid.length = 0 then (some "'value:revealBid' not found in tx arg", snap)
        else
          let revealNonce := step.GetArg RevealNonceArg
          if revealNonce.length = 0 then (some "'value:revealNonce' not found in tx arg", snap)
          else
            match isValidReveal hash snap pub_key revealBid revealNonce with
            | (isValid, err) =>
              if !isValid ∨ err ≠ none then (some "Reveal is not valid", snap)
              else
                match storeReveal snap pub_key revealBid revealNonce with
                | (some err, snap) => (some err, snap)
                | (none, snap) =>
                  let snap := storeRevealer snap pub_key
                  match incBlockNumber snap with
                  | (some err, snap) => (some err, snap)
                  | (none, snap) => (none, snap)

/-- The function `refundDeposit`. -/
def refundDeposit (snap : Snapshot) (_bidNumber : Nat) (bidder : Bytes) (deposit : Int) :
    Option String × Snapshot :=
  match storeDeposit snap bidder (str "0") with
  | (some err, snap) => (some ("failed to remove user deposit: " ++ err), snap)
  | (none, snap) =>
    let bankKey := str "bank:" ++ bidder
    let balanceByte := snap.Get bankKey
    let balanceByte := if balanceByte.length = 0 then str "0" else balanceByte
    match byteToInt balanceByte with
    | Except.error err => (some ("failed to convert user deposit to int: " ++ err), snap)
    | Except.ok balance =>
      let newBalance := wrapInt (balance + deposit)
      (none, snap.Set bankKey (Itoa newBalance))

/-- The first loop of `selectWinner`: the highest bidder and bid among the revealers that are
left, given the highest so far; an error when a reveal cannot be read as an `int`. -/
def selectHighest (snap : Snapshot) : List Bytes → Bytes × Int → Except String (Bytes × Int)
  | [], highest => Except.ok highest
  | revealer :: revealers, (highestBidder, highestBid) =>
    match getReveal snap revealer with
    | Except.error _ => Except.error "failed to get reveal for revealer"
    | Except.ok (revealBid, _) =>
      match Atoi revealBid with
      | none => Except.error "failed to convert reveal bid to int"
      | some revealBidInt =>
        if revealBidInt > highestBid then selectHighest snap revealers (revealer, revealBidInt)
        else selectHighest snap revealers (highestBidder, highestBid)

/-- The second loop of `selectWinner`, from the bidder at position `i` on: the deposits are
refunded, the winner's only above the highest bid (the error of that refund is dropped). -/
def refundDeposits (highestBidder : Bytes) (highestBid : Int) :
    Snapshot → Nat → List Bytes → Option String × Snapshot
  | snap, _, [] => (none, snap)
  | snap, i, thisBidder :: bidders =>
    match getDeposit snap thisBidder with
    | Except.error err => (some ("failed to get bidder deposit: " ++ err), snap)
    | Except.ok depositByte =>
      match byteToInt depositByte with
      | Except.error err => (some ("failed to convert deposit to int: " ++ err), snap)
      | Except.ok deposit =>
        if highestBidder ≠ thisBidder then
          match refundDeposit snap i thisBidder deposit with
          | (some err, snap) => (some ("failed to refund user deposit: " ++ err), snap)
          | (none, snap) => refundDeposits highestBidder highestBid snap (i + 1) bidders
        else if deposit > highestBid then
          let snap := (refundDeposit snap i thisBidder (wrapInt (deposit - highestBid))).2
          refundDeposits highestBidder highestBid snap (i + 1) bidders
        else refundDeposits highestBidder highestBid snap (i + 1) bidders

/-- The command `selectWinner`; an error of `isAuctionOwner` or of `isAuctionOver` reads as
`false`. -/
def selectWinner (snap : Snapshot) (step : Step) : Option String × Snapshot :=
  match step.identity with
  | none => (some "Could not obtain pk from tx", snap)
  | some pub_key =>
    if !isAuctionOwner snap pub_key then
      (some "selectWinner not called by contract owner", snap)
    else
      let isAuctionOver :=
        match isAuctionOver snap with
        | Except.error _ => false
        | Except.ok over => over
      if !isAuctionOver then (some "Auction is not over", snap)
      else
        let bidders := getBiddersList snap
        let revealers := getRevealersList snap
        match selectHighest snap revealers ([], -1) with
        | Except.error err => (some err, snap)
        | Except.ok (highestBidder, highestBid) =>
          let snap := snap.Set (str "auction:highest_bidder") highestBidder
          let snap := snap.Set (str "auction:highest_bid") (Itoa highestBid)
          refundDeposits highestBidder highestBid snap 0 bidders

/-- The bids that the revealers have revealed, in the order of the revealers list; `none`
when the reveal of a revealer cannot be read as an `int`. -/
def revealedBids (snap : Snapshot) : List Bytes → Option (List (Bytes × Int))
  | [] => some []
  | revealer :: revealers =>
    match getReveal snap revealer with
    | Except.error _ => none
    | Except.ok (revealBid, _) =>
      match Atoi revealBid, revealedBids snap revealers with
      | some b, some rest => some ((revealer, b) :: rest)
      | _, _ => none

/-- The constant `CmdArg`. -/
def CmdArg : Bytes := str "value:command"

/-- The method `Execute`. The call `access.Match`, which reads the snapshot, is the parameter
`authorized` (`none` is the nil error). -/
def Execute (hash : Bytes → Bytes) (authorized : Snapshot → Step → Option String)
    (snap : Snapshot) (step : Step) : Option String × Snapshot :=
  match authorized snap step with
  | some err => (some ("identity not authorized: " ++ err), snap)
  | none =>
    let cmd := step.GetArg CmdArg
    if cmd.length = 0 then (some "'value:command' not found in tx arg", snap)
    else if cmd = str "INIT" then
      match init snap step with
      | (some err, snap) => (some ("failed to INIT: " ++ err), snap)
      | (none, snap) => (none, snap)
    else if cmd = str "BID" then
      match bid snap step with
      | (some err, snap) => (some ("failed to BID: " ++ err), snap)
      | (none, snap) => (none, snap)
    else if cmd = str "REVEAL" then
      match reveal hash snap step with
      | (some err, snap) => (some ("failed to REVEAL: " ++ err), snap)
      | (none, snap) => (none, snap)
    else if cmd = str "SELECTWINNER" then
      match selectWinner snap step with
      | (some err, snap) => (some ("failed to SELECTWINNER: " ++ err), snap)
      | (none, snap) => (none, snap)
    else (some "unknown command", snap)

/-- The transactions `steps` executed in order from `snap`: the snapshot they leave and the
commands `BID` and `REVEAL` among them that returned no error since the last `INIT` that
returned none, in order; `done` are the ones before `steps`. -/
def succeeded (hash : Bytes → Bytes) (authorized : Snapshot → Step → Option String) :
    Snapshot → List Bytes → List Step → List Bytes × Snapshot
  | snap, done, [] => (done, snap)
  | snap, done, step :: steps =>
    match Execute hash authorized snap step with
    | (some _, snap) => succeeded hash authorized snap done steps
    | (none, snap) =>
      let cmd := step.GetArg CmdArg
      if cmd = str "INIT" then succeeded hash authorized snap [] steps
      else if cmd = str "BID" ∨ cmd = str "REVEAL" then
        succeeded hash authorized snap (done ++ [cmd]) steps
      else succeeded hash authorized snap done steps

/-- What holds of a snapshot of the auction after `nb` commands `BID` and `nr` commands
`REVEAL` succeeded since `INIT`: the block number is their number, within the range of
`int`; there is no bidder before a bid; the bids are at most the bid length and complete
before a reveal; the reveals are at most the reveal length; nothing succeeds while a length
is no `int`. -/
def BlockInvariant (snap : Snapshot) (nb nr : Nat) : Prop :=
  snap.Get BlockNumberKey = Itoa ((nb + nr : Nat) : Int) ∧ ((nb + nr : Nat) : Int) < 2 ^ 63 ∧
    (nb = 0 → snap.Get BiddersKey = []) ∧
    (∀ b, Atoi (snap.Get BidLengthKey) = some b → (nb : Int) ≤ max b 0 ∧ (nr ≠ 0 → (nb : Int) = b)) ∧
    (∀ r, Atoi (snap.Get RevealLengthKey) = some r → (nr : Int) ≤ max r 0) ∧
    (Atoi (snap.Get BidLengthKey) = none → nb = 0 ∧ nr = 0) ∧
    (Atoi (snap.Get RevealLengthKey) = none → nr = 0)

end Auction

/-! ## The event contract (`contracts/event/event.go`) -/

namespace Event

/-- The constant `TXCountKey`. -/
def TXCountKey : Bytes := str "event:txcount"

/-- The constant `OwnerKey`. -/
def OwnerKey : Bytes := str "event:owner"

/-- The constant `UserIndexKey`. -/
def UserIndexKey : Bytes := str "event:users"

/-- The constant `NameKey`. -/
def NameKey : Bytes := str "event:name"

/-- The constant `NumTicketsKey`. -/
def NumTicketsKey : Bytes := str "event:num_tickets"

/-- The constant `PriceKey`. -/
def PriceKey : Bytes := str "event:price"

/-- The constant `MaxResalePriceKey`. -/
def MaxResalePriceKey : Bytes := str "event:max_resale_price"

/-- The constant `ResaleRoyaltyKey`. -/
def ResaleRoyaltyKey : Bytes := str "event:resale_royalty"

/-- The constant `TicketOwnersKey`. -/
def TicketOwnersKey : Bytes := str "event:ticket_owners"

/-- The constant `TicketResellersKey`. -/
def TicketResellersKey : Bytes := str "event:ticket_resellers"

/-- The constant `TicketRebuyersKey`. -/
def TicketRebuyersKey : Bytes := str "event:ticket_rebuyers"

/-- The constant `AttendeesKey`. -/
def AttendeesKey : Bytes := str "event:attendees"

/-- The constant `NumTicketsLeftKey`. -/
def NumTicketsLeftKey : Bytes := str "event:num_tickets_left"

/-- The constant `EventBalanceKey`. -/
def EventBalanceKey : Bytes := str "event:balance"

/-- The key of the tickets of the user at `userIndex`: `BuyerTicketsKey`, a colon and the
index. -/
def buyerTicketsKey (userIndex : Nat) : Bytes := str "event:buyer_tickets:" ++ Itoa userIndex

/-- The key of the event credential of the user at `userIndex` (`BuyerEventCredentialKey`). -/
def buyerEventCredentialKey (userIndex : Nat) : Bytes :=
  str "event:buyer_event_credential:" ++ Itoa userIndex

/-- The key of the number of tickets the user at `userIndex` resells
(`ResellerTicketsNumberKey`). -/
def resellerTicketsNumberKey (userIndex : Nat) : Bytes :=
  str "event:reseller_tickets_number:" ++ Itoa userIndex

/-- The key of the resale price of the user at `userIndex` (`ResellerTicketsPriceKey`). -/
def resellerTicketsPriceKey (userIndex : Nat) : Bytes :=
  str "event:reseller_tickets_price:" ++ Itoa userIndex

/-- The key of the number of tickets the user at `userIndex` asks to rebuy
(`RebuyerTicketsNumberKey`). -/
def rebuyerTicketsNumberKey (userIndex : Nat) : Bytes :=
  str "event:rebuyer_tickets_number:" ++ Itoa userIndex

/-- The key of the rebuy price of the user at `userIndex` (`RebuyerTicketsPriceKey`). -/
def rebuyerTicketsPriceKey (userIndex : Nat) : Bytes :=
  str "event:rebuyer_tickets_price:" ++ Itoa userIndex

/-- The key of the event credential of the rebuyer at `userIndex`
(`RebuyerEventCredentialKey`). -/
def rebuyerEventCredentialKey (userIndex : Nat) : Bytes :=
  str "event:rebuyer_event_credential:" ++ Itoa userIndex

/-- The key of the account of the user at `userIndex`: `BankKey`, `:account:` and the index. -/
def userBalanceKey (userIndex : Nat) : Bytes := str "bank:account:" ++ Itoa userIndex

/-- The constant `InitPKArg`. -/
def InitPKArg : Bytes := str "value:initPK"

/-- The constant `InitNameArg`. -/
def InitNameArg : Bytes := str "value:initName"

/-- The constant `InitNumTicketsArg`. -/
def InitNumTicketsArg : Bytes := str "value:initNumTickets"

/-- The constant `InitPriceArg`. -/
def InitPriceArg : Bytes := str "value:initPrice"

/-- The constant `InitMaxResalePriceArg`. -/
def InitMaxResalePriceArg : Bytes := str "value:initMaxResalePrice"

/-- The constant `InitResaleRoyaltyArg`. -/
def InitResaleRoyaltyArg : Bytes := str "value:initResaleRoyalty"

/-- The constant `BuyPKArg`. -/
def BuyPKArg : Bytes := str "value:buyPK"

/-- The constant `BuyNumTicketsArg`. -/
def BuyNumTicketsArg : Bytes := str "value:buyNumTickets"

/-- The constant `BuyPaymentArg`. -/
def BuyPaymentArg : Bytes := str "value:buyPayment"

/-- The constant `BuyEventCredentialArg`. -/
def BuyEventCredentialArg : Bytes := str "value:buyEventCredential"

/-- The constant `ResellPKArg`. -/
def ResellPKArg : Bytes := str "value:resellPK"

/-- The constant `ResellNumTicketsArg`. -/
def ResellNumTicketsArg : Bytes := str "value:resellNumTickets"

/-- The constant `ResellPriceArg`. -/
def ResellPriceArg : Bytes := str "value:resellPrice"

/-- The constant `RebuyPKArg`. -/
def RebuyPKArg : Bytes := str "value:rebuyPK"

/-- The constant `RebuyNumTicketsArg`. -/
def RebuyNumTicketsArg : Bytes := str "value:rebuyNumTickets"

/-- The constant `RebuyPriceArg`. -/
def RebuyPriceArg : Bytes := str "value:rebuyPrice"

/-- The constant `RebuyEventCredentialArg`. -/
def RebuyEventCredentialArg : Bytes := str "value:rebuyEventCredential"

/-- The constant `HandleResalesPKArg`. -/
def HandleResalesPKArg : Bytes := str "value:handleResalesPK"

/-- The constant `UseTicketPKArg`. -/
def UseTicketPKArg : Bytes := str "value:useTicketPK"

/-- The constant `UseTicketNumTicketsArg`. -/
def UseTicketNumTicketsArg : Bytes := str "value:useTicketNumTickets"

/-- The constant `UseTicketEventCredentialArg`. -/
def UseTicketEventCredentialArg : Bytes := str "value:useTicketEventCredential"

/-- The function `byteToInt`. -/
def byteToInt (b : Bytes) : Except String Int :=
  match Atoi b with
  | none => Except.error "Failed to convert Byte Array to int"
  | some byteInt => Except.ok byteInt

/-- The function `byteToDecimal`. -/
def byteToDecimal {F : Type} (fl : FloatText F) (b : Bytes) : Except String F :=
  match fl.ParseFloat b with
  | none => Except.error "Failed to convert Byte Array to decimal"
  | some byteDecimal => Except.ok byteDecimal

/-- The function `incTxcount`. -/
def incTxcount (snap : Snapshot) : Option String × Snapshot :=
  match byteToInt (snap.Get TXCountKey) with
  | Except.error err => (some ("failed to convert txcount to integer: " ++ err), snap)
  | Except.ok txcount =>
    let txcount := wrapInt (txcount + 1)
    (none, snap.Set TXCountKey (Itoa txcount))

/-- The function `isTicketsLeft`. -/
def isTicketsLeft (snap : Snapshot) (numTickets : Int) : Except String Bool :=
  match byteToInt (snap.Get NumTicketsLeftKey) with
  | Except.error err =>
    Except.error ("failed to convert number of tickets left to float64: " ++ err)
  | Except.ok numTicketsLeft => Except.ok (decide (wrapInt (numTicketsLeft - numTickets) ≥ 0))

/-- The function `isValidPrice`. -/
def isValidPrice {F : Type} [LinearOrderedField F] (fl : FloatText F) (priceByte : Bytes) :
    Except String F :=
  match byteToDecimal fl priceByte with
  | Except.error _ => Except.error "price must be an integer"
  | Except.ok price =>
    if price < 0 then Except.error "price cannot be a negative integer" else Except.ok price

/-- The function `isValidResalePrice`. -/
def isValidResalePrice {F : Type} [LinearOrderedField F] (fl : FloatText F) (snap : Snapshot)
    (priceByte : Bytes) : Except String F :=
  match isValidPrice fl priceByte with
  | Except.error err => Except.error err
  | Except.ok resalePrice =>
    match byteToDecimal fl (snap.Get MaxResalePriceKey) with
    | Except.error err =>
      Except.error ("failed to convert max resale price to integer: '" ++ err ++ "'")
    | Except.ok maxResalePrice =>
      if resalePrice > maxResalePrice then
        Except.error "resale price cannot be greater than max resale price"
      else Except.ok resalePrice

/-- The function `isValidNumTickets`. -/
def isValidNumTickets (numTicketsByte : Bytes) : Except String Int :=
  match byteToInt numTicketsByte with
  | Except.error _ => Except.error "number of tickets must be an integer"
  | Except.ok numTickets =>
    if numTickets ≤ 0 then Except.error "number of tickets must be a positive integer"
    else Except.ok numTickets

/-- The function `isValidMaxResalePrice`. -/
def isValidMaxResalePrice {F : Type} [LinearOrderedField F] (fl : FloatText F)
    (maxResalePriceByte : Bytes) : Option String :=
  match byteToDecimal fl maxResalePriceByte with
  | Except.error _ => some "resale price must be an integer"
  | Except.ok maxResalePrice =>
    if maxResalePrice ≤ 0 then some "resale price cannot be a negative integer" else none

/-- The function `isValidResaleRoyalty`. -/
def isValidResaleRoyalty {F : Type} [LinearOrderedField F] (fl : FloatText F)
    (resaleRoyaltyByte : Bytes) : Option String :=
  match byteToDecimal fl resaleRoyaltyByte with
  | Except.error _ => some "resale price must be an integer"
  | Except.ok resaleRoyalty =>
    if resaleRoyalty < 0 ∨ resaleRoyalty > 100 then
      some "resale royalty must be between 0 and 100"
    else none

/-- The command `init`. -/
def init {F : Type} [LinearOrderedField F] (fl : FloatText F) (snap : Snapshot) (step : Step) :
    Option String × Snapshot :=
  let snap := snap.Set TXCountKey (str "1")
  let initPK := step.GetArg InitPKArg
  if initPK.length = 0 then (some "'value:initPK' not found in tx arg", snap)
  else
    let initName := step.GetArg InitNameArg
    if initName.length = 0 then (some "'value:initName' not found in tx arg", snap)
    else
      let initNumTickets := step.GetArg InitNumTicketsArg
      if initNumTickets.length = 0 then
        (some "'value:initNumTickets' not found in tx arg", snap)
      else
        let initPrice := step.GetArg InitPriceArg
        if initPrice.length = 0 then (some "'value:initPrice' not found in tx arg", snap)
        else
          let initMaxResalePrice := step.GetArg InitMaxResalePriceArg
          if initMaxResalePrice.length = 0 then
            (some "'value:initMaxResalePrice' not found in tx arg", snap)
          else
            let initResaleRoyalty := step.GetArg InitResaleRoyaltyArg
            if initResaleRoyalty.length = 0 then
              (some "'value:initResaleRoyalty' not found in tx arg", snap)
            else
              match isValidPrice fl initPrice with
              | Except.error err => (some ("Invalid Price: '" ++ err ++ "'"), snap)
              | Except.ok _ =>
                match isValidNumTickets initNumTickets with
                | Except.error err =>
                  (some ("Invalid number of tickets: '" ++ err ++ "'"), snap)
                | Except.ok _ =>
                  match isValidMaxResalePrice fl initMaxResalePrice with
                  | some err => (some ("Invalid maximum resale price: '" ++ err ++ "'"), snap)
                  | none =>
                    match isValidResaleRoyalty fl initResaleRoyalty with
                    | some err => (some ("Invalid resale royalty: '" ++ err ++ "'"), snap)
                    | none =>
                      let snap := snap.Set OwnerKey initPK
                      let snap := snap.Set NameKey initName
                      let snap := snap.Set NumTicketsKey initNumTickets
                      let snap := snap.Set PriceKey initPrice
                      let snap := snap.Set MaxResalePriceKey initMaxResalePrice
                      let snap := snap.Set ResaleRoyaltyKey initResaleRoyalty
                      let snap := snap.Set AttendeesKey []
                      let snap := snap.Set NumTicketsLeftKey initNumTickets
                      let snap := snap.Set EventBalanceKey (str "0")
                      (none, snap)

/-- The function `getUsersList`. -/
def getUsersList (snap : Snapshot) : List Bytes := splitList (snap.Get UserIndexKey)

/-- The function `getUserIndex`: the first position of `user` in the users list. -/
def getUserIndex (snap : Snapshot) (user : Bytes) : Except String Nat :=
  let users_list := getUsersList snap
  if user ∈ users_list then Except.ok (users_list.indexOf user)
  else Except.error "user not found"

/-- The function `storeTicketUser`. -/
def storeTicketUser (snap : Snapshot) (newUser : Bytes) : Snapshot :=
  let users_list := snap.Get UserIndexKey
  if Contains users_list newUser then snap
  else snap.Set UserIndexKey (users_list ++ newUser ++ str ";")

/-- The function `getOwnersList`. -/
def getOwnersList (snap : Snapshot) : List Bytes := splitList (snap.Get TicketOwnersKey)

/-- The function `storeTicketOwner`. -/
def storeTicketOwner (snap : Snapshot) (owner : Bytes) : Snapshot :=
  let owners_list := snap.Get TicketOwnersKey
  if Contains owners_list owner then snap
  else snap.Set TicketOwnersKey (owners_list ++ owner ++ str ";")

/-- The list that the three `removeOwnerFrom…` functions write: the entries other than
`owner`, each followed by the delimiter. -/
def removeFromList (oldList : List Bytes) (owner : Bytes) : Bytes :=
  oldList.foldl
    (fun newList thisOwner => if owner ≠ thisOwner then newList ++ thisOwner ++ str ";"
      else newList) []

/-- The function `removeOwnerFromOwners`. -/
def removeOwnerFromOwners (snap : Snapshot) (ownerByte : Bytes) : Snapshot :=
  snap.Set TicketOwnersKey (removeFromList (getOwnersList snap) ownerByte)

/-- The function `getResellersList`. -/
def getResellersList (snap : Snapshot) : List Bytes := splitList (snap.Get TicketResellersKey)

/-- The function `storeTicketReseller`. -/
def storeTicketReseller (snap : Snapshot) (reseller : Bytes) : Snapshot :=
  let resellers_list := snap.Get TicketResellersKey
  let resellers_list :=
    if !Contains resellers_list reseller then resellers_list ++ reseller ++ str ";"
    else resellers_list
  snap.Set TicketResellersKey resellers_list

/-- The function `removeOwnerFromResellers`. -/
def removeOwnerFromResellers (snap : Snapshot) (resellerByte : Bytes) : Snapshot :=
  snap.Set TicketResellersKey (removeFromList (getResellersList snap) resellerByte)

/-- The function `getRebuyersList`. -/
def getRebuyersList (snap : Snapshot) : List Bytes := splitList (snap.Get TicketRebuyersKey)

/-- The function `storeTicketRebuyer`. -/
def storeTicketRebuyer (snap : Snapshot) (rebuyer : Bytes) : Snapshot :=
  let rebuyers_list := snap.Get TicketRebuyersKey
  let rebuyers_list :=
    if !Contains rebuyers_list rebuyer then rebuyers_list ++ rebuyer ++ str ";"
    else rebuyers_list
  snap.Set TicketRebuyersKey rebuyers_list

/-- The function `removeOwnerFromRebuyers`. -/
def removeOwnerFromRebuyers (snap : Snapshot) (rebuyerByte : Bytes) : Snapshot :=
  snap.Set TicketRebuyersKey (removeFromList (getRebuyersList snap) rebuyerByte)

/-- What `getBuyerNumTickets`, `hasNumTickets`, `getResellerNumTickets` and
`getRebuyerNumTickets` do with the key of a count: the count of `user` under `key`, 0 when
nothing is stored; next to an error the value is `-1`. -/
def getCount (key : Nat → Bytes) (snap : Snapshot) (user : Bytes) : Int × Option String :=
  match getUserIndex snap user with
  | Except.error err => (-1, some ("failed to get user index: " ++ err))
  | Except.ok userIndex =>
    let tickets := snap.Get (key userIndex)
    if tickets.length = 0 then (0, none)
    else
      match byteToInt tickets with
      | Except.error err => (-1, some ("failed to convert tickets to integer: " ++ err))
      | Except.ok ticketsInt => (ticketsInt, none)

/-- The function `getBuyerNumTickets`. -/
def getBuyerNumTickets (snap : Snapshot) (owner : Bytes) : Int × Option String :=
  getCount buyerTicketsKey snap owner

/-- The function `hasNumTickets`. -/
def hasNumTickets (snap : Snapshot) (pk : Bytes) : Int × Option String :=
  getCount buyerTicketsKey snap pk

/-- The function `getResellerNumTickets`. -/
def getResellerNumTickets (snap : Snapshot) (reseller : Bytes) : Int × Option String :=
  getCount resellerTicketsNumberKey snap reseller

/-- The function `getRebuyerNumTickets`. -/
def getRebuyerNumTickets (snap : Snapshot) (rebuyer : Bytes) : Int × Option String :=
  getCount rebuyerTicketsNumberKey snap rebuyer

/-- What `changeBuyerNumTickets`, `changeResellerNumTickets` and `changeRebuyerNumTickets`
do with the key of a count: `numTickets` is added to the count of `owner` under `key`, or
stored when nothing is stored. -/
def changeCount (key : Nat → Bytes) (snap : Snapshot) (owner : Bytes) (numTickets : Int) :
    Option String × Snapshot :=
  match getUserIndex snap owner with
  | Except.error err => (some ("failed to get user index: '" ++ err ++ "'"), snap)
  | Except.ok userIndex =>
    let thisTicketsKey := key userIndex
    let tickets := snap.Get thisTicketsKey
    if tickets.length = 0 then (none, snap.Set thisTicketsKey (Itoa numTickets))
    else
      match byteToInt tickets with
      | Except.error err =>
        (some ("failed to convert tickets to integer: '" ++ err ++ "'"), snap)
      | Except.ok ticketsInt =>
        let newTicketsInt := wrapInt (ticketsInt + numTickets)
        (none, snap.Set thisTicketsKey (Itoa newTicketsInt))

/-- The function `changeBuyerNumTickets`. -/
def changeBuyerNumTickets (snap : Snapshot) (owner : Bytes) (numTickets : Int) :
    Option String × Snapshot :=
  changeCount buyerTicketsKey snap owner numTickets

/-- The function `changeResellerNumTickets`. -/
def changeResellerNumTickets (snap : Snapshot) (owner : Bytes) (numTickets : Int) :
    Option String × Snapshot :=
  changeCount resellerTicketsNumberKey snap owner numTickets

/-- The function `changeRebuyerNumTickets`. -/
def changeRebuyerNumTickets (snap : Snapshot) (owner : Bytes) (numTickets : Int) :
    Option String × Snapshot :=
  changeCount rebuyerTicketsNumberKey snap owner numTickets

/-- The function `changeNumTicketsLeft`. -/
def changeNumTicketsLeft (snap : Snapshot) (diff : Int) : Option String × Snapshot :=
  match byteToInt (snap.Get NumTicketsLeftKey) with
  | Except.error err =>
    (some ("failed to convert number of tickets left to integer: '" ++ err ++ "'"), snap)
  | Except.ok numTicketsLeft =>
    let newNumTicketsLeft := wrapInt (numTicketsLeft + diff)
    (none, snap.Set NumTicketsLeftKey (Itoa newNumTicketsLeft))

/-- What `getResellerPrice` and `getRebuyerPrice` do with the key of a price: the price of
`user` under `key`, 0 when nothing is stored; next to an error the value is `-1`. -/
def getPrice {F : Type} [LinearOrderedField F] (fl : FloatText F) (key : Nat → Bytes)
    (snap : Snapshot) (user : Bytes) : F × Option String :=
  match getUserIndex snap user with
  | Except.error err => (-1, some ("failed to get reseller index: " ++ err))
  | Except.ok userIndex =>
    let priceByte := snap.Get (key userIndex)
    if priceByte.length ≠ 0 then
      match byteToDecimal fl priceByte with
      | Except.error err => (-1, some ("failed to convert price to integer: " ++ err))
      | Except.ok price => (price, none)
    else (0, none)

/-- The function `getResellerPrice`. -/
def getResellerPrice {F : Type} [LinearOrderedField F] (fl : FloatText F) (snap : Snapshot)
    (reseller : Bytes) : F × Option String :=
  getPrice fl resellerTicketsPriceKey snap reseller

/-- The function `getRebuyerPrice`. -/
def getRebuyerPrice {F : Type} [LinearOrderedField F] (fl : FloatText F) (snap : Snapshot)
    (rebuyer : Bytes) : F × Option String :=
  getPrice fl rebuyerTicketsPriceKey snap rebuyer

/-- The function `storeResellerPrice`: the price is added to the price already stored. -/
def storeResellerPrice {F : Type} [LinearOrderedField F] (fl : FloatText F) (snap : Snapshot)
    (reseller : Bytes) (price : F) : Option String × Snapshot :=
  match getUserIndex snap reseller with
  | Except.error err => (some ("failed to get reseller index: " ++ err), snap)
  | Except.ok userIndex =>
    let resellerTicketsPriceKey := resellerTicketsPriceKey userIndex
    let resellerTicketsPriceByte := snap.Get resellerTicketsPriceKey
    let resellerTicketsPrice : Except String F :=
      if resellerTicketsPriceByte.length ≠ 0 then byteToDecimal fl resellerTicketsPriceByte
      else Except.ok 0
    match resellerTicketsPrice with
    | Except.error err =>
      (some ("failed to convert number of reseller tickets to integer: " ++ err), snap)
    | Except.ok resellerTicketsPrice =>
      let newResellerTicketsPrice := resellerTicketsPrice + price
      (none, snap.Set resellerTicketsPriceKey (fl.Sprintf newResellerTicketsPrice))

/-- The function `storeRebuyerPrice`. -/
def storeRebuyerPrice {F : Type} (fl : FloatText F) (snap : Snapshot) (rebuyer : Bytes)
    (price : F) : Option String × Snapshot :=
  match getUserIndex snap rebuyer with
  | Except.error err => (some ("failed to get rebuyer index: " ++ err), snap)
  | Except.ok userIndex => (none, snap.Set (rebuyerTicketsPriceKey userIndex) (fl.Sprintf price))

/-- The function `storeBuyerEventCredential`. -/
def storeBuyerEventCredential (snap : Snapshot) (owner eventCredential : Bytes) :
    Option String × Snapshot :=
  match getUserIndex snap owner with
  | Except.error err => (some ("failed to get user index: '" ++ err ++ "'"), snap)
  | Except.ok userIndex => (none, snap.Set (buyerEventCredentialKey userIndex) eventCredential)

/-- The function `getRebuyerEventCredential`. -/
def getRebuyerEventCredential (snap : Snapshot) (rebuyer : Bytes) : Except String Bytes :=
  match getUserIndex snap rebuyer with
  | Except.error err => Except.error ("failed to get rebuyer index: " ++ err)
  | Except.ok userIndex => Except.ok (snap.Get (rebuyerEventCredentialKey userIndex))

/-- The function `storeRebuyerEventCredential`. -/
def storeRebuyerEventCredential (snap : Snapshot) (owner eventCredential : Bytes) :
    Option String × Snapshot :=
  match getUserIndex snap owner with
  | Except.error err => (some ("failed to get user index: '" ++ err ++ "'"), snap)
  | Except.ok userIndex => (none, snap.Set (rebuyerEventCredentialKey userIndex) eventCredential)

/-- The function `transferPaymentToEvent`. -/
def transferPaymentToEvent {F : Type} [LinearOrderedField F] (fl : FloatText F)
    (snap : Snapshot) (ticketPayment : F) : Option String × Snapshot :=
  match byteToDecimal fl (snap.Get EventBalanceKey) with
  | Except.error err =>
    (some ("failed to convert event balance to integer: '" ++ err ++ "'"), snap)
  | Except.ok eventBalance =>
    let eventBalance := eventBalance + ticketPayment
    (none, snap.Set EventBalanceKey (fl.Sprintf eventBalance))

/-- The function `changeUserBalance`. -/
def changeUserBalance {F : Type} [LinearOrderedField F] (fl : FloatText F) (snap : Snapshot)
    (pk : Bytes) (amount : F) : Option String × Snapshot :=
  match getUserIndex snap pk with
  | Except.error err => (some ("failed to get user balance: " ++ err), snap)
  | Except.ok userIndex =>
    let userBalanceKey := userBalanceKey userIndex
    let userBalanceByte := snap.Get userBalanceKey
    let userBalanceByte := if userBalanceByte.length = 0 then str "0.000000" else userBalanceByte
    match byteToDecimal fl userBalanceByte with
    | Except.error err =>
      (some ("failed to convert user balance to float64: '" ++ err ++ "'"), snap)
    | Except.ok userBalance =>
      let newUserBalance := userBalance + amount
      (none, snap.Set userBalanceKey (fl.Sprintf newUserBalance))

/-- The function `transferSalePayment`. -/
def transferSalePayment {F : Type} [LinearOrderedField F] (fl : FloatText F) (snap : Snapshot)
    (buyer : Bytes) (ticketPayment : F) : Option String × Snapshot :=
  match transferPaymentToEvent fl snap ticketPayment with
  | (some err, snap) => (some ("failed to transfer payment to event: '" ++ err ++ "'"), snap)
  | (none, snap) =>
    match changeUserBalance fl snap buyer (-ticketPayment) with
    | (some err, snap) =>
      (some ("failed to transfer payment to reseller: '" ++ err ++ "'"), snap)
    | (none, snap) => (none, snap)

/-- The function `transferResalePayment`. -/
def transferResalePayment {F : Type} [LinearOrderedField F] (fl : FloatText F)
    (snap : Snapshot) (rebuyer reseller : Bytes) (ticketPayment : F) :
    Option String × Snapshot :=
  match byteToDecimal fl (snap.Get ResaleRoyaltyKey) with
  | Except.error err =>
    (some ("failed to convert resale royalty to float64: '" ++ err ++ "'"), snap)
  | Except.ok resaleRoyalty =>
    let paymentToReseller := ticketPayment * ((100 - resaleRoyalty) / 100)
    let paymentToEvent := ticketPayment * (resaleRoyalty / 100)
    match transferPaymentToEvent fl snap paymentToEvent with
    | (some err, snap) => (some ("failed to transfer payment to event: '" ++ err ++ "'"), snap)
    | (none, snap) =>
      match changeUserBalance fl snap reseller paymentToReseller with
      | (some err, snap) =>
        (some ("failed to transfer payment to reseller: '" ++ err ++ "'"), snap)
      | (none, snap) =>
        match changeUserBalance fl snap rebuyer (-ticketPayment) with
        | (some err, snap) =>
          (some ("failed to transfer payment from buyer: '" ++ err ++ "'"), snap)
        | (none, snap) => (none, snap)

/-- The command `buy`; the result of `incTxcount` is not looked at. -/
def buy {F : Type} [LinearOrderedField F] (fl : FloatText F) (snap : Snapshot) (step : Step) :
    Option String × Snapshot :=
  let snap := (incTxcount snap).2
  let pk := step.GetArg BuyPKArg
  if pk.length = 0 then (some "'value:buyPK' not found in tx arg", snap)
  else
    let eventCredential := step.GetArg BuyEventCredentialArg
    if eventCredential.length = 0 then
      (some "'value:buyEventCredential' not found in tx arg", snap)
    else
      let buyPaymentByte := step.GetArg BuyPaymentArg
      if buyPaymentByte.length = 0 then (some "'value:buyPayment' not found in tx arg", snap)
      else
        match byteToDecimal fl buyPaymentByte with
        | Except.error err =>
          (some ("Could not convert ticket payment to float64: " ++ err), snap)
        | Except.ok buyPayment =>
          let buyNumTicketsByte := step.GetArg BuyNumTicketsArg
          if buyNumTicketsByte.length = 0 then
            (some "'value:buyPayment' not found in tx arg", snap)
          else
            match byteToInt buyNumTicketsByte with
            | Except.error err =>
              (some ("Could not convert number of tickets to int: " ++ err), snap)
            | Except.ok buyNumTickets =>
              match byteToDecimal fl (snap.Get PriceKey) with
              | Except.error err =>
                (some ("Could not convert ticket price to float64: " ++ err), snap)
              | Except.ok ticketPrice =>
                if buyPayment < ticketPrice then
                  (some "Payment must be at least the price of each ticket", snap)
                else
                  match isTicketsLeft snap buyNumTickets with
                  | Except.error err =>
                    (some ("Failed to obtain number of tickets left: " ++ err), snap)
                  | Except.ok isTicketsLeft =>
                    if !isTicketsLeft then (some "No tickets left", snap)
                    else
                      let snap := storeTicketUser snap pk
                      let ticketPayment := (buyNumTickets : F) * buyPayment
                      match transferSalePayment fl snap pk ticketPayment with
                      | (some err, snap) =>
                        (some ("Failed to transfer payment: " ++ err), snap)
                      | (none, snap) =>
                        let snap := storeTicketOwner snap pk
                        match changeBuyerNumTickets snap pk buyNumTickets with
                        | (some err, snap) => (some err, snap)
                        | (none, snap) =>
                          match storeBuyerEventCredential snap pk eventCredential with
                          | (some err, snap) => (some err, snap)
                          | (none, snap) =>
                            match changeNumTicketsLeft snap (wrapInt (-1 * buyNumTickets)) with
                            | (some err, snap) => (some err, snap)
                            | (none, snap) => (none, snap)

/-- The command `resell`; the result of `incTxcount` is not looked at. -/
def resell {F : Type} [LinearOrderedField F] (fl : FloatText F) (snap : Snapshot)
    (step : Step) : Option String × Snapshot :=
  let snap := (incTxcount snap).2
  let pk := step.GetArg ResellPKArg
  if pk.length = 0 then (some "'value:resellPK' not found in tx arg", snap)
  else
    match hasNumTickets snap pk with
    | (_, some err) =>
      (some ("Failed to obtain number of tickets for reseller: '" ++ err ++ "'"), snap)
    | (numTicketsReseller, none) =>
      let resellNumTicketsByte := step.GetArg ResellNumTicketsArg
      if resellNumTicketsByte.length = 0 then
        (some "'value:resellNumTickets' not found in tx arg", snap)
      else
        match byteToInt resellNumTicketsByte with
        | Except.error err =>
          (some ("failed to convert number of tickets to integer: '" ++ err ++ "'"), snap)
        | Except.ok resellNumTickets =>
          if numTicketsReseller < resellNumTickets then
            (some "Invalid resale number of tickets: reseller does not have the tickets", snap)
          else
            let resellPriceByte := step.GetArg ResellPriceArg
            if resellPriceByte.length = 0 then
              (some "'value:resellPrice' not found in tx arg", snap)
            else
              match isValidResalePrice fl snap resellPriceByte with
              | Except.error err => (some ("Invalid resale price: '" ++ err ++ "'"), snap)
              | Except.ok resellPrice =>
                let snap := storeTicketReseller snap pk
                match changeResellerNumTickets snap pk resellNumTickets with
                | (some err, snap) =>
                  (some ("Failed to store number of tickets for reseller: '" ++ err ++ "'"),
                    snap)
                | (none, snap) =>
                  match storeResellerPrice fl snap pk resellPrice with
                  | (some err, snap) =>
                    (some ("Failed to store resell price for reseller: '" ++ err ++ "'"), snap)
                  | (none, snap) => (none, snap)

/-- The command `rebuy`; the result of `incTxcount` is not looked at. -/
def rebuy {F : Type} [LinearOrderedField F] (fl : FloatText F) (snap : Snapshot) (step : Step) :
    Option String × Snapshot :=
  let snap := (incTxcount snap).2
  let pk := step.GetArg RebuyPKArg
  if pk.length = 0 then (some "'value:rebuyPK' not found in tx arg", snap)
  else
    let eventCredential := step.GetArg RebuyEventCredentialArg
    if eventCredential.length = 0 then
      (some "'value:rebuyEventCredential' not found in tx arg", snap)
    else
      let snap := storeTicketUser snap pk
      let rebuyPriceByte := step.GetArg RebuyPriceArg
      if rebuyPriceByte.length = 0 then (some "'value:resellPrice' not found in tx arg", snap)
      else
        match isValidPrice fl rebuyPriceByte with
        | Except.error err => (some ("Invalid rebuy price: '" ++ err ++ "'"), snap)
        | Except.ok rebuyPrice =>
          let rebuyNumTicketsByte := step.GetArg RebuyNumTicketsArg
          if rebuyNumTicketsByte.length = 0 then
            (some "'value:resellPrice' not found in tx arg", snap)
          else
            match isValidNumTickets rebuyNumTicketsByte with
            | Except.error err => (some ("Invalid number of tickets: '" ++ err ++ "'"), snap)
            | Except.ok rebuyNumTickets =>
              let snap := storeTicketRebuyer snap pk
              match changeRebuyerNumTickets snap pk rebuyNumTickets with
              | (some err, snap) =>
                (some ("Failed to store number of tickets for reseller: '" ++ err ++ "'"),
                  snap)
              | (none, snap) =>
                match storeRebuyerPrice fl snap pk rebuyPrice with
                | (some err, snap) =>
                  (some ("Failed to store resell price for rebuyer: '" ++ err ++ "'"), snap)
                | (none, snap) =>
                  match storeRebuyerEventCredential snap pk eventCredential with
                  | (some err, snap) =>
                    (some ("Failed to store event credential for rebuyer: '" ++ err ++ "'"),
                      snap)
                  | (none, snap) => (none, snap)

/-- The function `getRebuyersNumTicketsPriceEC`; the four slices it returns, which have one
entry per rebuyer, are one list of quadruples: rebuyer, number of tickets, price and event
credential. -/
def getRebuyersNumTicketsPriceEC {F : Type} [LinearOrderedField F] (fl : FloatText F)
    (snap : Snapshot) : List Bytes → Except String (List (Bytes × Int × F × Bytes))
  | [] => Except.ok []
  | rebuyer :: rebuyersList =>
    match getRebuyerNumTickets snap rebuyer with
    | (_, some err) => Except.error ("Could not get rebuyer number of tickets: " ++ err)
    | (rebuyerNumTickets, none) =>
      match getRebuyerPrice fl snap rebuyer with
      | (_, some err) => Except.error ("Could not get rebuyer price: " ++ err)
      | (rebuyerPrice, none) =>
        match getRebuyerEventCredential snap rebuyer with
        | Except.error err => Except.error ("Could not get rebuyer event credential: " ++ err)
        | Except.ok rebuyerEventCredential =>
          match getRebuyersNumTicketsPriceEC fl snap rebuyersList with
          | Except.error err => Except.error err
          | Except.ok rest =>
            Except.ok ((rebuyer, rebuyerNumTickets, rebuyerPrice, rebuyerEventCredential)
              :: rest)

/-- The function `getResellersNumTicketsPrice`, as far as `handleResales` uses it: the
resellers, or nil when the number of tickets or the price of one of them cannot be read. -/
def getResellersNumTicketsPrice {F : Type} [LinearOrderedField F] (fl : FloatText F)
    (snap : Snapshot) : List Bytes :=
  let resellersList := getResellersList snap
  if resellersList.all (fun reseller =>
      (getResellerNumTickets snap reseller).2.isNone ∧
        (getResellerPrice fl snap reseller).2.isNone) then resellersList
  else []

/-- The loop of `handleResales` over the resellers, for one rebuyer; `numTicketsBought` is
the count so far. No result of a call is looked at. -/
def handleResalesResellers {F : Type} [LinearOrderedField F] (fl : FloatText F)
    (thisRebuyer : Bytes) (thisRebuyerNumTickets : Int) (thisRebuyerPrice : F)
    (rebuyerEventCredential : Bytes) : Snapshot → Int → List Bytes → Snapshot
  | snap, _, [] => snap
  | snap, numTicketsBought, thisReseller :: resellers =>
    let thisResellerNumTickets := (getResellerNumTickets snap thisReseller).1
    let thisResellerPrice := (getResellerPrice fl snap thisReseller).1
    if thisRebuyerPrice < thisResellerPrice then
      handleResalesResellers fl thisRebuyer thisRebuyerNumTickets thisRebuyerPrice
        rebuyerEventCredential snap numTicketsBought resellers
    else
      let (snap, numTicketsBought) :=
        if thisRebuyerNumTickets < thisResellerNumTickets then
          let transferAmount := (thisRebuyerNumTickets : F) * thisResellerPrice
          let snap := (transferResalePayment fl snap thisRebuyer thisReseller transferAmount).2
          let numTicketsBought := wrapInt (numTicketsBought + thisRebuyerNumTickets)
          let snap := storeTicketOwner snap thisRebuyer
          let snap := (changeBuyerNumTickets snap thisRebuyer thisRebuyerNumTickets).2
          let snap := (storeBuyerEventCredential snap thisRebuyer rebuyerEventCredential).2
          let snap :=
            (changeBuyerNumTickets snap thisReseller (wrapInt (-1 * thisRebuyerNumTickets))).2
          let snap :=
            (changeResellerNumTickets snap thisReseller
              (wrapInt (-1 * thisRebuyerNumTickets))).2
          let snap := removeOwnerFromRebuyers snap thisRebuyer
          (snap, numTicketsBought)
        else
          let numTicketsBought := wrapInt (numTicketsBought + thisResellerNumTickets)
          let transferAmount := (thisResellerNumTickets : F) * thisResellerPrice
          let snap := (transferResalePayment fl snap thisRebuyer thisReseller transferAmount).2
          let snap := removeOwnerFromOwners snap thisReseller
          let snap := removeOwnerFromResellers snap thisReseller
          let snap := storeTicketOwner snap thisRebuyer
          let snap := (changeBuyerNumTickets snap thisRebuyer thisResellerNumTickets).2
          let snap := (storeBuyerEventCredential snap thisRebuyer rebuyerEventCredential).2
          let snap :=
            (changeBuyerNumTickets snap thisReseller (wrapInt (-1 * thisResellerNumTickets))).2
          let snap :=
            (changeResellerNumTickets snap thisReseller
              (wrapInt (-1 * thisResellerNumTickets))).2
          let snap :=
            if thisRebuyerNumTickets = thisResellerNumTickets then
              removeOwnerFromRebuyers snap thisRebuyer
            else snap
          (snap, numTicketsBought)
      if numTicketsBought ≥ thisRebuyerNumTickets then snap
      else
        handleResalesResellers fl thisRebuyer thisRebuyerNumTickets thisRebuyerPrice
          rebuyerEventCredential snap numTicketsBought resellers

/-- The loop of `handleResales` over the rebuyers: the resellers are read anew for each. -/
def handleResalesRebuyers {F : Type} [LinearOrderedField F] (fl : FloatText F) :
    Snapshot → List (Bytes × Int × F × Bytes) → Snapshot
  | snap, [] => snap
  | snap, (thisRebuyer, thisRebuyerNumTickets, thisRebuyerPrice, credential) :: rebuyers =>
    let resellers := getResellersNumTicketsPrice fl snap
    let snap := handleResalesResellers fl thisRebuyer thisRebuyerNumTickets thisRebuyerPrice
      credential snap 0 resellers
    handleResalesRebuyers fl snap rebuyers

/-- The command `handleResales`; the result of `incTxcount` is not looked at. -/
def handleResales {F : Type} [LinearOrderedField F] (fl : FloatText F) (snap : Snapshot)
    (step : Step) : Option String × Snapshot :=
  let snap := (incTxcount snap).2
  let pk := step.GetArg HandleResalesPKArg
  if pk.length = 0 then (some "'value:handleResalesPK' not found in tx arg", snap)
  else
    let eventOwnerByte := snap.Get OwnerKey
    if eventOwnerByte ≠ pk then (some "the public key is not the event owner", snap)
    else
      match getRebuyersNumTicketsPriceEC fl snap (getRebuyersList snap) with
      | Except.error err =>
        (some ("Could not get rebuyers, number of tickets, and price: " ++ err), snap)
      | Except.ok rebuyers => (none, handleResalesRebuyers fl snap rebuyers)

/-- The command `useTicket`; the result of `incTxcount` is not looked at. -/
def useTicket (snap : Snapshot) (step : Step) : Option String × Snapshot :=
  let snap := (incTxcount snap).2
  let pk := step.GetArg UseTicketPKArg
  if pk.length = 0 then (some "'value:useTicketPK' not found in tx arg", snap)
  else
    let numTicketsByte := step.GetArg UseTicketNumTicketsArg
    if numTicketsByte.length = 0 then
      (some "'value:useTicketNumTickets' not found in tx arg", snap)
    else
      match byteToInt numTicketsByte with
      | Except.error err =>
        (some ("failed to convert number of tickets to integer: '" ++ err ++ "'"), snap)
      | Except.ok numTickets =>
        let eventCredential := step.GetArg UseTicketEventCredentialArg
        if eventCredential.length = 0 then
          (some "'value:useTicketEventCredential' not found in tx arg", snap)
        else
          match changeBuyerNumTickets snap pk (wrapInt (-1 * numTickets)) with
          | (some err, snap) =>
            (some ("Failed to remove tickets from ticket owner: '" ++ err ++ "'"), snap)
          | (none, snap) =>
            match getBuyerNumTickets snap pk with
            | (_, some err) =>
              (some ("Failed to get number of tickets for owner: '" ++ err ++ "'"), snap)
            | (numTicketsLeft, none) =>
              let snap := if numTicketsLeft = 0 then removeOwnerFromOwners snap pk else snap
              (none, snap)

/-- The text that `Sprintf` writes for `x` is not empty and `ParseFloat` reads it back as
`x`: no precision is lost when `x` is stored. -/
def Reads {F : Type} (fl : FloatText F) (x : F) : Prop :=
  fl.ParseFloat (fl.Sprintf x) = some x ∧ (fl.Sprintf x).length ≠ 0

/-- The account of the user at `userIndex` as a number, an empty account counting as the text
`0.000000`, as `changeUserBalance` reads it; `none` when the stored text is not a number. -/
def accountOf {F : Type} (fl : FloatText F) (snap : Snapshot) (userIndex : Nat) : Option F :=
  fl.ParseFloat
    (if (snap.Get (userBalanceKey userIndex)).length = 0 then str "0.000000"
      else snap.Get (userBalanceKey userIndex))

/-- The sum of `event:balance` and of the accounts of the first `n` users (a text that is not
a number counting as 0). -/
def totalBalance {F : Type} [LinearOrderedField F] (fl : FloatText F) (snap : Snapshot)
    (n : Nat) : F :=
  (fl.ParseFloat (snap.Get EventBalanceKey)).getD 0
    + ∑ k ∈ Finset.range n, (accountOf fl snap k).getD 0

/-- The number of tickets stored under the key `key`, nothing stored counting as 0, as
`changeBuyerNumTickets` and `getBuyerNumTickets` read it. -/
def countAt (snap : Snapshot) (key : Bytes) : Option Int :=
  if (snap.Get key).length = 0 then some 0 else Atoi (snap.Get key)

/-- The function `getUserBalance`: the balance of the account of `pk`, which is first set to
`0.000000` when nothing is stored; next to an error the value is `-1`. -/
def getUserBalance {F : Type} [LinearOrderedField F] (fl : FloatText F) (snap : Snapshot)
    (pk : Bytes) : (F × Option String) × Snapshot :=
  match getUserIndex snap pk with
  | Except.error err => ((-1, some ("failed to get user balance: " ++ err)), snap)
  | Except.ok userIndex =>
    let userBalanceKey := userBalanceKey userIndex
    let userBalanceByte := snap.Get userBalanceKey
    if userBalanceByte.length = 0 then ((0, none), snap.Set userBalanceKey (str "0.000000"))
    else
      match byteToDecimal fl userBalanceByte with
      | Except.error err =>
        ((-1, some ("failed to convert user balance to float64: '" ++ err ++ "'")), snap)
      | Except.ok userBalance => ((userBalance, none), snap)

/-- The command `readEventContract`: its error and the snapshot it leaves; the text that it
returns, which is marshalled from strings and read from the snapshot, is left out. The result
of `incTxcount` is not looked at, nor are the errors of the loops over the owners, the
resellers, the rebuyers and the users; of these loops only the one over the users writes. -/
def readEventContract {F : Type} [LinearOrderedField F] (fl : FloatText F) (snap : Snapshot)
    (_step : Step) : Option String × Snapshot :=
  let snap := (incTxcount snap).2
  match byteToInt (snap.Get NumTicketsKey) with
  | Except.error err =>
    (some ("failed to convert number of tickets to integer: '" ++ err ++ "'"), snap)
  | Except.ok _ =>
    match byteToInt (snap.Get NumTicketsLeftKey) with
    | Except.error err =>
      (some ("failed to convert number of tickets left to integer: '" ++ err ++ "'"), snap)
    | Except.ok _ =>
      match byteToDecimal fl (snap.Get PriceKey) with
      | Except.error err =>
        (some ("failed to convert ticket price to float: '" ++ err ++ "'"), snap)
      | Except.ok _ =>
        match byteToDecimal fl (snap.Get MaxResalePriceKey) with
        | Except.error err =>
          (some ("failed to convert max resale price to float: '" ++ err ++ "'"), snap)
        | Except.ok _ =>
          match byteToDecimal fl (snap.Get ResaleRoyaltyKey) with
          | Except.error err =>
            (some ("failed to get resale royalty per ticket: '" ++ err ++ "'"), snap)
          | Except.ok _ =>
            match byteToDecimal fl (snap.Get EventBalanceKey) with
            | Except.error err =>
              (some ("failed to convert number of tickets left to integer: '" ++ err ++ "'"),
                snap)
            | Except.ok _ =>
              (none, (getUsersList snap).foldl
                (fun snap thisUser => (getUserBalance fl snap thisUser).2) snap)

/-- The constant `CmdArg`. -/
def CmdArg : Bytes := str "value:command"

/-- The method `Execute`. The call `access.Match`, which reads the snapshot, is the parameter
`authorized` (`none` is the nil error). -/
def Execute {F : Type} [LinearOrderedField F] (fl : FloatText F)
    (authorized : Snapshot → Step → Option String) (snap : Snapshot) (step : Step) :
    Option String × Snapshot :=
  match authorized snap step with
  | some err => (some ("identity not authorized: " ++ err), snap)
  | none =>
    let cmd := step.GetArg CmdArg
    if cmd.length = 0 then (some "'value:command' not found in tx arg", snap)
    else if cmd = str "INIT" then
      match init fl snap step with
      | (some err, snap) => (some ("failed to INIT: " ++ err), snap)
      | (none, snap) => (none, snap)
    else if cmd = str "BUY" then
      match buy fl snap step with
      | (some err, snap) => (some ("failed to BUY: " ++ err), snap)
      | (none, snap) => (none, snap)
    else if cmd = str "RESELL" then
      match resell fl snap step with
      | (some err, snap) => (some ("failed to RESELL: " ++ err), snap)
      | (none, snap) => (none, snap)
    else if cmd = str "REBUY" then
      match rebuy fl snap step with
      | (some err, snap) => (some ("failed to REBUY: " ++ err), snap)
      | (none, snap) => (none, snap)
    else if cmd = str "HANDLERESALES" then
      match handleResales fl snap step with
      | (some err, snap) => (some ("failed to REBUY: " ++ err), snap)
      | (none, snap) => (none, snap)
    else if cmd = str "USETICKET" then
      match useTicket snap step with
      | (some err, snap) => (some ("failed to USETICKET: " ++ err), snap)
      | (none, snap) => (none, snap)
    else if cmd = str "READEVENTCONTRACT" then
      match readEventContract fl snap step with
      | (some err, snap) => (some ("failed to READEVENTCONTRACT: " ++ err), snap)
      | (none, snap) => (none, snap)
    else (some "unknown command", snap)

/-- The snapshot that the transactions `steps`, executed in order from `snap`, leave. -/
def runSteps {F : Type} [LinearOrderedField F] (fl : FloatText F)
    (authorized : Snapshot → Step → Option String) : Snapshot → List Step → Snapshot
  | snap, [] => snap
  | snap, step :: steps => runSteps fl authorized (Execute fl authorized snap step).2 steps

/-- What the functions of the event contract other than `init` and `changeNumTicketsLeft` do
to the keys that start as `event:n` (the number of tickets, the number left, the name) and to
the users list: the former hold what they held, the latter has grown at its end. -/
def Extends (snap snap1 : Snapshot) : Prop :=
  (∀ k : Bytes, k.take 7 = str "event:n" → snap1.Get k = snap.Get k) ∧
    snap.Get UserIndexKey <+: snap1.Get UserIndexKey

end Event

/-! ## Example values -/

/-- The empty snapshot, `fake.NewSnapshot()`. -/
def exEmpty : Snapshot := fun _ => []

/-- A snapshot holding the given keys. -/
def exSnapshot (kvs : List (Bytes × Bytes)) : Snapshot :=
  kvs.foldl (fun snap kv => snap.Set kv.1 kv.2) exEmpty

/-- A step with the given identity and arguments. -/
def exStep (identity : Bytes) (args : List (Bytes × Bytes)) : Step :=
  { identity := some identity
    args := fun name => ((args.find? (fun kv => decide (kv.1 = name))).map Prod.snd).getD [] }

/-- Two accounts: `alice` holds 1 and `bob` holds the largest `int`. -/
def exBank : Snapshot :=
  exSnapshot [(str "bank:alice", str "1"), (str "bank:bob", str "9223372036854775807")]

/-- A step of the F3B auction: the bid `b` of `pk`. -/
def exBid (pk b : String) : Step := exStep (str pk) [(str "value:bid", str b)]

/-- The F3B auction right after `INIT` by `owner` with a bid period of 3 transactions. -/
def exF3B : Snapshot :=
  (AuctionF3B.init exEmpty (exStep (str "owner") [(str "value:initBidLength", str "3")])).2

/-- A digest for the examples: the identity. -/
def exDigest : Bytes → Bytes := fun b => b

/-- The `INIT` step of the commit-reveal auction by `owner`. -/
def exAuctionInit (bidLength revealLength : String) : Step :=
  exStep (str "owner")
    [(str "value:initBidLength", str bidLength), (str "value:initRevealLength", str revealLength)]

/-- A `BID` step of the commit-reveal auction: the commitment to `(b, nonce)` under `exDigest`
with a deposit. -/
def exCommit (pk b nonce deposit : String) : Step :=
  exStep (str pk)
    [(str "value:bid", str b ++ str ";" ++ str nonce), (str "value:bidDeposit", str deposit)]

/-- A `REVEAL` step of the commit-reveal auction. -/
def exReveal (pk b nonce : String) : Step :=
  exStep (str pk) [(str "value:revealBid", str b), (str "value:revealNonce", str nonce)]

/-- The commit-reveal auction after the bids of `alice` (5), `bob` (7) and `carol` (7). -/
def exAuctionBids : Snapshot :=
  let s := (Auction.init exEmpty (exAuctionInit "3" "3")).2
  let s := (Auction.bid s (exCommit "alice" "5" "n1" "10")).2
  let s := (Auction.bid s (exCommit "bob" "7" "n2" "10")).2
  (Auction.bid s (exCommit "carol" "7" "n3" "10")).2

/-- The commit-reveal auction after the three bids and their reveals. -/
def exAuctionOver : Snapshot :=
  let s := (Auction.reveal exDigest exAuctionBids (exReveal "alice" "5" "n1")).2
  let s := (Auction.reveal exDigest s (exReveal "bob" "7" "n2")).2
  (Auction.reveal exDigest s (exReveal "carol" "7" "n3")).2

/-- A commit-reveal auction in which the only bid, of `alice`, is `-5`, after its reveal. -/
def exAuctionNegative : Snapshot :=
  let s := (Auction.init exEmpty (exAuctionInit "1" "1")).2
  let s := (Auction.bid s (exCommit "alice" "-5" "n" "0")).2
  (Auction.reveal exDigest s (exReveal "alice" "-5" "n")).2

/-- A decimal numeral read as a rational number: an optional sign, digits, and optionally a
point and digits. -/
def exParseFloat (s : Bytes) : Option ℚ :=
  let neg : Bool := decide (s.head? = some 45)
  let body : Bytes := if s.head? = some 45 ∨ s.head? = some 43 then s.tail else s
  let intPart := body.takeWhile (fun c => decide (c ≠ 46))
  let frac := (body.dropWhile (fun c => decide (c ≠ 46))).tail
  if intPart = [] ∧ frac = [] then none
  else
    match parseDigits intPart, parseDigits frac with
    | some i, some f =>
      let v : ℚ := (i : ℚ) + (f : ℚ) / (10 : ℚ) ^ frac.length
      some (if neg then -v else v)
    | _, _ => none

/-- A rational number written with six decimals, rounded half to even, as the verb `%f`
writes a `float64`. -/
def exSprintf (x : ℚ) : Bytes :=
  let y : ℚ := |x| * 1000000
  let f : Int := ⌊y⌋
  let r : ℚ := y - f
  let m : Nat := (if r < 1 / 2 then f else if 1 / 2 < r then f + 1
    else if f % 2 = 0 then f else f + 1).toNat
  (if x < 0 then [45] else []) ++ natDec (m / 1000000) ++ [46]
    ++ (natDec (1000000 + m % 1000000)).tail

/-- The number texts of the examples, over the rational numbers. -/
def exFloat : FloatText ℚ := { ParseFloat := exParseFloat, Sprintf := exSprintf }

/-- The `INIT` step of the event contract of the examples: `owner` organises an event with
100 tickets at the price 10, a maximum resale price of 20 and a resale royalty of 10 percent. -/
def exEventInit : Step :=
  exStep (str "owner")
    [(str "value:initPK", str "owner"), (str "value:initName", str "Event"),
      (str "value:initNumTickets", str "100"), (str "value:initPrice", str "10"),
      (str "value:initMaxResalePrice", str "20"), (str "value:initResaleRoyalty", str "10")]

/-- A `BUY` step: `pk` buys `n` tickets and pays `payment` for each. -/
def exBuy (pk n payment : String) : Step :=
  exStep (str pk)
    [(str "value:buyPK", str pk), (str "value:buyNumTickets", str n),
      (str "value:buyPayment", str payment),
      (str "value:buyEventCredential", str "credential-" ++ str pk)]

/-- A `RESELL` step: `pk` offers `n` tickets at `price` each. -/
def exResell (pk n price : String) : Step :=
  exStep (str pk)
    [(str "value:resellPK", str pk), (str "value:resellNumTickets", str n),
      (str "value:resellPrice", str price)]

/-- A `REBUY` step: `pk` asks for `n` tickets at up to `price` each. -/
def exRebuy (pk n price : String) : Step :=
  exStep (str pk)
    [(str "value:rebuyPK", str pk), (str "value:rebuyNumTickets", str n),
      (str "value:rebuyPrice", str price),
      (str "value:rebuyEventCredential", str "credential-" ++ str pk)]

/-- The `HANDLERESALES` step of `pk`. -/
def exHandleResales (pk : String) : Step :=
  exStep (str pk) [(str "value:handleResalesPK", str pk)]

/-- The event of the examples right after `INIT`. -/
def exEvent : Snapshot := (Event.init exFloat exEmpty exEventInit).2

/-- The event after `alice` bought 3 tickets at 10. -/
def exEvent1 : Snapshot := (Event.buy exFloat exEvent (exBuy "alice" "3" "10")).2

/-- The event after `bob` too bought 4 tickets at 10. -/
def exEvent2 : Snapshot := (Event.buy exFloat exEvent1 (exBuy "bob" "4" "10")).2

/-- The event after `alice` offered her 3 tickets for resale at 10. -/
def exEvent3 : Snapshot := (Event.resell exFloat exEvent2 (exResell "alice" "3" "10")).2

/-- The event after `bob` offered his 4 tickets for resale at 10. -/
def exEvent4 : Snapshot := (Event.resell exFloat exEvent3 (exResell "bob" "4" "10")).2

/-- The event after `carol` asked to rebuy 5 tickets at 10. -/
def exEventResale : Snapshot := (Event.rebuy exFloat exEvent4 (exRebuy "carol" "5" "10")).2

/-- The `INIT` step of an event with as many tickets as the largest `int`, at the price 0. -/
def exEventInitBig : Step :=
  exStep (str "owner")
    [(str "value:initPK", str "owner"), (str "value:initName", str "Event"),
      (str "value:initNumTickets", str "9223372036854775807"), (str "value:initPrice", str "0"),
      (str "value:initMaxResalePrice", str "20"), (str "value:initResaleRoyalty", str "10")]

/-- The event with the largest `int` of tickets after `alice` bought all of them. -/
def exEventBig1 : Snapshot :=
  (Event.buy exFloat (Event.init exFloat exEmpty exEventInitBig).2
    (exBuy "alice" "9223372036854775807" "0")).2

/-- The event with the largest `int` of tickets after `bob` then bought `-1` ticket. -/
def exEventBig : Snapshot := (Event.buy exFloat exEventBig1 (exBuy "bob" "-1" "0")).2

/-- The step `step` with the command `cmd` as its `value:command` argument. -/
def exCommand (cmd : String) (step : Step) : Step :=
  { identity := step.identity
    args := fun name => if name = str "value:command" then str cmd else step.args name }

end Contracts

namespace Pedersen

set_option autoImplicit false

/-- C10: on an actor whose DKG state is already done, `Setup` returns the error
"startRes is already done, only one setup call is allowed" for every roster, BDN roster and
threshold and every behaviour of the transport, and its trace is empty: it opens no stream and
sends no Start message. -/
theorem Setup_already_done {S P A : Type} [DecidableEq P] (a : Actor P A) (rpc : Rpc S P A)
    (co coBdn : CollectiveAuthority P A) (threshold : Int)
    (hdone : a.startRes.Done = true) :
    Setup a rpc co coBdn threshold =
      (Go.ret none (some "startRes is already done, only one setup call is allowed"), []) := by
  simp [Setup, hdone]

/-- The verification loop returns a nil error exactly when there is a signature for every key
and each signature verifies under the key of its position. -/
theorem verifySignatures_ok_iff {P : Type} (bdn : Bdn P) (message : Bytes) :
    ∀ (pks : List P) (sigs : List Bytes),
      verifySignatures bdn message pks sigs = Go.ret () none ↔
        pks.length ≤ sigs.length ∧
          ∀ (i : Nat) (pk : P) (sig : Bytes), pks[i]? = some pk → sigs[i]? = some sig →
            bdn.verify pk message sig = none := by
  intro pks
  induction pks with
  | nil => intro sigs; simp [verifySignatures]
  | cons pk pks ih =>
    intro sigs
    cases sigs with
    | nil => simp [verifySignatures]
    | cons sig sigs =>
      simp only [verifySignatures, List.length_cons, Nat.add_le_add_iff_right]
      constructor
      · intro h
        cases hv : bdn.verify pk message sig with
        | some e => simp [hv] at h
        | none =>
          simp only [hv] at h
          have h' := (ih sigs).1 h
          refine ⟨h'.1, ?_⟩
          intro i pk' sig' h1 h2
          cases i with
          | zero => simp at h1 h2; subst h1; subst h2; exact hv
          | succ i => simp at h1 h2; exact h'.2 i pk' sig' h1 h2
      · intro h
        have hv : bdn.verify pk message sig = none := h.2 0 pk sig (by simp) (by simp)
        simp only [hv]
        refine (ih sigs).2 ⟨h.1, ?_⟩
        intro i pk' sig' h1 h2
        exact h.2 (i + 1) pk' sig' (by simpa using h1) (by simpa using h2)

/-- The verification loop returns an error when the signature at some position does not
verify under the key of that position. -/
theorem verifySignatures_error_of_invalid {P : Type} (bdn : Bdn P) (message : Bytes) :
    ∀ (pks : List P) (sigs : List Bytes) (i : Nat) (pk : P) (sig : Bytes),
      pks[i]? = some pk → sigs[i]? = some sig → bdn.verify pk message sig ≠ none →
        ∃ e, verifySignatures bdn message pks sigs = Go.ret () (some e) := by
  intro pks
  induction pks with
  | nil => intro sigs i pk sig h1; simp at h1
  | cons pk0 pks ih =>
    intro sigs i pk sig h1 h2 h3
    cases sigs with
    | nil => simp at h2
    | cons sig0 sigs =>
      simp only [verifySignatures]
      cases hv : bdn.verify pk0 message sig0 with
      | some e => exact ⟨e, rfl⟩
      | none =>
        cases i with
        | zero => simp at h1 h2; subst h1; subst h2; exact absurd hv h3
        | succ i => simp at h1 h2; exact ih sigs i pk sig h1 h2 h3

/-- The verification loop does not panic when there are at least as many signatures as keys. -/
theorem verifySignatures_ne_panic {P : Type} (bdn : Bdn P) (message : Bytes) :
    ∀ (pks : List P) (sigs : List Bytes), pks.length ≤ sigs.length →
      verifySignatures bdn message pks sigs ≠ Go.panic := by
  intro pks
  induction pks with
  | nil => intro sigs _; simp [verifySignatures]
  | cons pk0 pks ih =>
    intro sigs h
    cases sigs with
    | nil => simp at h
    | cons sig0 sigs =>
      simp only [verifySignatures]
      cases hv : bdn.verify pk0 message sig0 with
      | some e => simp
      | none => exact ih sigs (by simpa using h)


/-- C7: on a set-up actor with `n` roster BDN keys and a signature list of length at least
`n`, `VerifyEventCredential` returns `(true, nil)` if and only if for every `i < n` the signature
`sigs[i]` verifies under `bdnPubkeys[i]` on exactly the bytes `idHash ++ ":" ++ eventName`;
otherwise it returns `false` together with an error. -/
theorem VerifyEventCredential_iff_all_verify {P A : Type} (bdn : Bdn P) (a : Actor P A)
    (idHash eventName eventCredential : Bytes) (eventSignatures : List Bytes)
    (hdone : a.startRes.Done = true)
    (hlen : a.startRes.bdnPubkeys.length ≤ eventSignatures.length) :
    (VerifyEventCredential bdn a idHash eventName eventCredential eventSignatures
        = Go.ret true none ↔
      ∀ (i : Nat) (pk : P) (sig : Bytes), a.startRes.bdnPubkeys[i]? = some pk →
        eventSignatures[i]? = some sig →
          bdn.verify pk (idHash ++ [58] ++ eventName) sig = none) ∧
    ((¬ ∀ (i : Nat) (pk : P) (sig : Bytes), a.startRes.bdnPubkeys[i]? = some pk →
        eventSignatures[i]? = some sig →
          bdn.verify pk (idHash ++ [58] ++ eventName) sig = none) →
      ∃ e, VerifyEventCredential bdn a idHash eventName eventCredential eventSignatures
        = Go.ret false (some e)) := by
  have hiff := verifySignatures_ok_iff bdn (eventMessage idHash eventName)
    a.startRes.bdnPubkeys eventSignatures
  have hnp := verifySignatures_ne_panic bdn (eventMessage idHash eventName)
    a.startRes.bdnPubkeys eventSignatures hlen
  simp only [eventMessage] at hiff hnp
  simp only [VerifyEventCredential, hdone, eventMessage]
  cases hv : verifySignatures bdn (idHash ++ [58] ++ eventName) a.startRes.bdnPubkeys
      eventSignatures with
  | panic => exact absurd hv hnp
  | ret v err =>
    cases err with
    | none =>
      have hall := (hiff.1 hv).2
      simp only [Bool.not_true, Bool.false_eq_true, if_false, true_iff]
      exact ⟨hall, fun h => absurd hall h⟩
    | some e =>
      have hnot : ¬ ∀ (i : Nat) (pk : P) (sig : Bytes), a.startRes.bdnPubkeys[i]? = some pk →
          eventSignatures[i]? = some sig →
            bdn.verify pk (idHash ++ [58] ++ eventName) sig = none := by
        intro hall
        have := hiff.2 ⟨hlen, hall⟩
        rw [hv] at this
        simp at this
      simp only [Bool.not_true, Bool.false_eq_true, if_false]
      refine ⟨⟨fun h => ?_, fun h => absurd h hnot⟩, fun _ => ⟨_, rfl⟩⟩
      simp at h

/-- Every event of the sending loop is the send of `SignRequest(message, k + i)` to the
address at position `i`. -/
theorem sendSignRequests_events {S P A : Type} (rpc : Rpc S P A) (message : Bytes) :
    ∀ (addrs : List A) (k : Nat) (ev : Event S P A),
      ev ∈ (sendSignRequests rpc message addrs k).1 →
        ∃ (i : Nat) (addr : A), addrs[i]? = some addr ∧
          ev = Event.send (Message.signRequest message ((k + i : Nat) : Int)) [addr] := by
  intro addrs
  induction addrs with
  | nil => intro k ev h; simp [sendSignRequests] at h
  | cons addr rest ih =>
    intro k ev h
    simp only [sendSignRequests] at h
    cases hs : rpc.send k with
    | some e =>
      simp only [hs, List.mem_singleton] at h
      exact ⟨0, addr, by simp, by simpa using h⟩
    | none =>
      simp only [hs, List.mem_cons] at h
      rcases h with h | h
      · exact ⟨0, addr, by simp, by simpa using h⟩
      · obtain ⟨i, addr', h1, h2⟩ := ih (k + 1) ev h
        refine ⟨i + 1, addr', by simpa using h1, ?_⟩
        rw [h2]
        congr 3
        omega

/-- C6: `IssueEventCredential` returns an error with an empty trace (no stream opened, no
sign request sent) as soon as for some roster position `i` the signature `masterSigs[i]` does
not verify under `bdnPubkeys[i]` on the bytes of `idHash`; whenever its trace is not empty the
actor is set up and every roster key has a master signature that verifies; and every message it
sends is `SignRequest(idHash ++ ":" ++ eventName, i)` to participant `i`. -/
theorem IssueEventCredential_master_check {S P A : Type} (bdn : Bdn P) (a : Actor P A)
    (rpc : Rpc S P A) (idHash eventName masterCredential : Bytes)
    (masterSignatures : List Bytes) :
    ((∃ (i : Nat) (pk : P) (sig : Bytes), a.startRes.bdnPubkeys[i]? = some pk ∧
          masterSignatures[i]? = some sig ∧ bdn.verify pk idHash sig ≠ none) →
        (∃ e, (IssueEventCredential bdn a rpc idHash eventName masterCredential
            masterSignatures).1 = Go.ret ([], []) (some e)) ∧
        (IssueEventCredential bdn a rpc idHash eventName masterCredential
            masterSignatures).2 = []) ∧
    ((IssueEventCredential bdn a rpc idHash eventName masterCredential
          masterSignatures).2 ≠ [] →
        a.startRes.Done = true ∧
        ∀ (i : Nat) (pk : P), a.startRes.bdnPubkeys[i]? = some pk →
          ∃ sig, masterSignatures[i]? = some sig ∧ bdn.verify pk idHash sig = none) ∧
    (∀ (msg : Message S P A) (dest : List A),
        Event.send msg dest ∈ (IssueEventCredential bdn a rpc idHash eventName
          masterCredential masterSignatures).2 →
        ∃ (i : Nat) (addr : A), a.startRes.participants[i]? = some addr ∧
          msg = Message.signRequest (idHash ++ [58] ++ eventName) (i : Int) ∧
          dest = [addr]) := by
  refine ⟨?_, ?_, ?_⟩
  · rintro ⟨i, pk, sig, h1, h2, h3⟩
    obtain ⟨e, he⟩ := verifySignatures_error_of_invalid bdn idHash a.startRes.bdnPubkeys
      masterSignatures i pk sig h1 h2 h3
    unfold IssueEventCredential
    cases hd : a.startRes.Done with
    | false => exact ⟨⟨initDkgFirst, by simp⟩, by simp⟩
    | true =>
      simp only [he]
      exact ⟨⟨"failed to verify master signatures: " ++ e, by simp⟩, by simp⟩
  · intro htrace
    unfold IssueEventCredential at htrace
    cases hd : a.startRes.Done with
    | false => simp [hd] at htrace
    | true =>
      refine ⟨rfl, ?_⟩
      cases hv : verifySignatures bdn idHash a.startRes.bdnPubkeys masterSignatures with
      | panic => simp [hd, hv] at htrace
      | ret v err =>
        cases err with
        | some e => simp [hd, hv] at htrace
        | none =>
          obtain ⟨hlen, hall⟩ := (verifySignatures_ok_iff bdn idHash a.startRes.bdnPubkeys
            masterSignatures).1 hv
          intro i pk hpk
          have hi : i < a.startRes.bdnPubkeys.length := by
            by_contra hcon
            rw [List.getElem?_eq_none (by omega)] at hpk
            simp at hpk
          have hi' : i < masterSignatures.length := by omega
          refine ⟨masterSignatures[i], List.getElem?_eq_getElem hi', ?_⟩
          exact hall i pk _ hpk (List.getElem?_eq_getElem hi')
  · intro msg dest hmem
    unfold IssueEventCredential at hmem
    have key : ∀ ev : Event S P A, ev ∈ (sendSignRequests rpc (eventMessage idHash eventName)
        a.startRes.participants 0).1 → ev = Event.send msg dest →
        ∃ (i : Nat) (addr : A), a.startRes.participants[i]? = some addr ∧
          msg = Message.signRequest (idHash ++ [58] ++ eventName) (i : Int) ∧
          dest = [addr] := by
      intro ev hev heq
      obtain ⟨i, addr, h1, h2⟩ := sendSignRequests_events rpc _ _ 0 ev hev
      rw [heq] at h2
      simp only [eventMessage, Event.send.injEq, Nat.zero_add] at h2
      exact ⟨i, addr, h1, h2.1, h2.2⟩
    cases hd : a.startRes.Done with
    | false => simp [hd] at hmem
    | true =>
      simp only [hd, Bool.not_true, Bool.false_eq_true, if_false] at hmem
      cases hv : verifySignatures bdn idHash a.startRes.bdnPubkeys masterSignatures with
      | panic => simp [hv] at hmem
      | ret v err =>
        cases err with
        | some e => simp [hv] at hmem
        | none =>
          simp only [hv] at hmem
          cases hs : rpc.stream with
          | some e => simp [hs] at hmem
          | none =>
            simp only [hs] at hmem
            have hmem' : Event.send msg dest ∈ Event.stream a.startRes.participants ::
                (sendSignRequests rpc (eventMessage idHash eventName)
                  a.startRes.participants 0).1 := by
              revert hmem
              split <;> try split
              all_goals try split
              all_goals try split
              all_goals exact fun h => h
            simp only [List.mem_cons] at hmem'
            rcases hmem' with h | h
            · cases h
            · exact key _ h rfl

/-- `isDuplicate` is membership in the id table. -/
theorem isDuplicate_iff {P A : Type} (a : Actor P A) (id : Bytes) :
    isDuplicate a id = true ↔ id ∈ a.idTable := by
  simp only [isDuplicate, List.any_eq_true, decide_eq_true_eq]
  constructor
  · rintro ⟨x, hx, rfl⟩; exact hx
  · intro h; exact ⟨id, h, rfl⟩

/-- One call of `IssueMasterCredential` either returns a nil error, and then the id was not in
the table and is appended to it, or returns no nil error and leaves the actor as it was. -/
theorem IssueMasterCredential_step {S P A : Type} (bdn : Bdn P) (a : Actor P A)
    (rpc : Rpc S P A) (idHash : Bytes) :
    ((∃ v, (IssueMasterCredential bdn a rpc idHash).1 = Go.ret v none) ∧
      (IssueMasterCredential bdn a rpc idHash).2.2 = addToIDTable a idHash ∧
      idHash ∉ a.idTable ∧ a.startRes.Done = true) ∨
    ((∀ v, (IssueMasterCredential bdn a rpc idHash).1 ≠ Go.ret v none) ∧
      (IssueMasterCredential bdn a rpc idHash).2.2 = a) := by
  unfold IssueMasterCredential
  cases hd : a.startRes.Done with
  | false => right; simp
  | true =>
    cases hdup : isDuplicate a idHash with
    | true => right; simp
    | false =>
      have hnot : idHash ∉ a.idTable := by
        intro h; rw [(isDuplicate_iff a idHash).2 h] at hdup; cases hdup
      simp only [Bool.not_true, Bool.false_eq_true, if_false]
      cases hs : rpc.stream with
      | some e => right; simp
      | none =>
        simp only []
        cases hsend : (sendSignRequests rpc idHash a.startRes.participants 0).2 with
        | some e => right; simp
        | none =>
          simp only []
          cases hr : recvSignResponses rpc a.startRes.participants.length 0 with
          | error e => right; simp
          | ok responses =>
            simp only []
            cases hsort : sortSignatures responses
                (List.replicate a.startRes.participants.length []) with
            | none => right; simp
            | some signatures =>
              simp only []
              cases hagg : bdn.aggregate signatures with
              | error e => right; simp
              | ok aggSigs => left; exact ⟨⟨_, rfl⟩, rfl, hnot, trivial⟩

/-- After a sequence of calls the id table is the table before, followed by the ids of the
calls that returned a nil error; it stays free of duplicates. -/
theorem issueMasterRun_table {S P A : Type} (bdn : Bdn P) :
    ∀ (calls : List (State P A × Rpc S P A × Bytes)) (idTable : List Bytes),
      (issueMasterRun bdn idTable calls).1 = idTable ++ (issueMasterRun bdn idTable calls).2 ∧
      (idTable.Nodup → (issueMasterRun bdn idTable calls).1.Nodup) := by
  intro calls
  induction calls with
  | nil => intro idTable; simp [issueMasterRun]
  | cons c rest ih =>
    intro idTable
    obtain ⟨st, rpc, idHash⟩ := c
    simp only [issueMasterRun]
    rcases IssueMasterCredential_step bdn ⟨st, idTable⟩ rpc idHash with
      ⟨⟨v, hv⟩, htab, hnot, _⟩ | ⟨hne, htab⟩
    · rw [hv, htab]
      simp only [addToIDTable]
      obtain ⟨h1, h2⟩ := ih (idTable ++ [idHash])
      refine ⟨by rw [h1]; simp, fun hnd => h2 ?_⟩
      rw [List.nodup_append]
      refine ⟨hnd, by simp, ?_⟩
      intro x hx hx'
      simp at hx'
      subst hx'
      exact hnot hx
    · rw [htab]
      obtain ⟨h1, h2⟩ := ih idTable
      cases hres : (IssueMasterCredential bdn ⟨st, idTable⟩ rpc idHash).1 with
      | panic => exact ⟨h1, h2⟩
      | ret v err =>
        cases err with
        | none => exact absurd hres (hne v)
        | some e => exact ⟨h1, h2⟩

/-- Witness of C10: a second `Setup` on the example actor, whose state is certified. -/
theorem Setup_already_done_witness :
    exActor.startRes.Done = true ∧
      Setup (S := Nat) exActor ⟨none, fun _ => none, fun _ => Except.ok (Message.startDone 3)⟩
          ⟨[100, 101], [PublicKey.ed25519 1, PublicKey.ed25519 2]⟩
          ⟨[100, 101], [PublicKey.bls 7, PublicKey.bls 8]⟩ 2 =
        (Go.ret none (some "startRes is already done, only one setup call is allowed"), []) :=
  ⟨by decide, Setup_already_done _ _ _ _ _ (by decide)⟩

/-- Witness of C7: two valid event signatures of the toy scheme on the example actor. -/
theorem VerifyEventCredential_iff_all_verify_witness :
    exActor.startRes.Done = true ∧
      exActor.startRes.bdnPubkeys.length ≤ [[7, 1, 58, 2], [8, 1, 58, 2]].length ∧
      exBdn.verify 8 [1, 58, 2] [8, 1, 58, 2] = none :=
  ⟨by decide, by decide,
    (VerifyEventCredential_iff_all_verify exBdn exActor [1] [2] []
      [[7, 1, 58, 2], [8, 1, 58, 2]] (by decide) (by decide)).1.1 (by decide) 1 8
      [8, 1, 58, 2] rfl rfl⟩

/-- Witness of C6: on the example actor a master signature list whose second entry is
not a signature under the second key leaves the trace empty. -/
theorem IssueEventCredential_master_check_witness :
    (∃ (i : Nat) (pk : Nat) (sig : Bytes), exActor.startRes.bdnPubkeys[i]? = some pk ∧
        [[7, 1], [9, 1]][i]? = some sig ∧ exBdn.verify pk [1] sig ≠ none) ∧
      (IssueEventCredential (S := Nat) exBdn exActor
        ⟨none, fun _ => none, fun _ => Except.ok Message.other⟩ [1] [2] [7, 1, 9, 1]
        [[7, 1], [9, 1]]).2 = [] :=
  ⟨⟨1, 8, [9, 1], by decide, by decide, by decide⟩,
    ((IssueEventCredential_master_check exBdn exActor _ [1] [2] [7, 1, 9, 1]
      [[7, 1], [9, 1]]).1 ⟨1, 8, [9, 1], by decide, by decide, by decide⟩).2⟩

/-- C4: on a set-up actor, `IssueMasterCredential(idHash)` fails with the error "ID has
already been issued a master credential", with an empty trace (no stream opened, no sign request
sent) and the actor unchanged, whenever `idHash` is in the id table. Starting from the empty
table of `Listen`, after any sequence of calls the table is exactly the list of the idHashes of
the calls that returned a nil error, without duplicate. One call appends `idHash` when it returns
a nil error and leaves the table as it was otherwise, so a second call with the same `idHash`
after a successful one fails with that error. Calls are sequential. -/
theorem IssueMasterCredential_duplicate {S P A : Type} (bdn : Bdn P)
    (calls : List (State P A × Rpc S P A × Bytes)) (a : Actor P A) (rpc rpc' : Rpc S P A)
    (idHash : Bytes) (hdone : a.startRes.Done = true) :
    (idHash ∈ a.idTable →
      IssueMasterCredential bdn a rpc idHash =
        (Go.ret ([], []) (some "ID has already been issued a master credential"), [], a)) ∧
    ((issueMasterRun bdn [] calls).1 = (issueMasterRun bdn [] calls).2 ∧
      (issueMasterRun bdn [] calls).1.Nodup) ∧
    (((∃ v, (IssueMasterCredential bdn a rpc idHash).1 = Go.ret v none) →
        (IssueMasterCredential bdn a rpc idHash).2.2.idTable = a.idTable ++ [idHash]) ∧
      ((¬ ∃ v, (IssueMasterCredential bdn a rpc idHash).1 = Go.ret v none) →
        (IssueMasterCredential bdn a rpc idHash).2.2.idTable = a.idTable)) ∧
    ((∃ v, (IssueMasterCredential bdn a rpc idHash).1 = Go.ret v none) →
      IssueMasterCredential bdn (IssueMasterCredential bdn a rpc idHash).2.2 rpc' idHash =
        (Go.ret ([], []) (some "ID has already been issued a master credential"), [],
          (IssueMasterCredential bdn a rpc idHash).2.2)) := by
  have hdupErr : ∀ (b : Actor P A) (r : Rpc S P A), b.startRes.Done = true →
      idHash ∈ b.idTable → IssueMasterCredential bdn b r idHash =
        (Go.ret ([], []) (some "ID has already been issued a master credential"), [], b) := by
    intro b r hb hin
    simp [IssueMasterCredential, hb, (isDuplicate_iff b idHash).2 hin]
  refine ⟨hdupErr a rpc hdone, ?_, ?_, ?_⟩
  · have h := issueMasterRun_table bdn calls ([] : List Bytes)
    exact ⟨by simpa using h.1, h.2 List.nodup_nil⟩
  · rcases IssueMasterCredential_step bdn a rpc idHash with ⟨hv, htab, _, _⟩ | ⟨hne, htab⟩
    · exact ⟨fun _ => by rw [htab]; rfl, fun h => absurd hv h⟩
    · exact ⟨fun ⟨v, hv⟩ => absurd hv (hne v), fun _ => by rw [htab]⟩
  · rintro ⟨v, hv⟩
    rcases IssueMasterCredential_step bdn a rpc idHash with ⟨_, htab, _, _⟩ | ⟨hne, _⟩
    · apply hdupErr
      · rw [htab]; exact hdone
      · rw [htab]; simp [addToIDTable]
    · exact absurd hv (hne v)

/-- Witness of C4: two calls with the idHash `[1]` on the example actor, the first with
two sign responses of the toy scheme arriving in the order 1, 0. -/
theorem IssueMasterCredential_duplicate_witness :
    exActor.startRes.Done = true ∧
      (issueMasterRun exBdn []
        [(exState, (⟨none, fun _ => none, fun k =>
            if k = 0 then Except.ok (Message.signResponse [8, 1] 1 8)
            else Except.ok (Message.signResponse [7, 1] 0 7)⟩ : Rpc Nat Nat Nat), [1]),
         (exState, ⟨none, fun _ => none, fun _ => Except.error "closed"⟩, [1])]).1.Nodup :=
  ⟨by decide,
    (IssueMasterCredential_duplicate exBdn _ exActor
      ⟨none, fun _ => none, fun _ => Except.error "closed"⟩
      ⟨none, fun _ => none, fun _ => Except.error "closed"⟩ [1] (by decide)).2.1.2⟩

/-- The sending loop returns no error when no send fails. -/
theorem sendSignRequests_ok {S P A : Type} (rpc : Rpc S P A) (message : Bytes)
    (hsend : ∀ i, rpc.send i = none) :
    ∀ (addrs : List A) (k : Nat), (sendSignRequests rpc message addrs k).2 = none := by
  intro addrs
  induction addrs with
  | nil => intro k; rfl
  | cons addr rest ih => intro k; simp only [sendSignRequests, hsend k]; exact ih (k + 1)

/-- `IssueMasterCredential` on a set-up actor, for a new id, when the stream is created, no
send fails and the responses sort to `signatures`: the outcome is that of the aggregation. -/
theorem IssueMasterCredential_of_responses {S P A : Type} (bdn : Bdn P) (a : Actor P A)
    (rpc : Rpc S P A) (idHash : Bytes) (responses : List (Bytes × Int × P))
    (signatures : List Bytes) (hdone : a.startRes.Done = true) (hnew : idHash ∉ a.idTable)
    (hstream : rpc.stream = none) (hsend : ∀ i, rpc.send i = none)
    (hrecv : recvSignResponses rpc a.startRes.participants.length 0 = Except.ok responses)
    (hsort : sortSignatures responses (List.replicate a.startRes.participants.length [])
      = some signatures) :
    IssueMasterCredential bdn a rpc idHash =
      match bdn.aggregate signatures with
      | Except.error e =>
        (Go.ret ([], []) (some ("failed to aggregate signatures: " ++ e)),
          Event.stream a.startRes.participants ::
            (sendSignRequests rpc idHash a.startRes.participants 0).1, a)
      | Except.ok aggSigs =>
        (Go.ret (aggSigs, signatures) none,
          Event.stream a.startRes.participants ::
            (sendSignRequests rpc idHash a.startRes.participants 0).1,
          addToIDTable a idHash) := by
  have hdup : isDuplicate a idHash = false := by
    cases h : isDuplicate a idHash with
    | false => rfl
    | true => exact absurd ((isDuplicate_iff a idHash).1 h) hnew
  simp only [IssueMasterCredential, hdone, hdup, hstream,
    sendSignRequests_ok rpc idHash hsend, hrecv, hsort, Bool.not_true, Bool.false_eq_true,
    if_false]

/-- `IssueEventCredential` on a set-up actor whose master signatures verify, when the stream
is created, no send fails and the responses sort to `signatures`: the outcome is that of the
aggregation. -/
theorem IssueEventCredential_of_responses {S P A : Type} (bdn : Bdn P) (a : Actor P A)
    (rpc : Rpc S P A) (idHash eventName masterCredential : Bytes)
    (masterSignatures : List Bytes) (responses : List (Bytes × Int × P))
    (signatures : List Bytes) (hdone : a.startRes.Done = true)
    (hmaster : verifySignatures bdn idHash a.startRes.bdnPubkeys masterSignatures
      = Go.ret () none)
    (hstream : rpc.stream = none) (hsend : ∀ i, rpc.send i = none)
    (hrecv : recvSignResponses rpc a.startRes.participants.length 0 = Except.ok responses)
    (hsort : sortSignatures responses (List.replicate a.startRes.participants.length [])
      = some signatures) :
    (IssueEventCredential bdn a rpc idHash eventName masterCredential masterSignatures).1 =
      match bdn.aggregate signatures with
      | Except.error e => Go.ret ([], []) (some ("failed to aggregate signatures: " ++ e))
      | Except.ok aggSigs => Go.ret (aggSigs, signatures) none := by
  simp only [IssueEventCredential, hdone, hmaster, hstream,
    sendSignRequests_ok rpc _ hsend, hrecv, hsort, Bool.not_true, Bool.false_eq_true,
    if_false]
  cases bdn.aggregate signatures <;> rfl

/-- The receiving loop returns the responses in the order of arrival. -/
theorem recvSignResponses_of_recv {S P A : Type} (rpc : Rpc S P A)
    (f : Nat → Bytes × Int × P) :
    ∀ (n i : Nat),
      (∀ k, i ≤ k → k < i + n →
        rpc.recv k = Except.ok (Message.signResponse (f k).1 (f k).2.1 (f k).2.2)) →
      recvSignResponses rpc n i = Except.ok ((List.range' i n).map f) := by
  intro n
  induction n with
  | zero => intro i _; rfl
  | succ n ih =>
    intro i h
    simp only [recvSignResponses, h i (le_refl i) (by omega),
      ih (i + 1) (fun k h1 h2 => h k (by omega) (by omega)), List.range'_succ,
      List.map_cons]

/-- The sorting loop over responses that carry the signature `sig j` under the index `j`:
afterwards a position that some response named holds its signature, the others are unchanged. -/
theorem sortSignatures_spec {P : Type} (sig : Nat → Bytes) (σ : Nat → Nat) (pk : Nat → P) :
    ∀ (l : List Nat) (acc : List Bytes), (∀ k ∈ l, σ k < acc.length) →
      ∃ acc', sortSignatures (l.map (fun k => (sig (σ k), ((σ k : Nat) : Int), pk k))) acc
          = some acc' ∧ acc'.length = acc.length ∧
        ∀ j, j < acc.length →
          acc'[j]? = if j ∈ l.map σ then some (sig j) else acc[j]? := by
  intro l
  induction l with
  | nil => intro acc _; exact ⟨acc, rfl, rfl, fun j _ => by simp⟩
  | cons k rest ih =>
    intro acc h
    have hk : σ k < acc.length := h k (by simp)
    obtain ⟨acc', h1, h2, h3⟩ := ih (acc.set (σ k) (sig (σ k)))
      (fun k' hk' => by simpa using h k' (by simp [hk']))
    refine ⟨acc', ?_, by simpa using h2, ?_⟩
    · simp only [List.map_cons, sortSignatures, Int.toNat_ofNat, hk, Int.natCast_nonneg,
        and_self, if_true]
      exact h1
    · intro j hj
      rw [h3 j (by simpa using hj)]
      by_cases hmem : j ∈ rest.map σ
      · simp [hmem]
      · by_cases hjk : σ k = j
        · subst hjk
          simp [List.getElem?_set, hk]
        · have hjk' : ¬ j = σ k := fun h => hjk h.symm
          simp only [hmem, if_false, List.map_cons, List.mem_cons, hjk', false_or]
          rw [List.getElem?_set]
          simp [hjk]

/-- When the indexes of the responses are a permutation of `0..n-1`, the sorted list holds
the signature of index `j` at position `j`. -/
theorem sortSignatures_perm {P : Type} (sig : Nat → Bytes) (σ : Nat → Nat) (pk : Nat → P)
    (n : Nat) (hlt : ∀ k, k < n → σ k < n) (hsurj : ∀ j, j < n → ∃ k, k < n ∧ σ k = j) :
    sortSignatures ((List.range' 0 n).map (fun k => (sig (σ k), ((σ k : Nat) : Int), pk k)))
      (List.replicate n []) = some ((List.range n).map sig) := by
  obtain ⟨acc', h1, h2, h3⟩ := sortSignatures_spec sig σ pk (List.range' 0 n)
    (List.replicate n []) (fun k hk => by
      simp only [List.mem_range'_1] at hk
      simpa using hlt k (by omega))
  rw [h1]
  congr 1
  apply List.ext_getElem?
  intro j
  by_cases hj : j < n
  · rw [h3 j (by simpa using hj)]
    obtain ⟨k, hk, hkj⟩ := hsurj j hj
    have hmem : j ∈ (List.range' 0 n).map σ := by
      simp only [List.mem_map, List.mem_range'_1]
      exact ⟨k, ⟨by omega, by omega⟩, hkj⟩
    simp [hmem, hj]
  · have e1 : acc'[j]? = none := List.getElem?_eq_none (by simp at h2; omega)
    have e2 : ((List.range n).map sig)[j]? = none := List.getElem?_eq_none (by simp; omega)
    rw [e1, e2]

/-- Counterexample to C5: on the example actor the response of index 1 carries `[9, 9]`,
which is not a signature of the idHash `[1]` under the roster key 8, and
`IssueMasterCredential` returns a credential with a nil error. -/
theorem IssueMasterCredential_unverified_counterexample :
    exActor.startRes.bdnPubkeys[1]? = some 8 ∧ exBdn.verify 8 [1] [9, 9] ≠ none ∧
      (IssueMasterCredential (S := Nat) exBdn exActor
        (exRpc [Message.signResponse [9, 9] 1 8, Message.signResponse [7, 1] 0 7]) [1]).1 =
        Go.ret ([7, 1, 9, 9], [[7, 1], [9, 9]]) none := by
  refine ⟨by decide, by decide, by decide⟩

/-- C5 (amended): for every set of `n` sign responses received by
`IssueMasterCredential(idHash)` whose indexes are in range, the call returns an error instead
of a credential exactly when `AggregateSignatures` fails on the signatures sorted by index, and
otherwise returns the aggregate with those signatures; no response is verified: the outcome is
the same whatever the verification function would answer. -/
theorem IssueMasterCredential_aggregates_unverified {S P A : Type} (bdn : Bdn P)
    (verify' : P → Bytes → Bytes → Option String) (a : Actor P A)
    (rpc : Rpc S P A) (idHash : Bytes) (responses : List (Bytes × Int × P))
    (signatures : List Bytes) (hdone : a.startRes.Done = true) (hnew : idHash ∉ a.idTable)
    (hstream : rpc.stream = none) (hsend : ∀ i, rpc.send i = none)
    (hrecv : recvSignResponses rpc a.startRes.participants.length 0 = Except.ok responses)
    (hsort : sortSignatures responses (List.replicate a.startRes.participants.length [])
      = some signatures) :
    IssueMasterCredential ⟨verify', bdn.aggregate⟩ a rpc idHash =
      IssueMasterCredential bdn a rpc idHash ∧
    ((∃ e, (IssueMasterCredential bdn a rpc idHash).1 = Go.ret ([], []) (some e)) ↔
      ∃ e, bdn.aggregate signatures = Except.error e) ∧
    (∀ c, bdn.aggregate signatures = Except.ok c →
      (IssueMasterCredential bdn a rpc idHash).1 = Go.ret (c, signatures) none) := by
  have h1 := IssueMasterCredential_of_responses bdn a rpc idHash responses signatures hdone
    hnew hstream hsend hrecv hsort
  have h2 := IssueMasterCredential_of_responses ⟨verify', bdn.aggregate⟩ a rpc idHash
    responses signatures hdone hnew hstream hsend hrecv hsort
  refine ⟨by rw [h1, h2], ?_, ?_⟩
  · rw [h1]
    cases hagg : bdn.aggregate signatures with
    | error e => simp
    | ok c => simp
  · intro c hc
    rw [h1, hc]

/-- Witness of C5 (amended): the responses of the counterexample. -/
theorem IssueMasterCredential_aggregates_unverified_witness :
    exActor.startRes.Done = true ∧ ([1] : Bytes) ∉ exActor.idTable ∧
      (IssueMasterCredential (S := Nat) exBdn exActor
        (exRpc [Message.signResponse [9, 9] 1 8, Message.signResponse [7, 1] 0 7]) [1]).1 =
        Go.ret ([7, 1, 9, 9], [[7, 1], [9, 9]]) none :=
  ⟨by decide, by decide,
    (IssueMasterCredential_aggregates_unverified exBdn (fun _ _ _ => none) exActor
      (exRpc [Message.signResponse [9, 9] 1 8, Message.signResponse [7, 1] 0 7]) [1]
      [([9, 9], 1, 8), ([7, 1], 0, 7)] [[7, 1], [9, 9]] (by decide) (by decide) rfl
      (fun _ => rfl) rfl rfl).2.2 [7, 1, 9, 9] rfl⟩

/-- C8: on a set-up actor with `n` participants and `n` roster BDN keys, for an idHash not in
the id table and every eventName: when the streams are created, no send fails, the responses
of both rounds arrive in any order (permutations `σ`, `σ'` of `0..n-1`), the response of index
`i` carries a signature of the requested message that verifies under `bdnPubkeys[i]`, and
aggregation succeeds on signatures that verify, then `IssueMasterCredential(idHash)` returns
`(mc, ms)`, `IssueEventCredential(idHash, eventName, mc, ms)` returns `(ec, es)` and
`VerifyEventCredential(idHash, eventName, ec, es)` returns true. -/
theorem credentials_roundtrip {S P A : Type} (bdn : Bdn P) (a : Actor P A)
    (rpc rpc' : Rpc S P A) (idHash eventName : Bytes) (n : Nat)
    (σ σ' : Nat → Nat) (sig sig' : Nat → Bytes) (pk pk' : Nat → P)
    (hdone : a.startRes.Done = true) (hnew : idHash ∉ a.idTable)
    (hn : a.startRes.participants.length = n) (hkeys : a.startRes.bdnPubkeys.length = n)
    (hstream : rpc.stream = none) (hsend : ∀ i, rpc.send i = none)
    (hstream' : rpc'.stream = none) (hsend' : ∀ i, rpc'.send i = none)
    (hperm : (∀ k, k < n → σ k < n) ∧ ∀ j, j < n → ∃ k, k < n ∧ σ k = j)
    (hperm' : (∀ k, k < n → σ' k < n) ∧ ∀ j, j < n → ∃ k, k < n ∧ σ' k = j)
    (hrecv : ∀ k, k < n →
      rpc.recv k = Except.ok (Message.signResponse (sig (σ k)) ((σ k : Nat) : Int) (pk k)))
    (hrecv' : ∀ k, k < n →
      rpc'.recv k = Except.ok (Message.signResponse (sig' (σ' k)) ((σ' k : Nat) : Int) (pk' k)))
    (hvalid : ∀ (i : Nat) (key : P), a.startRes.bdnPubkeys[i]? = some key →
      bdn.verify key idHash (sig i) = none)
    (hvalid' : ∀ (i : Nat) (key : P), a.startRes.bdnPubkeys[i]? = some key →
      bdn.verify key (idHash ++ [58] ++ eventName) (sig' i) = none)
    (hagg : ∀ sigs : List Bytes, (∀ s ∈ sigs, ∃ key m, bdn.verify key m s = none) →
      ∃ c, bdn.aggregate sigs = Except.ok c) :
    ∃ mc ms ec es,
      (IssueMasterCredential bdn a rpc idHash).1 = Go.ret (mc, ms) none ∧
      (IssueEventCredential bdn (IssueMasterCredential bdn a rpc idHash).2.2 rpc' idHash
        eventName mc ms).1 = Go.ret (ec, es) none ∧
      VerifyEventCredential bdn (IssueMasterCredential bdn a rpc idHash).2.2 idHash eventName
        ec es = Go.ret true none := by
  -- the signatures of both rounds, sorted by index
  have hvalidAll : ∀ (s : Nat → Bytes) (m : Bytes),
      (∀ (i : Nat) (key : P), a.startRes.bdnPubkeys[i]? = some key →
        bdn.verify key m (s i) = none) →
      verifySignatures bdn m a.startRes.bdnPubkeys ((List.range n).map s) = Go.ret () none ∧
      ∀ x ∈ (List.range n).map s, ∃ key m', bdn.verify key m' x = none := by
    intro s m hv
    constructor
    · rw [verifySignatures_ok_iff]
      refine ⟨by simp [hkeys], ?_⟩
      intro i key sg h1 h2
      have hi : i < n := by
        by_contra hcon
        rw [List.getElem?_eq_none (by simp; omega)] at h2
        cases h2
      rw [List.getElem?_map, List.getElem?_range hi] at h2
      simp only [Option.map_some', Option.some.injEq] at h2
      rw [← h2]
      exact hv i key h1
    · intro x hx
      simp only [List.mem_map, List.mem_range] at hx
      obtain ⟨i, hi, rfl⟩ := hx
      have hi' : i < a.startRes.bdnPubkeys.length := by omega
      exact ⟨a.startRes.bdnPubkeys[i], m, hv i _ (List.getElem?_eq_getElem hi')⟩
  obtain ⟨hver, hwf⟩ := hvalidAll sig idHash hvalid
  obtain ⟨hver', hwf'⟩ := hvalidAll sig' (idHash ++ [58] ++ eventName) hvalid'
  obtain ⟨mc, hmc⟩ := hagg _ hwf
  obtain ⟨ec, hec⟩ := hagg _ hwf'
  have hr := recvSignResponses_of_recv rpc
    (fun k => (sig (σ k), ((σ k : Nat) : Int), pk k)) n 0
    (fun k _ hk => hrecv k (by omega))
  have hr' := recvSignResponses_of_recv rpc'
    (fun k => (sig' (σ' k), ((σ' k : Nat) : Int), pk' k)) n 0
    (fun k _ hk => hrecv' k (by omega))
  have hs := sortSignatures_perm sig σ pk n hperm.1 hperm.2
  have hs' := sortSignatures_perm sig' σ' pk' n hperm'.1 hperm'.2
  have hmaster := IssueMasterCredential_of_responses bdn a rpc idHash _ _ hdone hnew hstream
    hsend (by rw [hn]; exact hr) (by rw [hn]; exact hs)
  rw [hmc] at hmaster
  refine ⟨mc, (List.range n).map sig, ec, (List.range n).map sig', ?_, ?_, ?_⟩
  · rw [hmaster]
  · rw [hmaster]
    have hev := IssueEventCredential_of_responses bdn (addToIDTable a idHash) rpc' idHash
      eventName mc ((List.range n).map sig) _ _ hdone hver hstream' hsend'
      (by simp only [addToIDTable]; rw [hn]; exact hr')
      (by simp only [addToIDTable]; rw [hn]; exact hs')
    rw [hev, hec]
  · rw [hmaster]
    simp only [VerifyEventCredential, addToIDTable, hdone, eventMessage, hver',
      Bool.not_true, Bool.false_eq_true, if_false]

/-- The toy aggregation succeeds on signatures that verify. -/
theorem exBdn_aggregate_of_valid (sigs : List Bytes)
    (h : ∀ s ∈ sigs, ∃ key m, exBdn.verify key m s = none) :
    ∃ c, exBdn.aggregate sigs = Except.ok c := by
  have hall : sigs.all (fun s => !s.isEmpty) = true := by
    rw [List.all_eq_true]
    intro s hs
    obtain ⟨key, m, hv⟩ := h s hs
    simp only [exBdn] at hv
    split at hv
    · rename_i heq; rw [heq]; rfl
    · cases hv
  refine ⟨sigs.flatten, ?_⟩
  show (if sigs.all (fun s => !s.isEmpty) then Except.ok sigs.flatten
    else Except.error "bn256.G1: not enough data") = Except.ok sigs.flatten
  rw [if_pos hall]

/-- Witness of C8: the example actor, the master responses arriving in the order 1, 0 and
the event responses in the order 0, 1. -/
theorem credentials_roundtrip_witness :
    exActor.startRes.Done = true ∧ ([1] : Bytes) ∉ exActor.idTable ∧
    ∃ mc ms ec es,
      (IssueMasterCredential (S := Nat) exBdn exActor
        (exRpc [Message.signResponse [8, 1] 1 8, Message.signResponse [7, 1] 0 7]) [1]).1
        = Go.ret (mc, ms) none ∧
      (IssueEventCredential (S := Nat) exBdn
        (IssueMasterCredential (S := Nat) exBdn exActor
          (exRpc [Message.signResponse [8, 1] 1 8, Message.signResponse [7, 1] 0 7]) [1]).2.2
        (exRpc [Message.signResponse [7, 1, 58, 2] 0 7,
          Message.signResponse [8, 1, 58, 2] 1 8]) [1] [2] mc ms).1 = Go.ret (ec, es) none ∧
      VerifyEventCredential exBdn
        (IssueMasterCredential (S := Nat) exBdn exActor
          (exRpc [Message.signResponse [8, 1] 1 8, Message.signResponse [7, 1] 0 7]) [1]).2.2
        [1] [2] ec es = Go.ret true none :=
  ⟨by decide, by decide,
    credentials_roundtrip exBdn exActor
      (exRpc [Message.signResponse [8, 1] 1 8, Message.signResponse [7, 1] 0 7])
      (exRpc [Message.signResponse [7, 1, 58, 2] 0 7, Message.signResponse [8, 1, 58, 2] 1 8])
      [1] [2] 2 (fun k => 1 - k) (fun k => k)
      (fun i => [Fin.ofNat (7 + i), 1]) (fun i => [Fin.ofNat (7 + i), 1, 58, 2])
      (fun k => 8 - k) (fun k => 7 + k)
      (by decide) (by decide) rfl rfl rfl (fun _ => rfl) rfl (fun _ => rfl)
      ⟨fun k _ => by show 1 - k < 2; omega,
        fun j hj => ⟨1 - j, by omega, by show 1 - (1 - j) = j; omega⟩⟩
      ⟨fun k hk => hk, fun j hj => ⟨j, hj, rfl⟩⟩
      (fun k hk => by interval_cases k <;> rfl)
      (fun k hk => by interval_cases k <;> rfl)
      (fun i key h => by
        rcases i with _ | _ | i
        · cases h; decide
        · cases h; decide
        · cases h)
      (fun i key h => by
        rcases i with _ | _ | i
        · cases h; decide
        · cases h; decide
        · cases h)
      exBdn_aggregate_of_valid⟩

/-- From the second iteration on, a receiving loop of `Reshare` that succeeds has received
the key of the previous reply in every iteration. -/
theorem reshareRecv_common {S P A : Type} [DecidableEq P] (rpc : Rpc S P A) (c : P) :
    ∀ (n i : Nat) (keys ks : List P), i ≠ 0 → keys.getLast? = some c →
      reshareRecv rpc n i keys = Except.ok ks →
      ∀ k, i ≤ k → k < i + n → rpc.recv k = Except.ok (Message.startDone c) := by
  intro n
  induction n with
  | zero => intro i keys ks _ _ _ k h1 h2; omega
  | succ n ih =>
    intro i keys ks hi hlast hok k h1 h2
    simp only [reshareRecv] at hok
    split at hok
    · cases hok
    · rename_i pk hrecv
      split at hok
      · cases hok
      · rename_i hcond
        have hpk : pk = c := by
          by_contra hne
          apply hcond
          refine ⟨hi, ?_⟩
          rw [hlast]
          intro h
          exact hne (Option.some.inj h).symm
        subst hpk
        by_cases hk : k = i
        · rw [hk]; exact hrecv
        · exact ih (i + 1) (keys ++ [pk]) ks (by omega) (by simp) hok k (by omega) (by omega)
    · cases hok

/-- A receiving loop of `Reshare` that succeeds has received one and the same key in all
its iterations. -/
theorem reshareRecv_agree {S P A : Type} [DecidableEq P] (rpc : Rpc S P A) (n : Nat)
    (ks : List P) (hok : reshareRecv rpc n 0 [] = Except.ok ks) :
    ∀ i j, i < n → j < n →
      ∃ pk, rpc.recv i = Except.ok (Message.startDone pk) ∧
        rpc.recv j = Except.ok (Message.startDone pk) := by
  cases n with
  | zero => intro i j hi; omega
  | succ n =>
    simp only [reshareRecv] at hok
    split at hok
    · cases hok
    · rename_i pk hrecv
      simp only [ne_eq, not_true_eq_false, false_and, if_false] at hok
      have hall : ∀ k, k < n + 1 → rpc.recv k = Except.ok (Message.startDone pk) := by
        intro k hk
        by_cases hk0 : k = 0
        · rw [hk0]; exact hrecv
        · exact reshareRecv_common rpc pk n 1 ([] ++ [pk]) ks (by omega) (by simp) hok k
            (by omega) (by omega)
      intro i j hi hj
      exact ⟨pk, hall i hi, hall j hj⟩
    · cases hok

/-- Counterexample to C9: the example actor holds the distributed key 3, both StartDone
messages carry the key 5, and `Reshare` returns a nil error. -/
theorem Reshare_keys_counterexample :
    exActor.startRes.distrKey ≠ 5 ∧
      (exRpc (S := Nat) (P := Nat) (A := Nat)
        [Message.startDone 5, Message.startDone 5]).recv 0
        = Except.ok (Message.startDone 5) ∧
      (Reshare (S := Nat) exActor (exRpc [Message.startDone 5, Message.startDone 5])
        ⟨[100, 101], [PublicKey.ed25519 1, PublicKey.ed25519 2]⟩ 2).1 = Go.ret () none := by
  refine ⟨by decide, rfl, by decide⟩

/-- C9 (amended): `Reshare` returns an error whenever some StartDone message received
during the resharing carries a public key different from the one received just before it;
hence a `Reshare` that returns no error has received a StartDone from each of the
`|old ∪ new|` members and all the reported keys are equal to one another. They are not
compared with the distributed key the actor held before. -/
theorem Reshare_ok_keys_agree {S P A : Type} [DecidableEq P] [DecidableEq A]
    (a : Actor P A) (rpc : Rpc S P A) (co : CollectiveAuthority P A) (thresholdNew : Int)
    (addrsNew : List A) (pubkeysNew : List P)
    (hco : collectEd co.addrs co.pubkeys = Except.ok (addrsNew, pubkeysNew)) :
    ((Reshare a rpc co thresholdNew).1 = Go.ret () none →
      ∀ i j, i < (union a.startRes.participants addrsNew).length →
        j < (union a.startRes.participants addrsNew).length →
        ∃ pk, rpc.recv i = Except.ok (Message.startDone pk) ∧
          rpc.recv j = Except.ok (Message.startDone pk)) ∧
    ((∃ i pk pk', i + 1 < (union a.startRes.participants addrsNew).length ∧
        rpc.recv i = Except.ok (Message.startDone pk) ∧
        rpc.recv (i + 1) = Except.ok (Message.startDone pk') ∧ pk ≠ pk') →
      ∃ e, (Reshare a rpc co thresholdNew).1 = Go.ret () (some e)) := by
  have h1 : (Reshare a rpc co thresholdNew).1 = Go.ret () none →
      ∀ i j, i < (union a.startRes.participants addrsNew).length →
        j < (union a.startRes.participants addrsNew).length →
        ∃ pk, rpc.recv i = Except.ok (Message.startDone pk) ∧
          rpc.recv j = Except.ok (Message.startDone pk) := by
    intro hok
    unfold Reshare at hok
    cases hd : a.startRes.Done with
    | false => simp [hd] at hok
    | true =>
      simp only [hd, hco, Bool.not_true, Bool.false_eq_true, if_false] at hok
      cases hs : rpc.stream with
      | some e => simp [hs] at hok
      | none =>
        simp only [hs] at hok
        cases hs0 : rpc.send 0 with
        | some e => simp [hs0] at hok
        | none =>
          simp only [hs0] at hok
          cases hs1 : rpc.send 1 with
          | some e => simp [hs1] at hok
          | none =>
            simp only [hs1] at hok
            cases hr : reshareRecv rpc (union a.startRes.participants addrsNew).length 0 []
              with
            | error e => simp [hr] at hok
            | ok ks => exact reshareRecv_agree rpc _ ks hr
  refine ⟨h1, ?_⟩
  rintro ⟨i, pk, pk', hi, hri, hri', hne⟩
  cases hres : (Reshare a rpc co thresholdNew).1 with
  | panic =>
    exfalso
    simp only [Reshare] at hres
    revert hres
    repeat' split
    all_goals simp
  | ret v err =>
    cases err with
    | some e => exact ⟨e, rfl⟩
    | none =>
      exfalso
      obtain ⟨q, hq1, hq2⟩ := h1 hres i (i + 1) (by omega) hi
      rw [hri] at hq1
      rw [hri'] at hq2
      cases hq1
      cases hq2
      exact hne rfl

/-- Witness of C9 (amended): the run of the counterexample. -/
theorem Reshare_ok_keys_agree_witness :
    collectEd ([100, 101] : List Nat) [PublicKey.ed25519 1, PublicKey.ed25519 2]
        = Except.ok ([100, 101], [1, 2]) ∧
      ∃ pk, (exRpc (S := Nat) (P := Nat) (A := Nat)
          [Message.startDone 5, Message.startDone 5]).recv 0
            = Except.ok (Message.startDone pk) ∧
        (exRpc (S := Nat) (P := Nat) (A := Nat)
          [Message.startDone 5, Message.startDone 5]).recv 1
            = Except.ok (Message.startDone pk) :=
  ⟨rfl,
    (Reshare_ok_keys_agree (S := Nat) exActor
      (exRpc [Message.startDone 5, Message.startDone 5])
      ⟨[100, 101], [PublicKey.ed25519 1, PublicKey.ed25519 2]⟩ 2 [100, 101] [1, 2] rfl).1
      (by decide) 0 1 (by decide) (by decide)⟩

/-- The receiving loop of `VerifiableDecrypt` returns as many responses as iterations. -/
theorem recvVerifiableReplies_length {S P A : Type} (rpc : Rpc S P A) :
    ∀ (n i : Nat) (responses : List (List (ShareAndProof S P))),
      recvVerifiableReplies rpc n i = Except.ok responses → responses.length = n := by
  intro n
  induction n with
  | zero => intro i responses h; simp only [recvVerifiableReplies] at h; cases h; rfl
  | succ n ih =>
    intro i responses h
    simp only [recvVerifiableReplies] at h
    split at h
    · cases h
    · split at h
      · rename_i rest hrest
        cases h
        simp [ih (i + 1) rest hrest]
      · cases h
    · cases h

/-- The loop over the responses does not panic when every response has an entry for the job,
the job has a ciphertext and `pubShares` has room; it returns an error as soon as one proof
for the job is refused. -/
theorem workLoop_spec {S P : Type} (check : ShareAndProof S P → P → Option String)
    (ciphertexts : List (Ciphertext S P)) (j : Nat) (hj : j < ciphertexts.length) :
    ∀ (responses : List (List (ShareAndProof S P))) (k : Nat)
      (pubShares : List (Option (PubShare P))),
      (∀ r ∈ responses, j < r.length) → k + responses.length ≤ pubShares.length →
      ∃ ps err, workLoop check ciphertexts j responses k pubShares = Go.ret ps err ∧
        ((∃ r ∈ responses, ∃ sp ct, r[j]? = some sp ∧ ciphertexts[j]? = some ct ∧
          check sp ct.K ≠ none) → err ≠ none) := by
  intro responses
  induction responses with
  | nil =>
    intro k pubShares _ _
    exact ⟨pubShares, none, rfl, fun ⟨r, hr, _⟩ => by simp at hr⟩
  | cons r rest ih =>
    intro k pubShares hlen hroom
    have hr : j < r.length := hlen r (by simp)
    simp only [List.length_cons] at hroom
    simp only [workLoop, List.get?_eq_getElem?, List.getElem?_eq_getElem hr,
      List.getElem?_eq_getElem hj]
    cases hc : check r[j] ciphertexts[j].K with
    | some e => exact ⟨pubShares, _, rfl, fun _ => by simp⟩
    | none =>
      have hk : k < pubShares.length := by omega
      simp only [hk, if_true]
      obtain ⟨ps, err, h1, h2⟩ := ih (k + 1)
        (pubShares.set k (some ⟨r[j].I, r[j].V⟩))
        (fun r' hr' => hlen r' (by simp [hr'])) (by simp; omega)
      refine ⟨ps, err, h1, ?_⟩
      rintro ⟨r', hr', sp, ct, h3, h4, h5⟩
      simp only [List.mem_cons] at hr'
      rcases hr' with rfl | hr'
      · rw [List.getElem?_eq_getElem hr] at h3
        cases h3
        cases h4
        exact absurd hc h5
      · exact h2 ⟨r', hr', sp, ct, h3, by rw [List.getElem?_eq_getElem hj]; exact h4, h5⟩

/-- A call of `worker.work` whose indexes are in range returns without panic, changes no slot
but its own, and leaves `decryptedMessage` as it was, with an error, when a proof for its job
is refused. -/
theorem work_spec {S P : Type} [Field S] [AddCommGroup P] [Module S P] (suite : Suite P)
    (check : ShareAndProof S P → P → Option String) (w : Worker S P) (j : Nat)
    (hj : j < w.ciphertexts.length) (hdm : j < w.decryptedMessage.length)
    (hresp : ∀ r ∈ w.responses, j < r.length)
    (hnum : w.responses.length ≤ w.numParticipants) :
    ∃ dm err, work suite check w j = Go.ret dm err ∧
      dm.length = w.decryptedMessage.length ∧
      (∀ j' : Nat, j' ≠ j → dm[j']? = w.decryptedMessage[j']?) ∧
      ((∃ r ∈ w.responses, ∃ sp ct, r[j]? = some sp ∧ w.ciphertexts[j]? = some ct ∧
          check sp ct.K ≠ none) → dm = w.decryptedMessage ∧ err ≠ none) := by
  obtain ⟨ps, err, h1, h2⟩ := workLoop_spec check w.ciphertexts j hj w.responses 0
    (List.replicate w.numParticipants none) hresp (by simpa using hnum)
  simp only [work, h1]
  cases err with
  | some e => exact ⟨_, _, rfl, rfl, fun _ _ => rfl, fun _ => ⟨rfl, by simp⟩⟩
  | none =>
    have hno : ¬ ∃ r ∈ w.responses, ∃ sp ct, r[j]? = some sp ∧ w.ciphertexts[j]? = some ct ∧
        check sp ct.K ≠ none := fun h => h2 h rfl
    simp only []
    cases RecoverCommit (S := S) ps w.numParticipants w.numParticipants with
    | error e => exact ⟨_, _, rfl, rfl, fun _ _ => rfl, fun h => absurd h hno⟩
    | ok res =>
      simp only [hdm, if_true]
      cases suite.data res with
      | error e =>
        refine ⟨_, _, rfl, by simp, fun j' hj' => ?_, fun h => absurd h hno⟩
        rw [List.getElem?_set]
        simp [Ne.symm hj']
      | ok d =>
        refine ⟨_, _, rfl, by simp, fun j' hj' => ?_, fun h => absurd h hno⟩
        rw [List.getElem?_set]
        simp [Ne.symm hj']

/-- Running the jobs returns without panic and leaves the slot of every job with a refused
proof as it was. -/
theorem runJobs_spec {S P : Type} [Field S] [AddCommGroup P] [Module S P] (suite : Suite P)
    (check : ShareAndProof S P → P → Option String) (numParticipants : Nat)
    (responses : List (List (ShareAndProof S P))) (ciphertexts : List (Ciphertext S P))
    (hresp : ∀ r ∈ responses, ciphertexts.length ≤ r.length)
    (hnum : responses.length ≤ numParticipants) :
    ∀ (jobs : List Nat) (dm : List (Option Bytes)), dm.length = ciphertexts.length →
      (∀ j ∈ jobs, j < ciphertexts.length) →
      ∃ dm', runJobs suite check numParticipants responses ciphertexts jobs dm
          = Go.ret dm' none ∧ dm'.length = ciphertexts.length ∧
        ∀ j : Nat, (∃ r ∈ responses, ∃ (sp : ShareAndProof S P) (ct : Ciphertext S P),
          r[j]? = some sp ∧ ciphertexts[j]? = some ct ∧
          check sp ct.K ≠ none) → dm'[j]? = dm[j]? := by
  intro jobs
  induction jobs with
  | nil => intro dm hdm _; exact ⟨dm, rfl, hdm, fun _ _ => rfl⟩
  | cons j0 rest ih =>
    intro dm hdm hjobs
    have hj0 : j0 < ciphertexts.length := hjobs j0 (by simp)
    obtain ⟨dm1, err, h1, h2, h3, h4⟩ := work_spec suite check
      ⟨numParticipants, dm, ciphertexts, responses⟩ j0 hj0 (by simpa [hdm] using hj0)
      (fun r hr => lt_of_lt_of_le hj0 (hresp r hr)) hnum
    simp only [runJobs, h1]
    obtain ⟨dm', h5, h6, h7⟩ := ih dm1 (by rw [h2]; exact hdm)
      (fun j hj => hjobs j (by simp [hj]))
    refine ⟨dm', h5, h6, fun j hfail => ?_⟩
    rw [h7 j hfail]
    by_cases hjj : j = j0
    · subst hjj
      rw [(h4 hfail).1]
    · exact h3 j hjj

/-- Counterexample to C3: the proof of the first participant for the only ciphertext is
refused, and `VerifiableDecrypt` returns the result slice `[nil]` with a nil error. -/
theorem VerifiableDecrypt_bad_proof_counterexample :
    exCheck ⟨0, 0, 0, 1, 0, 0⟩ 5 ≠ none ∧
      (VerifiableDecrypt exSuite exCheck exActorQ
        (exRpc [Message.verifiableDecryptReply [⟨0, 0, 0, 1, 0, 0⟩],
          Message.verifiableDecryptReply [⟨0, 1, 0, 0, 0, 0⟩]]) 4
        [⟨5, 18, 0, 0, 0, 0⟩]).1 = Go.ret [none] none := by
  refine ⟨by decide, by decide⟩

/-- C3 (amended): for every batch of ciphertexts, once the replies of all participants are
received (each with an entry for every ciphertext), `VerifiableDecrypt` returns the result slice
with a nil error; if for some batch index `j` the ShareAndProof[j] of some participant fails
the decryption-proof check against `ciphertexts[j].K`, the error of the worker is only logged and
slot `j` of the result is left nil. -/
theorem VerifiableDecrypt_failed_proof_only_logged {S P A : Type} [Field S] [AddCommGroup P]
    [Module S P] (suite : Suite P) (check : ShareAndProof S P → P → Option String)
    (a : Actor P A) (rpc : Rpc S P A) (workerNum : Nat) (ciphertexts : List (Ciphertext S P))
    (responses : List (List (ShareAndProof S P)))
    (hdone : a.startRes.Done = true) (hstream : rpc.stream = none)
    (hsend : rpc.send 0 = none)
    (hrecv : recvVerifiableReplies rpc a.startRes.participants.length 0 = Except.ok responses)
    (hlen : ∀ r ∈ responses, ciphertexts.length ≤ r.length) :
    ∃ slots, (VerifiableDecrypt suite check a rpc workerNum ciphertexts).1
        = Go.ret slots none ∧ slots.length = ciphertexts.length ∧
      ∀ j : Nat, (∃ r ∈ responses, ∃ (sp : ShareAndProof S P) (ct : Ciphertext S P),
          r[j]? = some sp ∧ ciphertexts[j]? = some ct ∧ check sp ct.K ≠ none) →
        slots[j]? = some none := by
  have hn := recvVerifiableReplies_length rpc _ _ _ hrecv
  obtain ⟨dm', h1, h2, h3⟩ := runJobs_spec suite check a.startRes.participants.length
    responses ciphertexts hlen (le_of_eq hn)
    (if (if ciphertexts.length < workerNum then ciphertexts.length else workerNum) = 0
      then [] else List.range ciphertexts.length)
    (List.replicate ciphertexts.length none) (by simp)
    (fun j hj => by
      by_cases h0 :
          (if ciphertexts.length < workerNum then ciphertexts.length else workerNum) = 0
      · rw [if_pos h0] at hj; cases hj
      · rw [if_neg h0] at hj; exact List.mem_range.1 hj)
  refine ⟨dm', ?_, h2, ?_⟩
  · simp only [VerifiableDecrypt, hdone, hstream, hsend, hrecv, h1, Bool.not_true,
      Bool.false_eq_true, if_false]
  · intro j hfail
    rw [h3 j hfail]
    obtain ⟨r, _, sp, ct, _, hct, _⟩ := hfail
    have hj : j < ciphertexts.length := by
      by_contra hcon
      rw [List.getElem?_eq_none (by omega)] at hct
      cases hct
    simp [hj]

/-- Witness of C3 (amended): the run of the counterexample. -/
theorem VerifiableDecrypt_failed_proof_only_logged_witness :
    exActorQ.startRes.Done = true ∧ exCheck ⟨0, 0, 0, 1, 0, 0⟩ 5 ≠ none ∧
    ∃ slots, (VerifiableDecrypt exSuite exCheck exActorQ
        (exRpc [Message.verifiableDecryptReply [⟨0, 0, 0, 1, 0, 0⟩],
          Message.verifiableDecryptReply [⟨0, 1, 0, 0, 0, 0⟩]]) 4
        [⟨5, 18, 0, 0, 0, 0⟩]).1 = Go.ret slots none ∧ slots[0]? = some none := by
  refine ⟨by decide, by decide, ?_⟩
  obtain ⟨slots, h1, _, h3⟩ := VerifiableDecrypt_failed_proof_only_logged exSuite exCheck
    exActorQ (exRpc [Message.verifiableDecryptReply [⟨0, 0, 0, 1, 0, 0⟩],
      Message.verifiableDecryptReply [⟨0, 1, 0, 0, 0, 0⟩]]) 4 [⟨5, 18, 0, 0, 0, 0⟩]
    [[⟨0, 0, 0, 1, 0, 0⟩], [⟨0, 1, 0, 0, 0, 0⟩]] (by decide) rfl rfl rfl
    (by intro r hr; simp at hr; rcases hr with rfl | rfl <;> simp)
  exact ⟨slots, h1, h3 0 ⟨_, List.mem_cons_self _ _, ⟨0, 0, 0, 1, 0, 0⟩, ⟨5, 18, 0, 0, 0, 0⟩,
    rfl, rfl, by decide⟩⟩

/-- The sum that `RecoverCommit` computes does not depend on the order of the entries. -/
theorem recoverSum_perm {S P : Type} [Field S] [AddCommGroup P] [Module S P]
    (xy xy' : List (Int × P)) (h : xy.Perm xy') :
    (xy.map (fun e =>
      (((xy.filter (fun e' => decide (e'.1 ≠ e.1))).map (fun e' => (xScalar e'.1 : S))).prod /
        ((xy.filter (fun e' => decide (e'.1 ≠ e.1))).map
          (fun e' => (xScalar e'.1 : S) - xScalar e.1)).prod) • e.2)).sum =
    (xy'.map (fun e =>
      (((xy'.filter (fun e' => decide (e'.1 ≠ e.1))).map (fun e' => (xScalar e'.1 : S))).prod /
        ((xy'.filter (fun e' => decide (e'.1 ≠ e.1))).map
          (fun e' => (xScalar e'.1 : S) - xScalar e.1)).prod) • e.2)).sum := by
  have hcoef : ∀ e : Int × P,
      (((xy.filter (fun e' => decide (e'.1 ≠ e.1))).map (fun e' => (xScalar e'.1 : S))).prod /
        ((xy.filter (fun e' => decide (e'.1 ≠ e.1))).map
          (fun e' => (xScalar e'.1 : S) - xScalar e.1)).prod) =
      (((xy'.filter (fun e' => decide (e'.1 ≠ e.1))).map (fun e' => (xScalar e'.1 : S))).prod /
        ((xy'.filter (fun e' => decide (e'.1 ≠ e.1))).map
          (fun e' => (xScalar e'.1 : S) - xScalar e.1)).prod) := by
    intro e
    rw [((h.filter _).map _).prod_eq, ((h.filter _).map _).prod_eq]
  simp only [hcoef]
  exact (h.map _).sum_eq

/-- On exactly `t` shares of distinct non-negative indexes the loop of `xyCommit` enters
every share. -/
theorem xyCommitLoop_distinct {P : Type} (t : Nat) :
    ∀ (l : List (PubShare P)) (acc : List (Int × P)),
      (∀ s ∈ l, 0 ≤ s.I) → (acc.map Prod.fst ++ l.map PubShare.I).Nodup →
      acc.length + l.length = t →
      xyCommitLoop t l acc = acc ++ l.map (fun s => (s.I, s.V)) := by
  intro l
  induction l with
  | nil => intro acc _ _ _; simp [xyCommitLoop]
  | cons s rest ih =>
    intro acc hnn hnd hlen
    have hs : ¬ s.I < 0 := not_lt.2 (hnn s (by simp))
    have hfilter : acc.filter (fun e => decide (e.1 ≠ s.I)) = acc := by
      rw [List.filter_eq_self]
      intro e he
      simp only [decide_eq_true_eq]
      intro heq
      rw [List.nodup_append] at hnd
      exact hnd.2.2 (List.mem_map.2 ⟨e, he, heq⟩) (by simp)
    simp only [xyCommitLoop, hs, if_false, hfilter]
    by_cases hfull : (acc ++ [(s.I, s.V)]).length = t
    · have hrest : rest = [] := by
        simp only [List.length_append, List.length_cons, List.length_nil] at hfull hlen
        exact List.length_eq_zero.1 (by omega)
      simp [hfull, hrest]
    · simp only [hfull, if_false]
      rw [ih (acc ++ [(s.I, s.V)]) (fun s' hs' => hnn s' (by simp [hs']))
        (by simpa [List.append_assoc] using hnd)
        (by simp only [List.length_append, List.length_cons, List.length_nil] at hlen ⊢; omega)]
      simp

/-- The coefficient that `RecoverCommit` computes for the share of position `i` is its
Lagrange coefficient. -/
theorem lagrangeCoeff_list {S P : Type} [Field S] (I : Nat → Int) (V : Nat → P) (n i : Nat)
    (hinj : ∀ i j, i < n → j < n → I i = I j → i = j) (hi : i < n) :
    (((((List.range n).map (fun k => (I k, V k))).filter
        (fun e' => decide (e'.1 ≠ I i))).map (fun e' => (xScalar e'.1 : S))).prod /
      ((((List.range n).map (fun k => (I k, V k))).filter
        (fun e' => decide (e'.1 ≠ I i))).map
          (fun e' => (xScalar e'.1 : S) - xScalar (I i))).prod) =
    lagrangeCoeff (fun k => (xScalar (I k) : S)) n i := by
  have hfil : ((List.range n).map (fun k => (I k, V k))).filter
      (fun e' => decide (e'.1 ≠ I i)) =
      ((List.range n).filter (fun k => decide (k ≠ i))).map (fun k => (I k, V k)) := by
    rw [List.filter_map]
    congr 1
    apply List.filter_congr
    intro k hk
    simp only [Function.comp, decide_eq_decide]
    have hk' : k < n := List.mem_range.1 hk
    exact ⟨fun h heq => h (by rw [heq]), fun h heq => h (hinj k i hk' hi heq)⟩
  have hfin : ((List.range n).filter (fun k => decide (k ≠ i))).toFinset
      = (Finset.range n).erase i := by
    ext k
    simp [and_comm]
  have hnd : ((List.range n).filter (fun k => decide (k ≠ i))).Nodup :=
    (List.nodup_range n).filter _
  rw [hfil, List.map_map, List.map_map, lagrangeCoeff, Finset.prod_div_distrib, ← hfin,
    List.prod_toFinset _ hnd, List.prod_toFinset _ hnd]
  rfl

/-- On `n` shares of distinct non-negative indexes `RecoverCommit` returns the Lagrange
interpolation at 0 of the share points over the abscissas `I + 1`. -/
theorem RecoverCommit_eq_lagrangeRecover {S P : Type} [Field S] [AddCommGroup P] [Module S P]
    (I : Nat → Int) (V : Nat → P) (n : Nat) (hI : ∀ i, i < n → 0 ≤ I i)
    (hinj : ∀ i j, i < n → j < n → I i = I j → i = j) :
    RecoverCommit (S := S) ((List.range n).map (fun k => some (⟨I k, V k⟩ : PubShare P))) n n
      = Except.ok (lagrangeRecover (fun k => (xScalar (I k) : S)) V n) := by
  have hfm : ((List.range n).map (fun k => some (⟨I k, V k⟩ : PubShare P))).filterMap id
      = (List.range n).map (fun k => (⟨I k, V k⟩ : PubShare P)) := by
    rw [List.filterMap_map]
    exact congrFun (List.filterMap_eq_map (fun k => (⟨I k, V k⟩ : PubShare P))) _
  have hperm := List.perm_insertionSort (fun s s' : PubShare P => s.I ≤ s'.I)
    ((List.range n).map (fun k => (⟨I k, V k⟩ : PubShare P)))
  have hndI : ((List.range n).map I).Nodup := by
    rw [List.nodup_map_iff_inj_on (List.nodup_range n)]
    intro i hi j hj h
    exact hinj i j (List.mem_range.1 hi) (List.mem_range.1 hj) h
  have hxy : xyCommit ((List.range n).map (fun k => some (⟨I k, V k⟩ : PubShare P))) n =
      (((List.range n).map (fun k => (⟨I k, V k⟩ : PubShare P))).insertionSort
        (fun s s' => s.I ≤ s'.I)).map (fun s => (s.I, s.V)) := by
    rw [xyCommit, hfm, xyCommitLoop_distinct]
    · simp
    · intro s hs
      have hs' := hperm.mem_iff.1 hs
      simp only [List.mem_map, List.mem_range] at hs'
      obtain ⟨k, hk, rfl⟩ := hs'
      exact hI k hk
    · simp only [List.map_nil, List.nil_append]
      refine (hperm.map PubShare.I).nodup_iff.2 ?_
      simpa [List.map_map, Function.comp] using hndI
    · simp [List.length_insertionSort]
  have hperm' := hperm.map (fun s : PubShare P => (s.I, s.V))
  simp only [RecoverCommit, hxy, List.length_map, List.length_insertionSort,
    List.length_range, lt_self_iff_false, if_false]
  congr 1
  rw [recoverSum_perm _ _ hperm']
  simp only [List.map_map, Function.comp]
  have hrange : (List.range n).toFinset = Finset.range n := by
    ext k
    simp
  rw [lagrangeRecover, ← hrange, List.sum_toFinset _ (List.nodup_range n)]
  congr 1
  apply List.map_congr_left
  intro i hi
  simp only [List.mem_range] at hi
  exact congrArg (fun c => c • V i) (lagrangeCoeff_list (S := S) I V n i hinj hi)

/-- The receiving loop of `Decrypt` returns the shares in the order of arrival. -/
theorem recvDecryptReplies_of_recv {S P A : Type} (rpc : Rpc S P A) (I : Nat → Int)
    (V : Nat → P) :
    ∀ (n i : Nat),
      (∀ k, i ≤ k → k < i + n → rpc.recv k = Except.ok (Message.decryptReply (I k) (V k))) →
      recvDecryptReplies rpc n i
        = Except.ok ((List.range' i n).map (fun k => some (⟨I k, V k⟩ : PubShare P))) := by
  intro n
  induction n with
  | zero => intro i _; rfl
  | succ n ih =>
    intro i h
    simp only [recvDecryptReplies, h i (le_refl i) (by omega),
      ih (i + 1) (fun k h1 h2 => h k (by omega) (by omega)), List.range'_succ,
      List.map_cons]

/-- `Decrypt` on a set-up actor, when the stream is created, the send succeeds and the `n`
replies carry distinct non-negative indexes: the data of the interpolated point. -/
theorem Decrypt_of_replies {S P A : Type} [Field S] [AddCommGroup P] [Module S P]
    (suite : Suite P) (a : Actor P A) (rpc : Rpc S P A) (K C : P) (n : Nat) (I : Nat → Int)
    (V : Nat → P) (hdone : a.startRes.Done = true) (hn : a.startRes.participants.length = n)
    (hstream : rpc.stream = none) (hsend : rpc.send 0 = none)
    (hrecv : ∀ k, k < n → rpc.recv k = Except.ok (Message.decryptReply (I k) (V k)))
    (hI : ∀ i, i < n → 0 ≤ I i) (hinj : ∀ i j, i < n → j < n → I i = I j → i = j) :
    (Decrypt suite a rpc K C).1 =
      match suite.data (lagrangeRecover (fun k => (xScalar (I k) : S)) V n) with
      | Except.error e => Go.ret [] (some ("failed to get embedded data: " ++ e))
      | Except.ok decryptedMessage => Go.ret decryptedMessage none := by
  have hr := recvDecryptReplies_of_recv rpc I V n 0 (fun k _ hk => hrecv k (by omega))
  rw [← List.range_eq_range'] at hr
  have hrc := RecoverCommit_eq_lagrangeRecover (S := S) I V n hI hinj
  simp only [Decrypt, hdone, hn, hstream, hsend, hr, hrc, Bool.not_true, Bool.false_eq_true,
    if_false]
  cases suite.data (lagrangeRecover (fun k => (xScalar (I k) : S)) V n) <;> rfl

/-- The coefficient `lagrangeCoeff` is the value at 0 of the Lagrange basis polynomial. -/
theorem lagrangeCoeff_eq_basis {S : Type} [Field S] (x : Nat → S) (n i : Nat) :
    lagrangeCoeff x n i = (Lagrange.basis (Finset.range n) x i).eval 0 := by
  rw [lagrangeCoeff, Lagrange.basis, Polynomial.eval_prod]
  apply Finset.prod_congr rfl
  intro j _
  simp only [Lagrange.basisDivisor, Polynomial.eval_mul, Polynomial.eval_C,
    Polynomial.eval_sub, Polynomial.eval_X, zero_sub]
  rw [div_eq_mul_inv, ← neg_sub (x i) (x j), inv_neg]
  ring

/-- The Lagrange coefficients over distinct nodes sum to 1. -/
theorem lagrangeCoeff_sum {S : Type} [Field S] (x : Nat → S) (n : Nat) (hn : 0 < n)
    (hinj : ∀ i j, i < n → j < n → x i = x j → i = j) :
    ∑ i ∈ Finset.range n, lagrangeCoeff x n i = 1 := by
  have hvs : Set.InjOn x (Finset.range n : Finset Nat) := by
    intro i hi j hj h
    exact hinj i j (by simpa using hi) (by simpa using hj) h
  have h := Lagrange.sum_basis hvs (Finset.nonempty_range_iff.2 (by omega))
  have h' := congrArg (Polynomial.eval 0) h
  rw [Polynomial.eval_finset_sum, Polynomial.eval_one] at h'
  rw [← h']
  exact Finset.sum_congr rfl (fun i _ => lagrangeCoeff_eq_basis x n i)

/-- A polynomial of degree less than `n` takes at 0 the combination of its values at `n`
distinct nodes weighted by the Lagrange coefficients. -/
theorem lagrangeCoeff_interpolate {S : Type} [Field S] (x : Nat → S) (n : Nat)
    (hinj : ∀ i j, i < n → j < n → x i = x j → i = j) (f : Polynomial S)
    (hdeg : f.degree < n) :
    ∑ i ∈ Finset.range n, lagrangeCoeff x n i * f.eval (x i) = f.eval 0 := by
  have hvs : Set.InjOn x (Finset.range n : Finset Nat) := by
    intro i hi j hj h
    exact hinj i j (by simpa using hi) (by simpa using hj) h
  have h := Lagrange.eq_interpolate (f := f) hvs (by simpa using hdeg)
  have h' := congrArg (Polynomial.eval 0) h
  rw [Lagrange.interpolate_apply, Polynomial.eval_finset_sum] at h'
  rw [h']
  apply Finset.sum_congr rfl
  intro i _
  rw [Polynomial.eval_mul, Polynomial.eval_C, lagrangeCoeff_eq_basis, mul_comm]

/-- Interpolating the points `C - f(x i) • K` of a polynomial `f` of degree less than `n`
gives `C - f(0) • K`. -/
theorem lagrangeRecover_sub_smul {S P : Type} [Field S] [AddCommGroup P] [Module S P]
    (x : Nat → S) (n : Nat) (hn : 0 < n)
    (hinj : ∀ i j, i < n → j < n → x i = x j → i = j) (f : Polynomial S)
    (hdeg : f.degree < n) (K C : P) :
    lagrangeRecover x (fun i => C - f.eval (x i) • K) n = C - f.eval 0 • K := by
  simp only [lagrangeRecover, smul_sub, Finset.sum_sub_distrib, smul_smul]
  rw [← Finset.sum_smul, ← Finset.sum_smul, lagrangeCoeff_sum x n hn hinj,
    lagrangeCoeff_interpolate x n hinj f hdeg, one_smul]

/-- C2 (amended): for every ciphertext `(K, C)` and every set of `n` decrypt replies
`(I_i, V_i)` with distinct non-negative indexes, `Decrypt` returns the data embedded in the
point `V = Σ λ_i·V_i` itself, the Lagrange interpolation at `x = 0` of the replied share points
over their indexes (abscissa `I_i + 1`); `C` is only sent in the request and nothing is
subtracted from it. -/
theorem Decrypt_returns_recovered_point {S P A : Type} [Field S] [AddCommGroup P]
    [Module S P] (suite : Suite P) (a : Actor P A) (rpc : Rpc S P A) (K C : P) (n : Nat)
    (I : Nat → Int) (V : Nat → P) (hdone : a.startRes.Done = true)
    (hn : a.startRes.participants.length = n)
    (hstream : rpc.stream = none) (hsend : rpc.send 0 = none)
    (hrecv : ∀ k, k < n → rpc.recv k = Except.ok (Message.decryptReply (I k) (V k)))
    (hI : ∀ i, i < n → 0 ≤ I i) (hinj : ∀ i j, i < n → j < n → I i = I j → i = j) :
    (Decrypt suite a rpc K C).1 =
      match suite.data (lagrangeRecover (fun k => (xScalar (I k) : S)) V n) with
      | Except.error e => Go.ret [] (some ("failed to get embedded data: " ++ e))
      | Except.ok decryptedMessage => Go.ret decryptedMessage none :=
  Decrypt_of_replies suite a rpc K C n I V hdone hn hstream hsend hrecv hI hinj

/-- The interpolation at 0 of the points 20 (index 1) and 15 (index 0) is 10. -/
theorem exRecover_value :
    lagrangeRecover (fun k => (xScalar (if k = 0 then (1 : Int) else 0) : ℚ))
      (fun k => if k = 0 then (20 : ℚ) else 15) 2 = 10 := by
  have e0 : (Finset.range 2).erase 0 = {1} := by decide
  have e1 : (Finset.range 2).erase 1 = {0} := by decide
  simp only [lagrangeRecover, lagrangeCoeff, Finset.sum_range_succ, Finset.sum_range_zero,
    e0, e1, Finset.prod_singleton, xScalar]
  norm_num

/-- The toy point 10 holds the byte 9. -/
theorem exSuite_data_ten : exSuite.data 10 = Except.ok [9] := by
  simp [exSuite]
  rfl

/-- The toy point 8 holds the byte 7. -/
theorem exSuite_data_eight : exSuite.data 8 = Except.ok [7] := by
  simp [exSuite]
  rfl

/-- The toy embedding of the byte 7 is the point 8. -/
theorem exSuite_embed_seven : exSuite.embed [7] 0 = 8 := by
  show (((7 : ℕ) : ℚ) + 1) = 8
  norm_num




/-- Counterexample to C2: for the ciphertext `(5, 18)` and the replies `(1, 20)`, `(0, 15)`,
`Decrypt` returns `[9]`, the data of the interpolated point `V = 10`, while the data embedded
in `C - V = 8` is `[7]`. -/
theorem Decrypt_not_C_minus_V_counterexample :
    (Decrypt (S := ℚ) exSuite exActorQ
        (exRpc [Message.decryptReply 1 20, Message.decryptReply 0 15]) 5 18).1
      = Go.ret [9] none ∧
    exSuite.data ((18 : ℚ) -
      lagrangeRecover (fun k => (xScalar (if k = 0 then (1 : Int) else 0) : ℚ))
        (fun k => if k = 0 then (20 : ℚ) else 15) 2) = Except.ok [7] := by
  constructor
  · rw [Decrypt_of_replies (S := ℚ) exSuite exActorQ _ 5 18 2
      (fun k => if k = 0 then (1 : Int) else 0) (fun k => if k = 0 then (20 : ℚ) else 15)
      (by decide) rfl rfl rfl (fun k hk => by interval_cases k <;> rfl)
      (fun i _ => by show (0 : Int) ≤ if i = 0 then 1 else 0; split <;> decide)
      (fun i j hi hj h => by interval_cases i <;> interval_cases j <;> simp_all),
      exRecover_value, exSuite_data_ten]
  · rw [exRecover_value]
    have h : (18 : ℚ) - 10 = 8 := by norm_num
    rw [h, exSuite_data_eight]

/-- C1: for every DKG-certified actor (its distributed key is `f(0)·G` for the shared
polynomial `f`, of degree less than the number `n ≥ 1` of participants) and every message `m`
with `len(m) < EmbedLen` (the suite returning the embedded prefix as the data of the embedded
point): if `(K, C, remainder) = Encrypt(m)` and every participant answers the decrypt request
with its honest share, then `Decrypt(K, C)` returns exactly the bytes of `m`, and `remainder`
is empty. The honest answer of the participant of index `Iᵢ` (indexes non-negative, abscissas
distinct) is the point `C - sᵢ·K` partially decrypted with its share `sᵢ = f(Iᵢ + 1)`: `Decrypt`
interpolates the answers and takes the data of the result without subtracting anything from
`C`, and the test `TestPedersen_Scenario_EncryptDecrypt` runs it on real nodes and gets the
message back. -/
theorem Decrypt_Encrypt_roundtrip {S P A : Type} [Field S] [AddCommGroup P] [Module S P]
    (suite : Suite P) (a : Actor P A) (rpc : Rpc S P A) (message remainder : Bytes)
    (seed : Nat) (k : S) (K C : P) (n : Nat) (I : Nat → Int) (f : Polynomial S)
    (hdone : a.startRes.Done = true) (hn : a.startRes.participants.length = n)
    (hpos : 0 < n) (hdeg : f.degree < n)
    (hkey : a.startRes.distrKey = f.eval 0 • suite.base)
    (hlen : message.length < suite.embedLen)
    (hdata : suite.data (suite.embed message seed) = Except.ok (message.take suite.embedLen))
    (henc : Encrypt suite a message seed k = Go.ret (some K, some C, remainder) none)
    (hstream : rpc.stream = none) (hsend : rpc.send 0 = none)
    (hI : ∀ i, i < n → 0 ≤ I i)
    (hinj : ∀ i j, i < n → j < n → (xScalar (I i) : S) = xScalar (I j) → i = j)
    (hrecv : ∀ i, i < n → rpc.recv i =
      Except.ok (Message.decryptReply (I i) (C - f.eval (xScalar (I i)) • K))) :
    (Decrypt suite a rpc K C).1 = Go.ret message none ∧ remainder = [] := by
  simp only [Encrypt, hdone, Bool.not_true, Bool.false_eq_true, if_false, Go.ret.injEq,
    Prod.mk.injEq, Option.some.injEq, and_true] at henc
  obtain ⟨hK, hC, hrem⟩ := henc
  have hrem' : remainder = [] := by
    rw [← hrem, if_pos (by omega)]
    simp
  refine ⟨?_, hrem'⟩
  rw [Decrypt_of_replies suite a rpc K C n I (fun i => C - f.eval (xScalar (I i)) • K) hdone
    hn hstream hsend hrecv hI (fun i j hi hj h => hinj i j hi hj (by rw [h])),
    lagrangeRecover_sub_smul (fun i => (xScalar (I i) : S)) n hpos hinj f hdeg K C]
  have hM : C - f.eval 0 • K = suite.embed message seed := by
    rw [← hC, ← hK, hkey, smul_smul, smul_smul, mul_comm]
    abel
  rw [hM, hdata, List.take_of_length_le (by omega)]

/-- Witness of C2 (amended): the replies of the counterexample, for another ciphertext. -/
theorem Decrypt_returns_recovered_point_witness :
    exActorQ.startRes.Done = true ∧
      (Decrypt (S := ℚ) exSuite exActorQ
        (exRpc [Message.decryptReply 1 20, Message.decryptReply 0 15]) 7 3).1
        = Go.ret [9] none :=
  ⟨by decide, by
    rw [Decrypt_returns_recovered_point (S := ℚ) exSuite exActorQ _ 7 3 2
      (fun k => if k = 0 then (1 : Int) else 0) (fun k => if k = 0 then (20 : ℚ) else 15)
      (by decide) rfl rfl rfl (fun k hk => by interval_cases k <;> rfl)
      (fun i _ => by show (0 : Int) ≤ if i = 0 then 1 else 0; split <;> decide)
      (fun i j hi hj h => by interval_cases i <;> interval_cases j <;> simp_all),
      exRecover_value, exSuite_data_ten]⟩

/-- Witness of C1: the example actor, the message `[7]` and the partially decrypted points
of its two participants. -/
theorem Decrypt_Encrypt_roundtrip_witness :
    exActorQ.startRes.Done = true ∧ ([7] : Bytes).length < exSuite.embedLen ∧
      (Decrypt (S := ℚ) exSuite exActorQ
        (exRpc [Message.decryptReply 1
            (18 - Polynomial.eval (xScalar 1) (Polynomial.X + Polynomial.C (2 : ℚ)) • 5),
          Message.decryptReply 0
            (18 - Polynomial.eval (xScalar 0) (Polynomial.X + Polynomial.C (2 : ℚ)) • 5)])
        5 18).1 = Go.ret [7] none :=
  ⟨by decide, by decide,
    (Decrypt_Encrypt_roundtrip (S := ℚ) exSuite exActorQ _ [7] [] 0 5 5 18 2
      (fun k => if k = 0 then (1 : Int) else 0) (Polynomial.X + Polynomial.C (2 : ℚ))
      (by decide) rfl (by decide)
      (by rw [Polynomial.degree_X_add_C]; exact_mod_cast Nat.one_lt_two)
      (by simp [exSuite, exActorQ, exStateQ])
      (by decide)
      (by rw [exSuite_embed_seven, exSuite_data_eight]; rfl)
      (by
        simp [Encrypt, exSuite, exActorQ, exStateQ, State.Done]
        show (5 : ℚ) * 2 + (((7 : ℕ) : ℚ) + 1) = 18
        norm_num)
      rfl rfl
      (fun i _ => by show (0 : Int) ≤ if i = 0 then 1 else 0; split <;> decide)
      (fun i j hi hj h => by
        interval_cases i <;> interval_cases j <;> simp_all [xScalar])
      (fun i hi => by interval_cases i <;> rfl)).1⟩

/-- C12: for every actor whose DKG state is not done, each of `GetPublicKey`, `Encrypt`,
`VerifiableEncrypt`, `Decrypt`, `VerifiableDecrypt`, `Reshare`, `IssueMasterCredential`,
`IssueEventCredential` and `VerifyEventCredential` returns an error; the trace of those that
use the transport is empty (no stream creation, no send), `IssueMasterCredential` leaves the
actor as it was and `VerifiableDecrypt` leaves `workerNum` as it was. The other four have no
access to the transport or to a state they could change. -/
theorem not_done_errors {S P A : Type} [Field S] [AddCommGroup P] [Module S P]
    [DecidableEq P] [DecidableEq A] (suite : Suite P) (hash : List P → S) (bdn : Bdn P)
    (check : ShareAndProof S P → P → Option String) (a : Actor P A) (rpc : Rpc S P A)
    (message idHash eventName credential : Bytes) (signatures : List Bytes) (GBar K C : P)
    (seed : Nat) (k s : S) (workerNum : Nat) (ciphertexts : List (Ciphertext S P))
    (co : CollectiveAuthority P A) (thresholdNew : Int)
    (hnot : a.startRes.Done = false) :
    GetPublicKey a = Go.ret none (some "DKG has not been initialized") ∧
    Encrypt suite a message seed k =
      Go.ret (none, none, []) (some "you must first initialize DKG. Did you call setup() first?") ∧
    VerifiableEncrypt suite hash a message GBar seed k s =
      Go.ret (none, []) (some "you must first initialize DKG. Did you call setup() first?") ∧
    Decrypt suite a rpc K C =
      (Go.ret [] (some "you must first initialize DKG. Did you call setup() first?"), []) ∧
    VerifiableDecrypt suite check a rpc workerNum ciphertexts =
      (Go.ret [] (some "you must first initialize DKG. Did you call setup() first?"), [],
        workerNum) ∧
    Reshare a rpc co thresholdNew =
      (Go.ret () (some "you must first initialize DKG. Did you call setup() first?"), []) ∧
    IssueMasterCredential bdn a rpc idHash =
      (Go.ret ([], []) (some "you must first initialize DKG. Did you call setup() first?"),
        [], a) ∧
    IssueEventCredential bdn a rpc idHash eventName credential signatures =
      (Go.ret ([], []) (some "you must first initialize DKG. Did you call setup() first?"),
        []) ∧
    VerifyEventCredential bdn a idHash eventName credential signatures =
      Go.ret false (some "you must first initialize DKG. Did you call setup() first?") := by
  refine ⟨?_, ?_, ?_, ?_, ?_, ?_, ?_, ?_, ?_⟩
  · simp [GetPublicKey, hnot]
  · simp [Encrypt, hnot, initDkgFirst]
  · simp [VerifiableEncrypt, hnot]
  · simp [Decrypt, hnot, initDkgFirst]
  · simp [VerifiableDecrypt, hnot, initDkgFirst]
  · simp [Reshare, hnot, initDkgFirst]
  · simp [IssueMasterCredential, hnot, initDkgFirst]
  · simp [IssueEventCredential, hnot, initDkgFirst]
  · simp [VerifyEventCredential, hnot, initDkgFirst]

/-- Witness of C12: an actor whose node is in the state `initial`. -/
theorem not_done_errors_witness :
    exActorNew.startRes.Done = false ∧
      GetPublicKey exActorNew = Go.ret none (some "DKG has not been initialized") :=
  ⟨by decide,
    (not_done_errors exSuite exHash ⟨fun _ _ _ => none, fun _ => Except.ok []⟩ exCheck
      exActorNew (exRpc []) [] [] [] [] [] 0 0 0 0 0 0 0 [] ⟨[], []⟩ 0 (by decide)).1⟩

/-- C13: on a set-up actor, for every message, generator `GBar` and sampled scalars `k` and
`s`, the ciphertext `(K, C, UBar, E, F, GBar)` returned by `VerifiableEncrypt` has `K = k·G`,
`C = k·distKey + M`, `UBar = k·GBar` and satisfies `F·G − E·K = s·G` and
`F·GBar − E·UBar = s·GBar`, so that recomputing the hash of
`C, K, UBar, F·G − E·K, F·GBar − E·UBar` yields `E`. -/
theorem VerifiableEncrypt_proof_verifies {S P A : Type} [Field S] [AddCommGroup P]
    [Module S P] (suite : Suite P) (hash : List P → S) (a : Actor P A) (message : Bytes)
    (GBar : P) (seed : Nat) (k s : S) (hdone : a.startRes.Done = true) :
    ∃ ct remainder,
      VerifiableEncrypt suite hash a message GBar seed k s = Go.ret (some ct, remainder) none ∧
      ct.K = k • suite.base ∧
      ct.C = k • a.startRes.distrKey + suite.embed message seed ∧
      ct.UBar = k • GBar ∧ ct.GBar = GBar ∧
      ct.F • suite.base - ct.E • ct.K = s • suite.base ∧
      ct.F • ct.GBar - ct.E • ct.UBar = s • GBar ∧
      hash [ct.C, ct.K, ct.UBar, ct.F • suite.base - ct.E • ct.K,
        ct.F • ct.GBar - ct.E • ct.UBar] = ct.E := by
  have h1 : ∀ (E : S) (Q : P), (s + E * k) • Q - E • k • Q = s • Q := by
    intro E Q
    rw [add_smul, mul_smul]
    abel
  have henc : VerifiableEncrypt suite hash a message GBar seed k s =
      Go.ret (some
        { K := k • suite.base, C := k • a.startRes.distrKey + suite.embed message seed,
          UBar := k • GBar,
          E := hash [k • a.startRes.distrKey + suite.embed message seed, k • suite.base,
            k • GBar, s • suite.base, s • GBar],
          F := s + hash [k • a.startRes.distrKey + suite.embed message seed, k • suite.base,
            k • GBar, s • suite.base, s • GBar] * k,
          GBar := GBar },
        message.drop
          (if suite.embedLen > message.length then message.length else suite.embedLen))
        none := by
    simp only [VerifiableEncrypt, hdone, Bool.not_true, Bool.false_eq_true, if_false]
  refine ⟨_, _, henc, rfl, rfl, rfl, rfl, h1 _ _, h1 _ _, ?_⟩
  simp only [h1]

/-- Witness of C13: the message `[7]` on the example actor, with `GBar = 3`, `k = 5`,
`s = 4`. -/
theorem VerifiableEncrypt_proof_verifies_witness :
    exActorQ.startRes.Done = true ∧
      ∃ ct remainder,
        VerifiableEncrypt exSuite exHash exActorQ [7] 3 0 5 4 = Go.ret (some ct, remainder) none ∧
        exHash [ct.C, ct.K, ct.UBar, ct.F • exSuite.base - ct.E • ct.K,
          ct.F • ct.GBar - ct.E • ct.UBar] = ct.E := by
  refine ⟨by decide, ?_⟩
  obtain ⟨ct, remainder, h1, _, _, _, _, _, _, h8⟩ :=
    VerifiableEncrypt_proof_verifies exSuite exHash exActorQ [7] 3 0 5 4 (by decide)
  exact ⟨ct, remainder, h1, h8⟩

/-- C18: on a set-up actor, for every message, `Encrypt` and `VerifiableEncrypt` return as
remainder exactly the suffix of the message after its first `min(len(message), EmbedLen)`
bytes, so that the prefix of that length followed by the remainder is the message, and the
remainder is empty if and only if `len(message) ≤ EmbedLen`. -/
theorem remainder_is_suffix {S P A : Type} [Field S] [AddCommGroup P] [Module S P]
    (suite : Suite P) (hash : List P → S) (a : Actor P A) (message : Bytes) (GBar : P)
    (seed : Nat) (k s : S) (hdone : a.startRes.Done = true) :
    ∃ K C ct remainder,
      Encrypt suite a message seed k = Go.ret (some K, some C, remainder) none ∧
      VerifiableEncrypt suite hash a message GBar seed k s = Go.ret (some ct, remainder) none ∧
      remainder = message.drop (min message.length suite.embedLen) ∧
      message.take (min message.length suite.embedLen) ++ remainder = message ∧
      (remainder = [] ↔ message.length ≤ suite.embedLen) := by
  have hmax : (if suite.embedLen > message.length then message.length else suite.embedLen)
      = min message.length suite.embedLen := by
    split <;> omega
  have henc : Encrypt suite a message seed k =
      Go.ret (some (k • suite.base),
        some (k • a.startRes.distrKey + suite.embed message seed),
        message.drop (min message.length suite.embedLen)) none := by
    simp only [Encrypt, hdone, Bool.not_true, Bool.false_eq_true, if_false, hmax]
  have hvenc : ∃ ct, VerifiableEncrypt suite hash a message GBar seed k s =
      Go.ret (some ct, message.drop (min message.length suite.embedLen)) none := by
    simp only [VerifiableEncrypt, hdone, Bool.not_true, Bool.false_eq_true, if_false, hmax]
    exact ⟨_, rfl⟩
  obtain ⟨ct, hct⟩ := hvenc
  refine ⟨_, _, ct, _, henc, hct, rfl, List.take_append_drop _ _, ?_⟩
  rw [List.drop_eq_nil_iff]
  omega

/-- Witness of C18: a message of three bytes on the example suite, which embeds two. -/
theorem remainder_is_suffix_witness :
    exActorQ.startRes.Done = true ∧
      ∃ K C ct,
        Encrypt (S := ℚ) exSuite exActorQ [7, 8, 9] 0 5 = Go.ret (some K, some C, [9]) none ∧
        VerifiableEncrypt exSuite exHash exActorQ [7, 8, 9] 3 0 5 4
          = Go.ret (some ct, [9]) none := by
  refine ⟨by decide, ?_⟩
  obtain ⟨K, C, ct, remainder, h1, h2, h3, _, _⟩ :=
    remainder_is_suffix exSuite exHash exActorQ [7, 8, 9] 3 0 5 4 (by decide)
  have hr : remainder = [9] := by rw [h3]; rfl
  rw [hr] at h1 h2
  exact ⟨K, C, ct, h1, h2⟩

/-- Counterexample to C19: on a suite whose embedding pads the point with random bytes, the
point of the empty message carries no data but is not the neutral element, and `Encrypt` of
the empty message with `k = 5` returns `C = 65803`, which is not `k·distKey = 10`. -/
theorem Encrypt_empty_counterexample :
    exActorQ.startRes.Done = true ∧
    exSuitePad.data (exSuitePad.embed [] 0) = Except.ok [] ∧
    Encrypt (S := ℚ) exSuitePad exActorQ [] 0 5 = Go.ret (some 5, some 65803, []) none ∧
    (65803 : ℚ) ≠ (5 : ℚ) • exActorQ.startRes.distrKey := by
  refine ⟨by decide, ?_, ?_, ?_⟩
  · have h : exSuitePad.embed [] 0 = 65793 := by
      simp [exSuitePad, exSuite]
    rw [h]
    simp [exSuitePad, exSuite]
  · simp [Encrypt, exSuitePad, exSuite, exActorQ, exStateQ, State.Done]
    norm_num
  · simp [exActorQ, exStateQ]
    norm_num

/-- C19 (amended): for the empty message, `Encrypt` on a set-up actor returns
`(K, C, remainder)` with `K = k·G`, `C = k·distKey + M` where `M` is the point that `Embed`
makes of the empty data, and an empty remainder; `C = k·distKey` holds exactly when that point
is the neutral element, and the embedded prefix has length 0. -/
theorem Encrypt_empty {S P A : Type} [Field S] [AddCommGroup P] [Module S P]
    (suite : Suite P) (a : Actor P A) (seed : Nat) (k : S)
    (hdone : a.startRes.Done = true) :
    Encrypt suite a [] seed k =
      Go.ret (some (k • suite.base), some (k • a.startRes.distrKey + suite.embed [] seed), [])
        none ∧
    (k • a.startRes.distrKey + suite.embed [] seed = k • a.startRes.distrKey ↔
      suite.embed [] seed = 0) ∧
    (suite.data (suite.embed [] seed) = Except.ok (([] : Bytes).take suite.embedLen) →
      suite.data (suite.embed [] seed) = Except.ok []) := by
  refine ⟨?_, ?_, ?_⟩
  · simp [Encrypt, hdone]
  · simp
  · intro h
    rw [h, List.take_nil]

/-- Witness of C19 (amended): the run of the counterexample. -/
theorem Encrypt_empty_witness :
    exActorQ.startRes.Done = true ∧
      Encrypt (S := ℚ) exSuitePad exActorQ [] 0 5 =
        Go.ret (some ((5 : ℚ) • exSuitePad.base),
          some ((5 : ℚ) • exActorQ.startRes.distrKey + exSuitePad.embed [] 0), []) none :=
  ⟨by decide, (Encrypt_empty (S := ℚ) exSuitePad exActorQ 0 5 (by decide)).1⟩

/-- From the second iteration on, the receiving loop of `Setup` over StartDone messages
succeeds when every key is the key of the previous reply, and fails with "the public keys does
not match" as soon as one is not. -/
theorem setupRecv_common {S P A : Type} [DecidableEq P] (rpc : Rpc S P A) (key : Nat → P)
    (c : P) :
    ∀ (n i : Nat) (keys : List P), i ≠ 0 → keys.getLast? = some c →
      (∀ k, i ≤ k → k < i + n → rpc.recv k = Except.ok (Message.startDone (key k))) →
      ((∀ k, i ≤ k → k < i + n → key k = c) →
        setupRecv rpc n i keys = Except.ok (keys ++ (List.range' i n).map key)) ∧
      ((∃ k, i ≤ k ∧ k < i + n ∧ key k ≠ c) →
        setupRecv rpc n i keys = Except.error "the public keys does not match: ") := by
  intro n
  induction n with
  | zero =>
    intro i keys _ _ _
    exact ⟨fun _ => by simp [setupRecv], fun ⟨k, h1, h2, _⟩ => by omega⟩
  | succ n ih =>
    intro i keys hi hlast hrecv
    have hri := hrecv i (le_refl i) (by omega)
    by_cases hki : key i = c
    · have hcond : ¬ (i ≠ 0 ∧ keys.getLast? ≠ some (key i)) := by
        rw [hki, hlast]
        simp
      obtain ⟨ih1, ih2⟩ := ih (i + 1) (keys ++ [key i]) (by omega) (by simp [hki])
        (fun k h1 h2 => hrecv k (by omega) (by omega))
      constructor
      · intro hall
        simp only [setupRecv, hri, hcond, if_false]
        rw [ih1 (fun k h1 h2 => hall k (by omega) (by omega)), List.range'_succ]
        simp
      · rintro ⟨k, h1, h2, h3⟩
        simp only [setupRecv, hri, hcond, if_false]
        apply ih2
        refine ⟨k, ?_, by omega, h3⟩
        by_contra hcon
        have : k = i := by omega
        rw [this] at h3
        exact h3 hki
    · have hcond : i ≠ 0 ∧ keys.getLast? ≠ some (key i) := by
        refine ⟨hi, ?_⟩
        rw [hlast]
        intro h
        exact hki (Option.some.inj h).symm
      constructor
      · intro hall
        exact absurd (hall i (le_refl i) (by omega)) hki
      · intro _
        simp only [setupRecv, hri]
        rw [if_pos hcond]

/-- C11: for a roster of `n ≥ 1` participants and `n` received StartDone messages (the actor
not done, the stream created, the keys of the authorities of the right kinds, the Start sent),
`Setup` returns a key with no error if and only if all `n` messages carry the same public key;
the returned key is then that common key; and if any two received keys differ `Setup` fails
with "the public keys does not match". -/
theorem Setup_keys {S P A : Type} [DecidableEq P] (a : Actor P A) (rpc : Rpc S P A)
    (co coBdn : CollectiveAuthority P A) (threshold : Int) (addrs : List A)
    (pubkeys blsPubkeys : List P) (key : Nat → P)
    (hnot : a.startRes.Done = false) (hstream : rpc.stream = none)
    (hco : collectEd co.addrs co.pubkeys = Except.ok (addrs, pubkeys))
    (hbls : collectBls coBdn.addrs coBdn.pubkeys = Except.ok blsPubkeys)
    (hsend : rpc.send 0 = none) (hn : 0 < addrs.length)
    (hrecv : ∀ k, k < addrs.length → rpc.recv k = Except.ok (Message.startDone (key k))) :
    ((∃ pk, (Setup a rpc co coBdn threshold).1 = Go.ret (some pk) none) ↔
      ∀ i j, i < addrs.length → j < addrs.length → key i = key j) ∧
    ((∀ i j, i < addrs.length → j < addrs.length → key i = key j) →
      (Setup a rpc co coBdn threshold).1 = Go.ret (some (key 0)) none) ∧
    ((∃ i j, i < addrs.length ∧ j < addrs.length ∧ key i ≠ key j) →
      (Setup a rpc co coBdn threshold).1 =
        Go.ret none (some "the public keys does not match: ")) := by
  obtain ⟨m, hm⟩ : ∃ m, addrs.length = m + 1 := ⟨addrs.length - 1, by omega⟩
  have hr0 := hrecv 0 hn
  have hstep : setupRecv rpc addrs.length 0 [] = setupRecv rpc m 1 [key 0] := by
    rw [hm]
    simp [setupRecv, hr0]
  obtain ⟨h1, h2⟩ := setupRecv_common rpc key (key 0) m 1 [key 0] (by omega) (by simp)
    (fun k _ hk => hrecv k (by omega))
  have hsetup : (Setup a rpc co coBdn threshold).1 =
      match setupRecv rpc m 1 [key 0] with
      | Except.error e => Go.ret none (some e)
      | Except.ok dkgPubKeys =>
        match dkgPubKeys.head? with
        | some k => Go.ret (some k) none
        | none => Go.panic := by
    simp only [Setup, hnot, hstream, hco, hbls, hsend, hstep, Bool.false_eq_true, if_false]
    cases setupRecv rpc m 1 [key 0] with
    | error e => rfl
    | ok ks => simp only []; cases ks.head? <;> rfl
  have hgood : (∀ i j, i < addrs.length → j < addrs.length → key i = key j) →
      (Setup a rpc co coBdn threshold).1 = Go.ret (some (key 0)) none := by
    intro hall
    rw [hsetup, h1 (fun k _ hk => hall k 0 (by omega) hn)]
    simp
  have hbad : (∃ i j, i < addrs.length ∧ j < addrs.length ∧ key i ≠ key j) →
      (Setup a rpc co coBdn threshold).1 =
        Go.ret none (some "the public keys does not match: ") := by
    rintro ⟨i, j, hi, hj, hne⟩
    have hex : ∃ k, 1 ≤ k ∧ k < 1 + m ∧ key k ≠ key 0 := by
      by_cases hi0 : key i = key 0
      · have hj0 : key j ≠ key 0 := fun h => hne (by rw [hi0, h])
        refine ⟨j, ?_, by omega, hj0⟩
        by_contra hcon
        have : j = 0 := by omega
        rw [this] at hj0
        exact hj0 rfl
      · refine ⟨i, ?_, by omega, hi0⟩
        by_contra hcon
        have : i = 0 := by omega
        rw [this] at hi0
        exact hi0 rfl
    rw [hsetup, h2 hex]
  refine ⟨⟨?_, fun h => ⟨_, hgood h⟩⟩, hgood, hbad⟩
  rintro ⟨pk, hpk⟩
  by_contra hcon
  have hex : ∃ i j, i < addrs.length ∧ j < addrs.length ∧ key i ≠ key j := by
    by_contra hno
    apply hcon
    intro i j hi hj
    by_contra hne
    exact hno ⟨i, j, hi, hj, hne⟩
  rw [hbad hex] at hpk
  cases hpk

/-- Witness of C11: two StartDone messages with the keys 3 and 4. -/
theorem Setup_keys_witness :
    exActorNew.startRes.Done = false ∧
      (Setup (S := ℚ) exActorNew
          (exRpc [Message.startDone 3, Message.startDone 4])
          ⟨[100, 101], [PublicKey.ed25519 1, PublicKey.ed25519 2]⟩
          ⟨[100, 101], [PublicKey.bls 7, PublicKey.bls 8]⟩ 2).1 =
        Go.ret none (some "the public keys does not match: ") :=
  ⟨by decide,
    (Setup_keys (S := ℚ) exActorNew (exRpc [Message.startDone 3, Message.startDone 4])
      ⟨[100, 101], [PublicKey.ed25519 1, PublicKey.ed25519 2]⟩
      ⟨[100, 101], [PublicKey.bls 7, PublicKey.bls 8]⟩ 2 [100, 101] [1, 2] [7, 8]
      (fun k => if k = 0 then 3 else 4) (by decide) rfl rfl rfl rfl (by decide)
      (fun k hk => by
        have hk' : k < 2 := hk
        interval_cases k <;> rfl)).2.2
      ⟨0, 1, by decide, by decide, by norm_num⟩⟩

/-- The loop over the authority returns as many addresses as keys. -/
theorem collectEd_length {P A : Type} :
    ∀ (as : List A) (ks : List (PublicKey P)) (addrs : List A) (pubkeys : List P),
      collectEd as ks = Except.ok (addrs, pubkeys) → addrs.length = pubkeys.length := by
  intro as
  induction as with
  | nil => intro ks addrs pubkeys h; simp [collectEd] at h; rw [h.1, h.2]; rfl
  | cons x as ih =>
    intro ks addrs pubkeys h
    cases ks with
    | nil => simp [collectEd] at h; rw [h.1, h.2]; rfl
    | cons k ks =>
      cases k with
      | ed25519 p =>
        simp only [collectEd] at h
        cases hrec : collectEd as ks with
        | error e => simp [hrec] at h
        | ok r =>
          obtain ⟨r1, r2⟩ := r
          simp only [hrec, Except.ok.injEq, Prod.mk.injEq] at h
          rw [← h.1, ← h.2]
          simp [ih ks r1 r2 hrec]
      | bls p => simp [collectEd] at h
      | other => simp [collectEd] at h

/-- Counterexample to C15: with a DKG authority of two members, an empty BDN authority
and the threshold 5, `Setup` sends a Start with two addresses, two DKG keys, no BDN key and the
threshold 5, and returns the key without error. -/
theorem Setup_start_counterexample :
    exActorNew.startRes.Done = false ∧
    Setup (S := ℚ) exActorNew (exRpc [Message.startDone 3, Message.startDone 3])
        ⟨[100, 101], [PublicKey.ed25519 1, PublicKey.ed25519 2]⟩ ⟨[], []⟩ 5 =
      (Go.ret (some 3) none,
        [Event.stream [100, 101],
          Event.send (Message.start 5 [100, 101] [1, 2] []) [100, 101]]) := by
  refine ⟨by decide, by decide⟩

/-- C15 (amended): every Start message sent by `Setup` carries lists of addresses and of DKG
public keys of the same length, the keys of the BDN authority whatever their number, and the
threshold it was given; `Setup` checks neither the size of the BDN authority nor the threshold:
on an actor that is not done, once the stream is created and the keys are of the right kinds,
the Start is sent. -/
theorem Setup_start_message {S P A : Type} [DecidableEq P] (a : Actor P A) (rpc : Rpc S P A)
    (co coBdn : CollectiveAuthority P A) (threshold : Int) :
    (∀ (msg : Message S P A) (dest : List A),
      Event.send msg dest ∈ (Setup a rpc co coBdn threshold).2 →
      ∃ addrs pubkeys blsPubkeys,
        collectEd co.addrs co.pubkeys = Except.ok (addrs, pubkeys) ∧
        collectBls coBdn.addrs coBdn.pubkeys = Except.ok blsPubkeys ∧
        msg = Message.start threshold addrs pubkeys blsPubkeys ∧ dest = addrs ∧
        addrs.length = pubkeys.length) ∧
    (a.startRes.Done = false → rpc.stream = none →
      ∀ addrs pubkeys blsPubkeys,
        collectEd co.addrs co.pubkeys = Except.ok (addrs, pubkeys) →
        collectBls coBdn.addrs coBdn.pubkeys = Except.ok blsPubkeys →
        Event.send (Message.start threshold addrs pubkeys blsPubkeys) addrs
          ∈ (Setup a rpc co coBdn threshold).2) := by
  constructor
  · intro msg dest hmem
    unfold Setup at hmem
    cases hd : a.startRes.Done with
    | true => simp [hd] at hmem
    | false =>
      simp only [hd, Bool.false_eq_true, if_false] at hmem
      cases hs : rpc.stream with
      | some e => simp [hs] at hmem
      | none =>
        simp only [hs] at hmem
        cases hco : collectEd co.addrs co.pubkeys with
        | error e => simp [hco] at hmem
        | ok r =>
          obtain ⟨addrs, pubkeys⟩ := r
          simp only [hco] at hmem
          cases hbls : collectBls coBdn.addrs coBdn.pubkeys with
          | error e => simp [hbls] at hmem
          | ok blsPubkeys =>
            simp only [hbls] at hmem
            have hmem' : Event.send msg dest ∈ [Event.stream co.addrs,
                Event.send (Message.start threshold addrs pubkeys blsPubkeys) addrs] := by
              revert hmem
              split
              · exact fun h => h
              · split
                · exact fun h => h
                · split <;> exact fun h => h
            simp only [List.mem_cons, List.mem_singleton, Event.send.injEq,
              List.not_mem_nil, or_false] at hmem'
            rcases hmem' with h | h
            · cases h
            · exact ⟨addrs, pubkeys, blsPubkeys, rfl, rfl, h.1, h.2,
                collectEd_length _ _ _ _ hco⟩
  · intro hnot hstream addrs pubkeys blsPubkeys hco hbls
    simp only [Setup, hnot, hstream, hco, hbls, Bool.false_eq_true, if_false]
    split
    · simp
    · split
      · simp
      · split <;> simp

/-- Witness of C15 (amended): the run of the counterexample. -/
theorem Setup_start_message_witness :
    exActorNew.startRes.Done = false ∧
      Event.send (Message.start 5 [100, 101] [1, 2] []) [100, 101] ∈
        (Setup (S := ℚ) exActorNew (exRpc [Message.startDone 3, Message.startDone 3])
          ⟨[100, 101], [PublicKey.ed25519 1, PublicKey.ed25519 2]⟩ ⟨[], []⟩ 5).2 :=
  ⟨by decide,
    (Setup_start_message (S := ℚ) exActorNew (exRpc [Message.startDone 3, Message.startDone 3])
      ⟨[100, 101], [PublicKey.ed25519 1, PublicKey.ed25519 2]⟩ ⟨[], []⟩ 5).2 (by decide) rfl
      [100, 101] [1, 2] [] rfl rfl⟩

/-- The receiving loop of `VerifiableDecrypt` succeeds when every reply is a
VerifiableDecryptReply. -/
theorem recvVerifiableReplies_ok {S P A : Type} (rpc : Rpc S P A) :
    ∀ (n i : Nat),
      (∀ k, i ≤ k → k < i + n → ∃ sp, rpc.recv k = Except.ok (Message.verifiableDecryptReply sp)) →
      ∃ responses, recvVerifiableReplies rpc n i = Except.ok responses := by
  intro n
  induction n with
  | zero => intro i _; exact ⟨[], rfl⟩
  | succ n ih =>
    intro i h
    obtain ⟨sp, hsp⟩ := h i (le_refl i) (by omega)
    obtain ⟨rest, hrest⟩ := ih (i + 1) (fun k h1 h2 => h k (by omega) (by omega))
    exact ⟨sp :: rest, by simp only [recvVerifiableReplies, hsp, hrest]⟩

/-- Counterexample to C16: for the empty batch on the example actor,
`VerifiableDecrypt` opens a stream and sends a request to both participants. -/
theorem VerifiableDecrypt_empty_counterexample :
    exActorQ.startRes.Done = true ∧
    VerifiableDecrypt exSuite exCheck exActorQ
        (exRpc [Message.verifiableDecryptReply [], Message.verifiableDecryptReply []]) 4 [] =
      (Go.ret [] none,
        [Event.stream [100, 101],
          Event.send (Message.verifiableDecryptRequest []) [100, 101]], 0) := by
  refine ⟨by decide, by decide⟩

/-- C16 (amended): for an empty ciphertext batch, `VerifiableDecrypt` on a set-up actor
opens a stream, sends a VerifiableDecryptRequest with the empty batch to the participants, and
returns an empty result and no error once every participant has answered with a
VerifiableDecryptReply (`workerNum` is then 0). -/
theorem VerifiableDecrypt_empty {S P A : Type} [Field S] [AddCommGroup P] [Module S P]
    (suite : Suite P) (check : ShareAndProof S P → P → Option String) (a : Actor P A)
    (rpc : Rpc S P A) (workerNum : Nat) (hdone : a.startRes.Done = true) :
    (∃ rest, (VerifiableDecrypt suite check a rpc workerNum []).2.1 =
      Event.stream a.startRes.participants :: rest) ∧
    (rpc.stream = none →
      (VerifiableDecrypt suite check a rpc workerNum []).2.1 =
        [Event.stream a.startRes.participants,
          Event.send (Message.verifiableDecryptRequest []) a.startRes.participants]) ∧
    (rpc.stream = none → rpc.send 0 = none →
      (∀ k, k < a.startRes.participants.length →
        ∃ sp, rpc.recv k = Except.ok (Message.verifiableDecryptReply sp)) →
      (VerifiableDecrypt suite check a rpc workerNum []).1 = Go.ret [] none ∧
      (VerifiableDecrypt suite check a rpc workerNum []).2.2 = 0) := by
  have htrace : rpc.stream = none →
      (VerifiableDecrypt suite check a rpc workerNum []).2.1 =
        [Event.stream a.startRes.participants,
          Event.send (Message.verifiableDecryptRequest []) a.startRes.participants] := by
    intro hs
    simp only [VerifiableDecrypt, hdone, hs, Bool.not_true, Bool.false_eq_true, if_false]
    split
    · rfl
    · split
      · rfl
      · split <;> rfl
  refine ⟨?_, htrace, ?_⟩
  · cases hs : rpc.stream with
    | none => exact ⟨_, htrace hs⟩
    | some e =>
      exact ⟨[], by simp only [VerifiableDecrypt, hdone, hs, Bool.not_true,
        Bool.false_eq_true, if_false]⟩
  · intro hs hsend hrecv
    obtain ⟨responses, hr⟩ := recvVerifiableReplies_ok rpc a.startRes.participants.length 0
      (fun k _ hk => hrecv k (by omega))
    simp [VerifiableDecrypt, hdone, hs, hsend, hr, runJobs]

/-- Witness of C16 (amended): the run of the counterexample. -/
theorem VerifiableDecrypt_empty_witness :
    exActorQ.startRes.Done = true ∧
      (VerifiableDecrypt exSuite exCheck exActorQ
        (exRpc [Message.verifiableDecryptReply [], Message.verifiableDecryptReply []]) 4 []).2.1
        = [Event.stream exActorQ.startRes.participants,
          Event.send (Message.verifiableDecryptRequest []) exActorQ.startRes.participants] :=
  ⟨by decide,
    (VerifiableDecrypt_empty exSuite exCheck exActorQ
      (exRpc [Message.verifiableDecryptReply [], Message.verifiableDecryptReply []]) 4
      (by decide)).2.1 rfl⟩

/-- C17 (the code at the failing input): on the example actor with 4 CPUs, a batch of one
ciphertext whose two proofs are valid is decrypted to `[7]`; a call with the empty batch leaves
`workerNum` at 0; the same batch of one ciphertext, with the same valid proofs, is then returned
as `[nil]` with a nil error: no worker runs and no slot is filled. -/
theorem VerifiableDecrypt_workerNum_evaluation :
    exCheck ⟨3, 0, 0, 0, 0, 0⟩ 5 = none ∧ exCheck ⟨-2, 1, 0, 0, 0, 0⟩ 5 = none ∧
    (VerifiableDecrypt exSuite exCheck exActorQ
        (exRpc [Message.verifiableDecryptReply [⟨3, 0, 0, 0, 0, 0⟩],
          Message.verifiableDecryptReply [⟨-2, 1, 0, 0, 0, 0⟩]]) 4
        [⟨5, 18, 0, 0, 0, 0⟩]).1 = Go.ret [some [7]] none ∧
    VerifiableDecrypt exSuite exCheck exActorQ
        (exRpc [Message.verifiableDecryptReply [], Message.verifiableDecryptReply []]) 4 [] =
      (Go.ret [] none,
        [Event.stream [100, 101],
          Event.send (Message.verifiableDecryptRequest []) [100, 101]], 0) ∧
    (VerifiableDecrypt exSuite exCheck exActorQ
        (exRpc [Message.verifiableDecryptReply [⟨3, 0, 0, 0, 0, 0⟩],
          Message.verifiableDecryptReply [⟨-2, 1, 0, 0, 0, 0⟩]]) 0
        [⟨5, 18, 0, 0, 0, 0⟩]).1 = Go.ret [none] none := by
  refine ⟨by decide, by decide, ?_, by decide, by decide⟩
  have h : (((1 : ℚ) + 1) * 3 + 2) = 8 := by norm_num
  simp [VerifiableDecrypt, exActorQ, exStateQ, State.Done, exRpc, recvVerifiableReplies, runJobs,
    work, workLoop, exCheck, RecoverCommit, xyCommit, xyCommitLoop, xScalar, h,
    exSuite_data_eight]

/-- After a call of `VerifiableDecrypt` that received its replies, `workerNum` is the
minimum of the batch size and of `workerNum` before the call; a call that starts with
`workerNum` 0 returns only nil slots. -/
theorem VerifiableDecrypt_workerNum {S P A : Type} [Field S] [AddCommGroup P] [Module S P]
    (suite : Suite P) (check : ShareAndProof S P → P → Option String) (a : Actor P A)
    (rpc : Rpc S P A) (workerNum : Nat) (ciphertexts : List (Ciphertext S P))
    (responses : List (List (ShareAndProof S P)))
    (hdone : a.startRes.Done = true) (hstream : rpc.stream = none)
    (hsend : rpc.send 0 = none)
    (hrecv : recvVerifiableReplies rpc a.startRes.participants.length 0
      = Except.ok responses) :
    (VerifiableDecrypt suite check a rpc workerNum ciphertexts).2.2
      = min ciphertexts.length workerNum ∧
    (workerNum = 0 →
      (VerifiableDecrypt suite check a rpc workerNum ciphertexts).1
        = Go.ret (List.replicate ciphertexts.length none) none) := by
  constructor
  · simp only [VerifiableDecrypt, hdone, hstream, hsend, hrecv, Bool.not_true,
      Bool.false_eq_true, if_false]
    have hmin : (if ciphertexts.length < workerNum then ciphertexts.length else workerNum)
        = min ciphertexts.length workerNum := by
      split <;> omega
    split <;> exact hmin
  · intro h0
    subst h0
    simp [VerifiableDecrypt, hdone, hstream, hsend, hrecv, runJobs]

/-- The function `difference` keeps, in order, the members of `el1` that are not in `el2`. -/
theorem difference_eq_filter {A : Type} [DecidableEq A] (el1 el2 : List A) :
    difference el1 el2 = el1.filter (fun x => decide (x ∉ el2)) := by
  have h : ∀ (l acc : List A),
      l.foldl (fun result addr1 =>
        if el2.any (fun addr2 => decide (addr1 = addr2)) then result else result ++ [addr1]) acc
      = acc ++ l.filter (fun x => decide (x ∉ el2)) := by
    intro l
    induction l with
    | nil => intro acc; simp
    | cons x l ih =>
      intro acc
      simp only [List.foldl_cons, List.filter_cons]
      by_cases hx : x ∈ el2
      · have hany : el2.any (fun addr2 => decide (x = addr2)) = true := by
          rw [List.any_eq_true]
          exact ⟨x, hx, by simp⟩
        rw [if_pos hany, ih, if_neg (by simp [hx])]
      · have hany : el2.any (fun addr2 => decide (x = addr2)) = false := by
          rw [List.any_eq_false]
          intro y hy
          simp only [decide_eq_true_eq]
          intro hxy
          exact hx (hxy ▸ hy)
        rw [if_neg (by simp [hany]), ih, if_pos (by simp [hx])]
        simp
  have h' := h el1 []
  rw [List.nil_append] at h'
  exact h'

/-- The function `union` is `el1` followed, in order, by the members of `el2` that are not
in `el1`. -/
theorem union_eq_append {A : Type} [DecidableEq A] (el1 el2 : List A) :
    union el1 el2 = el1 ++ el2.filter (fun x => decide (x ∉ el1)) := by
  have h : ∀ (l acc : List A),
      l.foldl (fun addrsAll other =>
        if el1.any (fun addr => decide (addr = other)) then addrsAll else addrsAll ++ [other])
        acc
      = acc ++ l.filter (fun x => decide (x ∉ el1)) := by
    intro l
    induction l with
    | nil => intro acc; simp
    | cons x l ih =>
      intro acc
      simp only [List.foldl_cons, List.filter_cons]
      by_cases hx : x ∈ el1
      · have hany : el1.any (fun addr => decide (addr = x)) = true := by
          rw [List.any_eq_true]
          exact ⟨x, hx, by simp⟩
        rw [if_pos hany, ih, if_neg (by simp [hx])]
      · have hany : el1.any (fun addr => decide (addr = x)) = false := by
          rw [List.any_eq_false]
          intro y hy
          simp only [decide_eq_true_eq]
          intro hxy
          exact hx (hxy ▸ hy)
        rw [if_neg (by simp [hany]), ih, if_pos (by simp [hx])]
        simp
  exact h el2 el1

/-- The function `union` is `el1` followed by `difference el2 el1`. -/
theorem union_eq_append_difference {A : Type} [DecidableEq A] (el1 el2 : List A) :
    union el1 el2 = el1 ++ difference el2 el1 := by
  rw [union_eq_append, difference_eq_filter]

/-- The union of two duplicate-free lists is duplicate-free. -/
theorem union_nodup {A : Type} [DecidableEq A] (el1 el2 : List A) (h1 : el1.Nodup)
    (h2 : el2.Nodup) : (union el1 el2).Nodup := by
  rw [union_eq_append, List.nodup_append]
  refine ⟨h1, h2.filter _, ?_⟩
  intro x hx hx'
  simp only [List.mem_filter, decide_eq_true_eq] at hx'
  exact hx'.2 hx

/-- The receiving loop of `Reshare` depends only on the replies of its iterations. -/
theorem reshareRecv_congr {S P A : Type} [DecidableEq P] (rpc rpc' : Rpc S P A) :
    ∀ (n i : Nat) (keys : List P), (∀ k, i ≤ k → k < i + n → rpc'.recv k = rpc.recv k) →
      reshareRecv rpc' n i keys = reshareRecv rpc n i keys := by
  intro n
  induction n with
  | zero => intro i keys _; rfl
  | succ n ih =>
    intro i keys h
    simp only [reshareRecv, h i (le_refl i) (by omega)]
    split
    · rfl
    · split
      · rfl
      · exact ih (i + 1) _ (fun k h1 h2 => h k (by omega) (by omega))
    · rfl

/-- C14: when the old roster and the new roster are each duplicate-free (the actor set up,
the stream created, both sends successful), `Reshare` makes two sends: the StartResharing with
only the new roster and threshold (old threshold 0, no old roster, no old keys) to the old
participants, and the StartResharing with both rosters, both key lists and both thresholds to
exactly the members of the new roster that are absent from the old one; every member of
old ∪ new is among the destinations exactly once; it then awaits exactly `|old ∪ new|`
StartDone messages: it succeeds only if that many replies are StartDone messages, and its
outcome does not depend on any later reply. -/
theorem Reshare_messages {S P A : Type} [DecidableEq P] [DecidableEq A] (a : Actor P A)
    (rpc rpc' : Rpc S P A) (co : CollectiveAuthority P A) (thresholdNew : Int)
    (addrsNew : List A) (pubkeysNew : List P)
    (hdone : a.startRes.Done = true)
    (hco : collectEd co.addrs co.pubkeys = Except.ok (addrsNew, pubkeysNew))
    (hstream : rpc.stream = none) (hs0 : rpc.send 0 = none) (hs1 : rpc.send 1 = none)
    (hold : a.startRes.participants.Nodup) (hnew : addrsNew.Nodup) :
    (Reshare a rpc co thresholdNew).2 =
      [Event.stream (union a.startRes.participants addrsNew),
        Event.send (Message.startResharing thresholdNew 0 addrsNew [] pubkeysNew [])
          a.startRes.participants,
        Event.send (Message.startResharing thresholdNew a.startRes.threshold addrsNew
            a.startRes.participants pubkeysNew a.startRes.pubkeys)
          (difference addrsNew a.startRes.participants)] ∧
    (∀ x, x ∈ difference addrsNew a.startRes.participants ↔
      x ∈ addrsNew ∧ x ∉ a.startRes.participants) ∧
    (∀ x, x ∈ union a.startRes.participants addrsNew ↔
      x ∈ a.startRes.participants ∨ x ∈ addrsNew) ∧
    (union a.startRes.participants addrsNew).Nodup ∧
    (∀ x, x ∈ a.startRes.participants ∨ x ∈ addrsNew →
      (a.startRes.participants ++ difference addrsNew a.startRes.participants).count x = 1) ∧
    ((Reshare a rpc co thresholdNew).1 = Go.ret () none →
      ∀ k, k < (union a.startRes.participants addrsNew).length →
        ∃ pk, rpc.recv k = Except.ok (Message.startDone pk)) ∧
    (rpc'.stream = none → rpc'.send 0 = none → rpc'.send 1 = none →
      (∀ k, k < (union a.startRes.participants addrsNew).length → rpc'.recv k = rpc.recv k) →
      Reshare a rpc' co thresholdNew = Reshare a rpc co thresholdNew) := by
  have hdiff : ∀ x, x ∈ difference addrsNew a.startRes.participants ↔
      x ∈ addrsNew ∧ x ∉ a.startRes.participants := by
    intro x
    rw [difference_eq_filter]
    simp
  have hunion : ∀ x, x ∈ union a.startRes.participants addrsNew ↔
      x ∈ a.startRes.participants ∨ x ∈ addrsNew := by
    intro x
    rw [union_eq_append]
    simp only [List.mem_append, List.mem_filter, decide_eq_true_eq]
    constructor
    · rintro (h | h)
      · exact Or.inl h
      · exact Or.inr h.1
    · rintro (h | h)
      · exact Or.inl h
      · by_cases hx : x ∈ a.startRes.participants
        · exact Or.inl hx
        · exact Or.inr ⟨h, hx⟩
  have hnd := union_nodup a.startRes.participants addrsNew hold hnew
  have hshape : ∀ r : Rpc S P A, r.stream = none → r.send 0 = none → r.send 1 = none →
      Reshare a r co thresholdNew =
        (match reshareRecv r (union a.startRes.participants addrsNew).length 0 [] with
          | Except.error e => Go.ret () (some e)
          | Except.ok _ => Go.ret () none,
        [Event.stream (union a.startRes.participants addrsNew),
          Event.send (Message.startResharing thresholdNew 0 addrsNew [] pubkeysNew [])
            a.startRes.participants,
          Event.send (Message.startResharing thresholdNew a.startRes.threshold addrsNew
              a.startRes.participants pubkeysNew a.startRes.pubkeys)
            (difference addrsNew a.startRes.participants)]) := by
    intro r h1 h2 h3
    simp only [Reshare, hdone, hco, h1, h2, h3, Bool.not_true, Bool.false_eq_true, if_false,
      List.cons_append, List.nil_append]
    cases reshareRecv r (union a.startRes.participants addrsNew).length 0 [] <;> rfl
  refine ⟨?_, hdiff, hunion, hnd, ?_, ?_, ?_⟩
  · rw [hshape rpc hstream hs0 hs1]
  · intro x hx
    rw [← union_eq_append_difference]
    exact List.count_eq_one_of_mem hnd ((hunion x).2 hx)
  · intro hok k hk
    rw [hshape rpc hstream hs0 hs1] at hok
    cases hr : reshareRecv rpc (union a.startRes.participants addrsNew).length 0 [] with
    | error e => rw [hr] at hok; cases hok
    | ok ks =>
      obtain ⟨pk, h1, _⟩ := reshareRecv_agree rpc _ ks hr k k hk hk
      exact ⟨pk, h1⟩
  · intro h1 h2 h3 hrecv
    rw [hshape rpc hstream hs0 hs1, hshape rpc' h1 h2 h3,
      reshareRecv_congr rpc rpc' _ 0 [] (fun k _ hk => hrecv k (by omega))]

/-- Witness of C14: the example actor of participants 100, 101 and the new roster 101, 102. -/
theorem Reshare_messages_witness :
    exActor.startRes.Done = true ∧ exActor.startRes.participants.Nodup ∧
      (Reshare (S := Nat) exActor
        (exRpc [Message.startDone 3, Message.startDone 3, Message.startDone 3])
        ⟨[101, 102], [PublicKey.ed25519 2, PublicKey.ed25519 9]⟩ 2).2 =
      [Event.stream (union exActor.startRes.participants [101, 102]),
        Event.send (Message.startResharing 2 0 [101, 102] [] [2, 9] [])
          exActor.startRes.participants,
        Event.send (Message.startResharing 2 exActor.startRes.threshold [101, 102]
            exActor.startRes.participants [2, 9] exActor.startRes.pubkeys)
          (difference [101, 102] exActor.startRes.participants)] :=
  ⟨by decide, by decide,
    (Reshare_messages (S := Nat) exActor
      (exRpc [Message.startDone 3, Message.startDone 3, Message.startDone 3])
      (exRpc [Message.startDone 3, Message.startDone 3, Message.startDone 3])
      ⟨[101, 102], [PublicKey.ed25519 2, PublicKey.ed25519 9]⟩ 2 [101, 102] [2, 9]
      (by decide) rfl rfl rfl rfl (by decide) (by decide)).1⟩

/-- The value of the base64 character of a 6-bit value is that value. -/
theorem b64Value_b64Char : ∀ n, n < 64 → b64Value (b64Char n) = some n := by decide

/-- No base64 character of a 6-bit value is `:` or `=`. -/
theorem b64Char_ne : ∀ n, n < 64 → b64Char n ≠ 58 ∧ b64Char n ≠ 61 := by decide

/-- A byte is the byte made of its value. -/
theorem fin_ofNat_eq (a : Fin 256) (n : Nat) (h : n = a.val) : (Fin.ofNat n : Fin 256) = a := by
  apply Fin.ext
  subst h
  simp [Fin.ofNat, Nat.mod_eq_of_lt a.isLt]

/-- Decoding the base64 encoding of a byte string gives the byte string. -/
theorem base64Decode_encode : ∀ x : Bytes, base64Decode (base64Encode x) = Except.ok x := by
  intro x
  induction x using base64Encode.induct with
  | case1 => rfl
  | case2 a =>
    have ha := a.isLt
    simp only [base64Encode, base64Decode, and_self, if_true,
      b64Value_b64Char _ (show a.val / 4 < 64 by omega),
      b64Value_b64Char _ (show a.val % 4 * 16 < 64 by omega)]
    rw [fin_ofNat_eq a _ (by omega)]
  | case3 a b =>
    have ha := a.isLt
    have hb := b.isLt
    have hne := (b64Char_ne _ (show b.val % 16 * 4 < 64 by omega)).2
    simp only [base64Encode, base64Decode, and_self, if_true, hne, if_false,
      b64Value_b64Char _ (show a.val / 4 < 64 by omega),
      b64Value_b64Char _ (show a.val % 4 * 16 + b.val / 16 < 64 by omega),
      b64Value_b64Char _ (show b.val % 16 * 4 < 64 by omega)]
    rw [fin_ofNat_eq a _ (by omega), fin_ofNat_eq b _ (by omega)]
  | case4 a b c rest ih =>
    have ha := a.isLt
    have hb := b.isLt
    have hc := c.isLt
    have hne := (b64Char_ne _ (show c.val % 64 < 64 by omega)).2
    simp only [base64Encode, base64Decode, hne, and_false, if_false, ih,
      b64Value_b64Char _ (show a.val / 4 < 64 by omega),
      b64Value_b64Char _ (show a.val % 4 * 16 + b.val / 16 < 64 by omega),
      b64Value_b64Char _ (show b.val % 16 * 4 + c.val / 64 < 64 by omega),
      b64Value_b64Char _ (show c.val % 64 < 64 by omega)]
    rw [fin_ofNat_eq a _ (by omega), fin_ofNat_eq b _ (by omega), fin_ofNat_eq c _ (by omega)]

/-- The base64 encoding of a byte string does not contain `:`. -/
theorem separator_not_mem_base64Encode : ∀ x : Bytes, separator ∉ base64Encode x := by
  intro x
  induction x using base64Encode.induct with
  | case1 => simp [base64Encode]
  | case2 a =>
    have ha := a.isLt
    have h1 := (b64Char_ne _ (show a.val / 4 < 64 by omega)).1
    have h2 := (b64Char_ne _ (show a.val % 4 * 16 < 64 by omega)).1
    simp only [base64Encode, separator, List.mem_cons, List.not_mem_nil, or_false, not_or]
    exact ⟨fun h => h1 h.symm, fun h => h2 h.symm, by decide, by decide⟩
  | case3 a b =>
    have ha := a.isLt
    have hb := b.isLt
    have h1 := (b64Char_ne _ (show a.val / 4 < 64 by omega)).1
    have h2 := (b64Char_ne _ (show a.val % 4 * 16 + b.val / 16 < 64 by omega)).1
    have h3 := (b64Char_ne _ (show b.val % 16 * 4 < 64 by omega)).1
    simp only [base64Encode, separator, List.mem_cons, List.not_mem_nil, or_false, not_or]
    exact ⟨fun h => h1 h.symm, fun h => h2 h.symm, fun h => h3 h.symm, by decide⟩
  | case4 a b c rest ih =>
    have ha := a.isLt
    have hb := b.isLt
    have hc := c.isLt
    have h1 := (b64Char_ne _ (show a.val / 4 < 64 by omega)).1
    have h2 := (b64Char_ne _ (show a.val % 4 * 16 + b.val / 16 < 64 by omega)).1
    have h3 := (b64Char_ne _ (show b.val % 16 * 4 + c.val / 64 < 64 by omega)).1
    have h4 := (b64Char_ne _ (show c.val % 64 < 64 by omega)).1
    simp only [base64Encode, List.mem_cons, not_or]
    exact ⟨fun h => h1 (by rw [← h]; rfl), fun h => h2 (by rw [← h]; rfl),
      fun h => h3 (by rw [← h]; rfl), fun h => h4 (by rw [← h]; rfl), ih⟩

/-- A string without the separator splits into itself. -/
theorem split_of_not_mem (sep : Fin 256) : ∀ x : Bytes, sep ∉ x → split sep x = [x] := by
  intro x
  induction x with
  | nil => intro _; rfl
  | cons c cs ih =>
    intro h
    simp only [List.mem_cons, not_or] at h
    have hc : ¬ c = sep := fun hc => h.1 hc.symm
    simp only [split, if_neg hc, ih h.2]

/-- Splitting after a first piece without the separator. -/
theorem split_append (sep : Fin 256) : ∀ (x y : Bytes), sep ∉ x →
    split sep (x ++ sep :: y) = x :: split sep y := by
  intro x
  induction x with
  | nil => intro y _; simp [split]
  | cons c cs ih =>
    intro y h
    simp only [List.mem_cons, not_or] at h
    have hc : ¬ c = sep := fun hc => h.1 hc.symm
    show split sep (c :: (cs ++ sep :: y)) = _
    simp only [split, if_neg hc, ih y h.2]

/-- C20: for every address, DKG public key and BDN public key that marshal and unmarshal
back to themselves, `decodeAuthority(encodeAuthority(addr, pk, bdnPk))` returns the same three
values: the encoded line splits at `:` into exactly three fields, the base64 encodings of the
three marshalled values (base64 never emits `:`), each field decodes to the bytes that were
encoded, and any string that does not split into exactly three fields is rejected with
"invalid identity base64 string". -/
theorem authority_roundtrip {P A : Type} (codec : AuthorityCodec P A) (address other : A)
    (pk bdnPk : P) (addr pkbuf bdnPkbuf : Bytes)
    (haddr : codec.marshalText address = Except.ok addr)
    (hpk : codec.marshalBinary pk = Except.ok pkbuf)
    (hbdn : codec.marshalBinary bdnPk = Except.ok bdnPkbuf)
    (hfrom : codec.fromText addr = address)
    (hunpk : codec.unmarshalBinary pkbuf = Except.ok pk)
    (hunbdn : codec.unmarshalBinaryBdn bdnPkbuf = Except.ok bdnPk) :
    ∃ line, encodeAuthority codec (Except.ok address) pk bdnPk = Go.ret line none ∧
      split separator line = [base64Encode addr, base64Encode pkbuf, base64Encode bdnPkbuf] ∧
      base64Decode (base64Encode addr) = Except.ok addr ∧
      base64Decode (base64Encode pkbuf) = Except.ok pkbuf ∧
      base64Decode (base64Encode bdnPkbuf) = Except.ok bdnPkbuf ∧
      decodeAuthority codec (Except.ok other) line
        = Go.ret (some address, some pk, some bdnPk) none ∧
      ∀ (mino : Except String A) (str : Bytes), (split separator str).length ≠ 3 →
        decodeAuthority codec mino str
          = Go.ret (none, none, none) (some "invalid identity base64 string") := by
  have hsplit : split separator (base64Encode addr ++ [separator] ++ base64Encode pkbuf ++
      [separator] ++ base64Encode bdnPkbuf)
      = [base64Encode addr, base64Encode pkbuf, base64Encode bdnPkbuf] := by
    have e : base64Encode addr ++ [separator] ++ base64Encode pkbuf ++ [separator] ++
        base64Encode bdnPkbuf = base64Encode addr ++ separator ::
          (base64Encode pkbuf ++ separator :: base64Encode bdnPkbuf) := by
      simp
    rw [e, split_append _ _ _ (separator_not_mem_base64Encode addr),
      split_append _ _ _ (separator_not_mem_base64Encode pkbuf),
      split_of_not_mem _ _ (separator_not_mem_base64Encode bdnPkbuf)]
  refine ⟨_, by simp only [encodeAuthority, haddr, hpk, hbdn], hsplit,
    base64Decode_encode _, base64Decode_encode _, base64Decode_encode _, ?_, ?_⟩
  · simp only [decodeAuthority, hsplit, base64Decode_encode, hfrom, hunpk, hunbdn]
  · intro mino str hlen
    unfold decodeAuthority
    split
    · rename_i h
      rw [h] at hlen
      exact absurd rfl hlen
    · rfl

/-- Witness of C20: the address 100 and the keys 1 and 7 with the toy codec. -/
theorem authority_roundtrip_witness :
    exCodec.marshalText 100 = Except.ok [100] ∧ exCodec.fromText [100] = 100 ∧
      ∃ line, encodeAuthority exCodec (Except.ok 100) 1 7 = Go.ret line none ∧
        decodeAuthority exCodec (Except.ok 101) line = Go.ret (some 100, some 1, some 7) none := by
  refine ⟨rfl, rfl, ?_⟩
  obtain ⟨line, h1, _, _, _, _, h6, _⟩ :=
    authority_roundtrip exCodec 100 101 1 7 [100] [1, 0] [7, 0] rfl rfl rfl rfl rfl rfl
  exact ⟨line, h1, h6⟩

/-- C30: `union el1 el2` is `el1` followed by `difference el2 el1`, where `difference a b` is
the sublist of `a`, in order, of the members of `a` equal to no member of `b`; so `union`
holds exactly the members of either list, and has no duplicate when neither list has. -/
theorem union_difference_spec {A : Type} [DecidableEq A] (el1 el2 : List A) :
    union el1 el2 = el1 ++ difference el2 el1 ∧
      (∀ a b : List A, difference a b = a.filter (fun x => decide (∀ y ∈ b, x ≠ y)) ∧
        (difference a b).Sublist a) ∧
      (∀ x, x ∈ union el1 el2 ↔ x ∈ el1 ∨ x ∈ el2) ∧
      (el1.Nodup → el2.Nodup → (union el1 el2).Nodup) := by
  have hd : ∀ a b : List A, difference a b = a.filter (fun x => decide (∀ y ∈ b, x ≠ y)) := by
    intro a b
    rw [difference_eq_filter]
    congr 1
    funext x
    congr 1
    apply propext
    constructor
    · intro h y hy e
      exact h (e ▸ hy)
    · intro h hx
      exact h x hx rfl
  refine ⟨union_eq_append_difference el1 el2, fun a b => ⟨hd a b, ?_⟩, ?_, union_nodup el1 el2⟩
  · rw [hd a b]
    exact List.filter_sublist a
  · intro x
    rw [union_eq_append, List.mem_append, List.mem_filter]
    by_cases hx : x ∈ el1
    · simp [hx]
    · simp [hx]

/-- Witness of C30: the lists `[1, 2]` and `[2, 3]`. -/
theorem union_difference_spec_witness :
    union [1, 2] [2, 3] = [1, 2, 3] ∧ ([1, 2] : List Nat).Nodup ∧ ([2, 3] : List Nat).Nodup ∧
      (union [1, 2] [2, 3]).Nodup :=
  ⟨by decide, by decide, by decide,
    (union_difference_spec [1, 2] [2, 3]).2.2.2 (by decide) (by decide)⟩

/-- C31: when the `n` sign responses carry indexes that form a permutation of `0..n-1`, the
response of index `j` carrying the signature `sig j`, then for every arrival order `σ` the
signature list that `IssueMasterCredential` and `IssueEventCredential` return holds `sig j`
at every position `j`, the position of `bdnPubkeys[j]`; and they return it whenever the
aggregation of that list succeeds. -/
theorem signatures_sorted_by_index {S P A : Type} (bdn : Bdn P) (a : Actor P A)
    (rpc : Rpc S P A) (idHash eventName masterCredential : Bytes)
    (masterSignatures : List Bytes) (n : Nat) (σ : Nat → Nat) (sig : Nat → Bytes)
    (pk : Nat → P) (hdone : a.startRes.Done = true)
    (hn : a.startRes.participants.length = n)
    (hstream : rpc.stream = none) (hsend : ∀ i, rpc.send i = none)
    (hperm : (∀ k, k < n → σ k < n) ∧ ∀ j, j < n → ∃ k, k < n ∧ σ k = j)
    (hrecv : ∀ k, k < n →
      rpc.recv k = Except.ok (Message.signResponse (sig (σ k)) ((σ k : Nat) : Int) (pk k))) :
    (∀ c sigs, (IssueMasterCredential bdn a rpc idHash).1 = Go.ret (c, sigs) none →
      sigs.length = n ∧ ∀ j, j < n → sigs[j]? = some (sig j)) ∧
    (∀ c sigs, (IssueEventCredential bdn a rpc idHash eventName masterCredential
        masterSignatures).1 = Go.ret (c, sigs) none →
      sigs.length = n ∧ ∀ j, j < n → sigs[j]? = some (sig j)) ∧
    (∀ c, idHash ∉ a.idTable → bdn.aggregate ((List.range n).map sig) = Except.ok c →
      (IssueMasterCredential bdn a rpc idHash).1 = Go.ret (c, (List.range n).map sig) none) ∧
    (∀ c, verifySignatures bdn idHash a.startRes.bdnPubkeys masterSignatures = Go.ret () none →
      bdn.aggregate ((List.range n).map sig) = Except.ok c →
      (IssueEventCredential bdn a rpc idHash eventName masterCredential masterSignatures).1
        = Go.ret (c, (List.range n).map sig) none) := by
  have hr := recvSignResponses_of_recv rpc
    (fun k => (sig (σ k), ((σ k : Nat) : Int), pk k)) n 0
    (fun k _ hk => hrecv k (by omega))
  have hs := sortSignatures_perm sig σ pk n hperm.1 hperm.2
  have hsorted : ((List.range n).map sig).length = n ∧
      ∀ j, j < n → ((List.range n).map sig)[j]? = some (sig j) := by
    refine ⟨by simp, ?_⟩
    intro j hj
    rw [List.getElem?_map, List.getElem?_range hj]
    rfl
  have hmaster : ∀ (hnew : idHash ∉ a.idTable), _ :=
    fun hnew => IssueMasterCredential_of_responses bdn a rpc idHash _ _ hdone hnew hstream
      hsend (by rw [hn]; exact hr) (by rw [hn]; exact hs)
  have hevent : ∀ (hv : verifySignatures bdn idHash a.startRes.bdnPubkeys masterSignatures
      = Go.ret () none), _ :=
    fun hv => IssueEventCredential_of_responses bdn a rpc idHash eventName masterCredential
      masterSignatures _ _ hdone hv hstream hsend (by rw [hn]; exact hr) (by rw [hn]; exact hs)
  refine ⟨?_, ?_, ?_, ?_⟩
  · intro c sigs h
    by_cases hnew : idHash ∈ a.idTable
    · have hdup : isDuplicate a idHash = true := (isDuplicate_iff a idHash).2 hnew
      simp [IssueMasterCredential, hdone, hdup] at h
    · rw [hmaster hnew] at h
      cases hagg : bdn.aggregate ((List.range n).map sig) with
      | error e => rw [hagg] at h; simp at h
      | ok c1 =>
        rw [hagg] at h
        simp only [Go.ret.injEq, Prod.mk.injEq, and_true] at h
        rw [← h.2]
        exact hsorted
  · intro c sigs h
    cases hv : verifySignatures bdn idHash a.startRes.bdnPubkeys masterSignatures with
    | panic => simp [IssueEventCredential, hdone, hv] at h
    | ret u e =>
      cases e with
      | some e => simp [IssueEventCredential, hdone, hv] at h
      | none =>
        rw [hevent hv] at h
        cases hagg : bdn.aggregate ((List.range n).map sig) with
        | error e => rw [hagg] at h; simp at h
        | ok c1 =>
          rw [hagg] at h
          simp only [Go.ret.injEq, Prod.mk.injEq, and_true] at h
          rw [← h.2]
          exact hsorted
  · intro c hnew hagg
    rw [hmaster hnew, hagg]
  · intro c hv hagg
    rw [hevent hv, hagg]

/-- Witness of C31: on the example actor the response of index 1 arrives before the response
of index 0, and the master credential holds the signature of index 0 first. -/
theorem signatures_sorted_by_index_witness :
    exActor.startRes.Done = true ∧ ([1] : Bytes) ∉ exActor.idTable ∧
      (IssueMasterCredential (S := Nat) exBdn exActor
        (exRpc [Message.signResponse [8, 1] 1 8, Message.signResponse [7, 1] 0 7]) [1]).1 =
        Go.ret ([7, 1, 8, 1], [[7, 1], [8, 1]]) none := by
  have hrecv : ∀ k, k < 2 →
      (exRpc (S := Nat) (P := Nat) (A := Nat)
        [Message.signResponse [8, 1] 1 8, Message.signResponse [7, 1] 0 7]).recv k
        = Except.ok (Message.signResponse
          ((fun j => if j = 0 then [7, 1] else [8, 1]) ((fun k => 1 - k) k))
          (((fun k => 1 - k) k : Nat) : Int) ((fun k => if k = 0 then 8 else 7) k)) := by
    intro k hk
    interval_cases k <;> rfl
  exact ⟨by decide, by decide,
    (signatures_sorted_by_index exBdn exActor
      (exRpc [Message.signResponse [8, 1] 1 8, Message.signResponse [7, 1] 0 7]) [1] [] [] []
      2 (fun k => 1 - k) (fun j => if j = 0 then [7, 1] else [8, 1])
      (fun k => if k = 0 then 8 else 7) (by decide) rfl rfl (fun _ => rfl)
      ⟨by decide, by decide⟩ hrecv).2.2.1 [7, 1, 8, 1] (by decide) rfl⟩

/-- C35: the aggregate credential argument is never read. `IssueEventCredential` has the
same result and trace for any two values of `masterCredential`, and `VerifyEventCredential`
the same result for any two values of `eventCredential`; the list of signatures is what is
checked: on the example actor the same credential is accepted with the signatures of the two
roster keys and refused with another list. -/
theorem credential_argument_unused {S P A : Type} (bdn : Bdn P) (a : Actor P A)
    (rpc : Rpc S P A) (idHash eventName : Bytes) (signatures : List Bytes)
    (credential1 credential2 : Bytes) :
    IssueEventCredential bdn a rpc idHash eventName credential1 signatures
        = IssueEventCredential bdn a rpc idHash eventName credential2 signatures ∧
      VerifyEventCredential bdn a idHash eventName credential1 signatures
        = VerifyEventCredential bdn a idHash eventName credential2 signatures ∧
      VerifyEventCredential exBdn exActor [1] [2] [9] [[7, 1, 58, 2], [8, 1, 58, 2]]
        = Go.ret true none ∧
      VerifyEventCredential exBdn exActor [1] [2] [9] [[7, 1, 58, 2], [9, 9]]
        = Go.ret false (some "failed to verify event credential: bls: invalid signature") :=
  ⟨rfl, rfl, by decide, by decide⟩

/-- The verification loop reads the first `pks.length` signatures only. -/
theorem verifySignatures_take {P : Type} (bdn : Bdn P) (message : Bytes) :
    ∀ (pks : List P) (sigs : List Bytes),
      verifySignatures bdn message pks (sigs.take pks.length)
        = verifySignatures bdn message pks sigs := by
  intro pks
  induction pks with
  | nil => intro sigs; simp [verifySignatures]
  | cons pk pks ih =>
    intro sigs
    cases sigs with
    | nil => rfl
    | cons sig sigs =>
      simp only [List.length_cons, List.take_succ_cons, verifySignatures]
      cases bdn.verify pk message sig with
      | some e => rfl
      | none => exact ih sigs

/-- The verification loop panics on a list that is shorter than the list of keys when every
signature of the list verifies under the key of its position. -/
theorem verifySignatures_panic_of_short {P : Type} (bdn : Bdn P) (message : Bytes) :
    ∀ (pks : List P) (sigs : List Bytes), sigs.length < pks.length →
      (∀ (i : Nat) (pk : P) (sig : Bytes), pks[i]? = some pk → sigs[i]? = some sig →
        bdn.verify pk message sig = none) →
      verifySignatures bdn message pks sigs = Go.panic := by
  intro pks
  induction pks with
  | nil => intro sigs h; simp at h
  | cons pk pks ih =>
    intro sigs h hv
    cases sigs with
    | nil => rfl
    | cons sig sigs =>
      have h0 : bdn.verify pk message sig = none := hv 0 pk sig (by simp) (by simp)
      simp only [verifySignatures, h0]
      exact ih sigs (by simpa using h)
        (fun i pk1 sig1 h1 h2 => hv (i + 1) pk1 sig1 (by simpa using h1) (by simpa using h2))

/-- Counterexample to C37: the example actor has two roster keys; a list of one signature that
does not verify makes `VerifyEventCredential` and `IssueEventCredential` return the
verification error: no access is out of range. -/
theorem short_signature_list_counterexample :
    exActor.startRes.bdnPubkeys.length = 2 ∧
      VerifyEventCredential exBdn exActor [1] [2] [] [[9, 9]]
        = Go.ret false (some "failed to verify event credential: bls: invalid signature") ∧
      (IssueEventCredential (S := Nat) exBdn exActor (exRpc []) [1] [2] [] [[9, 9]]).1
        = Go.ret ([], [])
          (some "failed to verify master signatures: bls: invalid signature") := by
  decide

/-- C37, amended: on a set-up actor with `n` roster keys, `VerifyEventCredential` and the
master check of `IssueEventCredential` read the first `n` signatures only: two lists with
the same first `n` entries give the same result. A list with fewer than `n` entries, all of
which verify under the key of their position, makes the access out of range (a panic) and
not an error; a list with an entry that does not verify returns the verification error. -/
theorem signatures_read_up_to_roster {S P A : Type} (bdn : Bdn P) (a : Actor P A)
    (rpc : Rpc S P A) (idHash eventName credential : Bytes) (sigs : List Bytes)
    (hdone : a.startRes.Done = true) :
    (∀ sigs1 : List Bytes,
      sigs1.take a.startRes.bdnPubkeys.length = sigs.take a.startRes.bdnPubkeys.length →
      VerifyEventCredential bdn a idHash eventName credential sigs1
          = VerifyEventCredential bdn a idHash eventName credential sigs ∧
        IssueEventCredential bdn a rpc idHash eventName credential sigs1
          = IssueEventCredential bdn a rpc idHash eventName credential sigs) ∧
    (sigs.length < a.startRes.bdnPubkeys.length →
      (∀ (i : Nat) (pk : P) (sig : Bytes), a.startRes.bdnPubkeys[i]? = some pk →
        sigs[i]? = some sig → bdn.verify pk (eventMessage idHash eventName) sig = none) →
      VerifyEventCredential bdn a idHash eventName credential sigs = Go.panic) ∧
    (sigs.length < a.startRes.bdnPubkeys.length →
      (∀ (i : Nat) (pk : P) (sig : Bytes), a.startRes.bdnPubkeys[i]? = some pk →
        sigs[i]? = some sig → bdn.verify pk idHash sig = none) →
      IssueEventCredential bdn a rpc idHash eventName credential sigs = (Go.panic, [])) ∧
    (∀ (i : Nat) (pk : P) (sig : Bytes), a.startRes.bdnPubkeys[i]? = some pk →
      sigs[i]? = some sig → bdn.verify pk (eventMessage idHash eventName) sig ≠ none →
      ∃ e, VerifyEventCredential bdn a idHash eventName credential sigs
        = Go.ret false (some ("failed to verify event credential: " ++ e))) := by
  refine ⟨?_, ?_, ?_, ?_⟩
  · intro sigs1 h
    have h1 : ∀ m, verifySignatures bdn m a.startRes.bdnPubkeys sigs1
        = verifySignatures bdn m a.startRes.bdnPubkeys sigs := by
      intro m
      rw [← verifySignatures_take bdn m _ sigs1, h, verifySignatures_take]
    simp only [VerifyEventCredential, IssueEventCredential, h1, and_self]
  · intro hlen hv
    simp only [VerifyEventCredential, hdone, Bool.not_true, Bool.false_eq_true, if_false,
      verifySignatures_panic_of_short bdn _ _ _ hlen hv]
  · intro hlen hv
    simp only [IssueEventCredential, hdone, Bool.not_true, Bool.false_eq_true, if_false,
      verifySignatures_panic_of_short bdn _ _ _ hlen hv]
  · intro i pk sig h1 h2 h3
    obtain ⟨e, he⟩ := verifySignatures_error_of_invalid bdn (eventMessage idHash eventName)
      a.startRes.bdnPubkeys sigs i pk sig h1 h2 h3
    exact ⟨e, by simp only [VerifyEventCredential, hdone, Bool.not_true, Bool.false_eq_true,
      if_false, he]⟩

/-- Witness of C37: on the example actor a third signature is not read, and the list of the
first signature alone makes `VerifyEventCredential` panic. -/
theorem signatures_read_up_to_roster_witness :
    VerifyEventCredential exBdn exActor [1] [2] [] [[7, 1, 58, 2], [8, 1, 58, 2], [0]]
        = VerifyEventCredential exBdn exActor [1] [2] [] [[7, 1, 58, 2], [8, 1, 58, 2]] ∧
      VerifyEventCredential exBdn exActor [1] [2] [] [[7, 1, 58, 2]] = Go.panic := by
  have h := signatures_read_up_to_roster (S := Nat) exBdn exActor (exRpc []) [1] [2] []
    [[7, 1, 58, 2], [8, 1, 58, 2]] (by decide)
  have h1 := signatures_read_up_to_roster (S := Nat) exBdn exActor (exRpc []) [1] [2] []
    [[7, 1, 58, 2]] (by decide)
  refine ⟨(h.1 [[7, 1, 58, 2], [8, 1, 58, 2], [0]] (by decide)).1, h1.2.1 (by decide) ?_⟩
  intro i pk sig hp hs
  cases i with
  | zero =>
    simp only [List.getElem?_cons_zero, Option.some.injEq] at hs
    have hp0 : pk = 7 := by
      have : exActor.startRes.bdnPubkeys[0]? = some 7 := by decide
      rw [this] at hp
      exact (Option.some.inj hp).symm
    subst hp0
    subst hs
    decide
  | succ i => simp at hs

/-- The message of an event credential determines the pair when neither id contains the
separator. -/
theorem eventMessage_injective_of_not_mem :
    ∀ (i1 e1 i2 e2 : Bytes), (58 : Fin 256) ∉ i1 → (58 : Fin 256) ∉ i2 →
      eventMessage i1 e1 = eventMessage i2 e2 → i1 = i2 ∧ e1 = e2 := by
  intro i1
  induction i1 with
  | nil =>
    intro e1 i2 e2 _ h2 h
    cases i2 with
    | nil => simpa [eventMessage] using h
    | cons b i2 =>
      simp only [eventMessage, List.nil_append, List.singleton_append, List.cons_append,
        List.cons.injEq] at h
      exact absurd (h.1 ▸ List.mem_cons_self _ _) h2
  | cons a i1 ih =>
    intro e1 i2 e2 h1 h2 h
    cases i2 with
    | nil =>
      simp only [eventMessage, List.nil_append, List.singleton_append, List.cons_append,
        List.cons.injEq] at h
      exact absurd (h.1 ▸ List.mem_cons_self _ _) h1
    | cons b i2 =>
      simp only [eventMessage, List.cons_append, List.cons.injEq] at h
      have := ih e1 i2 e2 (fun hm => h1 (List.mem_cons_of_mem _ hm))
        (fun hm => h2 (List.mem_cons_of_mem _ hm)) (by simpa [eventMessage] using h.2)
      exact ⟨by rw [h.1, this.1], this.2⟩

/-- C40: the message of an event credential is `idHash ++ ":" ++ eventName` without framing.
`VerifyEventCredential` returns the same result for two pairs with the same message; the
message determines the pair when the ids contain no `:`, and for an id that contains `:`
another pair has the same message. -/
theorem eventMessage_not_framed {P A : Type} (bdn : Bdn P) (a : Actor P A)
    (credential : Bytes) (sigs : List Bytes) :
    (∀ i1 e1 i2 e2 : Bytes, eventMessage i1 e1 = eventMessage i2 e2 →
      VerifyEventCredential bdn a i1 e1 credential sigs
        = VerifyEventCredential bdn a i2 e2 credential sigs) ∧
    (∀ i1 e1 i2 e2 : Bytes, (58 : Fin 256) ∉ i1 → (58 : Fin 256) ∉ i2 →
      eventMessage i1 e1 = eventMessage i2 e2 → i1 = i2 ∧ e1 = e2) ∧
    (∀ i1 e1 : Bytes, (58 : Fin 256) ∈ i1 →
      ∃ i2 e2 : Bytes, i2 ≠ i1 ∧ eventMessage i2 e2 = eventMessage i1 e1) := by
  refine ⟨?_, eventMessage_injective_of_not_mem, ?_⟩
  · intro i1 e1 i2 e2 h
    simp only [VerifyEventCredential, h]
  · intro i1 e1 hmem
    obtain ⟨s, t, rfl⟩ := List.append_of_mem hmem
    refine ⟨s, t ++ [58] ++ e1, ?_, by simp [eventMessage]⟩
    intro h
    have := congrArg List.length h
    simp at this

/-- Witness of C40: the id `a:b` with the event `c` and the id `a` with the event `b:c` have
the same message, and a credential of the one is accepted for the other. -/
theorem eventMessage_not_framed_witness :
    eventMessage [97, 58, 98] [99] = eventMessage [97] [98, 58, 99] ∧
      VerifyEventCredential exBdn exActor [97, 58, 98] [99] []
          [[7, 97, 58, 98, 58, 99], [8, 97, 58, 98, 58, 99]]
        = VerifyEventCredential exBdn exActor [97] [98, 58, 99] []
          [[7, 97, 58, 98, 58, 99], [8, 97, 58, 98, 58, 99]] ∧
      VerifyEventCredential exBdn exActor [97] [98, 58, 99] []
          [[7, 97, 58, 98, 58, 99], [8, 97, 58, 98, 58, 99]] = Go.ret true none :=
  ⟨by decide,
    (eventMessage_not_framed exBdn exActor []
      [[7, 97, 58, 98, 58, 99], [8, 97, 58, 98, 58, 99]]).1 [97, 58, 98] [99] [97]
      [98, 58, 99] (by decide),
    by decide⟩

end Pedersen

namespace Contracts

open Pedersen (Bytes split)

set_option autoImplicit false

set_option maxRecDepth 100000

/-! ## Go primitives -/

theorem wrapInt_of_range (z : Int) (h1 : -2 ^ 63 ≤ z) (h2 : z < 2 ^ 63) : wrapInt z = z := by
  unfold wrapInt
  omega

theorem digitVal_digitByte (d : Nat) (h : d < 10) : digitVal (digitByte d) = some d := by
  have : d = 0 ∨ d = 1 ∨ d = 2 ∨ d = 3 ∨ d = 4 ∨ d = 5 ∨ d = 6 ∨ d = 7 ∨ d = 8 ∨ d = 9 := by
    omega
  rcases this with rfl | rfl | rfl | rfl | rfl | rfl | rfl | rfl | rfl | rfl <;> decide

theorem digitByte_ne_sign (d : Nat) (h : d < 10) : digitByte d ≠ 45 ∧ digitByte d ≠ 43 := by
  have : d = 0 ∨ d = 1 ∨ d = 2 ∨ d = 3 ∨ d = 4 ∨ d = 5 ∨ d = 6 ∨ d = 7 ∨ d = 8 ∨ d = 9 := by
    omega
  rcases this with rfl | rfl | rfl | rfl | rfl | rfl | rfl | rfl | rfl | rfl <;> decide

theorem parseDigits_append (ds : Bytes) (c : Fin 256) :
    parseDigits (ds ++ [c]) =
      match parseDigits ds, digitVal c with
      | some a, some d => some (a * 10 + d)
      | _, _ => none := by
  simp only [parseDigits, List.foldl_append, List.foldl_cons, List.foldl_nil]

theorem parseDigits_natDecFuel (fuel : Nat) : ∀ n, n < fuel →
    parseDigits (natDecFuel fuel n) = some n := by
  induction fuel with
  | zero => intro n h; omega
  | succ fuel ih =>
    intro n h
    unfold natDecFuel
    by_cases h10 : n < 10
    · rw [if_pos h10]
      simp [parseDigits, digitVal_digitByte n h10]
    · rw [if_neg h10, parseDigits_append, ih (n / 10) (by omega),
        digitVal_digitByte (n % 10) (Nat.mod_lt _ (by omega))]
      simp only [Option.some.injEq]
      omega

theorem natDecFuel_head (fuel : Nat) : ∀ n, ∃ d rest, d < 10 ∧
    natDecFuel (fuel + 1) n = digitByte d :: rest := by
  induction fuel with
  | zero =>
    intro n
    unfold natDecFuel
    by_cases h10 : n < 10
    · exact ⟨n, [], h10, by rw [if_pos h10]⟩
    · exact ⟨n % 10, [], Nat.mod_lt _ (by omega), by rw [if_neg h10]; rfl⟩
  | succ fuel ih =>
    intro n
    unfold natDecFuel
    by_cases h10 : n < 10
    · exact ⟨n, [], h10, by rw [if_pos h10]⟩
    · obtain ⟨d, rest, hd, e⟩ := ih (n / 10)
      exact ⟨d, rest ++ [digitByte (n % 10)], hd, by rw [if_neg h10, e]; rfl⟩

theorem natDec_head (n : Nat) : ∃ d rest, d < 10 ∧ natDec n = digitByte d :: rest :=
  natDecFuel_head n n

theorem parseDigits_natDec (n : Nat) : parseDigits (natDec n) = some n :=
  parseDigits_natDecFuel (n + 1) n (by omega)

theorem Itoa_length (z : Int) : (Itoa z).length ≠ 0 := by
  unfold Itoa
  obtain ⟨d, rest, _, e⟩ := natDec_head z.natAbs
  split <;> simp [e]

/-- `Atoi` reads back what `Itoa` writes, for every value of an `int`. -/
theorem Atoi_Itoa (z : Int) (h1 : -2 ^ 63 ≤ z) (h2 : z < 2 ^ 63) : Atoi (Itoa z) = some z := by
  obtain ⟨d, rest, hd, e⟩ := natDec_head z.natAbs
  have hp := parseDigits_natDec z.natAbs
  have hs := digitByte_ne_sign d hd
  unfold Itoa
  by_cases hz : z < 0
  · rw [if_pos hz]
    have hn : (z.natAbs : Int) = -z := by omega
    simp only [Atoi, List.head?_cons, List.tail_cons, true_or, if_true, decide_True, hp, e,
      reduceCtorEq, if_false]
    rw [← e, hp]
    simp only [if_true]
    rw [if_pos (by omega)]
    congr 1
    omega
  · rw [if_neg hz]
    have hn : (z.natAbs : Int) = z := by omega
    have h45 : ¬ (some (digitByte d) = some (45 : Fin 256)) := by
      simp only [Option.some.injEq]; exact hs.1
    have h43 : ¬ (some (digitByte d) = some (43 : Fin 256)) := by
      simp only [Option.some.injEq]; exact hs.2
    simp only [Atoi, e, List.head?_cons, h45, h43, or_self, if_false, decide_False,
      reduceCtorEq]
    rw [← e, hp]
    simp only [Bool.false_eq_true, if_false]
    rw [if_pos (by omega)]
    congr 1

/-! ## The snapshot -/

theorem Snapshot.Get_Set_self (snap : Snapshot) (key value : Bytes) :
    (snap.Set key value).Get key = value := by
  simp [Snapshot.Get, Snapshot.Set]

theorem Snapshot.Get_Set_of_ne (snap : Snapshot) (key value k : Bytes) (h : k ≠ key) :
    (snap.Set key value).Get k = snap.Get k := by
  simp [Snapshot.Get, Snapshot.Set, h]

namespace Bank

theorem key_ne (pk pk' : Bytes) (h : pk' ≠ pk) : BalanceKey ++ pk' ≠ BalanceKey ++ pk :=
  fun e => h (List.append_cancel_left e)

/-- Reading a balance: the value read is the stored balance, and no stored balance changes. -/
theorem getBalanceInt_spec (snap : Snapshot) (pk : Bytes) (b : Int)
    (h : storedBalance snap pk = some b) :
    ∃ snap1, getBalanceInt snap pk = (Except.ok b, snap1) ∧
      ∀ pk1, storedBalance snap1 pk1 = storedBalance snap pk1 := by
  unfold storedBalance at h
  by_cases he : (snap.Get (BalanceKey ++ pk)).length = 0
  · rw [if_pos he] at h
    have hb : b = 0 := by simpa using h.symm
    subst hb
    have h0 : Atoi (str "0") = some 0 := by decide
    refine ⟨snap.Set (BalanceKey ++ pk) (str "0"), ?_, ?_⟩
    · simp only [getBalanceInt, he, if_true, byteToInt, h0]
    · intro pk1
      unfold storedBalance
      by_cases hk : pk1 = pk
      · subst hk
        rw [Snapshot.Get_Set_self, if_pos he, if_neg (by decide), h0]
      · rw [Snapshot.Get_Set_of_ne _ _ _ _ (key_ne pk pk1 hk)]
  · rw [if_neg he] at h
    exact ⟨snap, by simp only [getBalanceInt, he, if_false, byteToInt, h], fun _ => rfl⟩

theorem storedBalance_Set_self (snap : Snapshot) (pk : Bytes) (z : Int) (h1 : -2 ^ 63 ≤ z)
    (h2 : z < 2 ^ 63) : storedBalance (snap.Set (BalanceKey ++ pk) (Itoa z)) pk = some z := by
  unfold storedBalance
  rw [Snapshot.Get_Set_self, if_neg (Itoa_length z), Atoi_Itoa z h1 h2]

theorem storedBalance_Set_of_ne (snap : Snapshot) (pk pk1 v : Bytes) (h : pk1 ≠ pk) :
    storedBalance (snap.Set (BalanceKey ++ pk) v) pk1 = storedBalance snap pk1 := by
  unfold storedBalance
  rw [Snapshot.Get_Set_of_ne _ _ _ _ (key_ne pk pk1 h)]

/-- A deposit that stays within the range of `int`. -/
theorem addDeposit_spec (snap : Snapshot) (pk : Bytes) (b deposit : Int)
    (h : storedBalance snap pk = some b) (h1 : -2 ^ 63 ≤ b + deposit)
    (h2 : b + deposit < 2 ^ 63) :
    ∃ snap1, addDeposit snap pk deposit = (none, snap1) ∧
      storedBalance snap1 pk = some (b + deposit) ∧
      ∀ pk1, pk1 ≠ pk → storedBalance snap1 pk1 = storedBalance snap pk1 := by
  obtain ⟨snap0, hg, hs⟩ := getBalanceInt_spec snap pk b h
  refine ⟨snap0.Set (BalanceKey ++ pk) (Itoa (b + deposit)), ?_, ?_, ?_⟩
  · simp only [addDeposit, hg, wrapInt_of_range _ h1 h2]
  · exact storedBalance_Set_self _ _ _ h1 h2
  · intro pk1 hk
    rw [storedBalance_Set_of_ne _ _ _ _ hk, hs]

/-- A withdrawal of at most the balance that stays within the range of `int`. -/
theorem removeWithdraw_spec (snap : Snapshot) (pk : Bytes) (b withdraw : Int)
    (h : storedBalance snap pk = some b) (hw : withdraw ≤ b) (h2 : b - withdraw < 2 ^ 63) :
    ∃ snap1, removeWithdraw snap pk withdraw = (none, snap1) ∧
      storedBalance snap1 pk = some (b - withdraw) ∧
      ∀ pk1, pk1 ≠ pk → storedBalance snap1 pk1 = storedBalance snap pk1 := by
  obtain ⟨snap0, hg, hs⟩ := getBalanceInt_spec snap pk b h
  have h1 : -2 ^ 63 ≤ b - withdraw := by omega
  refine ⟨snap0.Set (BalanceKey ++ pk) (Itoa (b - withdraw)), ?_, ?_, ?_⟩
  · simp only [removeWithdraw, hg, wrapInt_of_range _ h1 h2, gt_iff_lt, not_lt.mpr hw, if_false]
  · exact storedBalance_Set_self _ _ _ h1 h2
  · intro pk1 hk
    rw [storedBalance_Set_of_ne _ _ _ _ hk, hs]

/-- C23, amended: for distinct accounts with integer balances, `transferFunds` moves
`m = min amount balance(sender)` units, provided the two new balances are in the range of
`int`: the sender's balance decreases by `m`, the receiver's increases by `m`, their sum is
unchanged, and a request above the sender's balance moves the whole balance. -/
theorem transferFunds_moves_min (snap : Snapshot) (sender dest : Bytes) (amount bf bt : Int)
    (hne : sender ≠ dest) (hf : storedBalance snap sender = some bf)
    (ht : storedBalance snap dest = some bt)
    (hrf : bf - min amount bf < 2 ^ 63) (hrt1 : -2 ^ 63 ≤ bt + min amount bf)
    (hrt2 : bt + min amount bf < 2 ^ 63) :
    ∃ snap1, transferFunds snap sender dest amount = (none, snap1) ∧
      storedBalance snap1 sender = some (bf - min amount bf) ∧
      storedBalance snap1 dest = some (bt + min amount bf) ∧
      (bf - min amount bf) + (bt + min amount bf) = bf + bt ∧
      (bf < amount → storedBalance snap1 sender = some 0 ∧
        storedBalance snap1 dest = some (bt + bf)) := by
  obtain ⟨snap0, hg, hs0⟩ := getBalanceInt_spec snap sender bf hf
  have hm : (if amount > bf then bf else amount) = min amount bf := by
    by_cases h : amount > bf
    · rw [if_pos h, min_eq_right (le_of_lt h)]
    · rw [if_neg h, min_eq_left (not_lt.mp h)]
  obtain ⟨snap1, hr, hr1, hr2⟩ := removeWithdraw_spec snap0 sender bf (min amount bf)
    (by rw [hs0]; exact hf) (min_le_right _ _) hrf
  obtain ⟨snap2, ha, ha1, ha2⟩ := addDeposit_spec snap1 dest bt (min amount bf)
    (by rw [hr2 dest (Ne.symm hne), hs0]; exact ht) hrt1 hrt2
  have hsend : storedBalance snap2 sender = some (bf - min amount bf) := by
    rw [ha2 sender hne, hr1]
  refine ⟨snap2, ?_, hsend, ha1, by omega, ?_⟩
  · simp only [transferFunds, hg, hm, hr, ha]
  · intro hlt
    have hmin : min amount bf = bf := min_eq_right (le_of_lt hlt)
    rw [hsend, ha1, hmin]
    exact ⟨by rw [sub_self], rfl⟩

/-- Witness of C23: `alice` holds 15 and sends 10 to the empty account `auction`, as in
`TestTransfer`. -/
theorem transferFunds_moves_min_witness :
    ∃ snap1, transferFunds (exSnapshot [(str "bank:alice", str "15")]) (str "alice")
        (str "auction") 10 = (none, snap1) ∧
      storedBalance snap1 (str "alice") = some 5 ∧
      storedBalance snap1 (str "auction") = some 10 := by
  obtain ⟨snap1, h1, h2, h3, _, _⟩ :=
    transferFunds_moves_min (exSnapshot [(str "bank:alice", str "15")]) (str "alice")
      (str "auction") 10 15 0 (by decide) (by decide) (by decide) (by decide) (by decide)
      (by decide)
  exact ⟨snap1, h1, h2, h3⟩

/-- Counterexample to C23: `bob` holds the largest `int` and `alice` holds 1; after `alice`
transfers 1 to `bob` the balance of `bob` is the smallest `int`, not one more than before. -/
theorem transferFunds_overflow_counterexample :
    str "alice" ≠ str "bob" ∧
      storedBalance exBank (str "alice") = some 1 ∧
      storedBalance exBank (str "bob") = some 9223372036854775807 ∧
      (transferFunds exBank (str "alice") (str "bob") 1).1 = none ∧
      storedBalance (transferFunds exBank (str "alice") (str "bob") 1).2 (str "alice") = some 0 ∧
      (transferFunds exBank (str "alice") (str "bob") 1).2 (str "bank:bob")
        = str "-9223372036854775808" ∧
      storedBalance (transferFunds exBank (str "alice") (str "bob") 1).2 (str "bob")
        ≠ some (9223372036854775807 + min 1 1) := by
  decide

end Bank

/-! ## Keys -/

theorem ne_of_head (a b : Bytes) (c d : Fin 256) (ha : a.head? = some c)
    (hb : b.head? = some d) (hcd : c ≠ d) : a ≠ b := by
  intro e
  rw [e, hb] at ha
  exact hcd (Option.some.inj ha).symm

theorem head_append (p x : Bytes) (c : Fin 256) (h : p.head? = some c) :
    (p ++ x).head? = some c := by
  cases p with
  | nil => simp at h
  | cons a p => simpa using h

namespace AuctionF3B

theorem bankKey_ne (x key : Bytes) (h : key.head? = some 97) : key ≠ str "bank:" ++ x :=
  ne_of_head _ _ 97 98 h (head_append _ _ _ (by decide)) (by decide)

/-- What `refundDeposit` leaves under the keys of the auction. -/
theorem refundDeposit_get_auction_key (snap : Snapshot) (bidder : Bytes) (deposit : Int) (key : Bytes)
    (h : key.head? = some 97) : (refundDeposit snap bidder deposit).2.Get key = snap.Get key := by
  unfold refundDeposit
  simp only []
  split
  · rfl
  · exact Snapshot.Get_Set_of_ne _ _ _ _ (bankKey_ne bidder key h)

/-- One successful `BID` of an integer: the highest bid and bidder are replaced exactly when
the bid is above the highest bid. -/
theorem bid_step (snap snap1 : Snapshot) (step : Step) (pk : Bytes) (b m0 : Int)
    (hm : Atoi (snap.Get HighestBidKey) = some m0) (hpk : step.identity = some pk)
    (hbid : Atoi (step.GetArg BidArg) = some b) (h : bid snap step = (none, snap1)) :
    snap1.Get HighestBidKey
        = (if b > m0 then step.GetArg BidArg else snap.Get HighestBidKey) ∧
      snap1.Get HighestBidderKey = (if b > m0 then pk else snap.Get HighestBidderKey) := by
  have hk1 : HighestBidKey ≠ BlockNumberKey := by decide
  have hk2 : HighestBidderKey ≠ BlockNumberKey := by decide
  have hk3 : HighestBidKey ≠ HighestBidderKey := by decide
  have hinc : ∀ s s1 : Snapshot, incBlockNumber s = (none, s1) →
      s1.Get HighestBidKey = s.Get HighestBidKey ∧
      s1.Get HighestBidderKey = s.Get HighestBidderKey := by
    intro s s1 hs
    unfold incBlockNumber at hs
    split at hs
    · simp at hs
    · simp only [Prod.mk.injEq, true_and] at hs
      subst hs
      exact ⟨Snapshot.Get_Set_of_ne _ _ _ _ hk1, Snapshot.Get_Set_of_ne _ _ _ _ hk2⟩
  have hnew : ∀ s1 : Snapshot, handleNewBid snap (step.GetArg BidArg) pk = (none, s1) →
      s1.Get HighestBidKey = (if b > m0 then step.GetArg BidArg else snap.Get HighestBidKey) ∧
      s1.Get HighestBidderKey = (if b > m0 then pk else snap.Get HighestBidderKey) := by
    intro s1 hs
    simp only [handleNewBid, isHighestBidder, getHighestBid, byteToInt, hm, hbid,
      getHighestBidder, setHighestBid, setHighestBidder] at hs
    by_cases hgt : b > m0
    · simp only [hgt, if_true, Prod.mk.injEq, true_and] at hs
      subst hs
      rw [refundDeposit_get_auction_key _ _ _ _ (by decide), refundDeposit_get_auction_key _ _ _ _ (by decide),
        Snapshot.Get_Set_of_ne _ _ _ _ hk3, Snapshot.Get_Set_self, Snapshot.Get_Set_self]
      simp only [hgt, if_true, and_self]
    · simp only [hgt, if_false, Bool.false_eq_true, Prod.mk.injEq, true_and] at hs
      subst hs
      simp only [hgt, if_false, and_self]
  unfold bid at h
  split at h
  · simp at h
  · split at h
    · simp at h
    · simp only [hpk] at h
      split at h
      · simp at h
      · split at h
        · simp at h
        · rename_i s1 hs1
          split at h
          · simp at h
          · rename_i s2 hs2
            simp only [Prod.mk.injEq, true_and] at h
            subst h
            obtain ⟨e1, e2⟩ := hinc _ _ hs2
            rw [e1, e2]
            exact hnew _ hs1

/-- The value of the highest bid after one successful `BID` of an integer. -/
theorem bid_step_value (snap snap1 : Snapshot) (step : Step) (pk : Bytes) (b m0 : Int)
    (hm : Atoi (snap.Get HighestBidKey) = some m0) (hpk : step.identity = some pk)
    (hbid : Atoi (step.GetArg BidArg) = some b) (h : bid snap step = (none, snap1)) :
    Atoi (snap1.Get HighestBidKey) = some (if b > m0 then b else m0) := by
  rw [(bid_step snap snap1 step pk b m0 hm hpk hbid h).1]
  by_cases hgt : b > m0
  · simp only [hgt, if_true, hbid]
  · simp only [hgt, if_false, hm]

/-- What a run of successful integer `BID`s leaves: the earliest maximum, if it is above the
highest bid `m0` there was before the run, else what was there before. -/
theorem bids_highest : ∀ (steps : List Step) (made : List (Bytes × Int)) (snap snap1 : Snapshot)
    (m0 : Int), List.Forall₂ (fun (step : Step) (pb : Bytes × Int) =>
      step.identity = some pb.1 ∧ Atoi (step.GetArg BidArg) = some pb.2) steps made →
    Atoi (snap.Get HighestBidKey) = some m0 → bids snap steps = some snap1 →
    match highest made with
    | none => Atoi (snap1.Get HighestBidKey) = some m0 ∧
        snap1.Get HighestBidderKey = snap.Get HighestBidderKey
    | some (w, m) =>
      if m > m0 then Atoi (snap1.Get HighestBidKey) = some m ∧ snap1.Get HighestBidderKey = w
      else Atoi (snap1.Get HighestBidKey) = some m0 ∧
        snap1.Get HighestBidderKey = snap.Get HighestBidderKey := by
  intro steps
  induction steps with
  | nil =>
    intro made snap snap1 m0 hf hm hb
    cases hf
    simp only [bids, Option.some.injEq] at hb
    subst hb
    exact ⟨hm, rfl⟩
  | cons step steps ih =>
    intro made snap snap1 m0 hf hm hb
    cases hf with
    | cons hhead htail =>
      rename_i pb made1
      obtain ⟨pk, b⟩ := pb
      simp only [bids] at hb
      split at hb
      · simp at hb
      · rename_i s1 hs1
        have e1 := bid_step_value snap s1 step pk b m0 hm hhead.1 hhead.2 hs1
        have e2 := (bid_step snap s1 step pk b m0 hm hhead.1 hhead.2 hs1).2
        have h := ih made1 s1 snap1 _ htail e1 hb
        simp only [highest]
        cases hh : highest made1 with
        | none =>
          rw [hh] at h
          simp only [] at h ⊢
          by_cases hgt : b > m0
          · simp only [hgt, if_true] at h e2 ⊢
            rw [← e2]
            exact h
          · simp only [hgt, if_false] at h e2 ⊢
            rw [← e2]
            exact h
        | some wm =>
          obtain ⟨w, m⟩ := wm
          rw [hh] at h
          simp only [] at h ⊢
          by_cases hgt : b > m0
          · simp only [hgt, if_true] at h e2
            by_cases hmb : m > b
            · simp only [hmb, if_true] at h ⊢
              rw [if_pos (by omega)]
              exact h
            · simp only [hmb, if_false] at h ⊢
              rw [if_pos hgt, ← e2]
              exact h
          · simp only [hgt, if_false] at h e2
            by_cases hmm : m > m0
            · simp only [hmm, if_true] at h
              rw [if_pos (by omega)]
              simp only [hmm, if_true]
              exact h
            · simp only [hmm, if_false] at h
              by_cases hmb : m > b
              · simp only [hmb, if_true, hmm, if_false]
                rw [← e2]
                exact h
              · simp only [hmb, if_false, hgt]
                rw [← e2]
                exact h

/-- The highest bid and bidder that `INIT` leaves. -/
theorem init_highest (snap snap1 : Snapshot) (step : Step) (h : init snap step = (none, snap1)) :
    snap1.Get HighestBidKey = str "-1" ∧ snap1.Get HighestBidderKey = str "-1" := by
  unfold init at h
  split at h
  · simp at h
  · simp only [] at h
    split at h
    · simp at h
    · simp only [Prod.mk.injEq, true_and] at h
      subst h
      constructor
      · rw [Snapshot.Get_Set_of_ne _ _ _ _ (by decide), Snapshot.Get_Set_self]
      · rw [Snapshot.Get_Set_of_ne _ _ _ _ (by decide),
          Snapshot.Get_Set_of_ne _ _ _ _ (by decide), Snapshot.Get_Set_self]

/-- C26, amended: after `INIT` and a sequence of successful `BID`s with integer bids of which
at least one is not negative, `auction:highest_bid` holds the maximum bid made so far and
`auction:highest_bidder` the earliest bidder who made it; a later successful bid that is equal
or lower changes neither. -/
theorem highest_bid_is_earliest_maximum (snap0 snap snap1 : Snapshot) (step0 : Step)
    (steps : List Step) (made : List (Bytes × Int)) (w : Bytes) (m : Int)
    (hinit : init snap0 step0 = (none, snap))
    (hmade : List.Forall₂ (fun (step : Step) (pb : Bytes × Int) =>
      step.identity = some pb.1 ∧ Atoi (step.GetArg BidArg) = some pb.2) steps made)
    (hbids : bids snap steps = some snap1)
    (hhighest : highest made = some (w, m)) (hm : 0 ≤ m) :
    Atoi (snap1.Get HighestBidKey) = some m ∧ snap1.Get HighestBidderKey = w ∧
      ∀ (step : Step) (pk : Bytes) (b : Int) (snap2 : Snapshot), step.identity = some pk →
        Atoi (step.GetArg BidArg) = some b → b ≤ m → bid snap1 step = (none, snap2) →
        snap2.Get HighestBidKey = snap1.Get HighestBidKey ∧
          snap2.Get HighestBidderKey = snap1.Get HighestBidderKey := by
  obtain ⟨i1, i2⟩ := init_highest snap0 snap step0 hinit
  have hm0 : Atoi (snap.Get HighestBidKey) = some (-1) := by rw [i1]; decide
  have h := bids_highest steps made snap snap1 (-1) hmade hm0 hbids
  rw [hhighest] at h
  simp only [] at h
  rw [if_pos (by omega)] at h
  refine ⟨h.1, h.2, ?_⟩
  intro step pk b snap2 hpk hb hle hstep
  obtain ⟨e1, e2⟩ := bid_step snap1 snap2 step pk b m h.1 hpk hb hstep
  rw [e1, e2, if_neg (by omega), if_neg (by omega)]
  exact ⟨rfl, rfl⟩

/-- Witness of C26: `alice` bids 5, `bob` bids 7, `carol` bids 7. -/
theorem highest_bid_is_earliest_maximum_witness :
    ∃ snap1, bids exF3B [exBid "alice" "5", exBid "bob" "7", exBid "carol" "7"] = some snap1 ∧
      Atoi (snap1.Get HighestBidKey) = some 7 ∧ snap1.Get HighestBidderKey = str "bob" := by
  have hb : ∃ snap1,
      bids exF3B [exBid "alice" "5", exBid "bob" "7", exBid "carol" "7"] = some snap1 := by
    exact Option.isSome_iff_exists.mp (by decide)
  obtain ⟨snap1, hb⟩ := hb
  have h := highest_bid_is_earliest_maximum exEmpty exF3B snap1
    (exStep (str "owner") [(str "value:initBidLength", str "3")])
    [exBid "alice" "5", exBid "bob" "7", exBid "carol" "7"]
    [(str "alice", 5), (str "bob", 7), (str "carol", 7)] (str "bob") 7 rfl
    (List.Forall₂.cons (by decide) (List.Forall₂.cons (by decide)
      (List.Forall₂.cons (by decide) List.Forall₂.nil))) hb (by decide) (by decide)
  exact ⟨snap1, hb, h.1, h.2.1⟩

/-- Counterexample to C26: after `INIT`, the only bid is `-5` by `alice`; the `BID` succeeds
and the highest bid and bidder are still the `-1` that `INIT` wrote. -/
theorem highest_bid_negative_counterexample :
    Atoi ((exBid "alice" "-5").GetArg BidArg) = some (-5) ∧
      ((bids exF3B [exBid "alice" "-5"]).map (fun snap1 =>
        (snap1.Get HighestBidKey, snap1.Get HighestBidderKey))) = some (str "-1", str "-1") ∧
      highest [(str "alice", -5)] = some (str "alice", -5) := by
  decide

end AuctionF3B

namespace Auction

theorem key_ne_of_head (p x key : Bytes) (c d : Fin 256) (hp : p.head? = some c)
    (hk : key.head? = some d) (hcd : d ≠ c) : key ≠ p ++ x :=
  ne_of_head _ _ d c hk (head_append _ _ _ hp) hcd

/-- What `storeDeposit` leaves under a key of the auction. -/
theorem storeDeposit_get (snap : Snapshot) (bidder deposit key : Bytes)
    (h : key.head? = some 97) : (storeDeposit snap bidder deposit).2.Get key = snap.Get key := by
  unfold storeDeposit
  split
  · rfl
  · exact Snapshot.Get_Set_of_ne _ _ _ _
      (key_ne_of_head _ _ key 98 97 (by decide) h (by decide))

/-- What `refundDeposit` leaves under a key of the auction. -/
theorem refundDeposit_get (snap : Snapshot) (i : Nat) (bidder : Bytes) (deposit : Int)
    (key : Bytes) (h : key.head? = some 97) :
    (refundDeposit snap i bidder deposit).2.Get key = snap.Get key := by
  have h2 : ∀ x, key ≠ str "bank:" ++ x := fun x =>
    key_ne_of_head _ x key 98 97 (by decide) h (by decide)
  have hs := storeDeposit_get snap bidder (str "0") key h
  unfold refundDeposit
  split
  · rename_i err s1 hs1
    rw [hs1] at hs
    exact hs
  · rename_i s1 hs1
    rw [hs1] at hs
    simp only [] at hs ⊢
    split
    · exact hs
    · rw [Snapshot.Get_Set_of_ne _ _ _ _ (h2 _)]
      exact hs

/-- What the refunds of `selectWinner` leave under a key of the auction. -/
theorem refundDeposits_get (highestBidder : Bytes) (highestBid : Int) (key : Bytes)
    (h : key.head? = some 97) : ∀ (bidders : List Bytes) (snap : Snapshot) (i : Nat),
    (refundDeposits highestBidder highestBid snap i bidders).2.Get key = snap.Get key := by
  intro bidders
  induction bidders with
  | nil => intro snap i; rfl
  | cons thisBidder bidders ih =>
    intro snap i
    unfold refundDeposits
    split
    · rfl
    · split
      · rfl
      · split
        · split
          · rename_i err s1 hs1
            rw [← refundDeposit_get snap i thisBidder _ key h, hs1]
          · rename_i s1 hs1
            rw [ih, ← refundDeposit_get snap i thisBidder _ key h, hs1]
        · split
          · simp only []
            rw [ih, refundDeposit_get _ _ _ _ _ h]
          · rw [ih]

/-- The first loop of `selectWinner` ends without an error exactly when every reveal is an
`int`, and then yields the earliest maximum if it is above the highest so far. -/
theorem selectHighest_spec (snap : Snapshot) : ∀ (revealers : List Bytes) (w0 : Bytes) (m0 : Int)
    (res : Bytes × Int), selectHighest snap revealers (w0, m0) = Except.ok res →
    ∃ rb, revealedBids snap revealers = some rb ∧ rb.map Prod.fst = revealers ∧
      res = (match highest rb with
        | none => (w0, m0)
        | some (w, m) => if m > m0 then (w, m) else (w0, m0)) := by
  intro revealers
  induction revealers with
  | nil =>
    intro w0 m0 res h
    simp only [selectHighest, Except.ok.injEq] at h
    exact ⟨[], rfl, rfl, by simp only [highest, h]⟩
  | cons revealer revealers ih =>
    intro w0 m0 res h
    unfold selectHighest at h
    split at h
    · simp at h
    · rename_i revealBid nonce hr
      split at h
      · simp at h
      · rename_i b hb
        by_cases hgt : b > m0
        · rw [if_pos hgt] at h
          obtain ⟨rb, h1, h2, h3⟩ := ih _ _ _ h
          refine ⟨(revealer, b) :: rb, ?_, by simp [h2], ?_⟩
          · simp only [revealedBids, hr, hb, h1]
          · simp only [highest]
            cases hh : highest rb with
            | none => rw [hh] at h3; simp only [h3, hgt, if_true]
            | some wm =>
              obtain ⟨w, m⟩ := wm
              rw [hh] at h3
              simp only [] at h3 ⊢
              by_cases hmb : m > b
              · rw [if_pos hmb] at h3
                simp only [hmb, if_true]
                rw [if_pos (by omega)]
                exact h3
              · rw [if_neg hmb] at h3
                simp only [hmb, if_false, hgt, if_true]
                exact h3
        · rw [if_neg hgt] at h
          obtain ⟨rb, h1, h2, h3⟩ := ih _ _ _ h
          refine ⟨(revealer, b) :: rb, ?_, by simp [h2], ?_⟩
          · simp only [revealedBids, hr, hb, h1]
          · simp only [highest]
            cases hh : highest rb with
            | none => rw [hh] at h3; simp only [h3, hgt, if_false]
            | some wm =>
              obtain ⟨w, m⟩ := wm
              rw [hh] at h3
              simp only [] at h3 ⊢
              by_cases hmm : m > m0
              · rw [if_pos hmm] at h3
                rw [if_pos (by omega)]
                simp only [hmm, if_true]
                exact h3
              · rw [if_neg hmm] at h3
                by_cases hmb : m > b
                · simp only [hmb, if_true, hmm, if_false]
                  exact h3
                · simp only [hmb, if_false, hgt]
                  exact h3

/-- C25, amended: after a successful `SELECTWINNER`, `auction:highest_bid` is the maximum of
the revealed bids of the revealers when that maximum is not negative, and
`auction:highest_bidder` is then the earliest revealer of that maximum in the revealers list;
the highest bid is `-1` when there is no revealer, and also when every revealed bid is
negative. -/
theorem selectWinner_highest (snap snap1 : Snapshot) (step : Step)
    (h : selectWinner snap step = (none, snap1)) :
    ∃ rb, revealedBids snap (getRevealersList snap) = some rb ∧
      rb.map Prod.fst = getRevealersList snap ∧
      (∀ w m, highest rb = some (w, m) → 0 ≤ m →
        snap1.Get HighestBidKey = Itoa m ∧ snap1.Get HighestBidderKey = w) ∧
      (rb = [] → snap1.Get HighestBidKey = Itoa (-1)) ∧
      (∀ w m, highest rb = some (w, m) → m < 0 → snap1.Get HighestBidKey = Itoa (-1)) := by
  unfold selectWinner at h
  split at h
  · simp at h
  · split at h
    · simp at h
    · simp only [] at h
      split at h
      · simp at h
      · split at h
        · simp at h
        · rename_i highestBidder highestBid hsel
          obtain ⟨rb, h1, h2, h3⟩ := selectHighest_spec snap _ _ _ _ hsel
          have hk1 := refundDeposits_get highestBidder highestBid HighestBidKey (by decide)
            (getBiddersList snap) ((snap.Set (str "auction:highest_bidder") highestBidder).Set
              (str "auction:highest_bid") (Itoa highestBid)) 0
          have hk2 := refundDeposits_get highestBidder highestBid HighestBidderKey (by decide)
            (getBiddersList snap) ((snap.Set (str "auction:highest_bidder") highestBidder).Set
              (str "auction:highest_bid") (Itoa highestBid)) 0
          rw [h] at hk1 hk2
          simp only [] at hk1 hk2
          have e1 : snap1.Get HighestBidKey = Itoa highestBid := by
            rw [hk1]
            exact Snapshot.Get_Set_self _ _ _
          have e2 : snap1.Get HighestBidderKey = highestBidder := by
            rw [hk2, Snapshot.Get_Set_of_ne _ _ _ _ (by decide)]
            exact Snapshot.Get_Set_self _ _ _
          refine ⟨rb, h1, h2, ?_, ?_, ?_⟩
          · intro w m hh hm
            rw [hh] at h3
            simp only [] at h3
            rw [if_pos (by omega)] at h3
            simp only [Prod.mk.injEq] at h3
            rw [e1, e2, h3.1, h3.2]
            exact ⟨rfl, rfl⟩
          · intro hnil
            rw [hnil] at h3
            simp only [highest, Prod.mk.injEq] at h3
            rw [e1, h3.2]
          · intro w m hh hm
            rw [hh] at h3
            simp only [] at h3
            rw [if_neg (by omega)] at h3
            simp only [Prod.mk.injEq] at h3
            rw [e1, h3.2]

/-- Witness of C25: `alice` revealed 5, `bob` 7 and `carol` 7; `bob` wins with 7. -/
theorem selectWinner_highest_witness :
    (selectWinner exAuctionOver (exStep (str "owner") [])).1 = none ∧
      (selectWinner exAuctionOver (exStep (str "owner") [])).2.Get HighestBidKey = str "7" ∧
      (selectWinner exAuctionOver (exStep (str "owner") [])).2.Get HighestBidderKey
        = str "bob" := by
  have hrun : (selectWinner exAuctionOver (exStep (str "owner") [])).1 = none := by decide
  obtain ⟨rb, h1, _, h3, _, _⟩ := selectWinner_highest exAuctionOver
    (selectWinner exAuctionOver (exStep (str "owner") [])).2 (exStep (str "owner") [])
    (Prod.ext hrun rfl)
  have hrb : revealedBids exAuctionOver (getRevealersList exAuctionOver)
      = some [(str "alice", 5), (str "bob", 7), (str "carol", 7)] := by decide
  rw [hrb, Option.some.injEq] at h1
  subst h1
  exact ⟨hrun, h3 (str "bob") 7 (by decide) (by decide)⟩

/-- Counterexample to C25: the only bidder `alice` commits to the bid `-5` and reveals it; a
successful `SELECTWINNER` leaves `-1` as highest bid and no highest bidder, although the
maximum of the revealed bids is `-5`, revealed by `alice`. -/
theorem selectWinner_negative_counterexample :
    (init exEmpty (exAuctionInit "1" "1")).1 = none ∧
      (bid (init exEmpty (exAuctionInit "1" "1")).2 (exCommit "alice" "-5" "n" "0")).1 = none ∧
      (reveal exDigest (bid (init exEmpty (exAuctionInit "1" "1")).2
        (exCommit "alice" "-5" "n" "0")).2 (exReveal "alice" "-5" "n")).1 = none ∧
      revealedBids exAuctionNegative (getRevealersList exAuctionNegative)
        = some [(str "alice", -5)] ∧
      highest [(str "alice", -5)] = some (str "alice", -5) ∧
      (selectWinner exAuctionNegative (exStep (str "owner") [])).1 = none ∧
      (selectWinner exAuctionNegative (exStep (str "owner") [])).2.Get HighestBidKey
        = str "-1" ∧
      (selectWinner exAuctionNegative (exStep (str "owner") [])).2.Get HighestBidderKey
        = [] := by
  decide

/-- C29: in the reveal period, a `REVEAL` of `pk` with both arguments is accepted exactly
when `pk` is in the bidders list, the bid stored for `pk` is the hash of
`bid ++ ";" ++ nonce`, and the deposit stored for `pk` and the revealed bid are integers with
the deposit at least the bid; a `REVEAL` that fails leaves the snapshot as it was, and an
accepted one records the reveal and appends `pk` to the revealers. -/
theorem reveal_accepted_iff (hash : Bytes → Bytes) (snap : Snapshot) (step : Step) (pk : Bytes)
    (hperiod : isValidRevealPeriod snap = Except.ok true) (hpk : step.identity = some pk)
    (hbid : (step.GetArg RevealBidArg).length ≠ 0)
    (hnonce : (step.GetArg RevealNonceArg).length ≠ 0) :
    ((reveal hash snap step).1 = none ↔
      pk ∈ getBiddersList snap ∧
      snap.Get (str "bid:bid:" ++ Itoa ((getBiddersList snap).indexOf pk))
        = hash (step.GetArg RevealBidArg ++ str ";" ++ step.GetArg RevealNonceArg) ∧
      ∃ deposit b : Int,
        Atoi (snap.Get (str "bid:deposit:" ++ Itoa ((getBiddersList snap).indexOf pk)))
          = some deposit ∧
        Atoi (step.GetArg RevealBidArg) = some b ∧ b ≤ deposit) ∧
      ((reveal hash snap step).1 ≠ none → (reveal hash snap step).2 = snap) ∧
      ((reveal hash snap step).1 = none →
        (reveal hash snap step).2.Get
            (str "reveal:bid:" ++ Itoa ((getBiddersList snap).indexOf pk))
          = step.GetArg RevealBidArg ∧
        getRevealersList (reveal hash snap step).2 = splitList (snap.Get RevealersKey ++ pk ++ str ";")) := by
  have hH : hash (step.GetArg RevealBidArg ++ str ";" ++ step.GetArg RevealNonceArg)
      = HashReveal hash (step.GetArg RevealBidArg) (step.GetArg RevealNonceArg) := rfl
  rw [hH]
  have hblock : ∃ n, getBlockNumber snap = Except.ok n := by
    unfold isValidRevealPeriod at hperiod
    split at hperiod
    · simp at hperiod
    · rename_i n hn
      exact ⟨n, hn⟩
  obtain ⟨n, hn⟩ := hblock
  have hkr : ∀ x, BlockNumberKey ≠ str "reveal:bid:" ++ x := fun x =>
    key_ne_of_head _ x _ 114 97 (by decide) (by decide) (by decide)
  have hkn : ∀ x, BlockNumberKey ≠ str "reveal:nonce:" ++ x := fun x =>
    key_ne_of_head _ x _ 114 97 (by decide) (by decide) (by decide)
  have hkr2 : ∀ x, RevealersKey ≠ str "reveal:bid:" ++ x := fun x =>
    key_ne_of_head _ x _ 114 97 (by decide) (by decide) (by decide)
  have hkn2 : ∀ x, RevealersKey ≠ str "reveal:nonce:" ++ x := fun x =>
    key_ne_of_head _ x _ 114 97 (by decide) (by decide) (by decide)
  have hkk : BlockNumberKey ≠ RevealersKey := by decide
  have hinc : ∀ x y z, getBlockNumber (storeRevealer ((snap.Set (str "reveal:bid:" ++ x) y).Set
      (str "reveal:nonce:" ++ x) z) pk) = Except.ok n := by
    intro x y z
    unfold getBlockNumber storeRevealer
    rw [Snapshot.Get_Set_of_ne _ _ _ _ hkk, Snapshot.Get_Set_of_ne _ _ _ _ (hkn _),
      Snapshot.Get_Set_of_ne _ _ _ _ (hkr _)]
    exact hn
  by_cases hmem : pk ∈ getBiddersList snap
  · by_cases hhash : snap.Get (str "bid:bid:" ++ Itoa ((getBiddersList snap).indexOf pk))
        = HashReveal hash (step.GetArg RevealBidArg) (step.GetArg RevealNonceArg)
    · cases hd : Atoi (snap.Get (str "bid:deposit:" ++ Itoa ((getBiddersList snap).indexOf pk)))
        with
      | none =>
        have hrun : reveal hash snap step = (some "Reveal is not valid", snap) := by
          simp [reveal, hperiod, hpk, hbid, hnonce, isValidReveal, findRevealerNumber, hmem,
            getBid, getDeposit, hhash, byteToInt, hd]
        rw [hrun]
        simp [hd]
      | some deposit =>
        cases hb : Atoi (step.GetArg RevealBidArg) with
        | none =>
          have hrun : reveal hash snap step = (some "Reveal is not valid", snap) := by
            simp [reveal, hperiod, hpk, hbid, hnonce, isValidReveal, findRevealerNumber, hmem,
              getBid, getDeposit, hhash, byteToInt, hd, hb]
          rw [hrun]
          simp
        | some b =>
          by_cases hle : b ≤ deposit
          · have hrun : reveal hash snap step = (none,
                (storeRevealer ((snap.Set (str "reveal:bid:" ++
                  Itoa ((getBiddersList snap).indexOf pk)) (step.GetArg RevealBidArg)).Set
                  (str "reveal:nonce:" ++ Itoa ((getBiddersList snap).indexOf pk))
                  (step.GetArg RevealNonceArg)) pk).Set BlockNumberKey
                  (Itoa (wrapInt (n + 1)))) := by
              simp [reveal, hperiod, hpk, hbid, hnonce, isValidReveal, findRevealerNumber, hmem,
                getBid, getDeposit, hhash, byteToInt, hd, hb, not_lt.mpr hle,
                storeReveal, incBlockNumber, hinc]
            rw [hrun]
            refine ⟨⟨fun _ => ⟨hmem, hhash, deposit, b, rfl, rfl, hle⟩, fun _ => rfl⟩,
              fun h => absurd rfl h, fun _ => ⟨?_, ?_⟩⟩
            · show Snapshot.Get _ _ = _
              unfold storeRevealer
              rw [Snapshot.Get_Set_of_ne _ _ _ _ (Ne.symm (hkr _)),
                Snapshot.Get_Set_of_ne _ _ _ _ (Ne.symm (hkr2 _)),
                Snapshot.Get_Set_of_ne _ _ _ _ ?_, Snapshot.Get_Set_self]
              intro e
              have := List.append_cancel_right e
              revert this
              decide
            · show getRevealersList _ = _
              unfold getRevealersList storeRevealer
              rw [Snapshot.Get_Set_of_ne _ _ _ _ (Ne.symm hkk), Snapshot.Get_Set_self,
                Snapshot.Get_Set_of_ne _ _ _ _ (hkn2 _), Snapshot.Get_Set_of_ne _ _ _ _ (hkr2 _)]
          · have hrun : reveal hash snap step = (some "Reveal is not valid", snap) := by
              simp [reveal, hperiod, hpk, hbid, hnonce, isValidReveal, findRevealerNumber, hmem,
                getBid, getDeposit, hhash, byteToInt, hd, hb, not_le.mp hle]
            rw [hrun]
            simp only [reduceCtorEq, false_iff, not_and, not_exists, ne_eq, not_false_eq_true,
              true_implies, false_implies, and_true]
            intro _ _ d' b' h1 h2
            simp only [Option.some.injEq] at h1 h2
            subst h1 h2
            exact hle
    · have hrun : reveal hash snap step = (some "Reveal is not valid", snap) := by
        simp [reveal, hperiod, hpk, hbid, hnonce, isValidReveal, findRevealerNumber, hmem,
          getBid, hhash]
      rw [hrun]
      simp [hhash]
  · have hrun : reveal hash snap step = (some "Reveal is not valid", snap) := by
      simp [reveal, hperiod, hpk, hbid, hnonce, isValidReveal, findRevealerNumber, hmem]
    rw [hrun]
    simp [hmem]

/-- Witness of C29: after the three bids of the example, `alice` reveals her bid 5. -/
theorem reveal_accepted_iff_witness :
    isValidRevealPeriod exAuctionBids = Except.ok true ∧
      str "alice" ∈ getBiddersList exAuctionBids ∧
      (reveal exDigest exAuctionBids (exReveal "alice" "5" "n1")).1 = none :=
  ⟨rfl, by decide,
    (reveal_accepted_iff exDigest exAuctionBids (exReveal "alice" "5" "n1") (str "alice") rfl rfl
      (by decide) (by decide)).1.mpr ⟨by decide, by decide, 10, 5, by decide, by decide,
        by decide⟩⟩

end Auction

/-! ## Keys of the event contract -/

theorem ne_append_of_take (key p x : Bytes) (n : Nat) (hn : n ≤ p.length)
    (h : key.take n ≠ p.take n) : key ≠ p ++ x := by
  intro e
  apply h
  rw [e, List.take_append_of_le_length hn]

theorem append_ne_append_of_take (p q x y : Bytes) (n : Nat) (hp : n ≤ p.length)
    (hq : n ≤ q.length) (h : p.take n ≠ q.take n) : p ++ x ≠ q ++ y := by
  intro e
  apply h
  have := congrArg (List.take n) e
  rwa [List.take_append_of_le_length hp, List.take_append_of_le_length hq] at this

theorem natDec_injective (i j : Nat) (h : natDec i = natDec j) : i = j := by
  have hi := parseDigits_natDec i
  rw [h, parseDigits_natDec j] at hi
  exact (Option.some.inj hi).symm

theorem Itoa_natCast (i : Nat) : Itoa (i : Int) = natDec i := by
  unfold Itoa
  rw [if_neg (by omega)]
  rfl

theorem Itoa_natCast_injective (i j : Nat) (h : Itoa (i : Int) = Itoa (j : Int)) : i = j := by
  rw [Itoa_natCast, Itoa_natCast] at h
  exact natDec_injective i j h

namespace Event

theorem userBalanceKey_ne (i j : Nat) (h : i ≠ j) : userBalanceKey i ≠ userBalanceKey j :=
  fun e => h (Itoa_natCast_injective i j (List.append_cancel_left e))

theorem userBalanceKey_ne_event (i : Nat) (key : Bytes) (h : key.head? = some 101) :
    key ≠ userBalanceKey i :=
  ne_of_head _ _ 101 98 h (head_append _ _ _ (by decide)) (by decide)

/-- The user index does not depend on a key other than `event:users`. -/
theorem getUserIndex_Set (snap : Snapshot) (key value user : Bytes) (h : UserIndexKey ≠ key) :
    getUserIndex (snap.Set key value) user = getUserIndex snap user := by
  unfold getUserIndex getUsersList
  rw [Snapshot.Get_Set_of_ne _ _ _ _ h]

theorem accountOf_Set_self {F : Type} (fl : FloatText F) (snap : Snapshot) (i : Nat) (x : F)
    (h : Reads fl x) : accountOf fl (snap.Set (userBalanceKey i) (fl.Sprintf x)) i = some x := by
  unfold accountOf
  rw [Snapshot.Get_Set_self, if_neg h.2, h.1]

theorem accountOf_Set_of_ne {F : Type} (fl : FloatText F) (snap : Snapshot) (key value : Bytes)
    (k : Nat) (h : userBalanceKey k ≠ key) :
    accountOf fl (snap.Set key value) k = accountOf fl snap k := by
  unfold accountOf
  rw [Snapshot.Get_Set_of_ne _ _ _ _ h]

/-- A payment to the event whose new balance is stored without loss. -/
theorem transferPaymentToEvent_spec {F : Type} [LinearOrderedField F] (fl : FloatText F)
    (snap : Snapshot) (ticketPayment e : F)
    (he : fl.ParseFloat (snap.Get EventBalanceKey) = some e) :
    transferPaymentToEvent fl snap ticketPayment
      = (none, snap.Set EventBalanceKey (fl.Sprintf (e + ticketPayment))) := by
  simp only [transferPaymentToEvent, byteToDecimal, he]

/-- A change of the account of a user. -/
theorem changeUserBalance_spec {F : Type} [LinearOrderedField F] (fl : FloatText F)
    (snap : Snapshot) (pk : Bytes) (amount a : F) (i : Nat)
    (hi : getUserIndex snap pk = Except.ok i) (ha : accountOf fl snap i = some a) :
    changeUserBalance fl snap pk amount
      = (none, snap.Set (userBalanceKey i) (fl.Sprintf (a + amount))) := by
  unfold accountOf at ha
  simp only [changeUserBalance, hi, byteToDecimal, ha]

/-- The sum of the accounts after two of them changed. -/
theorem sum_accounts {F : Type} [LinearOrderedField F] (f g : Nat → F) (i j n : Nat) (c d : F)
    (hi : i < n) (hj : j < n)
    (h : ∀ k, g k = f k + (if k = i then c else 0) + (if k = j then d else 0)) :
    ∑ k ∈ Finset.range n, g k = ∑ k ∈ Finset.range n, f k + c + d := by
  simp only [h, Finset.sum_add_distrib, Finset.sum_ite_eq', Finset.mem_range, hi, hj, if_true]

/-- The snapshot that a resale payment leaves. -/
theorem transferResalePayment_run {F : Type} [LinearOrderedField F] (fl : FloatText F)
    (snap : Snapshot) (rebuyer reseller : Bytes) (P r e ai aj : F) (i j : Nat)
    (hr : fl.ParseFloat (snap.Get ResaleRoyaltyKey) = some r)
    (he : fl.ParseFloat (snap.Get EventBalanceKey) = some e)
    (hi : getUserIndex snap reseller = Except.ok i)
    (hj : getUserIndex snap rebuyer = Except.ok j)
    (hai : accountOf fl snap i = some ai) (haj : accountOf fl snap j = some aj)
    (hw2 : Reads fl (ai + P * ((100 - r) / 100))) :
    transferResalePayment fl snap rebuyer reseller P
      = (none, ((snap.Set EventBalanceKey (fl.Sprintf (e + P * (r / 100)))).Set
          (userBalanceKey i) (fl.Sprintf (ai + P * ((100 - r) / 100)))).Set (userBalanceKey j)
          (fl.Sprintf ((if i = j then ai + P * ((100 - r) / 100) else aj) + -P))) := by
  have hkE : ∀ k, userBalanceKey k ≠ EventBalanceKey := fun k =>
    (userBalanceKey_ne_event k EventBalanceKey (by decide)).symm
  have hkU : ∀ k, UserIndexKey ≠ userBalanceKey k := fun k =>
    userBalanceKey_ne_event k UserIndexKey (by decide)
  have hUE : UserIndexKey ≠ EventBalanceKey := by decide
  have h1 := transferPaymentToEvent_spec fl snap (P * (r / 100)) e he
  have hi1 : getUserIndex (snap.Set EventBalanceKey (fl.Sprintf (e + P * (r / 100)))) reseller
      = Except.ok i := by rw [getUserIndex_Set _ _ _ _ hUE, hi]
  have hai1 : accountOf fl (snap.Set EventBalanceKey (fl.Sprintf (e + P * (r / 100)))) i
      = some ai := by rw [accountOf_Set_of_ne _ _ _ _ _ (hkE i), hai]
  have h2 := changeUserBalance_spec fl _ reseller (P * ((100 - r) / 100)) ai i hi1 hai1
  have hj2 : getUserIndex ((snap.Set EventBalanceKey (fl.Sprintf (e + P * (r / 100)))).Set
      (userBalanceKey i) (fl.Sprintf (ai + P * ((100 - r) / 100)))) rebuyer = Except.ok j := by
    rw [getUserIndex_Set _ _ _ _ (hkU i), getUserIndex_Set _ _ _ _ hUE, hj]
  have haj2 : accountOf fl ((snap.Set EventBalanceKey (fl.Sprintf (e + P * (r / 100)))).Set
      (userBalanceKey i) (fl.Sprintf (ai + P * ((100 - r) / 100)))) j
      = some (if i = j then ai + P * ((100 - r) / 100) else aj) := by
    by_cases hij : i = j
    · subst hij
      rw [accountOf_Set_self _ _ _ _ hw2, if_pos rfl]
    · rw [accountOf_Set_of_ne _ _ _ _ _ (userBalanceKey_ne j i (Ne.symm hij)),
        accountOf_Set_of_ne _ _ _ _ _ (hkE j), haj, if_neg hij]
  have h3 := changeUserBalance_spec fl _ rebuyer (-P) _ j hj2 haj2
  simp only [transferResalePayment, byteToDecimal, hr, h1, h2, h3]

/-- The snapshot that the payment of a sale leaves. -/
theorem transferSalePayment_run {F : Type} [LinearOrderedField F] (fl : FloatText F)
    (snap : Snapshot) (buyer : Bytes) (P e aj : F) (j : Nat)
    (he : fl.ParseFloat (snap.Get EventBalanceKey) = some e)
    (hj : getUserIndex snap buyer = Except.ok j) (haj : accountOf fl snap j = some aj) :
    transferSalePayment fl snap buyer P
      = (none, (snap.Set EventBalanceKey (fl.Sprintf (e + P))).Set (userBalanceKey j)
          (fl.Sprintf (aj + -P))) := by
  have hkE : ∀ k, userBalanceKey k ≠ EventBalanceKey := fun k =>
    (userBalanceKey_ne_event k EventBalanceKey (by decide)).symm
  have hUE : UserIndexKey ≠ EventBalanceKey := by decide
  have h1 := transferPaymentToEvent_spec fl snap P e he
  have hj1 : getUserIndex (snap.Set EventBalanceKey (fl.Sprintf (e + P))) buyer
      = Except.ok j := by rw [getUserIndex_Set _ _ _ _ hUE, hj]
  have haj1 : accountOf fl (snap.Set EventBalanceKey (fl.Sprintf (e + P))) j = some aj := by
    rw [accountOf_Set_of_ne _ _ _ _ _ (hkE j), haj]
  have h2 := changeUserBalance_spec fl _ buyer (-P) aj j hj1 haj1
  simp only [transferSalePayment, h1, h2]

/-- C28: a resale payment `P` with royalty `r` percent, when the new balances are stored
without loss: `event:balance` is credited `P * r / 100`, the account of the reseller
`P * (100 - r) / 100`, the account of the rebuyer is debited `P`, and the sum of
`event:balance` and of the accounts of all users is unchanged; so it is by the payment of a
`BUY`, which credits `event:balance` and debits the buyer by the same amount. -/
theorem payments_conserve_total {F : Type} [LinearOrderedField F] (fl : FloatText F)
    (snap : Snapshot) (rebuyer reseller : Bytes) (P r e ai aj : F) (i j : Nat)
    (hr : fl.ParseFloat (snap.Get ResaleRoyaltyKey) = some r)
    (he : fl.ParseFloat (snap.Get EventBalanceKey) = some e)
    (hi : getUserIndex snap reseller = Except.ok i)
    (hj : getUserIndex snap rebuyer = Except.ok j)
    (hai : accountOf fl snap i = some ai) (haj : accountOf fl snap j = some aj)
    (hw1 : Reads fl (e + P * (r / 100))) (hw2 : Reads fl (ai + P * ((100 - r) / 100)))
    (hw3 : Reads fl ((if i = j then ai + P * ((100 - r) / 100) else aj) + -P))
    (hw4 : Reads fl (e + P)) (hw5 : Reads fl (aj + -P)) :
    (∃ snap1, transferResalePayment fl snap rebuyer reseller P = (none, snap1) ∧
      fl.ParseFloat (snap1.Get EventBalanceKey) = some (e + P * r / 100) ∧
      (i ≠ j → accountOf fl snap1 i = some (ai + P * (100 - r) / 100) ∧
        accountOf fl snap1 j = some (aj - P)) ∧
      ∀ n, i < n → j < n → totalBalance fl snap1 n = totalBalance fl snap n) ∧
    (∃ snap2, transferSalePayment fl snap rebuyer P = (none, snap2) ∧
      fl.ParseFloat (snap2.Get EventBalanceKey) = some (e + P) ∧
      accountOf fl snap2 j = some (aj - P) ∧
      ∀ n, j < n → totalBalance fl snap2 n = totalBalance fl snap n) := by
  have hkE : ∀ k, userBalanceKey k ≠ EventBalanceKey := fun k =>
    (userBalanceKey_ne_event k EventBalanceKey (by decide)).symm
  constructor
  · -- the resale payment
    refine ⟨_, transferResalePayment_run fl snap rebuyer reseller P r e ai aj i j hr he hi hj
      hai haj hw2, ?_, ?_, ?_⟩
    · rw [Snapshot.Get_Set_of_ne _ _ _ _ (hkE j).symm, Snapshot.Get_Set_of_ne _ _ _ _ (hkE i).symm,
        Snapshot.Get_Set_self, hw1.1, mul_div_assoc]
    · intro hij
      rw [if_neg hij] at hw3
      constructor
      · rw [accountOf_Set_of_ne _ _ _ _ _ (userBalanceKey_ne i j hij),
          accountOf_Set_self _ _ _ _ hw2, mul_div_assoc]
      · simp only [if_neg hij]
        rw [accountOf_Set_self _ _ _ _ hw3, sub_eq_add_neg]
    · intro n hin hjn
      unfold totalBalance
      rw [Snapshot.Get_Set_of_ne _ _ _ _ (hkE j).symm, Snapshot.Get_Set_of_ne _ _ _ _ (hkE i).symm,
        Snapshot.Get_Set_self, hw1.1, he]
      rw [sum_accounts (fun k => (accountOf fl snap k).getD 0) _ i j n
        (P * ((100 - r) / 100)) (-P) hin hjn ?_]
      · simp only [Option.getD_some]
        field_simp
        ring
      · intro k
        by_cases hkj : k = j
        · subst hkj
          rw [accountOf_Set_self _ _ _ _ hw3]
          by_cases hik : i = k
          · subst hik
            simp only [if_true, Option.getD_some, hai]
          · simp only [if_neg hik, if_neg (Ne.symm hik), haj, Option.getD_some, if_true,
              add_zero]
        · rw [accountOf_Set_of_ne _ _ _ _ _ (userBalanceKey_ne k j hkj)]
          by_cases hki : k = i
          · subst hki
            rw [accountOf_Set_self _ _ _ _ hw2]
            simp only [if_true, if_neg hkj, hai, Option.getD_some, add_zero]
          · rw [accountOf_Set_of_ne _ _ _ _ _ (userBalanceKey_ne k i hki),
              accountOf_Set_of_ne _ _ _ _ _ (hkE k)]
            simp only [if_neg hki, if_neg hkj, add_zero]
  · -- the payment of a sale
    refine ⟨_, transferSalePayment_run fl snap rebuyer P e aj j he hj haj, ?_, ?_, ?_⟩
    · rw [Snapshot.Get_Set_of_ne _ _ _ _ (hkE j).symm, Snapshot.Get_Set_self, hw4.1]
    · rw [accountOf_Set_self _ _ _ _ hw5, sub_eq_add_neg]
    · intro n hjn
      unfold totalBalance
      rw [Snapshot.Get_Set_of_ne _ _ _ _ (hkE j).symm, Snapshot.Get_Set_self, hw4.1, he]
      rw [sum_accounts (fun k => (accountOf fl snap k).getD 0) _ j j n 0 (-P) hjn hjn ?_]
      · simp only [Option.getD_some]
        ring
      · intro k
        by_cases hkj : k = j
        · subst hkj
          rw [accountOf_Set_self _ _ _ _ hw5]
          simp only [if_true, haj, Option.getD_some, add_zero]
        · rw [accountOf_Set_of_ne _ _ _ _ _ (userBalanceKey_ne k j hkj),
            accountOf_Set_of_ne _ _ _ _ _ (hkE k)]
          simp only [if_neg hkj, add_zero]

/-- C22: with the six arguments of `INIT` present and the price, the maximum resale price and
the resale royalty read as the numbers `p`, `m` and `r`, `INIT` succeeds exactly when the
number of tickets is an `int` above 0, `0 ≤ p`, `0 < m` and `0 ≤ r ≤ 100`; otherwise it
fails with the `Invalid …` error of the first of these checks that fails, in the order price,
number of tickets, maximum resale price, resale royalty. -/
theorem init_succeeds_iff {F : Type} [LinearOrderedField F] (fl : FloatText F)
    (snap : Snapshot) (step : Step) (p m r : F)
    (hPK : (step.GetArg InitPKArg).length ≠ 0) (hName : (step.GetArg InitNameArg).length ≠ 0)
    (hNum : (step.GetArg InitNumTicketsArg).length ≠ 0)
    (hPrice : (step.GetArg InitPriceArg).length ≠ 0)
    (hMax : (step.GetArg InitMaxResalePriceArg).length ≠ 0)
    (hRoyalty : (step.GetArg InitResaleRoyaltyArg).length ≠ 0)
    (hp : fl.ParseFloat (step.GetArg InitPriceArg) = some p)
    (hm : fl.ParseFloat (step.GetArg InitMaxResalePriceArg) = some m)
    (hr : fl.ParseFloat (step.GetArg InitResaleRoyaltyArg) = some r) :
    ((init fl snap step).1 = none ↔
      (∃ n, Atoi (step.GetArg InitNumTicketsArg) = some n ∧ 0 < n) ∧ 0 ≤ p ∧ 0 < m ∧
        0 ≤ r ∧ r ≤ 100) ∧
    (p < 0 → (init fl snap step).1
      = some "Invalid Price: 'price cannot be a negative integer'") ∧
    (0 ≤ p → Atoi (step.GetArg InitNumTicketsArg) = none → (init fl snap step).1
      = some "Invalid number of tickets: 'number of tickets must be an integer'") ∧
    (0 ≤ p → ∀ n, Atoi (step.GetArg InitNumTicketsArg) = some n → n ≤ 0 →
      (init fl snap step).1
        = some "Invalid number of tickets: 'number of tickets must be a positive integer'") ∧
    (0 ≤ p → ∀ n, Atoi (step.GetArg InitNumTicketsArg) = some n → 0 < n → m ≤ 0 →
      (init fl snap step).1
        = some "Invalid maximum resale price: 'resale price cannot be a negative integer'") ∧
    (0 ≤ p → ∀ n, Atoi (step.GetArg InitNumTicketsArg) = some n → 0 < n → 0 < m →
      (r < 0 ∨ 100 < r) → (init fl snap step).1
        = some "Invalid resale royalty: 'resale royalty must be between 0 and 100'") := by
  by_cases hp0 : p < 0
  · have hrun : (init fl snap step).1
        = some "Invalid Price: 'price cannot be a negative integer'" := by
      simp only [init, hPK, hName, hNum, hPrice, hMax, hRoyalty, if_false, isValidPrice,
        byteToDecimal, hp, hp0, if_true]
      rfl
    rw [hrun]
    refine ⟨⟨fun h => by simp at h, fun h => absurd h.2.1 (not_le.mpr hp0)⟩, fun _ => rfl,
      fun h => absurd h (not_le.mpr hp0), fun h => absurd h (not_le.mpr hp0),
      fun h => absurd h (not_le.mpr hp0), fun h => absurd h (not_le.mpr hp0)⟩
  · have hp1 : 0 ≤ p := not_lt.mp hp0
    cases hn : Atoi (step.GetArg InitNumTicketsArg) with
    | none =>
      have hrun : (init fl snap step).1
          = some "Invalid number of tickets: 'number of tickets must be an integer'" := by
        simp only [init, hPK, hName, hNum, hPrice, hMax, hRoyalty, if_false, isValidPrice,
          byteToDecimal, hp, hp0, isValidNumTickets, byteToInt, hn]
        rfl
      rw [hrun]
      refine ⟨⟨fun h => by simp at h, fun h => ?_⟩, fun h => absurd h hp0,
        fun _ _ => rfl, fun _ n h => by simp at h, fun _ n h => by simp at h,
        fun _ n h => by simp at h⟩
      obtain ⟨⟨n, h1, _⟩, _⟩ := h
      simp at h1
    | some n =>
      by_cases hn0 : n ≤ 0
      · have hrun : (init fl snap step).1 = some
            "Invalid number of tickets: 'number of tickets must be a positive integer'" := by
          simp only [init, hPK, hName, hNum, hPrice, hMax, hRoyalty, if_false, isValidPrice,
            byteToDecimal, hp, hp0, isValidNumTickets, byteToInt, hn, hn0, if_true]
          rfl
        rw [hrun]
        refine ⟨⟨fun h => by simp at h, fun h => ?_⟩, fun h => absurd h hp0,
          fun _ h => by simp at h, fun _ _ _ _ => rfl, fun _ k hk hk0 => ?_,
          fun _ k hk hk0 => ?_⟩
        · obtain ⟨⟨k, h1, h2⟩, _⟩ := h
          simp only [Option.some.injEq] at h1
          omega
        · simp only [Option.some.injEq] at hk
          omega
        · simp only [Option.some.injEq] at hk
          omega
      · by_cases hm0 : m ≤ 0
        · have hrun : (init fl snap step).1 = some
              "Invalid maximum resale price: 'resale price cannot be a negative integer'" := by
            simp only [init, hPK, hName, hNum, hPrice, hMax, hRoyalty, if_false, isValidPrice,
              byteToDecimal, hp, hp0, isValidNumTickets, byteToInt, hn, hn0,
              isValidMaxResalePrice, hm, hm0, if_true]
            rfl
          rw [hrun]
          refine ⟨⟨fun h => by simp at h, fun h => absurd h.2.2.1 (not_lt.mpr hm0)⟩,
            fun h => absurd h hp0, fun _ h => by simp at h, fun _ k hk hk0 => ?_,
            fun _ _ _ _ _ => rfl, fun _ _ _ _ h => absurd h (not_lt.mpr hm0)⟩
          simp only [Option.some.injEq] at hk
          omega
        · by_cases hr0 : r < 0 ∨ r > 100
          · have hrun : (init fl snap step).1 = some
                "Invalid resale royalty: 'resale royalty must be between 0 and 100'" := by
              simp only [init, hPK, hName, hNum, hPrice, hMax, hRoyalty, if_false, isValidPrice,
                byteToDecimal, hp, hp0, isValidNumTickets, byteToInt, hn, hn0,
                isValidMaxResalePrice, hm, hm0, isValidResaleRoyalty, hr, hr0, if_true]
              rfl
            rw [hrun]
            refine ⟨⟨fun h => by simp at h, fun h => ?_⟩,
              fun h => absurd h hp0, fun _ h => by simp at h, fun _ k hk hk0 => ?_,
              fun _ _ _ _ h => absurd h hm0, fun _ _ _ _ _ _ => rfl⟩
            · rcases hr0 with h0 | h0
              · exact absurd h.2.2.2.1 (not_le.mpr h0)
              · exact absurd h.2.2.2.2 (not_le.mpr h0)
            · simp only [Option.some.injEq] at hk
              omega
          · have hrun : (init fl snap step).1 = none := by
              simp only [init, hPK, hName, hNum, hPrice, hMax, hRoyalty, if_false, isValidPrice,
                byteToDecimal, hp, hp0, isValidNumTickets, byteToInt, hn, hn0,
                isValidMaxResalePrice, hm, hm0, isValidResaleRoyalty, hr, hr0]
            rw [hrun]
            simp only [not_or, not_lt, gt_iff_lt] at hr0
            refine ⟨⟨fun _ => ⟨⟨n, rfl, by omega⟩, hp1, not_le.mp hm0, hr0.1, hr0.2⟩,
              fun _ => rfl⟩, fun h => absurd h hp0, fun _ h => by simp at h,
              fun _ k hk hk0 => ?_, fun _ _ _ _ h => absurd h hm0, fun _ _ _ _ _ h => ?_⟩
            · simp only [Option.some.injEq] at hk
              omega
            · rcases h with h0 | h0
              · exact absurd hr0.1 (not_le.mpr h0)
              · exact absurd hr0.2 (not_le.mpr h0)

/-- Witness of C22: the `INIT` of the examples, with 100 tickets at the price 10, the maximum
resale price 20 and the royalty 10. -/
theorem init_succeeds_iff_witness : (init exFloat exEmpty exEventInit).1 = none :=
  (init_succeeds_iff exFloat exEmpty exEventInit 10 20 10 (by decide) (by decide) (by decide)
    (by decide) (by decide) (by decide) (by decide!) (by decide!) (by decide!)).1.mpr
    ⟨⟨100, by decide, by decide⟩, by norm_num, by norm_num, by norm_num, by norm_num⟩

end Event

theorem Snapshot.Get_Set (snap : Snapshot) (key value k : Bytes) :
    (snap.Set key value).Get k = if k = key then value else snap.Get k := rfl

namespace Event

/-- What `incTxcount` leaves under a key other than `event:txcount`. -/
theorem incTxcount_get (snap : Snapshot) (key : Bytes) (h : key ≠ TXCountKey) :
    (incTxcount snap).2.Get key = snap.Get key := by
  unfold incTxcount
  split
  · rfl
  · exact Snapshot.Get_Set_of_ne _ _ _ _ h

/-- What `storeTicketUser` leaves under a key other than `event:users`. -/
theorem storeTicketUser_get (snap : Snapshot) (newUser key : Bytes) (h : key ≠ UserIndexKey) :
    (storeTicketUser snap newUser).Get key = snap.Get key := by
  unfold storeTicketUser
  simp only []
  split
  · rfl
  · exact Snapshot.Get_Set_of_ne _ _ _ _ h

/-- What `storeTicketOwner` leaves under a key other than `event:ticket_owners`. -/
theorem storeTicketOwner_get (snap : Snapshot) (owner key : Bytes)
    (h : key ≠ TicketOwnersKey) : (storeTicketOwner snap owner).Get key = snap.Get key := by
  unfold storeTicketOwner
  simp only []
  split
  · rfl
  · exact Snapshot.Get_Set_of_ne _ _ _ _ h

theorem getUserIndex_congr (snap snap1 : Snapshot) (user : Bytes)
    (h : snap1.Get UserIndexKey = snap.Get UserIndexKey) :
    getUserIndex snap1 user = getUserIndex snap user := by
  unfold getUserIndex getUsersList
  rw [h]

theorem accountOf_congr {F : Type} (fl : FloatText F) (snap snap1 : Snapshot) (i : Nat)
    (h : snap1.Get (userBalanceKey i) = snap.Get (userBalanceKey i)) :
    accountOf fl snap1 i = accountOf fl snap i := by
  unfold accountOf
  rw [h]

theorem countAt_congr (snap snap1 : Snapshot) (key : Bytes)
    (h : snap1.Get key = snap.Get key) : countAt snap1 key = countAt snap key := by
  unfold countAt
  rw [h]

/-- The keys of the tickets and of the event credential of a user differ from a key that
does not start as `event:bu`. -/
theorem buyerTicketsKey_ne (i : Nat) (key : Bytes)
    (h : key.take 8 ≠ (str "event:bu")) : key ≠ buyerTicketsKey i :=
  ne_append_of_take key _ _ 8 (by decide) (fun e => h (e.trans (by decide)))

theorem buyerEventCredentialKey_ne (i : Nat) (key : Bytes)
    (h : key.take 8 ≠ (str "event:bu")) : key ≠ buyerEventCredentialKey i :=
  ne_append_of_take key _ _ 8 (by decide) (fun e => h (e.trans (by decide)))

theorem buyerTicketsKey_ne_credential (i j : Nat) :
    buyerTicketsKey i ≠ buyerEventCredentialKey j :=
  append_ne_append_of_take _ _ _ _ 13 (by decide) (by decide) (by decide)

theorem buyerTicketsKey_ne_balance (i j : Nat) : buyerTicketsKey i ≠ userBalanceKey j :=
  ne_of_head _ _ 101 98 (head_append _ _ _ (by decide)) (head_append _ _ _ (by decide))
    (by decide)

theorem buyerEventCredentialKey_ne_balance (i j : Nat) :
    buyerEventCredentialKey i ≠ userBalanceKey j :=
  ne_of_head _ _ 101 98 (head_append _ _ _ (by decide)) (head_append _ _ _ (by decide))
    (by decide)

/-- An `int` read by `Atoi` is in the range of `int`. -/
theorem Atoi_range (s : Bytes) (n : Int) (h : Atoi s = some n) :
    -2 ^ 63 ≤ n ∧ n < 2 ^ 63 := by
  unfold Atoi at h
  simp only [] at h
  repeat' split at h
  all_goals first
    | omega
    | (simp only [Option.some.injEq, reduceCtorEq] at h; omega)
    | (simp only [Option.some.injEq, reduceCtorEq] at h)

/-- A change of a count that stays in the range of `int`. -/
theorem changeCount_run (key : Nat → Bytes) (snap : Snapshot) (owner : Bytes) (n c : Int)
    (i : Nat) (hi : getUserIndex snap owner = Except.ok i)
    (hc : countAt snap (key i) = some c) (hn1 : -2 ^ 63 ≤ n) (hn2 : n < 2 ^ 63) :
    changeCount key snap owner n = (none, snap.Set (key i) (Itoa (wrapInt (c + n)))) := by
  unfold countAt at hc
  by_cases he : (snap.Get (key i)).length = 0
  · rw [if_pos he] at hc
    simp only [Option.some.injEq] at hc
    subst hc
    simp only [changeCount, hi, he, if_true, zero_add, wrapInt_of_range n hn1 hn2]
  · rw [if_neg he] at hc
    simp only [changeCount, hi, he, if_false, byteToInt, hc]

/-- A successful change of a count, read backwards. -/
theorem changeCount_inv (key : Nat → Bytes) (snap snap1 : Snapshot) (owner : Bytes) (n : Int)
    (h : changeCount key snap owner n = (none, snap1)) :
    ∃ i c, getUserIndex snap owner = Except.ok i ∧ countAt snap (key i) = some c := by
  unfold changeCount at h
  split at h
  · simp at h
  · rename_i i hi
    simp only [] at h
    split at h
    · rename_i he
      exact ⟨i, 0, by assumption, by simp only [countAt, he, if_true]⟩
    · rename_i he
      split at h
      · simp at h
      · rename_i c hc
        refine ⟨i, c, by assumption, ?_⟩
        simp only [byteToInt] at hc
        split at hc
        · simp at hc
        · rename_i c1 hc1
          simp only [Except.ok.injEq] at hc
          subst hc
          simp only [countAt, he, if_false, hc1]

theorem storeBuyerEventCredential_run (snap : Snapshot) (owner eventCredential : Bytes)
    (i : Nat) (hi : getUserIndex snap owner = Except.ok i) :
    storeBuyerEventCredential snap owner eventCredential
      = (none, snap.Set (buyerEventCredentialKey i) eventCredential) := by
  simp only [storeBuyerEventCredential, hi]

theorem changeNumTicketsLeft_run (snap : Snapshot) (diff L : Int)
    (hL : Atoi (snap.Get NumTicketsLeftKey) = some L) :
    changeNumTicketsLeft snap diff
      = (none, snap.Set NumTicketsLeftKey (Itoa (wrapInt (L + diff)))) := by
  simp only [changeNumTicketsLeft, byteToInt, hL]

/-- The steps of a successful `BUY`. -/
theorem buy_inv {F : Type} [LinearOrderedField F] (fl : FloatText F) (snap snap1 : Snapshot)
    (step : Step) (p : F) (n : Int)
    (hp : fl.ParseFloat (step.GetArg BuyPaymentArg) = some p)
    (hn : Atoi (step.GetArg BuyNumTicketsArg) = some n)
    (h : buy fl snap step = (none, snap1)) :
    ∃ s3 s5 s6 : Snapshot,
      isTicketsLeft (incTxcount snap).2 n = Except.ok true ∧
      transferSalePayment fl (storeTicketUser (incTxcount snap).2 (step.GetArg BuyPKArg))
        (step.GetArg BuyPKArg) ((n : F) * p) = (none, s3) ∧
      changeBuyerNumTickets (storeTicketOwner s3 (step.GetArg BuyPKArg))
        (step.GetArg BuyPKArg) n = (none, s5) ∧
      storeBuyerEventCredential s5 (step.GetArg BuyPKArg)
        (step.GetArg BuyEventCredentialArg) = (none, s6) ∧
      changeNumTicketsLeft s6 (wrapInt (-1 * n)) = (none, snap1) := by
  simp only [buy, byteToDecimal, byteToInt, hp, hn] at h
  repeat' split at h
  all_goals try (simp only [Prod.mk.injEq, reduceCtorEq, false_and] at h)
  rename_i b hb hnb _ s3 h3 _ s5 h5 _ s6 h6 _ s7 h7
  simp only [true_and] at h
  subst h
  refine ⟨s3, s5, s6, ?_, h3, h5, h6, h7⟩
  rw [hb]
  cases b with
  | true => rfl
  | false => simp at hnb

/-- What `transferSalePayment` leaves under a key that is neither `event:balance` nor an
account. -/
theorem transferSalePayment_get {F : Type} [LinearOrderedField F] (fl : FloatText F)
    (snap : Snapshot) (buyer : Bytes) (P : F) (key : Bytes) (h1 : key ≠ EventBalanceKey)
    (h2 : ∀ i, key ≠ userBalanceKey i) :
    (transferSalePayment fl snap buyer P).2.Get key = snap.Get key := by
  have hE : ∀ s : Snapshot, ∀ x : F, (transferPaymentToEvent fl s x).2.Get key = s.Get key := by
    intro s x
    unfold transferPaymentToEvent
    split
    · rfl
    · exact Snapshot.Get_Set_of_ne _ _ _ _ h1
  have hB : ∀ s : Snapshot, ∀ x : F, (changeUserBalance fl s buyer x).2.Get key = s.Get key := by
    intro s x
    unfold changeUserBalance
    split
    · rfl
    · simp only []
      split
      · rfl
      · exact Snapshot.Get_Set_of_ne _ _ _ _ (h2 _)
  unfold transferSalePayment
  split
  · rename_i err s1 hs1
    rw [← hE snap P, hs1]
  · rename_i s1 hs1
    split
    · rename_i err s2 hs2
      rw [← hE snap P, hs1]
      simp only []
      rw [← hB s1 (-P), hs2]
    · rename_i s2 hs2
      rw [← hE snap P, hs1]
      simp only []
      rw [← hB s1 (-P), hs2]

/-- What a change of a count leaves under a key that is not a key of the count. -/
theorem changeCount_get (key : Nat → Bytes) (snap : Snapshot) (owner : Bytes) (n : Int)
    (k : Bytes) (h : ∀ i, k ≠ key i) : (changeCount key snap owner n).2.Get k = snap.Get k := by
  unfold changeCount
  split
  · rfl
  · simp only []
    split
    · exact Snapshot.Get_Set_of_ne _ _ _ _ (h _)
    · split
      · rfl
      · exact Snapshot.Get_Set_of_ne _ _ _ _ (h _)

/-- What `storeBuyerEventCredential` leaves under a key that is not a key of a credential. -/
theorem storeBuyerEventCredential_get (snap : Snapshot) (owner eventCredential k : Bytes)
    (h : ∀ i, k ≠ buyerEventCredentialKey i) :
    (storeBuyerEventCredential snap owner eventCredential).2.Get k = snap.Get k := by
  unfold storeBuyerEventCredential
  split
  · rfl
  · exact Snapshot.Get_Set_of_ne _ _ _ _ (h _)

/-- What `changeNumTicketsLeft` leaves under a key other than `event:num_tickets_left`. -/
theorem changeNumTicketsLeft_get (snap : Snapshot) (diff : Int) (k : Bytes)
    (h : k ≠ NumTicketsLeftKey) : (changeNumTicketsLeft snap diff).2.Get k = snap.Get k := by
  unfold changeNumTicketsLeft
  split
  · rfl
  · exact Snapshot.Get_Set_of_ne _ _ _ _ h

/-- C24, amended: after a successful `BUY` of `n` tickets at `p` each by `pk`, the user at
index `i`: when the new count `c + n` is in the range of `int` and the new balances are stored
without loss, the count of the buyer is its previous count `c` (0 if none) plus `n`,
`event:num_tickets_left` is its previous value `L` minus `n`, `event:balance` has increased
by `n * p`, the account of the buyer has decreased by `n * p`, and the stored event credential
is the one supplied; `BUY` fails when `p` is below `event:price` and when `n` exceeds `L`
(with `L - n` in the range of `int`). -/
theorem buy_effect {F : Type} [LinearOrderedField F] (fl : FloatText F) (snap : Snapshot)
    (step : Step) (p : F) (n L : Int)
    (hp : fl.ParseFloat (step.GetArg BuyPaymentArg) = some p)
    (hn : Atoi (step.GetArg BuyNumTicketsArg) = some n)
    (hL : Atoi (snap.Get NumTicketsLeftKey) = some L)
    (hLn1 : -2 ^ 63 ≤ L - n) (hLn2 : L - n < 2 ^ 63) :
    (∀ (snap1 : Snapshot) (i : Nat) (c : Int) (e a : F),
      buy fl snap step = (none, snap1) →
      getUserIndex snap1 (step.GetArg BuyPKArg) = Except.ok i →
      countAt snap (buyerTicketsKey i) = some c →
      -2 ^ 63 ≤ c + n → c + n < 2 ^ 63 →
      fl.ParseFloat (snap.Get EventBalanceKey) = some e →
      accountOf fl snap i = some a →
      Reads fl (e + n * p) → Reads fl (a - n * p) →
      countAt snap1 (buyerTicketsKey i) = some (c + n) ∧
        Atoi (snap1.Get NumTicketsLeftKey) = some (L - n) ∧
        fl.ParseFloat (snap1.Get EventBalanceKey) = some (e + n * p) ∧
        accountOf fl snap1 i = some (a - n * p) ∧
        snap1.Get (buyerEventCredentialKey i) = step.GetArg BuyEventCredentialArg) ∧
    (∀ q, fl.ParseFloat (snap.Get PriceKey) = some q → p < q →
      (buy fl snap step).1 ≠ none) ∧
    (L < n → (buy fl snap step).1 ≠ none) := by
  have hL0 : Atoi ((incTxcount snap).2.Get NumTicketsLeftKey) = some L := by
    rw [incTxcount_get _ _ (by decide), hL]
  refine ⟨?_, ?_, ?_⟩
  · intro snap1 i c e a h hi hc hc1 hc2 he ha hw1 hw2
    obtain ⟨s3, s5, s6, _, h3, h5, h6, h7⟩ := buy_inv fl snap snap1 step p n hp hn h
    obtain ⟨hn1, hn2⟩ := Atoi_range _ _ hn
    -- keys
    have kU : ∀ j, UserIndexKey ≠ userBalanceKey j := fun j =>
      userBalanceKey_ne_event j _ (by decide)
    have kUt : ∀ j, UserIndexKey ≠ buyerTicketsKey j := fun j =>
      buyerTicketsKey_ne j _ (by decide)
    have kUc : ∀ j, UserIndexKey ≠ buyerEventCredentialKey j := fun j =>
      buyerEventCredentialKey_ne j _ (by decide)
    have kE : ∀ j, EventBalanceKey ≠ userBalanceKey j := fun j =>
      userBalanceKey_ne_event j _ (by decide)
    have kEt : ∀ j, EventBalanceKey ≠ buyerTicketsKey j := fun j =>
      buyerTicketsKey_ne j _ (by decide)
    have kEc : ∀ j, EventBalanceKey ≠ buyerEventCredentialKey j := fun j =>
      buyerEventCredentialKey_ne j _ (by decide)
    have kL : ∀ j, NumTicketsLeftKey ≠ userBalanceKey j := fun j =>
      userBalanceKey_ne_event j _ (by decide)
    have kLt : ∀ j, NumTicketsLeftKey ≠ buyerTicketsKey j := fun j =>
      buyerTicketsKey_ne j _ (by decide)
    have kLc : ∀ j, NumTicketsLeftKey ≠ buyerEventCredentialKey j := fun j =>
      buyerEventCredentialKey_ne j _ (by decide)
    have kO : ∀ j, TicketOwnersKey ≠ userBalanceKey j := fun j =>
      userBalanceKey_ne_event j _ (by decide)
    have kOt : ∀ j, TicketOwnersKey ≠ buyerTicketsKey j := fun j =>
      buyerTicketsKey_ne j _ (by decide)
    have kOc : ∀ j, TicketOwnersKey ≠ buyerEventCredentialKey j := fun j =>
      buyerEventCredentialKey_ne j _ (by decide)
    have kX : ∀ j, TXCountKey ≠ userBalanceKey j := fun j =>
      userBalanceKey_ne_event j _ (by decide)
    have kXt : ∀ j, TXCountKey ≠ buyerTicketsKey j := fun j =>
      buyerTicketsKey_ne j _ (by decide)
    -- the snapshot after `storeTicketUser`
    have f1 : ∀ k, k ≠ UserIndexKey → k ≠ TXCountKey →
        (storeTicketUser (incTxcount snap).2 (step.GetArg BuyPKArg)).Get k = snap.Get k := by
      intro k hk1 hk2
      rw [storeTicketUser_get _ _ _ hk1, incTxcount_get _ _ hk2]
    unfold changeBuyerNumTickets at h5
    generalize step.GetArg BuyPKArg = pk at *
    generalize storeTicketUser (incTxcount snap).2 pk = s1 at *
    have he1 : fl.ParseFloat (s1.Get EventBalanceKey) = some e := by
      rw [f1 _ (by decide) (by decide), he]
    have ha1 : accountOf fl s1 i = some a :=
      (accountOf_congr fl snap s1 i (f1 _ (kU i).symm (kX i).symm)).trans ha
    -- the users list is the one `storeTicketUser` leaves
    have e3 := transferSalePayment_get fl s1 pk ((n : F) * p) UserIndexKey (by decide) kU
    rw [h3] at e3
    have e5 := changeCount_get buyerTicketsKey (storeTicketOwner s3 pk) pk n UserIndexKey kUt
    rw [h5] at e5
    have e6 := storeBuyerEventCredential_get s5 pk (step.GetArg BuyEventCredentialArg)
      UserIndexKey kUc
    rw [h6] at e6
    have e7 := changeNumTicketsLeft_get s6 (wrapInt (-1 * n)) UserIndexKey (by decide)
    rw [h7] at e7
    simp only [] at e3 e5 e6 e7
    have e4 : (storeTicketOwner s3 pk).Get UserIndexKey = s1.Get UserIndexKey :=
      (storeTicketOwner_get s3 pk UserIndexKey (by decide)).trans e3
    have hi1 : getUserIndex s1 pk = Except.ok i :=
      (getUserIndex_congr snap1 s1 pk ((e4.symm.trans (e5.symm.trans
        (e6.symm.trans e7.symm))))).trans hi
    have hi4 : getUserIndex (storeTicketOwner s3 pk) pk = Except.ok i :=
      (getUserIndex_congr s1 (storeTicketOwner s3 pk) pk e4).trans hi1
    have hi5 : getUserIndex s5 pk = Except.ok i :=
      (getUserIndex_congr (storeTicketOwner s3 pk) s5 pk e5).trans hi4
    -- the payment
    have r3 := transferSalePayment_run fl s1 pk ((n : F) * p) e a i he1 hi1 ha1
    rw [h3] at r3
    simp only [Prod.mk.injEq, true_and] at r3
    -- the count
    have hc4 : countAt (storeTicketOwner s3 pk) (buyerTicketsKey i) = some c := by
      refine (countAt_congr snap _ _ ?_).trans hc
      rw [storeTicketOwner_get _ _ _ (kOt i).symm, r3,
        Snapshot.Get_Set_of_ne _ _ _ _ (buyerTicketsKey_ne_balance i i),
        Snapshot.Get_Set_of_ne _ _ _ _ (kEt i).symm, f1 _ (kUt i).symm (kXt i).symm]
    have r5 := changeCount_run buyerTicketsKey _ pk n c i hi4 hc4 hn1 hn2
    rw [h5] at r5
    simp only [Prod.mk.injEq, true_and] at r5
    -- the credential
    have r6 := storeBuyerEventCredential_run s5 pk (step.GetArg BuyEventCredentialArg) i hi5
    rw [h6] at r6
    simp only [Prod.mk.injEq, true_and] at r6
    -- the number of tickets left
    have hL6 : Atoi (s6.Get NumTicketsLeftKey) = some L := by
      rw [r6, Snapshot.Get_Set_of_ne _ _ _ _ (kLc i), r5,
        Snapshot.Get_Set_of_ne _ _ _ _ (kLt i), storeTicketOwner_get _ _ _ (by decide), r3,
        Snapshot.Get_Set_of_ne _ _ _ _ (kL i), Snapshot.Get_Set_of_ne _ _ _ _ (by decide),
        f1 _ (by decide) (by decide), hL]
    have r7 := changeNumTicketsLeft_run s6 (wrapInt (-1 * n)) L hL6
    rw [h7] at r7
    simp only [Prod.mk.injEq, true_and] at r7
    have hwL : wrapInt (L + wrapInt (-1 * n)) = L - n := by
      unfold wrapInt
      omega
    refine ⟨?_, ?_, ?_, ?_, ?_⟩
    · unfold countAt
      rw [r7, Snapshot.Get_Set_of_ne _ _ _ _ (kLt i).symm, r6,
        Snapshot.Get_Set_of_ne _ _ _ _ (buyerTicketsKey_ne_credential i i), r5,
        Snapshot.Get_Set_self, if_neg (Itoa_length _), wrapInt_of_range _ hc1 hc2,
        Atoi_Itoa _ hc1 hc2]
    · rw [r7, Snapshot.Get_Set_self, hwL, Atoi_Itoa _ hLn1 hLn2]
    · rw [r7, Snapshot.Get_Set_of_ne _ _ _ _ (by decide), r6,
        Snapshot.Get_Set_of_ne _ _ _ _ (kEc i), r5, Snapshot.Get_Set_of_ne _ _ _ _ (kEt i),
        storeTicketOwner_get _ _ _ (by decide), r3, Snapshot.Get_Set_of_ne _ _ _ _ (kE i),
        Snapshot.Get_Set_self, hw1.1]
    · rw [sub_eq_add_neg] at hw2 ⊢
      refine (accountOf_congr fl s3 snap1 i ?_).trans ?_
      · rw [r7, Snapshot.Get_Set_of_ne _ _ _ _ (kL i).symm, r6,
          Snapshot.Get_Set_of_ne _ _ _ _ (buyerEventCredentialKey_ne_balance i i).symm, r5,
          Snapshot.Get_Set_of_ne _ _ _ _ (buyerTicketsKey_ne_balance i i).symm,
          storeTicketOwner_get _ _ _ (kO i).symm]
      · rw [r3, accountOf_Set_self _ _ _ _ hw2]
    · rw [r7, Snapshot.Get_Set_of_ne _ _ _ _ (kLc i).symm, r6, Snapshot.Get_Set_self]
  · intro q hq hlt h
    have hq0 : fl.ParseFloat ((incTxcount snap).2.Get PriceKey) = some q := by
      rw [incTxcount_get _ _ (by decide), hq]
    simp only [buy, byteToDecimal, byteToInt, hp, hn, hq0, hlt, if_true] at h
    repeat' split at h
    all_goals simp at h
  · intro hlt h
    have htl : isTicketsLeft (incTxcount snap).2 n = Except.ok false := by
      simp only [isTicketsLeft, byteToInt, hL0, wrapInt_of_range _ hLn1 hLn2, ge_iff_le,
        Except.ok.injEq, decide_eq_false_iff_not, not_le]
      omega
    simp only [buy, byteToDecimal, byteToInt, hp, hn, htl, Bool.not_false, if_true] at h
    repeat' split at h
    all_goals simp at h

end Event

theorem wrapInt_range (z : Int) : -2 ^ 63 ≤ wrapInt z ∧ wrapInt z < 2 ^ 63 := by
  unfold wrapInt
  omega

namespace Event

/-- What `incTxcount` leaves: the count is incremented when it is an `int`. -/
theorem incTxcount_snd (snap : Snapshot) :
    (∀ n, Atoi (snap.Get TXCountKey) = some n →
      (incTxcount snap).2 = snap.Set TXCountKey (Itoa (wrapInt (n + 1)))) ∧
    (Atoi (snap.Get TXCountKey) = none → (incTxcount snap).2 = snap) := by
  constructor
  · intro n h
    simp only [incTxcount, byteToInt, h]
  · intro h
    simp only [incTxcount, byteToInt, h]

/-- A change of a count that fails writes nothing. -/
theorem changeCount_error (key : Nat → Bytes) (snap snap1 : Snapshot) (owner : Bytes) (n : Int)
    (err : String) (h : changeCount key snap owner n = (some err, snap1)) : snap1 = snap := by
  unfold changeCount at h
  simp only [] at h
  repeat' split at h
  all_goals first
    | (simp only [Prod.mk.injEq] at h; exact h.2.symm)
    | (simp only [Prod.mk.injEq, reduceCtorEq, false_and] at h)

/-- After a successful change of a count, the count can be read. -/
theorem getCount_of_changeCount (key : Nat → Bytes) (snap snap1 : Snapshot) (owner : Bytes)
    (n : Int) (hn1 : -2 ^ 63 ≤ n) (hn2 : n < 2 ^ 63) (hkey : ∀ i, UserIndexKey ≠ key i)
    (h : changeCount key snap owner n = (none, snap1)) : (getCount key snap1 owner).2 = none := by
  obtain ⟨i, c, hi, hc⟩ := changeCount_inv key snap snap1 owner n h
  rw [changeCount_run key snap owner n c i hi hc hn1 hn2] at h
  simp only [Prod.mk.injEq, true_and] at h
  subst h
  have hr := wrapInt_range (c + n)
  simp only [getCount, getUserIndex_Set _ _ _ _ (hkey i), hi, Snapshot.Get_Set_self,
    Itoa_length, if_false, byteToInt, Atoi_Itoa _ hr.1 hr.2]

/-- The snapshot of a result, named by an equation, holds under `k` what the result holds. -/
theorem Get_of_eq {s1 : Snapshot} {p : Option String × Snapshot} {r : Option String}
    {k v : Bytes} (e : p.2.Get k = v) (h : p = (r, s1)) : s1.Get k = v := by
  subst h
  exact e

/-- A key with an index differs from `event:txcount` when its constant part does within its
first 7 bytes. -/
theorem TXCountKey_ne_indexed (p x : Bytes) (hp : 7 ≤ p.length)
    (h : TXCountKey.take 7 ≠ p.take 7) : TXCountKey ≠ p ++ x :=
  ne_append_of_take TXCountKey p x 7 hp h

/-- What `changeCount` leaves under `event:txcount`. -/
theorem changeCount_txcount (key : Nat → Bytes) (snap : Snapshot) (owner : Bytes) (n : Int)
    (hkey : ∀ i, TXCountKey ≠ key i) :
    (changeCount key snap owner n).2.Get TXCountKey = snap.Get TXCountKey := by
  unfold changeCount
  split
  · rfl
  · simp only []
    split
    · exact Snapshot.Get_Set_of_ne _ _ _ _ (hkey _)
    · split
      · rfl
      · exact Snapshot.Get_Set_of_ne _ _ _ _ (hkey _)

theorem changeBuyerNumTickets_txcount (snap : Snapshot) (owner : Bytes) (n : Int) :
    (changeBuyerNumTickets snap owner n).2.Get TXCountKey = snap.Get TXCountKey :=
  changeCount_txcount _ snap owner n
    (fun _ => TXCountKey_ne_indexed _ _ (by decide) (by decide))

theorem changeResellerNumTickets_txcount (snap : Snapshot) (owner : Bytes) (n : Int) :
    (changeResellerNumTickets snap owner n).2.Get TXCountKey = snap.Get TXCountKey :=
  changeCount_txcount _ snap owner n
    (fun _ => TXCountKey_ne_indexed _ _ (by decide) (by decide))

theorem changeRebuyerNumTickets_txcount (snap : Snapshot) (owner : Bytes) (n : Int) :
    (changeRebuyerNumTickets snap owner n).2.Get TXCountKey = snap.Get TXCountKey :=
  changeCount_txcount _ snap owner n
    (fun _ => TXCountKey_ne_indexed _ _ (by decide) (by decide))

theorem changeNumTicketsLeft_txcount (snap : Snapshot) (diff : Int) :
    (changeNumTicketsLeft snap diff).2.Get TXCountKey = snap.Get TXCountKey := by
  unfold changeNumTicketsLeft
  split
  · rfl
  · exact Snapshot.Get_Set_of_ne _ _ _ _ (by decide)

theorem storeTicketReseller_txcount (snap : Snapshot) (reseller : Bytes) :
    (storeTicketReseller snap reseller).Get TXCountKey = snap.Get TXCountKey :=
  Snapshot.Get_Set_of_ne _ _ _ _ (by decide)

theorem storeTicketRebuyer_txcount (snap : Snapshot) (rebuyer : Bytes) :
    (storeTicketRebuyer snap rebuyer).Get TXCountKey = snap.Get TXCountKey :=
  Snapshot.Get_Set_of_ne _ _ _ _ (by decide)

theorem storeResellerPrice_txcount {F : Type} [LinearOrderedField F] (fl : FloatText F)
    (snap : Snapshot) (reseller : Bytes) (price : F) :
    (storeResellerPrice fl snap reseller price).2.Get TXCountKey = snap.Get TXCountKey := by
  unfold storeResellerPrice
  split
  · rfl
  · simp only []
    split
    · rfl
    · exact Snapshot.Get_Set_of_ne _ _ _ _
        (TXCountKey_ne_indexed _ _ (by decide) (by decide))

theorem storeRebuyerPrice_txcount {F : Type} (fl : FloatText F) (snap : Snapshot)
    (rebuyer : Bytes) (price : F) :
    (storeRebuyerPrice fl snap rebuyer price).2.Get TXCountKey = snap.Get TXCountKey := by
  unfold storeRebuyerPrice
  split
  · rfl
  · exact Snapshot.Get_Set_of_ne _ _ _ _
      (TXCountKey_ne_indexed _ _ (by decide) (by decide))

theorem storeBuyerEventCredential_txcount (snap : Snapshot) (owner eventCredential : Bytes) :
    (storeBuyerEventCredential snap owner eventCredential).2.Get TXCountKey
      = snap.Get TXCountKey := by
  unfold storeBuyerEventCredential
  split
  · rfl
  · exact Snapshot.Get_Set_of_ne _ _ _ _
      (TXCountKey_ne_indexed _ _ (by decide) (by decide))

theorem storeRebuyerEventCredential_txcount (snap : Snapshot)
    (owner eventCredential : Bytes) :
    (storeRebuyerEventCredential snap owner eventCredential).2.Get TXCountKey
      = snap.Get TXCountKey := by
  unfold storeRebuyerEventCredential
  split
  · rfl
  · exact Snapshot.Get_Set_of_ne _ _ _ _
      (TXCountKey_ne_indexed _ _ (by decide) (by decide))

theorem transferPaymentToEvent_txcount {F : Type} [LinearOrderedField F] (fl : FloatText F)
    (snap : Snapshot) (ticketPayment : F) :
    (transferPaymentToEvent fl snap ticketPayment).2.Get TXCountKey = snap.Get TXCountKey := by
  unfold transferPaymentToEvent
  split
  · rfl
  · exact Snapshot.Get_Set_of_ne _ _ _ _ (by decide)

theorem changeUserBalance_txcount {F : Type} [LinearOrderedField F] (fl : FloatText F)
    (snap : Snapshot) (pk : Bytes) (amount : F) :
    (changeUserBalance fl snap pk amount).2.Get TXCountKey = snap.Get TXCountKey := by
  unfold changeUserBalance
  split
  · rfl
  · simp only []
    split
    · rfl
    · exact Snapshot.Get_Set_of_ne _ _ _ _
        (TXCountKey_ne_indexed _ _ (by decide) (by decide))

theorem transferSalePayment_txcount {F : Type} [LinearOrderedField F] (fl : FloatText F)
    (snap : Snapshot) (buyer : Bytes) (ticketPayment : F) :
    (transferSalePayment fl snap buyer ticketPayment).2.Get TXCountKey
      = snap.Get TXCountKey := by
  unfold transferSalePayment
  split
  · exact Get_of_eq (transferPaymentToEvent_txcount _ _ _) (by assumption)
  · have e1 : Snapshot.Get _ TXCountKey = snap.Get TXCountKey :=
      Get_of_eq (transferPaymentToEvent_txcount _ _ _) (by assumption)
    split
    · exact (Get_of_eq (changeUserBalance_txcount _ _ _ _) (by assumption)).trans e1
    · exact (Get_of_eq (changeUserBalance_txcount _ _ _ _) (by assumption)).trans e1

/-- Whatever `buy` returns, `event:txcount` holds what `incTxcount` left. -/
theorem buy_txcount {F : Type} [LinearOrderedField F] (fl : FloatText F) (snap : Snapshot)
    (step : Step) :
    (buy fl snap step).2.Get TXCountKey = (incTxcount snap).2.Get TXCountKey := by
  unfold buy
  simp only []
  generalize (incTxcount snap).2 = s0
  split
  · rfl
  split
  · rfl
  split
  · rfl
  split
  · rfl
  split
  · rfl
  split
  · rfl
  split
  · rfl
  split
  · rfl
  split
  · rfl
  split
  · rfl
  have e1 : (storeTicketUser s0 (step.GetArg BuyPKArg)).Get TXCountKey = s0.Get TXCountKey :=
    storeTicketUser_get _ _ _ (by decide)
  generalize storeTicketUser s0 (step.GetArg BuyPKArg) = s1 at e1 ⊢
  split
  · exact (Get_of_eq (transferSalePayment_txcount _ _ _ _) (by assumption)).trans e1
  have e2 := ((storeTicketOwner_get _ (step.GetArg BuyPKArg) TXCountKey (by decide)).trans
    (Get_of_eq (transferSalePayment_txcount _ _ _ _) (by assumption))).trans e1
  split
  · exact (Get_of_eq (changeBuyerNumTickets_txcount _ _ _) (by assumption)).trans e2
  have e3 := (Get_of_eq (changeBuyerNumTickets_txcount _ _ _) (by assumption)).trans e2
  split
  · exact (Get_of_eq (storeBuyerEventCredential_txcount _ _ _) (by assumption)).trans e3
  have e4 := (Get_of_eq (storeBuyerEventCredential_txcount _ _ _) (by assumption)).trans e3
  split
  · exact (Get_of_eq (changeNumTicketsLeft_txcount _ _) (by assumption)).trans e4
  · exact (Get_of_eq (changeNumTicketsLeft_txcount _ _) (by assumption)).trans e4

/-- Whatever `resell` returns, `event:txcount` holds what `incTxcount` left. -/
theorem resell_txcount {F : Type} [LinearOrderedField F] (fl : FloatText F) (snap : Snapshot)
    (step : Step) :
    (resell fl snap step).2.Get TXCountKey = (incTxcount snap).2.Get TXCountKey := by
  unfold resell
  simp only []
  generalize (incTxcount snap).2 = s0
  split
  · rfl
  split
  · rfl
  split
  · rfl
  split
  · rfl
  split
  · rfl
  split
  · rfl
  split
  · rfl
  have e1 := storeTicketReseller_txcount s0 (step.GetArg ResellPKArg)
  split
  · exact (Get_of_eq (changeResellerNumTickets_txcount _ _ _) (by assumption)).trans e1
  have e2 := (Get_of_eq (changeResellerNumTickets_txcount _ _ _) (by assumption)).trans e1
  split
  · exact (Get_of_eq (storeResellerPrice_txcount _ _ _ _) (by assumption)).trans e2
  · exact (Get_of_eq (storeResellerPrice_txcount _ _ _ _) (by assumption)).trans e2

/-- Whatever `rebuy` returns, `event:txcount` holds what `incTxcount` left. -/
theorem rebuy_txcount {F : Type} [LinearOrderedField F] (fl : FloatText F) (snap : Snapshot)
    (step : Step) :
    (rebuy fl snap step).2.Get TXCountKey = (incTxcount snap).2.Get TXCountKey := by
  unfold rebuy
  simp only []
  generalize (incTxcount snap).2 = s0
  split
  · rfl
  split
  · rfl
  have e1 : (storeTicketUser s0 (step.GetArg RebuyPKArg)).Get TXCountKey = s0.Get TXCountKey :=
    storeTicketUser_get _ _ _ (by decide)
  generalize storeTicketUser s0 (step.GetArg RebuyPKArg) = s1 at e1 ⊢
  split
  · exact e1
  split
  · exact e1
  split
  · exact e1
  split
  · exact e1
  have e2 := (storeTicketRebuyer_txcount s1 (step.GetArg RebuyPKArg)).trans e1
  split
  · exact (Get_of_eq (changeRebuyerNumTickets_txcount _ _ _) (by assumption)).trans e2
  have e3 := (Get_of_eq (changeRebuyerNumTickets_txcount _ _ _) (by assumption)).trans e2
  split
  · exact (Get_of_eq (storeRebuyerPrice_txcount _ _ _ _) (by assumption)).trans e3
  have e4 := (Get_of_eq (storeRebuyerPrice_txcount _ _ _ _) (by assumption)).trans e3
  split
  · exact (Get_of_eq (storeRebuyerEventCredential_txcount _ _ _) (by assumption)).trans e4
  · exact (Get_of_eq (storeRebuyerEventCredential_txcount _ _ _) (by assumption)).trans e4

/-- Whatever `buy` returns, it has written nothing after `incTxcount` unless the number of
tickets is an `int` for which `isTicketsLeft` answered yes. -/
theorem buy_first_write {F : Type} [LinearOrderedField F] (fl : FloatText F) (snap : Snapshot)
    (step : Step) :
    (buy fl snap step).2 = (incTxcount snap).2 ∨
      ∃ n, byteToInt (step.GetArg BuyNumTicketsArg) = Except.ok n ∧
        isTicketsLeft (incTxcount snap).2 n = Except.ok true := by
  unfold buy
  simp only []
  generalize (incTxcount snap).2 = s0
  split
  · left; rfl
  split
  · left; rfl
  split
  · left; rfl
  split
  · left; rfl
  split
  · left; rfl
  split
  · left; rfl
  rename_i n hn
  split
  · left; rfl
  split
  · left; rfl
  split
  · left; rfl
  rename_i b hb
  split
  · left; rfl
  rename_i hbt
  right
  have hb1 : b = true := by
    cases b
    · simp at hbt
    · rfl
  subst hb1
  exact ⟨n, hn, hb⟩

/-- Whatever `resell` returns, it has written nothing after `incTxcount` unless the resale
price is valid. -/
theorem resell_first_write {F : Type} [LinearOrderedField F] (fl : FloatText F)
    (snap : Snapshot) (step : Step) :
    (resell fl snap step).2 = (incTxcount snap).2 ∨
      ∃ price, isValidResalePrice fl (incTxcount snap).2 (step.GetArg ResellPriceArg)
        = Except.ok price := by
  unfold resell
  simp only []
  generalize (incTxcount snap).2 = s0
  split
  · left; rfl
  split
  · left; rfl
  split
  · left; rfl
  split
  · left; rfl
  split
  · left; rfl
  split
  · left; rfl
  split
  · left; rfl
  right
  exact ⟨_, by assumption⟩

/-- Whatever `rebuy` returns, it has written nothing after `incTxcount` unless the PK and
the event credential are among the arguments. -/
theorem rebuy_first_write {F : Type} [LinearOrderedField F] (fl : FloatText F)
    (snap : Snapshot) (step : Step) :
    (rebuy fl snap step).2 = (incTxcount snap).2 ∨
      ((step.GetArg RebuyPKArg).length ≠ 0 ∧
        (step.GetArg RebuyEventCredentialArg).length ≠ 0) := by
  unfold rebuy
  simp only []
  generalize (incTxcount snap).2 = s0
  split
  · left; rfl
  split
  · left; rfl
  right
  exact ⟨by assumption, by assumption⟩

/-- The snapshot of a result, named by an equation. -/
theorem snd_of_eq {s s1 : Snapshot} {p : Option String × Snapshot} {r : Option String}
    {q : Prop} (e : p.2 = s ∨ q) (h : p = (r, s1)) : s1 = s ∨ q := by
  subst h
  exact e

/-- C21, amended: on a store whose `Get` and `Set` do not fail, a command that returns an
error does not leave the snapshot as it was, for `event:txcount` is written before any check
and by no later statement: after an error of `INIT` it holds 1, and after an error of `BUY`,
`RESELL`, `REBUY`, `HANDLERESALES` or `USETICKET` it holds what `incTxcount` left, the count
incremented when it held an `int` (the snapshot as it was when it did not). No other key has
been written when `INIT`, `HANDLERESALES` or `USETICKET` returns an error, nor when `BUY`,
`RESELL` or `REBUY` returns an error before its first write: for `BUY` until `isTicketsLeft`
has answered yes, for `RESELL` until the resale price is found valid, for `REBUY` while the
PK or the event credential is missing (the error of a missing PK argument is spelled out for
the three). Nothing is said of the other keys when they fail later. -/
theorem error_leaves_txcount_written {F : Type} [LinearOrderedField F] (fl : FloatText F)
    (snap : Snapshot) (step : Step) :
    (∀ err snap1, init fl snap step = (some err, snap1) →
      snap1 = snap.Set TXCountKey (str "1")) ∧
    (∀ err snap1, handleResales fl snap step = (some err, snap1) →
      snap1 = (incTxcount snap).2) ∧
    (∀ err snap1, useTicket snap step = (some err, snap1) → snap1 = (incTxcount snap).2) ∧
    (∀ err snap1, buy fl snap step = (some err, snap1) →
      snap1.Get TXCountKey = (incTxcount snap).2.Get TXCountKey ∧
      (snap1 = (incTxcount snap).2 ∨
        ∃ n, byteToInt (step.GetArg BuyNumTicketsArg) = Except.ok n ∧
          isTicketsLeft (incTxcount snap).2 n = Except.ok true)) ∧
    (∀ err snap1, resell fl snap step = (some err, snap1) →
      snap1.Get TXCountKey = (incTxcount snap).2.Get TXCountKey ∧
      (snap1 = (incTxcount snap).2 ∨
        ∃ price, isValidResalePrice fl (incTxcount snap).2 (step.GetArg ResellPriceArg)
          = Except.ok price)) ∧
    (∀ err snap1, rebuy fl snap step = (some err, snap1) →
      snap1.Get TXCountKey = (incTxcount snap).2.Get TXCountKey ∧
      (snap1 = (incTxcount snap).2 ∨
        ((step.GetArg RebuyPKArg).length ≠ 0 ∧
          (step.GetArg RebuyEventCredentialArg).length ≠ 0))) ∧
    ((step.GetArg BuyPKArg).length = 0 → buy fl snap step
      = (some "'value:buyPK' not found in tx arg", (incTxcount snap).2)) ∧
    ((step.GetArg ResellPKArg).length = 0 → resell fl snap step
      = (some "'value:resellPK' not found in tx arg", (incTxcount snap).2)) ∧
    ((step.GetArg RebuyPKArg).length = 0 → rebuy fl snap step
      = (some "'value:rebuyPK' not found in tx arg", (incTxcount snap).2)) ∧
    (∀ n, Atoi (snap.Get TXCountKey) = some n →
      (incTxcount snap).2 = snap.Set TXCountKey (Itoa (wrapInt (n + 1)))) ∧
    (Atoi (snap.Get TXCountKey) = none → (incTxcount snap).2 = snap) := by
  refine ⟨?_, ?_, ?_, ?_, ?_, ?_, ?_, ?_, ?_, (incTxcount_snd snap).1, (incTxcount_snd snap).2⟩
  · intro err snap1 h
    unfold init at h
    simp only [] at h
    repeat' split at h
    all_goals first
      | (simp only [Prod.mk.injEq] at h; exact h.2.symm)
      | (simp only [Prod.mk.injEq, reduceCtorEq, false_and] at h)
  · intro err snap1 h
    unfold handleResales at h
    simp only [] at h
    repeat' split at h
    all_goals first
      | (simp only [Prod.mk.injEq] at h; exact h.2.symm)
      | (simp only [Prod.mk.injEq, reduceCtorEq, false_and] at h)
  · intro err snap1 h
    unfold useTicket at h
    simp only [] at h
    split at h
    · simp only [Prod.mk.injEq] at h; exact h.2.symm
    · split at h
      · simp only [Prod.mk.injEq] at h; exact h.2.symm
      · split at h
        · simp only [Prod.mk.injEq] at h; exact h.2.symm
        · split at h
          · simp only [Prod.mk.injEq] at h; exact h.2.symm
          · split at h
            · rename_i e1 s1 hs1
              simp only [Prod.mk.injEq] at h
              rw [← h.2]
              exact changeCount_error _ _ _ _ _ _ hs1
            · rename_i s1 hs1
              have hr := wrapInt_range (-1 * ‹Int›)
              have hg := getCount_of_changeCount buyerTicketsKey _ _ _ _ hr.1 hr.2
                (fun i => buyerTicketsKey_ne i _ (by decide)) hs1
              split at h
              · rename_i v e2 hv
                unfold getBuyerNumTickets at hv
                rw [hv] at hg
                simp at hg
              · simp only [Prod.mk.injEq, reduceCtorEq, false_and] at h
  · intro err snap1 h
    exact ⟨Get_of_eq (buy_txcount fl snap step) h, snd_of_eq (buy_first_write fl snap step) h⟩
  · intro err snap1 h
    exact ⟨Get_of_eq (resell_txcount fl snap step) h,
      snd_of_eq (resell_first_write fl snap step) h⟩
  · intro err snap1 h
    exact ⟨Get_of_eq (rebuy_txcount fl snap step) h,
      snd_of_eq (rebuy_first_write fl snap step) h⟩
  · intro h
    simp only [buy, h, if_true]
  · intro h
    simp only [resell, h, if_true]
  · intro h
    simp only [rebuy, h, if_true]

/-- Witness of C21: a `BUY` without arguments on the event of the examples leaves the count
incremented from 1 to 2 and nothing else written; after `alice` bought 3 tickets, the `BUY` by
`lic` that fails in the transfer of the payment leaves the count incremented from 2 to 3. -/
theorem error_leaves_txcount_written_witness :
    buy exFloat exEvent (exStep (str "alice") [])
      = (some "'value:buyPK' not found in tx arg", exEvent.Set TXCountKey (str "2")) ∧
    (buy exFloat exEvent1 (exBuy "lic" "1" "10")).1
      = some ("Failed to transfer payment: failed to transfer payment to reseller: "
        ++ "'failed to get user balance: user not found'") ∧
    exEvent1.Get TXCountKey = str "2" ∧
    (buy exFloat exEvent1 (exBuy "lic" "1" "10")).2.Get TXCountKey = str "3" := by
  have h := error_leaves_txcount_written exFloat exEvent (exStep (str "alice") [])
  have h1 := error_leaves_txcount_written exFloat exEvent1 (exBuy "lic" "1" "10")
  have herr : (buy exFloat exEvent1 (exBuy "lic" "1" "10")).1
      = some ("Failed to transfer payment: failed to transfer payment to reseller: "
        ++ "'failed to get user balance: user not found'") := by
    decide!
  refine ⟨?_, herr, by decide!, ?_⟩
  · rw [h.2.2.2.2.2.2.1 (by decide), h.2.2.2.2.2.2.2.2.2.1 1 (by decide!)]
    rfl
  · rw [(h1.2.2.2.1 _ _ (Prod.ext herr rfl)).1, h1.2.2.2.2.2.2.2.2.2.1 2 (by decide!)]
    exact Snapshot.Get_Set_self _ _ _

/-- Counterexample to C21: `INIT` without arguments on the empty snapshot returns an error and
has written `event:txcount`; so has a `BUY` without arguments on the event of the examples,
where the count goes from 1 to 2. After `alice` bought 3 tickets, a `BUY` by `lic`, whose
name occurs in the users list without being a user, returns an error after it has credited
`event:balance` with the payment, and a `REBUY` of 0 tickets by `dave` returns an error after
it has entered `dave` in the users list. -/
theorem error_writes_txcount_counterexample :
    (init exFloat exEmpty (exStep (str "owner") [])).1
        = some "'value:initPK' not found in tx arg" ∧
      exEmpty.Get TXCountKey = [] ∧
      (init exFloat exEmpty (exStep (str "owner") [])).2.Get TXCountKey = str "1" ∧
      (buy exFloat exEvent (exStep (str "alice") [])).1
        = some "'value:buyPK' not found in tx arg" ∧
      exEvent.Get TXCountKey = str "1" ∧
      (buy exFloat exEvent (exStep (str "alice") [])).2.Get TXCountKey = str "2" ∧
      (buy exFloat exEvent1 (exBuy "lic" "1" "10")).1 ≠ none ∧
      exEvent1.Get EventBalanceKey = str "30.000000" ∧
      (buy exFloat exEvent1 (exBuy "lic" "1" "10")).2.Get EventBalanceKey
        = str "40.000000" ∧
      (rebuy exFloat exEvent1 (exRebuy "dave" "0" "10")).1 ≠ none ∧
      exEvent1.Get UserIndexKey = str "alice;" ∧
      (rebuy exFloat exEvent1 (exRebuy "dave" "0" "10")).2.Get UserIndexKey
        = str "alice;dave;" := by
  decide!

end Event

theorem Except.eq_ok_of_toOption {ε α : Type} (x : Except ε α) (a : α)
    (h : x.toOption = some a) : x = Except.ok a := by
  cases x with
  | error e => simp [Except.toOption] at h
  | ok b =>
    simp only [Except.toOption, Option.some.injEq] at h
    rw [h]

namespace Event

/-- Witness of C24: on the event of the examples `alice` buys 3 tickets at 10. -/
theorem buy_effect_witness :
    (buy exFloat exEvent (exBuy "alice" "3" "10")).1 = none ∧
      countAt exEvent1 (buyerTicketsKey 0) = some (0 + 3) ∧
      Atoi (exEvent1.Get NumTicketsLeftKey) = some (100 - 3) ∧
      exFloat.ParseFloat (exEvent1.Get EventBalanceKey) = some (0 + ((3 : Int) : ℚ) * 10) ∧
      accountOf exFloat exEvent1 0 = some (0 - ((3 : Int) : ℚ) * 10) ∧
      exEvent1.Get (buyerEventCredentialKey 0) = str "credential-alice" := by
  have hrun : (buy exFloat exEvent (exBuy "alice" "3" "10")).1 = none := by decide!
  have h := (buy_effect exFloat exEvent (exBuy "alice" "3" "10") 10 3 100 (by decide!)
    (by decide) (by decide!) (by norm_num) (by norm_num)).1 exEvent1 0 0 0 0
    (Prod.ext hrun rfl) (Except.eq_ok_of_toOption _ _ (by decide!)) (by decide!)
    (by norm_num) (by norm_num) (by decide!) (by decide!) ⟨by decide!, by decide!⟩
    ⟨by decide!, by decide!⟩
  exact ⟨hrun, h.1, h.2.1, h.2.2.1, h.2.2.2.1, h.2.2.2.2⟩

/-- Counterexample to C24: an event with 9223372036854775807 tickets at the price 0; `alice`
buys all of them, `bob` buys `-1` ticket, and `alice` buys 1 more: every `BUY` succeeds and
the count of `alice`, which was the largest `int`, is now the smallest `int`, not one more
than before. -/
theorem buy_count_overflow_counterexample :
    (init exFloat exEmpty exEventInitBig).1 = none ∧
      (buy exFloat (init exFloat exEmpty exEventInitBig).2
        (exBuy "alice" "9223372036854775807" "0")).1 = none ∧
      (buy exFloat exEventBig1 (exBuy "bob" "-1" "0")).1 = none ∧
      getBuyerNumTickets exEventBig (str "alice") = (9223372036854775807, none) ∧
      (buy exFloat exEventBig (exBuy "alice" "1" "0")).1 = none ∧
      getBuyerNumTickets (buy exFloat exEventBig (exBuy "alice" "1" "0")).2 (str "alice")
        = (-9223372036854775808, none) := by
  decide!

/-- C27: `carol` asks to rebuy 5 tickets at 10 while `alice` offers 3 and `bob` 4 at 10;
every command of the run succeeds, and `HANDLERESALES` transfers 7 tickets to `carol`, more
than the 5 she asked for: the loop compares the whole request with the offer of each reseller
and not what is still missing. -/
theorem handleResales_transfers_more_than_asked :
    (init exFloat exEmpty exEventInit).1 = none ∧
      (buy exFloat exEvent (exBuy "alice" "3" "10")).1 = none ∧
      (buy exFloat exEvent1 (exBuy "bob" "4" "10")).1 = none ∧
      (resell exFloat exEvent2 (exResell "alice" "3" "10")).1 = none ∧
      (resell exFloat exEvent3 (exResell "bob" "4" "10")).1 = none ∧
      (rebuy exFloat exEvent4 (exRebuy "carol" "5" "10")).1 = none ∧
      getRebuyerNumTickets exEventResale (str "carol") = (5, none) ∧
      getResellerNumTickets exEventResale (str "alice") = (3, none) ∧
      getResellerNumTickets exEventResale (str "bob") = (4, none) ∧
      getBuyerNumTickets exEventResale (str "carol") = (0, none) ∧
      (handleResales exFloat exEventResale (exHandleResales "owner")).1 = none ∧
      getBuyerNumTickets (handleResales exFloat exEventResale (exHandleResales "owner")).2
        (str "carol") = (7, none) := by
  decide!

/-- Witness of C28: on the event of the examples after the rebuy request of `carol`, a resale
payment of 30 from `carol` to `alice` at the royalty of 10 percent. -/
theorem payments_conserve_total_witness :
    ∃ snap1, transferResalePayment exFloat exEventResale (str "carol") (str "alice") 30
        = (none, snap1) ∧
      exFloat.ParseFloat (snap1.Get EventBalanceKey) = some (70 + 30 * 10 / 100) ∧
      totalBalance exFloat snap1 3 = totalBalance exFloat exEventResale 3 := by
  obtain ⟨⟨snap1, h1, h2, _, h4⟩, _⟩ := payments_conserve_total exFloat exEventResale
    (str "carol") (str "alice") 30 10 70 (-30) 0 0 2 (by decide!) (by decide!)
    (Except.eq_ok_of_toOption _ _ (by decide!)) (Except.eq_ok_of_toOption _ _ (by decide!))
    (by decide!) (by decide!) ⟨by decide!, by decide!⟩ ⟨by decide!, by decide!⟩
    ⟨by decide!, by decide!⟩ ⟨by decide!, by decide!⟩ ⟨by decide!, by decide!⟩
  exact ⟨snap1, h1, h2, h4 3 (by decide) (by decide)⟩

end Event

namespace Auction

/-- C32: in the auction of the examples, over after three bids with a deposit of 10 and their
reveals, `SELECTWINNER` succeeds and refunds `alice`, who lost: her bank balance is 10, and
the deposit stored for her, which `getDeposit` returns, is still 10. The `0` of
`refundDeposit` went to `bid:deposit:6`, the key of the current block number. -/
theorem refundDeposit_leaves_deposit :
    (selectWinner exAuctionOver (exStep (str "owner") [])).1 = none ∧
      (findRevealerNumber exAuctionOver (str "alice")).toOption = some 0 ∧
      (getDeposit exAuctionOver (str "alice")).toOption = some (str "10") ∧
      (getDeposit (selectWinner exAuctionOver (exStep (str "owner") [])).2
        (str "alice")).toOption = some (str "10") ∧
      exAuctionOver.Get (str "bank:alice") = [] ∧
      (selectWinner exAuctionOver (exStep (str "owner") [])).2.Get (str "bank:alice")
        = str "10" ∧
      (getBlockNumber exAuctionOver).toOption = some 6 ∧
      exAuctionOver.Get (str "bid:deposit:6") = [] ∧
      (selectWinner exAuctionOver (exStep (str "owner") [])).2.Get (str "bid:deposit:6")
        = str "0" ∧
      (refundDeposit exAuctionOver 0 (str "alice") 10).1 = none ∧
      (getDeposit (refundDeposit exAuctionOver 0 (str "alice") 10).2 (str "alice")).toOption
        = some (str "10") := by
  decide

end Auction

namespace Event

/-- C33: after `alice` bought tickets the users list is `alice;`. The key `lic` is not empty
and holds no `;`, and `storeTicketUser` returns for it without writing, because `lic` occurs
in `alice;`: it is no entry of the users list afterwards and `getUserIndex` fails. -/
theorem storeTicketUser_substring_not_stored :
    exEvent1.Get UserIndexKey = str "alice;" ∧
      (str "lic").length ≠ 0 ∧ (59 : Fin 256) ∉ str "lic" ∧
      Contains (exEvent1.Get UserIndexKey) (str "lic") = true ∧
      (storeTicketUser exEvent1 (str "lic")).Get UserIndexKey = str "alice;" ∧
      getUsersList (storeTicketUser exEvent1 (str "lic")) = [str "alice"] ∧
      (getUserIndex (storeTicketUser exEvent1 (str "lic")) (str "lic")).toOption = none := by
  decide!

/-- C36: the result of `USETICKET` and the snapshot it leaves are the same for two steps with
the same `useTicketPK` and `useTicketNumTickets` arguments and a non-empty event credential
each, whatever the signers, the credentials and the other arguments. -/
theorem useTicket_ignores_signer_and_credential (snap : Snapshot) (step1 step2 : Step)
    (hpk : step1.GetArg UseTicketPKArg = step2.GetArg UseTicketPKArg)
    (hn : step1.GetArg UseTicketNumTicketsArg = step2.GetArg UseTicketNumTicketsArg)
    (h1 : (step1.GetArg UseTicketEventCredentialArg).length ≠ 0)
    (h2 : (step2.GetArg UseTicketEventCredentialArg).length ≠ 0) :
    useTicket snap step1 = useTicket snap step2 := by
  simp only [useTicket, hpk, hn, h1, h2, if_false]

/-- Witness of C36: `alice` bought 3 tickets with the credential `credential-alice`; the
`USETICKET` of one of her tickets signed by `mallory` with the credential `x` has the result
of the one signed by `alice` with her credential, and succeeds. -/
theorem useTicket_ignores_signer_and_credential_witness :
    exEvent1.Get (buyerEventCredentialKey 0) = str "credential-alice" ∧
      useTicket exEvent1 (exStep (str "mallory")
          [(str "value:useTicketPK", str "alice"), (str "value:useTicketNumTickets", str "1"),
            (str "value:useTicketEventCredential", str "x")])
        = useTicket exEvent1 (exStep (str "alice")
          [(str "value:useTicketPK", str "alice"), (str "value:useTicketNumTickets", str "1"),
            (str "value:useTicketEventCredential", str "credential-alice")]) ∧
      (useTicket exEvent1 (exStep (str "mallory")
          [(str "value:useTicketPK", str "alice"), (str "value:useTicketNumTickets", str "1"),
            (str "value:useTicketEventCredential", str "x")])).1 = none :=
  ⟨by decide!,
    useTicket_ignores_signer_and_credential exEvent1 _ _ (by decide) (by decide) (by decide)
      (by decide),
    by decide!⟩

end Event

namespace Auction

/-- The block number that `incBlockNumber` writes. -/
theorem incBlockNumber_run (snap : Snapshot) (k : Int)
    (h : Atoi (snap.Get BlockNumberKey) = some k) :
    incBlockNumber snap = (none, snap.Set BlockNumberKey (Itoa (wrapInt (k + 1)))) := by
  simp only [incBlockNumber, getBlockNumber, h]

/-- A valid reveal is the reveal of a bidder. -/
theorem isValidReveal_mem (hash : Bytes → Bytes) (snap : Snapshot) (pk b n : Bytes)
    (err : Option String) (h : isValidReveal hash snap pk b n = (true, err)) :
    pk ∈ getBiddersList snap := by
  by_contra hmem
  simp [isValidReveal, findRevealerNumber, hmem] at h

/-- The command `bid` either fails and leaves the snapshot as it was, or succeeds in the bid
period, increments the block number and leaves the lengths. -/
theorem bid_inv (snap : Snapshot) (step : Step) :
    ((bid snap step).1 ≠ none ∧ (bid snap step).2 = snap) ∨
    ((bid snap step).1 = none ∧ ∃ k b, Atoi (snap.Get BlockNumberKey) = some k ∧
      Atoi (snap.Get BidLengthKey) = some b ∧ k < b ∧
      (bid snap step).2.Get BlockNumberKey = Itoa (wrapInt (k + 1)) ∧
      (bid snap step).2.Get BidLengthKey = snap.Get BidLengthKey ∧
      (bid snap step).2.Get RevealLengthKey = snap.Get RevealLengthKey) := by
  have hkp : ∀ x, BlockNumberKey ≠ str "bid:pk:" ++ x := fun x =>
    key_ne_of_head _ x _ 98 97 (by decide) (by decide) (by decide)
  have hkb : ∀ x, BlockNumberKey ≠ str "bid:bid:" ++ x := fun x =>
    key_ne_of_head _ x _ 98 97 (by decide) (by decide) (by decide)
  have hkd : ∀ x, BlockNumberKey ≠ str "bid:deposit:" ++ x := fun x =>
    key_ne_of_head _ x _ 98 97 (by decide) (by decide) (by decide)
  have hkk : BlockNumberKey ≠ BiddersKey := by decide
  cases hk : Atoi (snap.Get BlockNumberKey) with
  | none => left; simp [bid, isValidBidPeriod, getBlockNumber, hk]
  | some k =>
    cases hb : Atoi (snap.Get BidLengthKey) with
    | none => left; simp [bid, isValidBidPeriod, getBlockNumber, getBidLength, hk, hb]
    | some b =>
      by_cases hlt : k < b
      · cases hid : step.identity with
        | none =>
          left; simp [bid, isValidBidPeriod, getBlockNumber, getBidLength, hk, hb, hlt, hid]
        | some pk =>
          by_cases hbid : (step.GetArg BidArg).length = 0
          · left
            simp [bid, isValidBidPeriod, getBlockNumber, getBidLength, hk, hb, hlt, hid, hbid]
          · by_cases hdep : (step.GetArg BidDepositArg).length = 0
            · left
              simp [bid, isValidBidPeriod, getBlockNumber, getBidLength, hk, hb, hlt, hid,
                hbid, hdep]
            · cases hd : Atoi (step.GetArg BidDepositArg) with
              | none =>
                left
                simp [bid, isValidBidPeriod, getBlockNumber, getBidLength, hk, hb, hlt, hid,
                  hbid, hdep, byteToInt, hd]
              | some d =>
                right
                have hrun : bid snap step = (none,
                    (storeBidder (((snap.Set (str "bid:pk:" ++ Itoa k) pk).Set
                      (str "bid:bid:" ++ Itoa k) (step.GetArg BidArg)).Set
                      (str "bid:deposit:" ++ Itoa k) (step.GetArg BidDepositArg)) pk).Set
                      BlockNumberKey (Itoa (wrapInt (k + 1)))) := by
                  simp [bid, isValidBidPeriod, getBlockNumber, getBidLength, hk, hb, hlt, hid,
                    hbid, hdep, byteToInt, hd, storeBid, storeDeposit, incBlockNumber,
                    storeBidder, Snapshot.Get_Set_of_ne _ _ _ _ (hkp _),
                    Snapshot.Get_Set_of_ne _ _ _ _ (hkb _),
                    Snapshot.Get_Set_of_ne _ _ _ _ (hkd _), Snapshot.Get_Set_of_ne _ _ _ _ hkk]
                rw [hrun]
                refine ⟨rfl, k, b, rfl, rfl, hlt, Snapshot.Get_Set_self _ _ _, ?_, ?_⟩
                · show Snapshot.Get _ _ = _
                  unfold storeBidder
                  rw [Snapshot.Get_Set_of_ne _ _ _ _ (by decide),
                    Snapshot.Get_Set_of_ne _ _ _ _ (by decide),
                    Snapshot.Get_Set_of_ne _ _ _ _
                      (key_ne_of_head _ _ _ 98 97 (by decide) (by decide) (by decide)),
                    Snapshot.Get_Set_of_ne _ _ _ _
                      (key_ne_of_head _ _ _ 98 97 (by decide) (by decide) (by decide)),
                    Snapshot.Get_Set_of_ne _ _ _ _
                      (key_ne_of_head _ _ _ 98 97 (by decide) (by decide) (by decide))]
                · show Snapshot.Get _ _ = _
                  unfold storeBidder
                  rw [Snapshot.Get_Set_of_ne _ _ _ _ (by decide),
                    Snapshot.Get_Set_of_ne _ _ _ _ (by decide),
                    Snapshot.Get_Set_of_ne _ _ _ _
                      (key_ne_of_head _ _ _ 98 97 (by decide) (by decide) (by decide)),
                    Snapshot.Get_Set_of_ne _ _ _ _
                      (key_ne_of_head _ _ _ 98 97 (by decide) (by decide) (by decide)),
                    Snapshot.Get_Set_of_ne _ _ _ _
                      (key_ne_of_head _ _ _ 98 97 (by decide) (by decide) (by decide))]
      · left; simp [bid, isValidBidPeriod, getBlockNumber, getBidLength, hk, hb, hlt]

/-- The command `reveal` either fails and leaves the snapshot as it was, or succeeds in the
reveal period for a bidder, increments the block number and leaves the lengths and the
bidders. -/
theorem reveal_inv (hash : Bytes → Bytes) (snap : Snapshot) (step : Step) :
    ((reveal hash snap step).1 ≠ none ∧ (reveal hash snap step).2 = snap) ∨
    ((reveal hash snap step).1 = none ∧ ∃ k b r pk, Atoi (snap.Get BlockNumberKey) = some k ∧
      Atoi (snap.Get BidLengthKey) = some b ∧ Atoi (snap.Get RevealLengthKey) = some r ∧
      b ≤ k ∧ k < wrapInt (b + r) ∧ pk ∈ getBiddersList snap ∧
      (reveal hash snap step).2.Get BlockNumberKey = Itoa (wrapInt (k + 1)) ∧
      (reveal hash snap step).2.Get BidLengthKey = snap.Get BidLengthKey ∧
      (reveal hash snap step).2.Get RevealLengthKey = snap.Get RevealLengthKey ∧
      (reveal hash snap step).2.Get BiddersKey = snap.Get BiddersKey) := by
  have hkr : ∀ x, BlockNumberKey ≠ str "reveal:bid:" ++ x := fun x =>
    key_ne_of_head _ x _ 114 97 (by decide) (by decide) (by decide)
  have hkn : ∀ x, BlockNumberKey ≠ str "reveal:nonce:" ++ x := fun x =>
    key_ne_of_head _ x _ 114 97 (by decide) (by decide) (by decide)
  have hkk : BlockNumberKey ≠ RevealersKey := by decide
  have hframe : ∀ (key x y z w v : Bytes), key.head? = some 97 → key ≠ RevealersKey →
      key ≠ BlockNumberKey →
      ((storeRevealer ((snap.Set (str "reveal:bid:" ++ x) y).Set
        (str "reveal:nonce:" ++ x) z) w).Set BlockNumberKey v).Get key = snap.Get key := by
    intro key x y z w v h1 h2 h3
    unfold storeRevealer
    rw [Snapshot.Get_Set_of_ne _ _ _ _ h3, Snapshot.Get_Set_of_ne _ _ _ _ h2,
      Snapshot.Get_Set_of_ne _ _ _ _
        (key_ne_of_head _ _ _ 114 97 (by decide) h1 (by decide)),
      Snapshot.Get_Set_of_ne _ _ _ _
        (key_ne_of_head _ _ _ 114 97 (by decide) h1 (by decide))]
  cases hk : Atoi (snap.Get BlockNumberKey) with
  | none => left; simp [reveal, isValidRevealPeriod, getBlockNumber, hk]
  | some k =>
    cases hb : Atoi (snap.Get BidLengthKey) with
    | none => left; simp [reveal, isValidRevealPeriod, getBlockNumber, getBidLength, hk, hb]
    | some b =>
      cases hr : Atoi (snap.Get RevealLengthKey) with
      | none =>
        left
        simp [reveal, isValidRevealPeriod, getBlockNumber, getBidLength, getRevealLength, hk,
          hb, hr]
      | some r =>
        have hperiod : isValidRevealPeriod snap
            = if k ≥ b ∧ k < wrapInt (b + r) then Except.ok true else Except.ok false := by
          simp only [isValidRevealPeriod, getBlockNumber, getBidLength, getRevealLength, hk,
            hb, hr]
        by_cases hper : k ≥ b ∧ k < wrapInt (b + r)
        · rw [if_pos hper] at hperiod
          cases hid : step.identity with
          | none => left; simp [reveal, hperiod, hid]
          | some pk =>
            by_cases hbid : (step.GetArg RevealBidArg).length = 0
            · left; simp [reveal, hperiod, hid, hbid]
            · by_cases hnonce : (step.GetArg RevealNonceArg).length = 0
              · left; simp [reveal, hperiod, hid, hbid, hnonce]
              · cases hv : isValidReveal hash snap pk (step.GetArg RevealBidArg)
                    (step.GetArg RevealNonceArg) with
                | mk isValid err =>
                  by_cases hvalid : isValid = true ∧ err = none
                  · obtain ⟨hv1, hv2⟩ := hvalid
                    subst hv1 hv2
                    have hmem := isValidReveal_mem hash snap pk _ _ _ hv
                    right
                    have hrun : reveal hash snap step = (none,
                        (storeRevealer ((snap.Set (str "reveal:bid:" ++
                          Itoa ((getBiddersList snap).indexOf pk))
                          (step.GetArg RevealBidArg)).Set
                          (str "reveal:nonce:" ++ Itoa ((getBiddersList snap).indexOf pk))
                          (step.GetArg RevealNonceArg)) pk).Set BlockNumberKey
                          (Itoa (wrapInt (k + 1)))) := by
                      simp [reveal, hperiod, hid, hbid, hnonce, hv, storeReveal,
                        findRevealerNumber, hmem, incBlockNumber, getBlockNumber, storeRevealer,
                        Snapshot.Get_Set_of_ne _ _ _ _ (hkr _),
                        Snapshot.Get_Set_of_ne _ _ _ _ (hkn _),
                        Snapshot.Get_Set_of_ne _ _ _ _ hkk, hk]
                    rw [hrun]
                    exact ⟨rfl, k, b, r, pk, rfl, rfl, rfl, hper.1, hper.2, hmem,
                      Snapshot.Get_Set_self _ _ _,
                      hframe _ _ _ _ _ _ (by decide) (by decide) (by decide),
                      hframe _ _ _ _ _ _ (by decide) (by decide) (by decide),
                      hframe _ _ _ _ _ _ (by decide) (by decide) (by decide)⟩
                  · left
                    have hne : isValid = false ∨ ¬ err = none := by
                      cases isValid <;> simp_all
                    simp [reveal, hperiod, hid, hbid, hnonce, hv, hne]
        · rw [if_neg hper] at hperiod
          left; simp [reveal, hperiod]

/-- What `selectWinner` leaves under a key of the auction other than the highest bidder and
bid. -/
theorem selectWinner_get (snap : Snapshot) (step : Step) (key : Bytes)
    (h : key.head? = some 97) (h1 : key ≠ str "auction:highest_bidder")
    (h2 : key ≠ str "auction:highest_bid") :
    (selectWinner snap step).2.Get key = snap.Get key := by
  unfold selectWinner
  split
  · rfl
  · split
    · rfl
    · simp only []
      split
      · rfl
      · split
        · rfl
        · rw [refundDeposits_get _ _ key h, Snapshot.Get_Set_of_ne _ _ _ _ h2,
            Snapshot.Get_Set_of_ne _ _ _ _ h1]

/-- The command `init` either fails and leaves the snapshot as it was, or writes the lengths
of its arguments, the block number 0 and no bidder. -/
theorem init_inv (snap : Snapshot) (step : Step) :
    ((init snap step).1 ≠ none ∧ (init snap step).2 = snap) ∨
    ((init snap step).1 = none ∧ (init snap step).2.Get BlockNumberKey = str "0" ∧
      (init snap step).2.Get BiddersKey = [] ∧
      (init snap step).2.Get BidLengthKey = step.GetArg InitBidLengthArg ∧
      (init snap step).2.Get RevealLengthKey = step.GetArg InitRevealLengthArg) := by
  unfold init
  split
  · left; exact ⟨by simp, rfl⟩
  · simp only []
    split
    · left; exact ⟨by simp, rfl⟩
    · split
      · left; exact ⟨by simp, rfl⟩
      · right
        refine ⟨rfl, ?_, ?_, ?_, ?_⟩
        all_goals simp only []
        all_goals repeat rw [Snapshot.Get_Set_of_ne _ _ _ _ (by decide)]
        all_goals exact Snapshot.Get_Set_self _ _ _

/-- The invariant of the block number reads four keys only. -/
theorem BlockInvariant_congr (snap snap1 : Snapshot) (nb nr : Nat)
    (h1 : snap1.Get BlockNumberKey = snap.Get BlockNumberKey)
    (h2 : snap1.Get BiddersKey = snap.Get BiddersKey)
    (h3 : snap1.Get BidLengthKey = snap.Get BidLengthKey)
    (h4 : snap1.Get RevealLengthKey = snap.Get RevealLengthKey)
    (h : BlockInvariant snap nb nr) : BlockInvariant snap1 nb nr := by
  unfold BlockInvariant at *
  rw [h1, h2, h3, h4]
  exact h

/-- Under the invariant the block number is read as the number of successes. -/
theorem BlockInvariant_block (snap : Snapshot) (nb nr : Nat) (h : BlockInvariant snap nb nr) :
    Atoi (snap.Get BlockNumberKey) = some ((nb + nr : Nat) : Int) := by
  rw [h.1]
  exact Atoi_Itoa _ (by have : (0 : Int) ≤ ((nb + nr : Nat) : Int) := Int.natCast_nonneg _
                        omega) h.2.1

/-- A sum of a length that is not negative and of another `int` does not grow when it is
reduced to the range of `int`. -/
theorem wrapInt_add_le (b r : Int) (hb : 0 ≤ b) (hr : -2 ^ 63 ≤ r) : wrapInt (b + r) ≤ b + r := by
  unfold wrapInt
  omega

/-- A successful `BID` under the invariant: no reveal succeeded yet and the invariant holds
with one more bid. -/
theorem bid_invariant (snap : Snapshot) (step : Step) (nb nr : Nat)
    (h : BlockInvariant snap nb nr) (hres : (bid snap step).1 = none) :
    nr = 0 ∧ BlockInvariant (bid snap step).2 (nb + 1) nr := by
  rcases bid_inv snap step with ⟨h1, _⟩ | ⟨_, k, b, hk, hb, hlt, g1, g2, g3⟩
  · exact absurd hres h1
  · have hk1 := BlockInvariant_block snap nb nr h
    rw [hk, Option.some.injEq] at hk1
    obtain ⟨i1, i2, i3, i4, i5, i6, i7⟩ := h
    have hbr := Event.Atoi_range _ _ hb
    have hnr : nr = 0 := by
      by_contra hcon
      have := (i4 b hb).2 hcon
      omega
    have hw : wrapInt (k + 1) = k + 1 := wrapInt_of_range _ (by omega) (by omega)
    refine ⟨hnr, ?_, ?_, ?_, ?_, ?_, ?_, ?_⟩
    · rw [g1, hw, hk1]
      congr 1
      push_cast
      omega
    · omega
    · intro h0; omega
    · rw [g2]
      intro b1 hb1
      rw [hb, Option.some.injEq] at hb1
      subst hb1
      refine ⟨?_, fun h0 => absurd hnr h0⟩
      have : ((nb + 1 : Nat) : Int) ≤ b := by omega
      exact le_trans this (le_max_left _ _)
    · rw [g3]
      exact i5
    · rw [g2, hb]
      intro h0; cases h0
    · rw [g3]
      exact i7

/-- A successful `REVEAL` under the invariant: the invariant holds with one more reveal. -/
theorem reveal_invariant (hash : Bytes → Bytes) (snap : Snapshot) (step : Step) (nb nr : Nat)
    (h : BlockInvariant snap nb nr) (hres : (reveal hash snap step).1 = none) :
    BlockInvariant (reveal hash snap step).2 nb (nr + 1) := by
  rcases reveal_inv hash snap step with ⟨h1, _⟩ |
    ⟨_, k, b, r, pk, hk, hb, hr, hbk, hkr, hmem, g1, g2, g3, g4⟩
  · exact absurd hres h1
  · have hk1 := BlockInvariant_block snap nb nr h
    rw [hk, Option.some.injEq] at hk1
    obtain ⟨i1, i2, i3, i4, i5, i6, i7⟩ := h
    have hbr := Event.Atoi_range _ _ hb
    have hrr := Event.Atoi_range _ _ hr
    have hnb : nb ≠ 0 := by
      intro h0
      have he := i3 h0
      simp [getBiddersList, he, splitList, split] at hmem
    have hnbb : (nb : Int) = b := by
      have h4 := i4 b hb
      by_cases h0 : nr = 0
      · have : (nb : Int) ≤ max b 0 := h4.1
        rcases le_max_iff.mp this with h5 | h5
        · subst h0; omega
        · omega
      · exact h4.2 h0
    have hwr := wrapInt_add_le b r (by omega) hrr.1
    have hwrr := wrapInt_range (b + r)
    have hw : wrapInt (k + 1) = k + 1 := wrapInt_of_range _ (by omega) (by omega)
    refine ⟨?_, ?_, ?_, ?_, ?_, ?_, ?_⟩
    · rw [g1, hw, hk1]
      congr 1
    · omega
    · intro h0; exact absurd h0 hnb
    · rw [g2]
      intro b1 hb1
      rw [hb, Option.some.injEq] at hb1
      subst hb1
      exact ⟨(i4 b hb).1, fun _ => hnbb⟩
    · rw [g3]
      intro r1 hr1
      rw [hr, Option.some.injEq] at hr1
      subst hr1
      have : ((nr + 1 : Nat) : Int) ≤ r := by omega
      exact le_trans this (le_max_left _ _)
    · rw [g2, hb]
      intro h0; cases h0
    · rw [g3, hr]
      intro h0; cases h0

/-- A successful `INIT` establishes the invariant with no success. -/
theorem init_invariant (snap : Snapshot) (step : Step) (hres : (init snap step).1 = none) :
    BlockInvariant (init snap step).2 0 0 := by
  rcases init_inv snap step with ⟨h1, _⟩ | ⟨_, g1, g2, _, _⟩
  · exact absurd hres h1
  · refine ⟨?_, by decide, fun _ => g2, ?_, ?_, fun _ => ⟨rfl, rfl⟩, fun _ => rfl⟩
    · rw [g1]
      decide
    · intro b _
      exact ⟨le_max_right _ _, fun h0 => absurd rfl h0⟩
    · intro r _
      exact le_max_right _ _

/-- The command `selectWinner` keeps the invariant. -/
theorem selectWinner_invariant (snap : Snapshot) (step : Step) (nb nr : Nat)
    (h : BlockInvariant snap nb nr) : BlockInvariant (selectWinner snap step).2 nb nr :=
  BlockInvariant_congr snap _ nb nr
    (selectWinner_get snap step _ (by decide) (by decide) (by decide))
    (selectWinner_get snap step _ (by decide) (by decide) (by decide))
    (selectWinner_get snap step _ (by decide) (by decide) (by decide))
    (selectWinner_get snap step _ (by decide) (by decide) (by decide)) h

/-- A transaction that returns an error leaves the block number. -/
theorem Execute_error_block (hash : Bytes → Bytes)
    (authorized : Snapshot → Step → Option String) (snap : Snapshot) (step : Step)
    (key : Bytes) (hk : key.head? = some 97) (h1 : key ≠ str "auction:highest_bidder")
    (h2 : key ≠ str "auction:highest_bid")
    (hres : (Execute hash authorized snap step).1 ≠ none) :
    (Execute hash authorized snap step).2.Get key = snap.Get key := by
  revert hres
  unfold Execute
  split
  · intro _; rfl
  · simp only []
    split
    · intro _; rfl
    · split
      · rcases init_inv snap step with ⟨_, g⟩ | ⟨g, _⟩
        · rcases hres : init snap step with ⟨_ | e, s⟩
          · intro h; exact absurd rfl h
          · intro _; rw [hres] at g; simp only [] at g ⊢; rw [g]
        · rcases hres : init snap step with ⟨_ | e, s⟩
          · intro h; exact absurd rfl h
          · rw [hres] at g; cases g
      · split
        · rcases bid_inv snap step with ⟨_, g⟩ | ⟨g, _⟩
          · rcases hres : bid snap step with ⟨_ | e, s⟩
            · intro h; exact absurd rfl h
            · intro _; rw [hres] at g; simp only [] at g ⊢; rw [g]
          · rcases hres : bid snap step with ⟨_ | e, s⟩
            · intro h; exact absurd rfl h
            · rw [hres] at g; cases g
        · split
          · rcases reveal_inv hash snap step with ⟨_, g⟩ | ⟨g, _⟩
            · rcases hres : reveal hash snap step with ⟨_ | e, s⟩
              · intro h; exact absurd rfl h
              · intro _; rw [hres] at g; simp only [] at g ⊢; rw [g]
            · rcases hres : reveal hash snap step with ⟨_ | e, s⟩
              · intro h; exact absurd rfl h
              · rw [hres] at g; cases g
          · split
            · have g := selectWinner_get snap step key hk h1 h2
              rcases hres : selectWinner snap step with ⟨_ | e, s⟩
              · intro h; exact absurd rfl h
              · intro _; rw [hres] at g; exact g
            · intro _; rfl

/-- One transaction under the invariant: an error keeps it, a successful `INIT` starts anew,
a successful `BID` comes before every reveal and counts as a bid, a successful `REVEAL`
counts as a reveal, and `SELECTWINNER` keeps it. -/
theorem Execute_invariant (hash : Bytes → Bytes)
    (authorized : Snapshot → Step → Option String) (snap : Snapshot) (step : Step)
    (nb nr : Nat) (h : BlockInvariant snap nb nr) :
    ((Execute hash authorized snap step).1 ≠ none →
      BlockInvariant (Execute hash authorized snap step).2 nb nr) ∧
    ((Execute hash authorized snap step).1 = none →
      (step.GetArg CmdArg = str "INIT" →
        BlockInvariant (Execute hash authorized snap step).2 0 0) ∧
      (step.GetArg CmdArg = str "BID" →
        nr = 0 ∧ BlockInvariant (Execute hash authorized snap step).2 (nb + 1) nr) ∧
      (step.GetArg CmdArg = str "REVEAL" →
        BlockInvariant (Execute hash authorized snap step).2 nb (nr + 1)) ∧
      (step.GetArg CmdArg ≠ str "INIT" → step.GetArg CmdArg ≠ str "BID" →
        step.GetArg CmdArg ≠ str "REVEAL" →
        BlockInvariant (Execute hash authorized snap step).2 nb nr)) := by
  constructor
  · intro hres
    exact BlockInvariant_congr snap _ nb nr
      (Execute_error_block hash authorized snap step _ (by decide) (by decide) (by decide) hres)
      (Execute_error_block hash authorized snap step _ (by decide) (by decide) (by decide) hres)
      (Execute_error_block hash authorized snap step _ (by decide) (by decide) (by decide) hres)
      (Execute_error_block hash authorized snap step _ (by decide) (by decide) (by decide) hres)
      h
  · intro hres
    cases hauth : authorized snap step with
    | some e => simp [Execute, hauth] at hres
    | none =>
      by_cases hlen : (step.GetArg CmdArg).length = 0
      · simp [Execute, hauth, hlen] at hres
      · have hBI : str "BID" ≠ str "INIT" := by decide
        have hRI : str "REVEAL" ≠ str "INIT" := by decide
        have hRB : str "REVEAL" ≠ str "BID" := by decide
        refine ⟨?_, ?_, ?_, ?_⟩
        · intro hc
          have hlen1 := hlen
          rw [hc] at hlen1
          have hi := init_invariant snap step
          rcases hr : init snap step with ⟨_ | e, s⟩
          · rw [hr] at hi
            simp only [Execute, hauth, hlen, hlen1, hc, hr, if_true, if_false]
            exact hi rfl
          · simp only [Execute, hauth, hlen, hlen1, hc, hr, if_true, if_false] at hres
            simp at hres
        · intro hc
          have hlen1 := hlen
          rw [hc] at hlen1
          have hi := bid_invariant snap step nb nr h
          rcases hr : bid snap step with ⟨_ | e, s⟩
          · rw [hr] at hi
            simp only [Execute, hauth, hlen, hlen1, hc, hr, hBI, if_true, if_false]
            exact hi rfl
          · simp only [Execute, hauth, hlen, hlen1, hc, hr, hBI, if_true, if_false] at hres
            simp at hres
        · intro hc
          have hlen1 := hlen
          rw [hc] at hlen1
          have hi := reveal_invariant hash snap step nb nr h
          rcases hr : reveal hash snap step with ⟨_ | e, s⟩
          · rw [hr] at hi
            simp only [Execute, hauth, hlen, hlen1, hc, hr, hRI, hRB, if_true, if_false]
            exact hi rfl
          · simp only [Execute, hauth, hlen, hlen1, hc, hr, hRI, hRB, if_true, if_false] at hres
            simp at hres
        · intro h1 h2 h3
          have hi := selectWinner_invariant snap step nb nr h
          by_cases hc : step.GetArg CmdArg = str "SELECTWINNER"
          · have hlen1 := hlen
            rw [hc] at hlen1
            have h1c := h1
            have h2c := h2
            have h3c := h3
            rw [hc] at h1c h2c h3c
            rcases hr : selectWinner snap step with ⟨_ | e, s⟩
            · rw [hr] at hi
              simp only [Execute, hauth, hlen, hlen1, hc, hr, h1c, h2c, h3c, if_true, if_false]
              exact hi
            · simp only [Execute, hauth, hlen, hlen1, hc, hr, h1c, h2c, h3c, if_true, if_false] at hres
              simp at hres
          · simp only [Execute, hauth, hlen, h1, h2, h3, hc, if_true, if_false] at hres
            simp at hres

/-- The invariant holds along every sequence of transactions, and the successes are bids
followed by reveals. -/
theorem succeeded_invariant (hash : Bytes → Bytes)
    (authorized : Snapshot → Step → Option String) :
    ∀ (steps : List Step) (snap : Snapshot) (nb nr : Nat), BlockInvariant snap nb nr →
      ∃ nb1 nr1 : Nat,
        (succeeded hash authorized snap
          (List.replicate nb (str "BID") ++ List.replicate nr (str "REVEAL")) steps).1
          = List.replicate nb1 (str "BID") ++ List.replicate nr1 (str "REVEAL") ∧
        BlockInvariant (succeeded hash authorized snap
          (List.replicate nb (str "BID") ++ List.replicate nr (str "REVEAL")) steps).2
          nb1 nr1 := by
  intro steps
  induction steps with
  | nil => intro snap nb nr h; exact ⟨nb, nr, rfl, h⟩
  | cons step steps ih =>
    intro snap nb nr h
    have hE := Execute_invariant hash authorized snap step nb nr h
    rcases hres : Execute hash authorized snap step with ⟨_ | e, s⟩
    · rw [hres] at hE
      have hS := hE.2 rfl
      simp only [succeeded, hres]
      by_cases hI : step.GetArg CmdArg = str "INIT"
      · simp only [hI, if_true]
        have := ih s 0 0 (hS.1 hI)
        simpa using this
      · by_cases hB : step.GetArg CmdArg = str "BID"
        · have hBI : str "BID" ≠ str "INIT" := by decide
          obtain ⟨hnr, hinv⟩ := hS.2.1 hB
          subst hnr
          simp only [hB, hBI, if_false, true_or, if_true]
          have := ih s (nb + 1) 0 hinv
          simpa [List.replicate_succ'] using this
        · by_cases hR : step.GetArg CmdArg = str "REVEAL"
          · have hRI : str "REVEAL" ≠ str "INIT" := by decide
            simp only [hR, hRI, if_false, or_true, if_true]
            have := ih s nb (nr + 1) (hS.2.2.1 hR)
            simpa [List.replicate_succ', List.append_assoc] using this
          · simp only [hI, hB, hR, if_false, or_self]
            exact ih s nb nr (hS.2.2.2 hI hB hR)
    · rw [hres] at hE
      simp only [succeeded, hres]
      exact ih s nb nr (hE.1 (by simp))

/-- C34: after an `INIT` of the auction that succeeds, whatever transactions follow: the
successes since the last successful `INIT` are `nb` commands `BID` followed by `nr` commands
`REVEAL`, `auction:block_number` is `nb + nr`, `nb` is at most the bid length and `nr` at most
the reveal length that are stored (none succeeds for a length that is negative or no `int`);
and a transaction that returns an error leaves `auction:block_number` as it was. -/
theorem block_number_counts_successes (hash : Bytes → Bytes)
    (authorized : Snapshot → Step → Option String) (snap0 : Snapshot) (step0 : Step)
    (steps : List Step) (hinit : (init snap0 step0).1 = none) :
    (∃ nb nr : Nat,
      (succeeded hash authorized (init snap0 step0).2 [] steps).1
        = List.replicate nb (str "BID") ++ List.replicate nr (str "REVEAL") ∧
      (succeeded hash authorized (init snap0 step0).2 [] steps).2.Get BlockNumberKey
        = Itoa ((nb + nr : Nat) : Int) ∧
      getBlockNumber (succeeded hash authorized (init snap0 step0).2 [] steps).2
        = Except.ok ((nb + nr : Nat) : Int) ∧
      (∀ b, getBidLength (succeeded hash authorized (init snap0 step0).2 [] steps).2
        = Except.ok b → (nb : Int) ≤ max b 0) ∧
      (∀ r, getRevealLength (succeeded hash authorized (init snap0 step0).2 [] steps).2
        = Except.ok r → (nr : Int) ≤ max r 0) ∧
      ((∀ b, getBidLength (succeeded hash authorized (init snap0 step0).2 [] steps).2
        ≠ Except.ok b) → nb = 0 ∧ nr = 0) ∧
      ((∀ r, getRevealLength (succeeded hash authorized (init snap0 step0).2 [] steps).2
        ≠ Except.ok r) → nr = 0)) ∧
    (∀ (snap : Snapshot) (step : Step), (Execute hash authorized snap step).1 ≠ none →
      (Execute hash authorized snap step).2.Get BlockNumberKey = snap.Get BlockNumberKey) := by
  refine ⟨?_, fun snap step hres =>
    Execute_error_block hash authorized snap step _ (by decide) (by decide) (by decide) hres⟩
  obtain ⟨nb, nr, h1, h2⟩ := succeeded_invariant hash authorized steps (init snap0 step0).2 0 0
    (init_invariant snap0 step0 hinit)
  simp only [List.replicate_zero, List.append_nil] at h1 h2
  have hblock := BlockInvariant_block _ nb nr h2
  obtain ⟨i1, i2, i3, i4, i5, i6, i7⟩ := h2
  refine ⟨nb, nr, h1, i1, ?_, ?_, ?_, ?_, ?_⟩
  · simp only [getBlockNumber, hblock]
  · intro b hb
    unfold getBidLength at hb
    split at hb
    · cases hb
    · rename_i b1 hb1
      simp only [Except.ok.injEq] at hb
      subst hb
      exact (i4 _ hb1).1
  · intro r hr
    unfold getRevealLength at hr
    split at hr
    · cases hr
    · rename_i r1 hr1
      simp only [Except.ok.injEq] at hr
      subst hr
      exact i5 _ hr1
  · intro hb
    apply i6
    cases hA : Atoi ((succeeded hash authorized (init snap0 step0).2 [] steps).2.Get
      BidLengthKey) with
    | none => rfl
    | some b => exact absurd (by simp only [getBidLength, hA]) (hb b)
  · intro hr
    apply i7
    cases hA : Atoi ((succeeded hash authorized (init snap0 step0).2 [] steps).2.Get
      RevealLengthKey) with
    | none => rfl
    | some r => exact absurd (by simp only [getRevealLength, hA]) (hr r)

/-- Witness of C34: an auction with one bid and one reveal transaction. The bid of `alice`
succeeds, the bid of `bob` comes after the bid period, the reveal of `alice` succeeds and her
second reveal comes after the reveal period; the block number is 2. -/
theorem block_number_counts_successes_witness :
    (init exEmpty (exAuctionInit "1" "1")).1 = none ∧
      (succeeded exDigest (fun _ _ => none) (init exEmpty (exAuctionInit "1" "1")).2 []
        [exCommand "BID" (exCommit "alice" "5" "n" "9"),
          exCommand "BID" (exCommit "bob" "6" "n" "9"),
          exCommand "REVEAL" (exReveal "alice" "5" "n"),
          exCommand "REVEAL" (exReveal "alice" "5" "n")]).1 = [str "BID", str "REVEAL"] ∧
      (succeeded exDigest (fun _ _ => none) (init exEmpty (exAuctionInit "1" "1")).2 []
        [exCommand "BID" (exCommit "alice" "5" "n" "9"),
          exCommand "BID" (exCommit "bob" "6" "n" "9"),
          exCommand "REVEAL" (exReveal "alice" "5" "n"),
          exCommand "REVEAL" (exReveal "alice" "5" "n")]).2.Get BlockNumberKey = str "2" := by
  have hrun : (succeeded exDigest (fun _ _ => none) (init exEmpty (exAuctionInit "1" "1")).2 []
      [exCommand "BID" (exCommit "alice" "5" "n" "9"),
        exCommand "BID" (exCommit "bob" "6" "n" "9"),
        exCommand "REVEAL" (exReveal "alice" "5" "n"),
        exCommand "REVEAL" (exReveal "alice" "5" "n")]).1 = [str "BID", str "REVEAL"] := by
    decide
  obtain ⟨nb, nr, h1, h2, _⟩ := (block_number_counts_successes exDigest (fun _ _ => none)
    exEmpty (exAuctionInit "1" "1")
    [exCommand "BID" (exCommit "alice" "5" "n" "9"),
      exCommand "BID" (exCommit "bob" "6" "n" "9"),
      exCommand "REVEAL" (exReveal "alice" "5" "n"),
      exCommand "REVEAL" (exReveal "alice" "5" "n")] (by decide)).1
  refine ⟨by decide, hrun, ?_⟩
  rw [hrun] at h1
  have hlen := congrArg List.length h1
  simp only [List.length_cons, List.length_nil, List.length_append, List.length_replicate]
    at hlen
  rw [h2, ← hlen]
  decide

end Auction

namespace Event

theorem Extends_refl (snap : Snapshot) : Extends snap snap :=
  ⟨fun _ _ => rfl, List.prefix_refl _⟩

theorem Extends_trans {s1 s2 s3 : Snapshot} (h1 : Extends s1 s2) (h2 : Extends s2 s3) :
    Extends s1 s3 :=
  ⟨fun k hk => (h2.1 k hk).trans (h1.1 k hk), h1.2.trans h2.2⟩

/-- Writing a key that starts neither as `event:n` nor as `event:u`. -/
theorem Extends_Set (snap : Snapshot) (key value : Bytes)
    (h : key.take 7 ≠ str "event:n" ∧ key.take 7 ≠ str "event:u") :
    Extends snap (snap.Set key value) := by
  refine ⟨fun k hk => Snapshot.Get_Set_of_ne _ _ _ _ ?_, ?_⟩
  · intro e
    rw [e] at hk
    exact h.1 hk
  · rw [Snapshot.Get_Set_of_ne _ _ _ _ ?_]
    intro e
    rw [← e] at h
    exact h.2 (by decide)

/-- A key with an index starts as its constant part. -/
theorem take_indexed (p x : Bytes) (hp : 7 ≤ p.length)
    (h : p.take 7 ≠ str "event:n" ∧ p.take 7 ≠ str "event:u") :
    (p ++ x).take 7 ≠ str "event:n" ∧ (p ++ x).take 7 ≠ str "event:u" := by
  rw [List.take_append_of_le_length hp]
  exact h

theorem storeTicketUser_ext (snap : Snapshot) (newUser : Bytes) :
    Extends snap (storeTicketUser snap newUser) := by
  unfold storeTicketUser
  simp only []
  split
  · exact Extends_refl _
  · refine ⟨fun k hk => Snapshot.Get_Set_of_ne _ _ _ _ ?_, ?_⟩
    · intro e
      rw [e] at hk
      revert hk
      decide
    · rw [Snapshot.Get_Set_self, List.append_assoc]
      exact List.prefix_append _ _

theorem incTxcount_ext (snap : Snapshot) : Extends snap (incTxcount snap).2 := by
  unfold incTxcount
  split
  · exact Extends_refl _
  · exact Extends_Set _ _ _ (by decide)

theorem storeTicketOwner_ext (snap : Snapshot) (owner : Bytes) :
    Extends snap (storeTicketOwner snap owner) := by
  unfold storeTicketOwner
  simp only []
  split
  · exact Extends_refl _
  · exact Extends_Set _ _ _ (by decide)

theorem storeTicketReseller_ext (snap : Snapshot) (reseller : Bytes) :
    Extends snap (storeTicketReseller snap reseller) :=
  Extends_Set _ _ _ (by decide)

theorem storeTicketRebuyer_ext (snap : Snapshot) (rebuyer : Bytes) :
    Extends snap (storeTicketRebuyer snap rebuyer) :=
  Extends_Set _ _ _ (by decide)

theorem removeOwnerFromOwners_ext (snap : Snapshot) (owner : Bytes) :
    Extends snap (removeOwnerFromOwners snap owner) :=
  Extends_Set _ _ _ (by decide)

theorem removeOwnerFromResellers_ext (snap : Snapshot) (owner : Bytes) :
    Extends snap (removeOwnerFromResellers snap owner) :=
  Extends_Set _ _ _ (by decide)

theorem removeOwnerFromRebuyers_ext (snap : Snapshot) (owner : Bytes) :
    Extends snap (removeOwnerFromRebuyers snap owner) :=
  Extends_Set _ _ _ (by decide)

theorem changeCount_ext (key : Nat → Bytes) (snap : Snapshot) (owner : Bytes) (n : Int)
    (hkey : ∀ i, (key i).take 7 ≠ str "event:n" ∧ (key i).take 7 ≠ str "event:u") :
    Extends snap (changeCount key snap owner n).2 := by
  unfold changeCount
  split
  · exact Extends_refl _
  · simp only []
    split
    · exact Extends_Set _ _ _ (hkey _)
    · split
      · exact Extends_refl _
      · exact Extends_Set _ _ _ (hkey _)

theorem changeBuyerNumTickets_ext (snap : Snapshot) (owner : Bytes) (n : Int) :
    Extends snap (changeBuyerNumTickets snap owner n).2 :=
  changeCount_ext _ snap owner n (fun _ => take_indexed _ _ (by decide) (by decide))

theorem changeResellerNumTickets_ext (snap : Snapshot) (owner : Bytes) (n : Int) :
    Extends snap (changeResellerNumTickets snap owner n).2 :=
  changeCount_ext _ snap owner n (fun _ => take_indexed _ _ (by decide) (by decide))

theorem changeRebuyerNumTickets_ext (snap : Snapshot) (owner : Bytes) (n : Int) :
    Extends snap (changeRebuyerNumTickets snap owner n).2 :=
  changeCount_ext _ snap owner n (fun _ => take_indexed _ _ (by decide) (by decide))

theorem storeResellerPrice_ext {F : Type} [LinearOrderedField F] (fl : FloatText F)
    (snap : Snapshot) (reseller : Bytes) (price : F) :
    Extends snap (storeResellerPrice fl snap reseller price).2 := by
  unfold storeResellerPrice
  split
  · exact Extends_refl _
  · simp only []
    split
    · exact Extends_refl _
    · exact Extends_Set _ _ _ (take_indexed _ _ (by decide) (by decide))

theorem storeRebuyerPrice_ext {F : Type} (fl : FloatText F) (snap : Snapshot)
    (rebuyer : Bytes) (price : F) : Extends snap (storeRebuyerPrice fl snap rebuyer price).2 := by
  unfold storeRebuyerPrice
  split
  · exact Extends_refl _
  · exact Extends_Set _ _ _ (take_indexed _ _ (by decide) (by decide))

theorem storeBuyerEventCredential_ext (snap : Snapshot) (owner eventCredential : Bytes) :
    Extends snap (storeBuyerEventCredential snap owner eventCredential).2 := by
  unfold storeBuyerEventCredential
  split
  · exact Extends_refl _
  · exact Extends_Set _ _ _ (take_indexed _ _ (by decide) (by decide))

theorem storeRebuyerEventCredential_ext (snap : Snapshot) (owner eventCredential : Bytes) :
    Extends snap (storeRebuyerEventCredential snap owner eventCredential).2 := by
  unfold storeRebuyerEventCredential
  split
  · exact Extends_refl _
  · exact Extends_Set _ _ _ (take_indexed _ _ (by decide) (by decide))

theorem transferPaymentToEvent_ext {F : Type} [LinearOrderedField F] (fl : FloatText F)
    (snap : Snapshot) (ticketPayment : F) :
    Extends snap (transferPaymentToEvent fl snap ticketPayment).2 := by
  unfold transferPaymentToEvent
  split
  · exact Extends_refl _
  · exact Extends_Set _ _ _ (by decide)

theorem changeUserBalance_ext {F : Type} [LinearOrderedField F] (fl : FloatText F)
    (snap : Snapshot) (pk : Bytes) (amount : F) :
    Extends snap (changeUserBalance fl snap pk amount).2 := by
  unfold changeUserBalance
  split
  · exact Extends_refl _
  · simp only []
    split
    · exact Extends_refl _
    · exact Extends_Set _ _ _ (take_indexed _ _ (by decide) (by decide))

theorem getUserBalance_ext {F : Type} [LinearOrderedField F] (fl : FloatText F)
    (snap : Snapshot) (pk : Bytes) : Extends snap (getUserBalance fl snap pk).2 := by
  unfold getUserBalance
  split
  · exact Extends_refl _
  · simp only []
    split
    · exact Extends_Set _ _ _ (take_indexed _ _ (by decide) (by decide))
    · split
      · exact Extends_refl _
      · exact Extends_refl _

/-- The snapshot of a result, named by an equation. -/
theorem Extends_of_eq {snap s1 : Snapshot} {p : Option String × Snapshot} {r : Option String}
    (e : Extends snap p.2) (h : p = (r, s1)) : Extends snap s1 := by
  subst h
  exact e

theorem transferSalePayment_ext {F : Type} [LinearOrderedField F] (fl : FloatText F)
    (snap : Snapshot) (buyer : Bytes) (ticketPayment : F) :
    Extends snap (transferSalePayment fl snap buyer ticketPayment).2 := by
  unfold transferSalePayment
  split
  · exact Extends_of_eq (transferPaymentToEvent_ext _ _ _) (by assumption)
  · have e1 : Extends snap _ :=
      Extends_of_eq (transferPaymentToEvent_ext _ _ _) (by assumption)
    split
    · exact Extends_trans e1 (Extends_of_eq (changeUserBalance_ext _ _ _ _) (by assumption))
    · exact Extends_trans e1 (Extends_of_eq (changeUserBalance_ext _ _ _ _) (by assumption))

theorem transferResalePayment_ext {F : Type} [LinearOrderedField F] (fl : FloatText F)
    (snap : Snapshot) (rebuyer reseller : Bytes) (ticketPayment : F) :
    Extends snap (transferResalePayment fl snap rebuyer reseller ticketPayment).2 := by
  unfold transferResalePayment
  split
  · exact Extends_refl _
  · simp only []
    split
    · exact Extends_of_eq (transferPaymentToEvent_ext _ _ _) (by assumption)
    · have e1 : Extends snap _ :=
        Extends_of_eq (transferPaymentToEvent_ext _ _ _) (by assumption)
      split
      · exact Extends_trans e1
          (Extends_of_eq (changeUserBalance_ext _ _ _ _) (by assumption))
      · have e2 := Extends_trans e1
          (Extends_of_eq (changeUserBalance_ext _ _ _ _) (by assumption))
        split
        · exact Extends_trans e2
            (Extends_of_eq (changeUserBalance_ext _ _ _ _) (by assumption))
        · exact Extends_trans e2
            (Extends_of_eq (changeUserBalance_ext _ _ _ _) (by assumption))

theorem useTicket_ext (snap : Snapshot) (step : Step) :
    Extends snap (useTicket snap step).2 := by
  unfold useTicket
  simp only []
  have e0 := incTxcount_ext snap
  generalize (incTxcount snap).2 = s0 at e0 ⊢
  split
  · exact e0
  · split
    · exact e0
    · split
      · exact e0
      · split
        · exact e0
        · split
          · exact Extends_trans e0
              (Extends_of_eq (changeBuyerNumTickets_ext _ _ _) (by assumption))
          · have e1 := Extends_trans e0
              (Extends_of_eq (changeBuyerNumTickets_ext _ _ _) (by assumption))
            split
            · exact e1
            · simp only []
              split
              · exact Extends_trans e1 (removeOwnerFromOwners_ext _ _)
              · exact e1

theorem resell_ext {F : Type} [LinearOrderedField F] (fl : FloatText F) (snap : Snapshot)
    (step : Step) : Extends snap (resell fl snap step).2 := by
  unfold resell
  simp only []
  have e0 := incTxcount_ext snap
  generalize (incTxcount snap).2 = s0 at e0 ⊢
  split
  · exact e0
  · split
    · exact e0
    · split
      · exact e0
      · split
        · exact e0
        · split
          · exact e0
          · split
            · exact e0
            · split
              · exact e0
              · have e1 := Extends_trans e0 (storeTicketReseller_ext s0 (step.GetArg ResellPKArg))
                split
                · exact Extends_trans e1
                    (Extends_of_eq (changeResellerNumTickets_ext _ _ _) (by assumption))
                · have e2 := Extends_trans e1
                    (Extends_of_eq (changeResellerNumTickets_ext _ _ _) (by assumption))
                  split
                  · exact Extends_trans e2
                      (Extends_of_eq (storeResellerPrice_ext _ _ _ _) (by assumption))
                  · exact Extends_trans e2
                      (Extends_of_eq (storeResellerPrice_ext _ _ _ _) (by assumption))

theorem rebuy_ext {F : Type} [LinearOrderedField F] (fl : FloatText F) (snap : Snapshot)
    (step : Step) : Extends snap (rebuy fl snap step).2 := by
  unfold rebuy
  simp only []
  have e0 := incTxcount_ext snap
  generalize (incTxcount snap).2 = s0 at e0 ⊢
  split
  · exact e0
  · split
    · exact e0
    · have e1 := Extends_trans e0 (storeTicketUser_ext s0 (step.GetArg RebuyPKArg))
      generalize storeTicketUser s0 (step.GetArg RebuyPKArg) = s1 at e1 ⊢
      split
      · exact e1
      · split
        · exact e1
        · split
          · exact e1
          · split
            · exact e1
            · have e2 := Extends_trans e1 (storeTicketRebuyer_ext s1 (step.GetArg RebuyPKArg))
              split
              · exact Extends_trans e2
                  (Extends_of_eq (changeRebuyerNumTickets_ext _ _ _) (by assumption))
              · have e3 := Extends_trans e2
                  (Extends_of_eq (changeRebuyerNumTickets_ext _ _ _) (by assumption))
                split
                · exact Extends_trans e3
                    (Extends_of_eq (storeRebuyerPrice_ext _ _ _ _) (by assumption))
                · have e4 := Extends_trans e3
                    (Extends_of_eq (storeRebuyerPrice_ext _ _ _ _) (by assumption))
                  split
                  · exact Extends_trans e4
                      (Extends_of_eq (storeRebuyerEventCredential_ext _ _ _) (by assumption))
                  · exact Extends_trans e4
                      (Extends_of_eq (storeRebuyerEventCredential_ext _ _ _) (by assumption))

/-- The writes of `handleResales` when the reseller offers more than the rebuyer asks. -/
theorem handleResales_more_ext {F : Type} [LinearOrderedField F] (fl : FloatText F)
    (snap : Snapshot) (rb rs cred : Bytes) (n m : Int) (amount : F) :
    Extends snap (removeOwnerFromRebuyers (changeResellerNumTickets (changeBuyerNumTickets
      (storeBuyerEventCredential (changeBuyerNumTickets (storeTicketOwner
        (transferResalePayment fl snap rb rs amount).2 rb) rb n).2 rb cred).2 rs m).2
      rs m).2 rb) := by
  refine Extends_trans ?_ (removeOwnerFromRebuyers_ext _ _)
  refine Extends_trans ?_ (changeResellerNumTickets_ext _ _ _)
  refine Extends_trans ?_ (changeBuyerNumTickets_ext _ _ _)
  refine Extends_trans ?_ (storeBuyerEventCredential_ext _ _ _)
  refine Extends_trans ?_ (changeBuyerNumTickets_ext _ _ _)
  refine Extends_trans ?_ (storeTicketOwner_ext _ _)
  exact transferResalePayment_ext _ _ _ _ _

/-- The writes of `handleResales` when the reseller offers at most what the rebuyer asks. -/
theorem handleResales_most_ext {F : Type} [LinearOrderedField F] (fl : FloatText F)
    (snap : Snapshot) (rb rs cred : Bytes) (n m : Int) (amount : F) :
    Extends snap (changeResellerNumTickets (changeBuyerNumTickets
      (storeBuyerEventCredential (changeBuyerNumTickets (storeTicketOwner
        (removeOwnerFromResellers (removeOwnerFromOwners
          (transferResalePayment fl snap rb rs amount).2 rs) rs) rb) rb n).2 rb cred).2
      rs m).2 rs m).2 := by
  refine Extends_trans ?_ (changeResellerNumTickets_ext _ _ _)
  refine Extends_trans ?_ (changeBuyerNumTickets_ext _ _ _)
  refine Extends_trans ?_ (storeBuyerEventCredential_ext _ _ _)
  refine Extends_trans ?_ (changeBuyerNumTickets_ext _ _ _)
  refine Extends_trans ?_ (storeTicketOwner_ext _ _)
  refine Extends_trans ?_ (removeOwnerFromResellers_ext _ _)
  refine Extends_trans ?_ (removeOwnerFromOwners_ext _ _)
  exact transferResalePayment_ext _ _ _ _ _

theorem handleResalesResellers_ext {F : Type} [LinearOrderedField F] (fl : FloatText F)
    (thisRebuyer : Bytes) (thisRebuyerNumTickets : Int) (thisRebuyerPrice : F)
    (credential : Bytes) : ∀ (resellers : List Bytes) (snap : Snapshot) (bought : Int),
    Extends snap (handleResalesResellers fl thisRebuyer thisRebuyerNumTickets thisRebuyerPrice
      credential snap bought resellers) := by
  intro resellers
  induction resellers with
  | nil => intro snap bought; exact Extends_refl _
  | cons thisReseller resellers ih =>
    intro snap bought
    unfold handleResalesResellers
    simp only []
    split
    · exact ih _ _
    · by_cases hc : thisRebuyerNumTickets < (getResellerNumTickets snap thisReseller).1
      · simp only [hc, if_true]
        split
        · exact handleResales_more_ext fl snap _ _ _ _ _ _
        · exact Extends_trans (handleResales_more_ext fl snap _ _ _ _ _ _) (ih _ _)
      · simp only [hc, if_false]
        by_cases he : thisRebuyerNumTickets = (getResellerNumTickets snap thisReseller).1
        · rw [if_pos he]
          split
          · exact Extends_trans (handleResales_most_ext fl snap _ _ _ _ _ _)
              (removeOwnerFromRebuyers_ext _ _)
          · exact Extends_trans (Extends_trans (handleResales_most_ext fl snap _ _ _ _ _ _)
              (removeOwnerFromRebuyers_ext _ _)) (ih _ _)
        · rw [if_neg he]
          split
          · exact handleResales_most_ext fl snap _ _ _ _ _ _
          · exact Extends_trans (handleResales_most_ext fl snap _ _ _ _ _ _) (ih _ _)

theorem handleResalesRebuyers_ext {F : Type} [LinearOrderedField F] (fl : FloatText F) :
    ∀ (rebuyers : List (Bytes × Int × F × Bytes)) (snap : Snapshot),
      Extends snap (handleResalesRebuyers fl snap rebuyers) := by
  intro rebuyers
  induction rebuyers with
  | nil => intro snap; exact Extends_refl _
  | cons rebuyer rebuyers ih =>
    intro snap
    obtain ⟨a, b, c, d⟩ := rebuyer
    unfold handleResalesRebuyers
    simp only []
    exact Extends_trans (handleResalesResellers_ext fl _ _ _ _ _ _ _) (ih _)

theorem handleResales_ext {F : Type} [LinearOrderedField F] (fl : FloatText F)
    (snap : Snapshot) (step : Step) : Extends snap (handleResales fl snap step).2 := by
  unfold handleResales
  simp only []
  have e0 := incTxcount_ext snap
  generalize (incTxcount snap).2 = s0 at e0 ⊢
  split
  · exact e0
  · split
    · exact e0
    · split
      · exact e0
      · exact Extends_trans e0 (handleResalesRebuyers_ext fl _ _)

theorem getUserBalance_foldl_ext {F : Type} [LinearOrderedField F] (fl : FloatText F) :
    ∀ (users : List Bytes) (snap : Snapshot),
      Extends snap (users.foldl (fun snap thisUser => (getUserBalance fl snap thisUser).2)
        snap) := by
  intro users
  induction users with
  | nil => intro snap; exact Extends_refl _
  | cons user users ih =>
    intro snap
    simp only [List.foldl_cons]
    exact Extends_trans (getUserBalance_ext fl snap user) (ih _)

theorem readEventContract_ext {F : Type} [LinearOrderedField F] (fl : FloatText F)
    (snap : Snapshot) (step : Step) : Extends snap (readEventContract fl snap step).2 := by
  unfold readEventContract
  simp only []
  have e0 := incTxcount_ext snap
  generalize (incTxcount snap).2 = s0 at e0 ⊢
  split
  · exact e0
  · split
    · exact e0
    · split
      · exact e0
      · split
        · exact e0
        · split
          · exact e0
          · split
            · exact e0
            · exact Extends_trans e0 (getUserBalance_foldl_ext fl _ _)

/-- The command `init` either fails and has written `event:txcount` only, or succeeds with a
number of tickets that is an `int` above 0, stores it as the number left and leaves the users
list. -/
theorem init_result {F : Type} [LinearOrderedField F] (fl : FloatText F) (snap : Snapshot)
    (step : Step) :
    ((init fl snap step).1 ≠ none ∧ (init fl snap step).2 = snap.Set TXCountKey (str "1")) ∨
    ((init fl snap step).1 = none ∧
      (∃ n, Atoi (step.GetArg InitNumTicketsArg) = some n ∧ 0 < n) ∧
      (init fl snap step).2.Get NumTicketsLeftKey = step.GetArg InitNumTicketsArg ∧
      (init fl snap step).2.Get UserIndexKey = snap.Get UserIndexKey) := by
  unfold init
  simp only []
  repeat' split
  all_goals first
    | (left; exact ⟨by simp, rfl⟩)
    | skip
  right
  refine ⟨rfl, ?_, ?_, ?_⟩
  · have hn : ∃ x, isValidNumTickets (step.GetArg InitNumTicketsArg) = Except.ok x :=
      ⟨_, by assumption⟩
    obtain ⟨x, hn⟩ := hn
    cases hA : Atoi (step.GetArg InitNumTicketsArg) with
    | none => simp [isValidNumTickets, byteToInt, hA] at hn
    | some n =>
      refine ⟨n, rfl, ?_⟩
      by_contra hle
      simp [isValidNumTickets, byteToInt, hA, not_lt.mp hle] at hn
  · simp only []
    repeat rw [Snapshot.Get_Set_of_ne _ _ _ _ (by decide)]
    exact Snapshot.Get_Set_self _ _ _
  · simp only []
    repeat rw [Snapshot.Get_Set_of_ne _ _ _ _ (by decide)]

theorem byteToInt_ok (b : Bytes) (n : Int) (h : byteToInt b = Except.ok n) :
    Atoi b = some n := by
  unfold byteToInt at h
  split at h
  · cases h
  · rename_i m hm
    cases h
    exact hm

/-- When `isTicketsLeft` answers yes, the number of tickets left is an `int` and the
difference that the function computes is not negative. -/
theorem isTicketsLeft_true (snap : Snapshot) (n : Int)
    (h : isTicketsLeft snap n = Except.ok true) :
    ∃ L, Atoi (snap.Get NumTicketsLeftKey) = some L ∧ 0 ≤ wrapInt (L - n) := by
  unfold isTicketsLeft at h
  split at h
  · cases h
  · rename_i L hL
    simp only [Except.ok.injEq, decide_eq_true_eq] at h
    exact ⟨L, byteToInt_ok _ _ hL, h⟩

/-- The function `changeNumTicketsLeft` either fails and leaves the snapshot, or adds `diff`
to the number of tickets left. -/
theorem changeNumTicketsLeft_result (snap : Snapshot) (diff : Int) (r : Option String)
    (s1 : Snapshot) (h : changeNumTicketsLeft snap diff = (r, s1)) :
    (r ≠ none ∧ s1 = snap) ∨
    (r = none ∧ ∃ L, Atoi (snap.Get NumTicketsLeftKey) = some L ∧
      s1 = snap.Set NumTicketsLeftKey (Itoa (wrapInt (L + diff)))) := by
  unfold changeNumTicketsLeft at h
  split at h
  · simp only [Prod.mk.injEq] at h
    left
    exact ⟨by rw [← h.1]; simp, h.2.symm⟩
  · rename_i L hL
    simp only [Prod.mk.injEq] at h
    right
    exact ⟨h.1.symm, L, byteToInt_ok _ _ hL, h.2.symm⟩

/-- The command `buy` either fails, having written neither the number of tickets left nor
the users list except at its end, or succeeds: then the number `n` of tickets bought and the
number `L` of tickets left are `int`s, the difference that `isTicketsLeft` computes is not
negative, and the number left is written last. -/
theorem buy_result {F : Type} [LinearOrderedField F] (fl : FloatText F) (snap : Snapshot)
    (step : Step) :
    ((buy fl snap step).1 ≠ none ∧ Extends snap (buy fl snap step).2) ∨
    ((buy fl snap step).1 = none ∧ ∃ (s : Snapshot) (n L : Int), Extends snap s ∧
      Atoi (step.GetArg BuyNumTicketsArg) = some n ∧
      Atoi (snap.Get NumTicketsLeftKey) = some L ∧ 0 ≤ wrapInt (L - n) ∧
      (buy fl snap step).2
        = s.Set NumTicketsLeftKey (Itoa (wrapInt (L + wrapInt (-1 * n))))) := by
  unfold buy
  simp only []
  have e0 := incTxcount_ext snap
  generalize (incTxcount snap).2 = s0 at e0 ⊢
  split
  · left; exact ⟨by simp, e0⟩
  split
  · left; exact ⟨by simp, e0⟩
  split
  · left; exact ⟨by simp, e0⟩
  split
  · left; exact ⟨by simp, e0⟩
  split
  · left; exact ⟨by simp, e0⟩
  split
  · left; exact ⟨by simp, e0⟩
  rename_i n hn
  split
  · left; exact ⟨by simp, e0⟩
  split
  · left; exact ⟨by simp, e0⟩
  split
  · left; exact ⟨by simp, e0⟩
  rename_i b hb
  split
  · left; exact ⟨by simp, e0⟩
  rename_i hbt
  have hb1 : b = true := by
    cases b
    · simp at hbt
    · rfl
  subst hb1
  obtain ⟨L, hL, hLn⟩ := isTicketsLeft_true s0 n hb
  rw [e0.1 _ (by decide)] at hL
  have e1 := Extends_trans e0 (storeTicketUser_ext s0 (step.GetArg BuyPKArg))
  generalize storeTicketUser s0 (step.GetArg BuyPKArg) = s1 at e1 ⊢
  split
  · left
    exact ⟨by simp, Extends_trans e1
      (Extends_of_eq (transferSalePayment_ext _ _ _ _) (by assumption))⟩
  have e2 := Extends_trans (Extends_trans e1
    (Extends_of_eq (transferSalePayment_ext _ _ _ _) (by assumption)))
    (storeTicketOwner_ext _ (step.GetArg BuyPKArg))
  split
  · left
    exact ⟨by simp, Extends_trans e2
      (Extends_of_eq (changeBuyerNumTickets_ext _ _ _) (by assumption))⟩
  have e3 := Extends_trans e2
    (Extends_of_eq (changeBuyerNumTickets_ext _ _ _) (by assumption))
  split
  · left
    exact ⟨by simp, Extends_trans e3
      (Extends_of_eq (storeBuyerEventCredential_ext _ _ _) (by assumption))⟩
  have e4 := Extends_trans e3
    (Extends_of_eq (storeBuyerEventCredential_ext _ _ _) (by assumption))
  split
  · rename_i err s7 h7
    rcases changeNumTicketsLeft_result _ _ _ _ h7 with ⟨_, h8⟩ | ⟨h8, _⟩
    · left
      subst h8
      exact ⟨by simp, e4⟩
    · cases h8
  · rename_i s7 h7
    rcases changeNumTicketsLeft_result _ _ _ _ h7 with ⟨h8, _⟩ | ⟨_, L1, hL1, h8⟩
    · exact absurd rfl h8
    · right
      rw [e4.1 _ (by decide), hL, Option.some.injEq] at hL1
      subst hL1
      exact ⟨rfl, _, n, L, e4, byteToInt_ok _ _ hn, hL, hLn, h8⟩

end Event

theorem split_ne_nil (sep : Fin 256) : ∀ s : Bytes, split sep s ≠ [] := by
  intro s
  induction s with
  | nil => simp [split]
  | cons c cs ih =>
    unfold split
    split
    · simp
    · split <;> simp

/-- The pieces of a text but the last are pieces of every text that it starts. -/
theorem split_append_dropLast (sep : Fin 256) : ∀ (a e : Bytes),
    ∃ t, t ≠ [] ∧ split sep (a ++ e) = (split sep a).dropLast ++ t := by
  intro a
  induction a with
  | nil => intro e; exact ⟨split sep e, split_ne_nil sep e, by simp [split]⟩
  | cons c cs ih =>
    intro e
    obtain ⟨t, ht, h⟩ := ih e
    by_cases hc : c = sep
    · refine ⟨t, ht, ?_⟩
      subst hc
      show split c (c :: (cs ++ e)) = (split c (c :: cs)).dropLast ++ t
      simp only [split, if_true, h]
      rw [List.dropLast_cons_of_ne_nil (split_ne_nil c cs)]
      rfl
    · cases hs : split sep cs with
      | nil => exact absurd hs (split_ne_nil sep cs)
      | cons p ps =>
        rw [hs] at h
        cases ps with
        | nil =>
          simp only [List.dropLast_single, List.nil_append] at h
          cases t with
          | nil => exact absurd rfl ht
          | cons q qs =>
            refine ⟨(c :: q) :: qs, by simp, ?_⟩
            show split sep (c :: (cs ++ e)) = (split sep (c :: cs)).dropLast ++ _
            simp only [split, if_neg hc, h, hs, List.dropLast_single, List.nil_append]
        | cons p2 ps =>
          refine ⟨t, ht, ?_⟩
          simp only [List.dropLast_cons₂, List.cons_append] at h
          show split sep (c :: (cs ++ e)) = (split sep (c :: cs)).dropLast ++ t
          simp only [split, if_neg hc, h, hs, List.dropLast_cons₂, List.cons_append]

/-- The list that a list getter reads grows at its end when the stored text does. -/
theorem splitList_prefix (a b : Bytes) (h : a <+: b) : splitList a <+: splitList b := by
  obtain ⟨e, rfl⟩ := h
  obtain ⟨t, ht, h1⟩ := split_append_dropLast 59 a e
  unfold splitList
  rw [h1, List.dropLast_append_of_ne_nil _ ht]
  exact List.prefix_append _ _

/-- The first position of a member of a list is its first position in a longer list. -/
theorem indexOf_prefix {α : Type} [BEq α] [LawfulBEq α] (l1 l2 : List α) (x : α)
    (h : l1 <+: l2) (hx : x ∈ l1) : l2.indexOf x = l1.indexOf x := by
  obtain ⟨e, rfl⟩ := h
  induction l1 with
  | nil => cases hx
  | cons b l ih =>
    simp only [List.cons_append, List.indexOf_cons]
    cases hb : b == x with
    | true => rfl
    | false =>
      have hne : x ≠ b := by
        intro hxb
        rw [hxb, beq_self_eq_true] at hb
        cases hb
      have hl : x ∈ l := by
        rcases List.mem_cons.mp hx with h1 | h1
        · exact absurd h1 hne
        · exact h1
      simp only [cond_false, ih hl]

/-- The sum that `changeNumTicketsLeft` stores after a `BUY` is the difference that
`isTicketsLeft` computed. -/
theorem wrapInt_add_neg (L n : Int) : wrapInt (L + wrapInt (-1 * n)) = wrapInt (L - n) := by
  unfold wrapInt
  omega

namespace Event

/-- An index that `getUserIndex` found is found again when the users list has grown at its
end. -/
theorem getUserIndex_prefix (snap snap1 : Snapshot) (u : Bytes) (i : Nat)
    (h : snap.Get UserIndexKey <+: snap1.Get UserIndexKey)
    (hi : getUserIndex snap u = Except.ok i) : getUserIndex snap1 u = Except.ok i := by
  have hp := splitList_prefix _ _ h
  unfold getUserIndex getUsersList at hi ⊢
  simp only [] at hi ⊢
  split at hi
  · rename_i hmem
    simp only [Except.ok.injEq] at hi
    rw [if_pos (hp.subset hmem), indexOf_prefix _ _ _ hp hmem, hi]
  · cases hi

/-- What holds of the snapshot that `Execute` leaves when it holds of the snapshot that each
command leaves and of the snapshot before. -/
theorem Execute_cases {F : Type} [LinearOrderedField F] (fl : FloatText F)
    (authorized : Snapshot → Step → Option String) (snap : Snapshot) (step : Step)
    (P : Snapshot → Prop) (h0 : P snap) (h1 : P (init fl snap step).2)
    (h2 : P (buy fl snap step).2) (h3 : P (resell fl snap step).2)
    (h4 : P (rebuy fl snap step).2) (h5 : P (handleResales fl snap step).2)
    (h6 : P (useTicket snap step).2) (h7 : P (readEventContract fl snap step).2) :
    P (Execute fl authorized snap step).2 := by
  unfold Execute
  split
  · exact h0
  · simp only []
    split
    · exact h0
    · split
      · rcases hc : init fl snap step with ⟨_ | e, s⟩ <;> rw [hc] at h1 <;> exact h1
      · split
        · rcases hc : buy fl snap step with ⟨_ | e, s⟩ <;> rw [hc] at h2 <;> exact h2
        · split
          · rcases hc : resell fl snap step with ⟨_ | e, s⟩ <;> rw [hc] at h3 <;> exact h3
          · split
            · rcases hc : rebuy fl snap step with ⟨_ | e, s⟩ <;> rw [hc] at h4 <;> exact h4
            · split
              · rcases hc : handleResales fl snap step with ⟨_ | e, s⟩ <;> rw [hc] at h5 <;>
                  exact h5
              · split
                · rcases hc : useTicket snap step with ⟨_ | e, s⟩ <;> rw [hc] at h6 <;>
                    exact h6
                · split
                  · rcases hc : readEventContract fl snap step with ⟨_ | e, s⟩ <;>
                      rw [hc] at h7 <;> exact h7
                  · exact h0

theorem init_users {F : Type} [LinearOrderedField F] (fl : FloatText F) (snap : Snapshot)
    (step : Step) : (init fl snap step).2.Get UserIndexKey = snap.Get UserIndexKey := by
  rcases init_result fl snap step with ⟨_, h⟩ | ⟨_, _, _, h⟩
  · rw [h]
    exact Snapshot.Get_Set_of_ne _ _ _ _ (by decide)
  · exact h

theorem buy_users {F : Type} [LinearOrderedField F] (fl : FloatText F) (snap : Snapshot)
    (step : Step) : snap.Get UserIndexKey <+: (buy fl snap step).2.Get UserIndexKey := by
  rcases buy_result fl snap step with ⟨_, h⟩ | ⟨_, s, n, L, e, _, _, _, h⟩
  · exact h.2
  · rw [h, Snapshot.Get_Set_of_ne _ _ _ _ (by decide)]
    exact e.2

/-- One transaction leaves the value of `event:users` as a prefix of the new value. -/
theorem Execute_users {F : Type} [LinearOrderedField F] (fl : FloatText F)
    (authorized : Snapshot → Step → Option String) (snap : Snapshot) (step : Step) :
    snap.Get UserIndexKey <+: (Execute fl authorized snap step).2.Get UserIndexKey :=
  Execute_cases fl authorized snap step
    (fun s => snap.Get UserIndexKey <+: s.Get UserIndexKey) (List.prefix_refl _)
    (by show snap.Get UserIndexKey <+: (init fl snap step).2.Get UserIndexKey; rw [init_users])
    (buy_users fl snap step) (resell_ext fl snap step).2
    (rebuy_ext fl snap step).2 (handleResales_ext fl snap step).2 (useTicket_ext snap step).2
    (readEventContract_ext fl snap step).2

theorem runSteps_users {F : Type} [LinearOrderedField F] (fl : FloatText F)
    (authorized : Snapshot → Step → Option String) : ∀ (steps : List Step) (snap : Snapshot),
    snap.Get UserIndexKey <+: (runSteps fl authorized snap steps).Get UserIndexKey := by
  intro steps
  induction steps with
  | nil => intro snap; exact List.prefix_refl _
  | cons step steps ih =>
    intro snap
    exact (Execute_users fl authorized snap step).trans (ih _)

/-- C39: a transaction of the event contract leaves the value of `event:users` as a prefix of
the new value, whichever the command and its result; so the users list has grown at its end,
an index that `getUserIndex` gave to a user is the index it gives afterwards, and the keys
with that index are the keys of the same user; the same holds of every sequence of
transactions. -/
theorem users_list_append_only {F : Type} [LinearOrderedField F] (fl : FloatText F)
    (authorized : Snapshot → Step → Option String) (snap : Snapshot) :
    (∀ step : Step,
      snap.Get UserIndexKey <+: (Execute fl authorized snap step).2.Get UserIndexKey ∧
      getUsersList snap <+: getUsersList (Execute fl authorized snap step).2 ∧
      ∀ (u : Bytes) (i : Nat), getUserIndex snap u = Except.ok i →
        getUserIndex (Execute fl authorized snap step).2 u = Except.ok i ∧
        getBuyerNumTickets (Execute fl authorized snap step).2 u
          = getCount (fun _ => buyerTicketsKey i) (Execute fl authorized snap step).2 u) ∧
    (∀ steps : List Step,
      snap.Get UserIndexKey <+: (runSteps fl authorized snap steps).Get UserIndexKey ∧
      ∀ (u : Bytes) (i : Nat), getUserIndex snap u = Except.ok i →
        getUserIndex (runSteps fl authorized snap steps) u = Except.ok i) := by
  constructor
  · intro step
    have h := Execute_users fl authorized snap step
    refine ⟨h, splitList_prefix _ _ h, fun u i hi => ?_⟩
    have h1 := getUserIndex_prefix _ _ u i h hi
    exact ⟨h1, by simp only [getBuyerNumTickets, getCount, h1]⟩
  · intro steps
    have h := runSteps_users fl authorized steps snap
    exact ⟨h, fun u i hi => getUserIndex_prefix _ _ u i h hi⟩

/-- A successful `BUY` from a number of tickets left that is not negative: the number bought
is at most the number left, and the number left afterwards is the difference. -/
theorem buy_tickets_left {F : Type} [LinearOrderedField F] (fl : FloatText F)
    (snap : Snapshot) (step : Step) (L : Int)
    (hL : Atoi (snap.Get NumTicketsLeftKey) = some L) (h0 : 0 ≤ L)
    (hres : (buy fl snap step).1 = none) :
    ∃ n, Atoi (step.GetArg BuyNumTicketsArg) = some n ∧ n ≤ L ∧
      Atoi ((buy fl snap step).2.Get NumTicketsLeftKey) = some (L - n) := by
  rcases buy_result fl snap step with ⟨h1, _⟩ | ⟨_, s, n, L1, _, hn, hL1, hpos, h⟩
  · exact absurd hres h1
  · rw [hL, Option.some.injEq] at hL1
    subst hL1
    have hLr := Atoi_range _ _ hL
    have hnr := Atoi_range _ _ hn
    have hfacts : n ≤ L ∧ L - n < 2 ^ 63 := by
      unfold wrapInt at hpos
      omega
    have hw : wrapInt (L + wrapInt (-1 * n)) = L - n := by
      rw [wrapInt_add_neg]
      exact wrapInt_of_range _ (by omega) hfacts.2
    refine ⟨n, hn, hfacts.1, ?_⟩
    rw [h, Snapshot.Get_Set_self, hw]
    exact Atoi_Itoa _ (by omega) hfacts.2

/-- A transaction keeps the number of tickets left an `int` that is not negative. -/
theorem Execute_tickets_left {F : Type} [LinearOrderedField F] (fl : FloatText F)
    (authorized : Snapshot → Step → Option String) (snap : Snapshot) (step : Step)
    (h : ∃ L, Atoi (snap.Get NumTicketsLeftKey) = some L ∧ 0 ≤ L) :
    ∃ L, Atoi ((Execute fl authorized snap step).2.Get NumTicketsLeftKey) = some L ∧ 0 ≤ L := by
  have hkeep : ∀ s : Snapshot, Extends snap s →
      ∃ L, Atoi (s.Get NumTicketsLeftKey) = some L ∧ 0 ≤ L := by
    intro s e
    rw [e.1 _ (by decide)]
    exact h
  refine Execute_cases fl authorized snap step
    (fun s => ∃ L, Atoi (s.Get NumTicketsLeftKey) = some L ∧ 0 ≤ L) h ?_ ?_
    (hkeep _ (resell_ext fl snap step)) (hkeep _ (rebuy_ext fl snap step))
    (hkeep _ (handleResales_ext fl snap step)) (hkeep _ (useTicket_ext snap step))
    (hkeep _ (readEventContract_ext fl snap step))
  · show ∃ L, Atoi ((init fl snap step).2.Get NumTicketsLeftKey) = some L ∧ 0 ≤ L
    rcases init_result fl snap step with ⟨_, h1⟩ | ⟨_, ⟨n, hn, hpos⟩, h1, _⟩
    · rw [h1, Snapshot.Get_Set_of_ne _ _ _ _ (by decide)]
      exact h
    · rw [h1]
      exact ⟨n, hn, le_of_lt hpos⟩
  · show ∃ L, Atoi ((buy fl snap step).2.Get NumTicketsLeftKey) = some L ∧ 0 ≤ L
    rcases buy_result fl snap step with ⟨_, h1⟩ | ⟨h1, _⟩
    · exact hkeep _ h1
    · obtain ⟨L, hL, h0⟩ := h
      obtain ⟨n, _, hle, h2⟩ := buy_tickets_left fl snap step L hL h0 h1
      exact ⟨L - n, h2, by omega⟩

theorem runSteps_tickets_left {F : Type} [LinearOrderedField F] (fl : FloatText F)
    (authorized : Snapshot → Step → Option String) : ∀ (steps : List Step) (snap : Snapshot),
    (∃ L, Atoi (snap.Get NumTicketsLeftKey) = some L ∧ 0 ≤ L) →
    ∃ L, Atoi ((runSteps fl authorized snap steps).Get NumTicketsLeftKey) = some L ∧ 0 ≤ L := by
  intro steps
  induction steps with
  | nil => intro snap h; exact h
  | cons step steps ih =>
    intro snap h
    exact ih _ (Execute_tickets_left fl authorized snap step h)

/-- C38: after an `INIT` of the event contract that succeeds, whatever transactions follow,
`event:num_tickets_left` is an `int` that is not negative. `INIT` stores a count above 0; a
`BUY` that succeeds from `L` tickets left buys `n ≤ L` tickets and leaves `L - n`, a `BUY`
that fails leaves the key; and no other command writes it. -/
theorem num_tickets_left_nonneg {F : Type} [LinearOrderedField F] (fl : FloatText F)
    (authorized : Snapshot → Step → Option String) (snap0 : Snapshot) (step0 : Step)
    (steps : List Step) (hinit : (init fl snap0 step0).1 = none) :
    (∃ L, Atoi ((runSteps fl authorized (init fl snap0 step0).2 steps).Get NumTicketsLeftKey)
      = some L ∧ 0 ≤ L) ∧
    (∃ n, Atoi ((init fl snap0 step0).2.Get NumTicketsLeftKey) = some n ∧ 0 < n) ∧
    (∀ (snap : Snapshot) (step : Step) (L : Int),
      Atoi (snap.Get NumTicketsLeftKey) = some L → 0 ≤ L → (buy fl snap step).1 = none →
      ∃ n, Atoi (step.GetArg BuyNumTicketsArg) = some n ∧ n ≤ L ∧
        Atoi ((buy fl snap step).2.Get NumTicketsLeftKey) = some (L - n)) ∧
    (∀ (snap : Snapshot) (step : Step), (buy fl snap step).1 ≠ none →
      (buy fl snap step).2.Get NumTicketsLeftKey = snap.Get NumTicketsLeftKey) ∧
    (∀ (snap : Snapshot) (step : Step),
      (resell fl snap step).2.Get NumTicketsLeftKey = snap.Get NumTicketsLeftKey ∧
      (rebuy fl snap step).2.Get NumTicketsLeftKey = snap.Get NumTicketsLeftKey ∧
      (handleResales fl snap step).2.Get NumTicketsLeftKey = snap.Get NumTicketsLeftKey ∧
      (useTicket snap step).2.Get NumTicketsLeftKey = snap.Get NumTicketsLeftKey ∧
      (readEventContract fl snap step).2.Get NumTicketsLeftKey
        = snap.Get NumTicketsLeftKey) := by
  have hpos : ∃ n, Atoi ((init fl snap0 step0).2.Get NumTicketsLeftKey) = some n ∧ 0 < n := by
    rcases init_result fl snap0 step0 with ⟨h1, _⟩ | ⟨_, ⟨n, hn, hpos⟩, h1, _⟩
    · exact absurd hinit h1
    · rw [h1]
      exact ⟨n, hn, hpos⟩
  refine ⟨?_, hpos, buy_tickets_left fl, ?_, ?_⟩
  · obtain ⟨n, hn, h0⟩ := hpos
    exact runSteps_tickets_left fl authorized steps _ ⟨n, hn, le_of_lt h0⟩
  · intro snap step hres
    rcases buy_result fl snap step with ⟨_, h1⟩ | ⟨h1, _⟩
    · exact h1.1 _ (by decide)
    · exact absurd h1 hres
  · intro snap step
    exact ⟨(resell_ext fl snap step).1 _ (by decide), (rebuy_ext fl snap step).1 _ (by decide),
      (handleResales_ext fl snap step).1 _ (by decide),
      (useTicket_ext snap step).1 _ (by decide),
      (readEventContract_ext fl snap step).1 _ (by decide)⟩

/-- Witness of C38: in the event of the examples, with 100 tickets, `alice` buys 3 tickets,
`bob` asks for 98 and is refused, and 97 tickets are left. -/
theorem num_tickets_left_nonneg_witness :
    (init exFloat exEmpty exEventInit).1 = none ∧
      (∃ L, Atoi ((runSteps exFloat (fun _ _ => none) (init exFloat exEmpty exEventInit).2
        [exCommand "BUY" (exBuy "alice" "3" "10"),
          exCommand "BUY" (exBuy "bob" "98" "10")]).Get NumTicketsLeftKey) = some L ∧ 0 ≤ L) ∧
      (runSteps exFloat (fun _ _ => none) (init exFloat exEmpty exEventInit).2
        [exCommand "BUY" (exBuy "alice" "3" "10"),
          exCommand "BUY" (exBuy "bob" "98" "10")]).Get NumTicketsLeftKey = str "97" :=
  ⟨by decide!,
    (num_tickets_left_nonneg exFloat (fun _ _ => none) exEmpty exEventInit
      [exCommand "BUY" (exBuy "alice" "3" "10"), exCommand "BUY" (exBuy "bob" "98" "10")]
      (by decide!)).1,
    by decide!⟩

/-- Witness of C39: in the event of the examples after the purchase of `alice`, a `BUY` of
`bob` leaves `alice` at the index 0 and puts `bob` behind her. -/
theorem users_list_append_only_witness :
    (getUserIndex exEvent1 (str "alice")).toOption = some 0 ∧
      (getUserIndex (Execute exFloat (fun _ _ => none) exEvent1
        (exCommand "BUY" (exBuy "bob" "4" "10"))).2 (str "alice")).toOption = some 0 ∧
      (Execute exFloat (fun _ _ => none) exEvent1
        (exCommand "BUY" (exBuy "bob" "4" "10"))).2.Get UserIndexKey = str "alice;bob;" := by
  have h := ((users_list_append_only exFloat (fun _ _ => none) exEvent1).1
    (exCommand "BUY" (exBuy "bob" "4" "10"))).2.2 (str "alice") 0
    (Except.eq_ok_of_toOption _ _ (by decide!))
  refine ⟨by decide!, ?_, by decide!⟩
  rw [h.1]
  rfl

end Event

end Contracts
